import Mathlib

/-!
Coup game engine: shallow embedding of `GameEngine.js` and of the transport's
engine calls in `SocketManager.js`.

The JavaScript objects are mutated in place; here every function takes the room
and returns the room it leaves behind.  A JavaScript exception is an explicit
outcome `Outcome.thrown`, returned together with the room as mutated up to the
throw.  The clock (`Date.now()`), the random draws (`Math.random()`) and the
depth of the call stack are arguments.
-/

namespace Coup

/-! ## Data model -/

/-- The five card identities of `initializeDeck`. -/
inductive Role where
  | duke
  | assassin
  | captain
  | ambassador
  | contessa
  deriving DecidableEq, Repr

/-- A slot of a JavaScript card array: `none` is the value `undefined`, which
`deck.pop()` yields on an empty deck. -/
abbrev Card := Option Role

abbrev PlayerId := String

/-- The constants of `Phase`. -/
inductive PhaseType where
  | TURN_START
  | ACTION_DECLARED
  | CHALLENGE_WINDOW
  | COUNTER_WINDOW
  | DISCARD
  | RESOLVE
  | GAME_OVER
  deriving DecidableEq, Repr

/-- The `data` payloads the engine attaches to a phase: `{}`, `{ playerId }`
and `{ winner }`.  The value of `winner` is the winner's player object, the
very object that sits in `room.players` (`undefined` when nobody is alive), so
whatever is later done to that player shows in `phase.data.winner` too.  An
object shared with the table of players is held here by its key in the table,
`ref`; `phaseDataObject` reads the object, hand included, back through it. -/
inductive PhaseData where
  | empty
  | playerId (id : PlayerId)
  | winner (ref : Option PlayerId)
  deriving DecidableEq, Repr

/-- The object `{ type, data }` stored in `gameState.phase`. -/
structure PhaseVal where
  type : PhaseType
  data : PhaseData
  deriving DecidableEq, Repr

/-- The `actionType` string of `executeAction`: the seven cases of its switch,
and any other string. -/
inductive ActionType where
  | income
  | foreign_aid
  | coup
  | tax
  | assassinate
  | steal
  | exchange
  | other (s : String)
  deriving DecidableEq, Repr

structure Player where
  id : PlayerId
  name : String
  coins : Int
  cards : List Card
  isAlive : Bool
  connected : Bool
  disconnectTime : Option Nat
  deriving DecidableEq, Repr

/-- The record `actionResult` built by `executeAction`. -/
structure ActionResult where
  playerId : PlayerId
  playerName : String
  type : ActionType
  targetPlayerId : Option PlayerId
  success : Bool
  log : List String
  deriving DecidableEq, Repr

/-- The object stored in `gameState.challengeData`; `challengers` is the
JavaScript `Set` in insertion order. -/
structure ChallengeData where
  action : ActionResult
  challengers : List PlayerId
  deriving DecidableEq, Repr

/-- The object stored in `gameState.counterData`. -/
structure CounterData where
  action : ActionResult
  blockerRole : Role
  potentialBlockers : List PlayerId
  deriving DecidableEq, Repr

inductive Status where
  | waiting
  | playing
  deriving DecidableEq, Repr

/-- The callbacks the transport hands to `startTimer`. -/
inductive TimerCallback where
  | resolveChallengeTimeout
  | resolveCounterTimeout
  deriving DecidableEq, Repr

/-- A pending `setTimeout` registered in `engine.timers` for the room. -/
structure Timer where
  seconds : Nat
  callback : TimerCallback
  deriving DecidableEq, Repr

structure GameState where
  status : Status
  turnIndex : Nat
  currentPlayer : Option PlayerId
  deck : List Card
  discardPile : List Card
  lastAction : Option ActionResult
  phase : PhaseVal
  log : List String
  challengeData : Option ChallengeData
  counterData : Option CounterData
  winner : Option PlayerId
  deriving DecidableEq, Repr

/-- The room object of `createRoom`.  `players` is the `Map` in insertion
(seating) order.  Two fields hold what the engine and the event loop keep for
the room outside the room object: `timer` is the pending timeout of
`engine.timers.get(room.code)`, and `immediates` counts the `advancePhase`
callbacks queued by `setImmediate` and not yet run. -/
structure Room where
  code : String
  hostId : PlayerId
  players : List Player
  gameState : GameState
  lock : Bool
  timer : Option Timer
  immediates : Nat
  deriving DecidableEq, Repr

/-- How a JavaScript call ends: it returns a value, or it throws. -/
inductive Outcome (α : Type) where
  | ok (v : α)
  | thrown
  deriving DecidableEq, Repr

/-- What a call needs from outside the room: the clock, the random draws and
the depth of stack left for the self-recursion of `nextTurn`.  `pick k` is the
raw value behind the k-th `Math.floor(Math.random() * n)` of the call (used
modulo `n`), `key k` the choices behind its k-th shuffle. -/
structure Env where
  now : Nat
  pick : Nat → Nat
  key : Nat → List Nat
  fuel : Nat

/-! ## Map and array helpers -/

/-- The lookup `room.players.get(id)`. -/
def getPlayer (ps : List Player) (id : PlayerId) : Option Player :=
  ps.find? (fun p => p.id == id)

/-- Mutation of the player object that `room.players.get(id)` returns. -/
def modifyPlayer (ps : List Player) (id : PlayerId) (f : Player → Player) : List Player :=
  match ps with
  | [] => []
  | p :: rest => if p.id == id then f p :: rest else p :: modifyPlayer rest id f

def Room.get (room : Room) (id : PlayerId) : Option Player :=
  getPlayer room.players id

def Room.modify (room : Room) (id : PlayerId) (f : Player → Player) : Room :=
  { room with players := modifyPlayer room.players id f }

def Room.setGS (room : Room) (f : GameState → GameState) : Room :=
  { room with gameState := f room.gameState }

def Room.pushLog (room : Room) (msg : String) : Room :=
  room.setGS (fun gs => { gs with log := gs.log ++ [msg] })

/-- A permutation of `l` chosen by `key`: position `k % length` is taken out of
what remains, one key entry per element; when the key runs out the rest keeps
its order. -/
def permute {α : Type} : List Nat → List α → List α
  | [], l => l
  | k :: ks, l =>
    match l[k % l.length]? with
    | some y => y :: permute ks (l.eraseIdx (k % l.length))
    | none => l

/-- The array after `arr.sort(() => Math.random() - 0.5)`: the defined elements
in an order fixed by the random comparisons, then the `undefined` ones, which
`Array.prototype.sort` always moves to the end. -/
def shuffle (key : List Nat) (l : List Card) : List Card :=
  permute key (l.filter Option.isSome) ++ l.filter Option.isNone

/-! ## The guard, the timer and the phase transition -/

/-- The method `withLock(room, fn)`.  `fn` runs on the locked room; `none` is
the JavaScript `null`. -/
def withLock {α : Type} (room : Room) (fn : Room → Room × Outcome (Option α)) :
    Room × Option α :=
  if room.lock then (room, none)
  else
    match fn { room with lock := true } with
    | (r, Outcome.ok v) => ({ r with lock := false }, v)
    | (r, Outcome.thrown) => ({ r with lock := false }, none)

/-- The method `clearTimer(room)`. -/
def clearTimer (room : Room) : Room :=
  { room with timer := none }

/-- The method `startTimer(room, seconds, callback)`: the old timer is cleared
and the new timeout is registered. -/
def startTimer (room : Room) (seconds : Nat) (callback : TimerCallback) : Room :=
  { clearTimer room with timer := some { seconds := seconds, callback := callback } }

/-- The closure `startTimer` hands to `setTimeout`, run when the timeout
expires: `withLock(room, () => { callback(); })`. -/
def timerBody (room : Room) (callback : Room → Room × Outcome Unit) : Room :=
  (withLock room (fun r =>
    match callback r with
    | (r1, Outcome.ok _) => (r1, Outcome.ok (none : Option Unit))
    | (r1, Outcome.thrown) => (r1, Outcome.thrown))).1

/-- The method `forceEliminatePlayer(room, playerId)`. -/
def forceEliminatePlayer (room : Room) (playerId : PlayerId) : Room :=
  match room.get playerId with
  | none => room
  | some player =>
    (room.modify playerId (fun p => { p with isAlive := false, cards := [] })).pushLog
      (player.name ++ " 长时间未连接，被系统淘汰")

/-- The test of `checkDisconnectedPlayers` on one player:
`!player.connected && player.disconnectTime` and a disconnect duration above
60000 ms. -/
def disconnectedTooLong (now : Nat) (p : Player) : Bool :=
  !p.connected &&
    (match p.disconnectTime with
     | none => false
     | some t => t != 0 && decide ((now : Int) - (t : Int) > 60000))

/-- The method `checkDisconnectedPlayers(room)`, with `now = Date.now()`. -/
def checkDisconnectedPlayers (now : Nat) (room : Room) : Room :=
  (room.players.filter (disconnectedTooLong now)).foldl
    (fun r p => forceEliminatePlayer r p.id) room

/-- The method `setPhase(room, newPhase)`.  The `setImmediate` callback is
queued, not run. -/
def setPhase (now : Nat) (room : Room) (newPhase : PhaseVal) : Room :=
  (withLock room (fun r =>
    let r1 := clearTimer r
    let r2 := r1.setGS (fun gs => { gs with phase := newPhase })
    let r3 := checkDisconnectedPlayers now r2
    ({ r3 with immediates := r3.immediates + 1 }, Outcome.ok (none : Option Unit)))).1

/-! ## Cards -/

/-- The method `initializeDeck()`. -/
def initializeDeck (key : List Nat) : List Card :=
  shuffle key
    ([Role.duke, Role.assassin, Role.captain, Role.ambassador, Role.contessa].flatMap
      (fun role => List.replicate 3 (some role)))

/-- The method `drawCard(room)`: an empty deck is refilled from the shuffled
discard pile, then the last card of the deck is popped. -/
def drawCard (key : List Nat) (room : Room) : Room × Card :=
  let r1 :=
    if room.gameState.deck.length = 0 then
      room.setGS (fun gs => { gs with deck := shuffle key gs.discardPile, discardPile := [] })
    else room
  (r1.setGS (fun gs => { gs with deck := gs.deck.dropLast }), r1.gameState.deck.getLast?.join)

/-- The method `discardCard(room, playerId, cardIndex)`. -/
def discardCard (key : List Nat) (room : Room) (playerId : PlayerId) (cardIndex : Int) :
    Room × Bool :=
  match room.get playerId with
  | none => (room, false)
  | some player =>
    if !player.isAlive then (room, false)
    else if cardIndex < 0 ∨ cardIndex ≥ (player.cards.length : Int) then (room, false)
    else
      let i := cardIndex.toNat
      let card : Card := (player.cards[i]?).join
      let r1 := room.modify playerId (fun p => { p with cards := p.cards.eraseIdx i })
      let r2 := r1.setGS (fun gs => { gs with discardPile := gs.discardPile ++ [card] })
      let rest := (player.cards.eraseIdx i).length
      if rest = 0 then
        (r2.modify playerId (fun p => { p with isAlive := false }), true)
      else if rest < 2 then
        let d := drawCard key r2
        (d.1.modify playerId (fun p => { p with cards := p.cards ++ [d.2] }), true)
      else (r2, true)

/-- The loop `room.players.forEach(player => ...)` of `initializeGame`: in
seating order every player gets 2 coins, two drawn cards and `isAlive = true`.
The room argument carries the deck. -/
def dealPlayers (key : List Nat) : List Player → Room → List Player × Room
  | [], room => ([], room)
  | p :: ps, room =>
    let d1 := drawCard key room
    let d2 := drawCard key d1.1
    let rest := dealPlayers key ps d2.1
    ({ p with coins := 2, cards := [d1.2, d2.2], isAlive := true } :: rest.1, rest.2)

/-- The method `initializeGame(room)`. -/
def initializeGame (env : Env) (room : Room) : Room :=
  let r1 := room.setGS (fun gs =>
    { gs with deck := initializeDeck (env.key 0), discardPile := [], turnIndex := 0,
              lastAction := none })
  let dealt := dealPlayers (env.key 1) r1.players r1
  setPhase env.now { dealt.2 with players := dealt.1 }
    { type := PhaseType.TURN_START, data := PhaseData.empty }

/-! ## Turn scheduling -/

/-- The loop `while (!playerArray[nextIndex].isAlive) nextIndex = (nextIndex + 1) % size`
of `nextTurn`, started at index `i` and cut after `n` tests.  `none` stands for
a run that reads past the array or is not over after `n` tests. -/
def seekAlive (ps : List Player) : Nat → Nat → Option Nat
  | 0, _ => none
  | n + 1, i =>
    match ps[i]? with
    | none => none
    | some p => if p.isAlive then some i else seekAlive ps n ((i + 1) % ps.length)

/-- One activation of `nextTurn(room)`; `recurse` is the self-call. -/
def nextTurnBody (now : Nat) (recurse : Room → Room × Outcome Unit) (room : Room) :
    Room × Outcome Unit :=
  let alivePlayers := room.players.filter (fun p => p.isAlive)
  if alivePlayers.length ≤ 1 then
    let winner := alivePlayers.head?.map (fun p => p.id)
    let r1 := room.setGS (fun gs => { gs with winner := winner })
    (setPhase now r1 { type := PhaseType.GAME_OVER, data := PhaseData.winner winner },
      Outcome.ok ())
  else
    match seekAlive room.players room.players.length
        ((room.gameState.turnIndex + 1) % room.players.length) with
    | none => (room, Outcome.thrown)
    | some nextIndex =>
      match room.players[nextIndex]? with
      | none => (room, Outcome.thrown)
      | some currentPlayer =>
        let r1 := room.setGS (fun gs =>
          { gs with turnIndex := nextIndex, currentPlayer := some currentPlayer.id })
        if !currentPlayer.connected then
          recurse (r1.pushLog (currentPlayer.name ++ " 已断线，自动跳过回合"))
        else
          (setPhase now r1
            { type := PhaseType.TURN_START, data := PhaseData.playerId currentPlayer.id },
            Outcome.ok ())

/-- The method `nextTurn(room)`.  `fuel` is the number of nested self-calls the
call stack still takes; one more throws (`RangeError`). -/
def nextTurn (now : Nat) : Nat → Room → Room × Outcome Unit
  | 0, room => nextTurnBody now (fun r => (r, Outcome.thrown)) room
  | fuel + 1, room => nextTurnBody now (nextTurn now fuel) room

/-- The method `getCurrentPlayer(room)`: `null` and the empty string are both
falsy ids. -/
def getCurrentPlayer (room : Room) : Option Player :=
  match room.gameState.currentPlayer with
  | none => none
  | some id => if id = "" then none else room.get id

/-- The method `advancePhase(room)`, which `setPhase` queues with
`setImmediate`.  The switch on the phase has only empty cases. -/
def advancePhase (env : Env) (room : Room) : Room × Outcome Unit :=
  match getCurrentPlayer room with
  | some currentPlayer =>
    if !currentPlayer.connected then
      nextTurn env.now env.fuel (room.pushLog (currentPlayer.name ++ " 已断线，自动跳过回合"))
    else (room, Outcome.ok ())
  | none => (room, Outcome.ok ())

/-! ## Actions -/

/-- The value `Math.floor(Math.random() * n)` behind the raw draw `raw`. -/
def randomIndex (raw n : Nat) : Int :=
  ((raw % n : Nat) : Int)

/-- The end of `executeAction` after its switch: `nextTurn` when the action
succeeded and no challenge or counter data is pending, then
`return actionResult`. -/
def finishAction (env : Env) (room : Room) (actionResult : ActionResult) :
    Room × Outcome (Option ActionResult) :=
  if actionResult.success && room.gameState.challengeData.isNone
      && room.gameState.counterData.isNone then
    match nextTurn env.now env.fuel room with
    | (r, Outcome.ok _) => (r, Outcome.ok (some actionResult))
    | (r, Outcome.thrown) => (r, Outcome.thrown)
  else (room, Outcome.ok (some actionResult))

/-- The statements `room.gameState.challengeData = { action, challengers: new Set() }`,
`setPhase(CHALLENGE_WINDOW)` and `return actionResult` shared by tax, steal and
exchange. -/
def openChallenge (env : Env) (room : Room) (actionResult : ActionResult) :
    Room × Outcome (Option ActionResult) :=
  (setPhase env.now
    (room.setGS (fun gs =>
      { gs with challengeData := some (ChallengeData.mk actionResult []) }))
    { type := PhaseType.CHALLENGE_WINDOW, data := PhaseData.empty },
   Outcome.ok (some actionResult))

/-- The forced discard of coup and assassinate: a random card of a target with
cards, else `target.isAlive = false`; the second component is the log line.
`targetId` is the key under which `target` was found, which is `target.id`. -/
def loseCardOrDie (env : Env) (room : Room) (targetId : PlayerId) (target : Player)
    (cardMsg deadMsg : String) : Room × String :=
  if target.cards.length > 0 then
    ((discardCard (env.key 0) room targetId (randomIndex (env.pick 0) target.cards.length)).1,
      target.name ++ cardMsg)
  else
    (room.modify targetId (fun p => { p with isAlive := false }), target.name ++ deadMsg)

/-- The method `executeAction(room, playerId, actionType, targetPlayerId)`. -/
def executeAction (env : Env) (room : Room) (playerId : PlayerId) (actionType : ActionType)
    (targetPlayerId : Option PlayerId) : Room × Outcome (Option ActionResult) :=
  match room.get playerId with
  | none => (room, Outcome.ok none)
  | some player =>
    if !player.isAlive then (room, Outcome.ok none)
    else if room.gameState.phase.type ≠ PhaseType.TURN_START then (room, Outcome.ok none)
    else if room.gameState.currentPlayer ≠ some playerId then (room, Outcome.ok none)
    else
      let actionResult : ActionResult :=
        { playerId := playerId, playerName := player.name, type := actionType,
          targetPlayerId := targetPlayerId, success := false, log := [] }
      match actionType with
      | ActionType.income =>
        finishAction env (room.modify playerId (fun p => { p with coins := p.coins + 1 }))
          { actionResult with success := true, log := [player.name ++ " 获得收入，+1金币"] }
      | ActionType.foreign_aid =>
        let ar := { actionResult with success := true, log := [player.name ++ " 寻求外国援助"] }
        let dukePlayers := room.players.filter (fun p =>
          p.isAlive && p.id != playerId && p.cards.contains (some Role.duke))
        if dukePlayers.length > 0 then
          (setPhase env.now
            (room.setGS (fun gs =>
              { gs with counterData := some (CounterData.mk ar Role.duke
                  (dukePlayers.map (fun p => p.id))) }))
            { type := PhaseType.COUNTER_WINDOW, data := PhaseData.empty },
           Outcome.ok (some ar))
        else
          finishAction env (room.modify playerId (fun p => { p with coins := p.coins + 2 }))
            { ar with log := ar.log ++ [player.name ++ " 成功获得2枚金币"] }
      | ActionType.coup =>
        if player.coins < 7 then
          (room, Outcome.ok (some
            { actionResult with log := [player.name ++ " 金币不足，无法发动政变"] }))
        else
          match targetPlayerId.bind room.get with
          | none =>
            (room, Outcome.ok (some
              { actionResult with log := [player.name ++ " 目标玩家不存在或已淘汰"] }))
          | some targetPlayer =>
            if !targetPlayer.isAlive then
              (room, Outcome.ok (some
                { actionResult with log := [player.name ++ " 目标玩家不存在或已淘汰"] }))
            else
              let r1 := room.modify playerId (fun p => { p with coins := p.coins - 7 })
              let l := loseCardOrDie env r1 targetPlayer.id targetPlayer
                " 被迫弃掉一张牌" " 没有卡牌，被淘汰！"
              finishAction env l.1
                { actionResult with success := true,
                                    log := [player.name ++ " 发动政变，花费7金币", l.2] }
      | ActionType.tax =>
        let ar := { actionResult with success := true,
                                      log := [player.name ++ " 声称拥有公爵，征收税金"] }
        if !player.cards.contains (some Role.duke) then openChallenge env room ar
        else
          finishAction env (room.modify playerId (fun p => { p with coins := p.coins + 3 }))
            { ar with log := ar.log ++ [player.name ++ " 成功征收3枚金币"] }
      | ActionType.assassinate =>
        if player.coins < 3 then
          (room, Outcome.ok (some
            { actionResult with log := [player.name ++ " 金币不足，无法行刺"] }))
        else
          match targetPlayerId.bind room.get with
          | none =>
            (room, Outcome.ok (some
              { actionResult with log := [player.name ++ " 目标玩家不存在或已淘汰"] }))
          | some target =>
            if !target.isAlive then
              (room, Outcome.ok (some
                { actionResult with log := [player.name ++ " 目标玩家不存在或已淘汰"] }))
            else
              let r1 := room.modify playerId (fun p => { p with coins := p.coins - 3 })
              let ar := { actionResult with success := true,
                                            log := [player.name ++ " 声称拥有刺客，行刺 " ++ target.name] }
              let contessaPlayers := r1.players.filter (fun p =>
                p.isAlive && some p.id == targetPlayerId && p.cards.contains (some Role.contessa))
              if contessaPlayers.length > 0 then
                (setPhase env.now
                  (r1.setGS (fun gs =>
                    { gs with counterData := some (CounterData.mk ar Role.contessa
                        [target.id]) }))
                  { type := PhaseType.COUNTER_WINDOW, data := PhaseData.empty },
                 Outcome.ok (some ar))
              else
                let l := loseCardOrDie env r1 target.id target
                  " 被行刺，被迫弃掉一张牌" " 没有卡牌，被淘汰！"
                finishAction env l.1 { ar with log := ar.log ++ [l.2] }
      | ActionType.steal =>
        let ar := { actionResult with success := true,
                                      log := [player.name ++ " 声称拥有队长，试图窃取金币"] }
        match targetPlayerId.bind room.get with
        | none =>
          (room, Outcome.ok (some
            { ar with log := ar.log ++ [player.name ++ " 目标玩家不存在或已淘汰"] }))
        | some stealTarget =>
          if !stealTarget.isAlive then
            (room, Outcome.ok (some
              { ar with log := ar.log ++ [player.name ++ " 目标玩家不存在或已淘汰"] }))
          else if stealTarget.coins = 0 then
            finishAction env room { ar with log := ar.log ++ [stealTarget.name ++ " 没有金币可偷"] }
          else if !player.cards.contains (some Role.captain) then openChallenge env room ar
          else
            let stealAmount := min stealTarget.coins 2
            let r1 := room.modify stealTarget.id (fun p => { p with coins := p.coins - stealAmount })
            let r2 := r1.modify playerId (fun p => { p with coins := p.coins + stealAmount })
            finishAction env r2
              { ar with log := ar.log ++
                  [player.name ++ " 成功窃取 " ++ toString stealAmount ++ " 枚金币"] }
      | ActionType.exchange =>
        let ar := { actionResult with success := true,
                                      log := [player.name ++ " 声称拥有大使，进行卡牌交换"] }
        if !player.cards.contains (some Role.ambassador) then openChallenge env room ar
        else
          let d1 := drawCard (env.key 0) room
          let d2 := drawCard (env.key 1) d1.1
          let exchangeResult := player.cards ++ [d1.2, d2.2]
          let r1 := d2.1.modify playerId (fun p => { p with cards := exchangeResult.take 2 })
          let r2 := r1.setGS (fun gs =>
            { gs with discardPile := gs.discardPile ++ exchangeResult.drop 2 })
          finishAction env r2 { ar with log := ar.log ++ [player.name ++ " 完成卡牌交换"] }
      | ActionType.other _ => finishAction env room actionResult


/-! ## Challenges and counters -/

/-- The object `result` of `resolveChallenge`. -/
structure ChallengeResult where
  action : ActionResult
  challengers : List PlayerId
  challengeWon : Bool
  log : List String
  deriving DecidableEq, Repr

/-- The object `result` of `handleCounter`. -/
structure CounterResult where
  action : ActionResult
  blocker : String
  blocked : Bool
  log : List String
  deriving DecidableEq, Repr

/-- The switch of `resolveChallenge` that sets `requiredRole`; `none` is the
initial empty string, which no card equals. -/
def requiredRole : ActionType → Option Role
  | ActionType.tax => some Role.duke
  | ActionType.assassinate => some Role.assassin
  | ActionType.steal => some Role.captain
  | ActionType.exchange => some Role.ambassador
  | _ => none

/-- The string a role is in the source; `none` is the empty string. -/
def roleName : Option Role → String
  | some Role.duke => "duke"
  | some Role.assassin => "assassin"
  | some Role.captain => "captain"
  | some Role.ambassador => "ambassador"
  | some Role.contessa => "contessa"
  | none => ""

/-- The test `cards.includes(requiredRole)`. -/
def includesRole (cards : List Card) (role : Option Role) : Bool :=
  match role with
  | none => false
  | some r => cards.contains (some r)

/-- The loop `challengers.forEach(...)` of `resolveChallenge`: every challenger
who is found, alive and has cards discards a random card; `k` numbers the
random draws. -/
def challengersDiscard (env : Env) : Nat → List PlayerId → Room → List String →
    Room × List String
  | _, [], room, log => (room, log)
  | k, challengerId :: rest, room, log =>
    match room.get challengerId with
    | none => challengersDiscard env (k + 1) rest room log
    | some challenger =>
      if challenger.isAlive && challenger.cards.length > 0 then
        challengersDiscard env (k + 1) rest
          (discardCard (env.key k) room challengerId
            (randomIndex (env.pick k) challenger.cards.length)).1
          (log ++ [challenger.name ++ " 挑战失败，被迫弃牌"])
      else challengersDiscard env (k + 1) rest room log

/-- The transfer of `Math.min(target.coins, 2)` coins from the target to the
actor, done when the target is found and has more than 0 coins. -/
def stealCoins (room : Room) (actorId : PlayerId) (targetPlayerId : Option PlayerId) : Room :=
  match targetPlayerId.bind room.get with
  | none => room
  | some target =>
    if target.coins > 0 then
      let stealAmount := min target.coins 2
      (room.modify target.id (fun p => { p with coins := p.coins - stealAmount })).modify actorId
        (fun p => { p with coins := p.coins + stealAmount })
    else room

/-- The two branches of `resolveChallenge` up to its closing `nextTurn`: the
actor holds the required role (the challengers discard, tax and steal take
effect) or does not (the actor discards, an assassination is refunded). -/
def settleChallenge (env : Env) (room : Room) (challengeData : ChallengeData) (actor : Player) :
    Room × ChallengeResult :=
  let action := challengeData.action
  if includesRole actor.cards (requiredRole action.type) then
    let d := challengersDiscard env 0 challengeData.challengers room
      [actor.name ++ " 确实拥有 " ++ roleName (requiredRole action.type) ++ "，挑战失败！"]
    let r1 :=
      if action.type = ActionType.tax then
        d.1.modify action.playerId (fun p => { p with coins := p.coins + 3 })
      else if action.type = ActionType.steal then
        stealCoins d.1 action.playerId action.targetPlayerId
      else d.1
    (r1, { action := action, challengers := challengeData.challengers,
           challengeWon := false, log := d.2 })
  else
    let msg := actor.name ++ " 没有 " ++ roleName (requiredRole action.type) ++ "，挑战成功！"
    let d : Room × List String :=
      if actor.cards.length > 0 then
        ((discardCard (env.key 0) room action.playerId
            (randomIndex (env.pick 0) actor.cards.length)).1,
          [msg, actor.name ++ " 被迫弃牌"])
      else (room, [msg])
    let r1 :=
      if action.type = ActionType.assassinate then
        d.1.modify action.playerId (fun p => { p with coins := p.coins + 3 })
      else d.1
    (r1, { action := action, challengers := challengeData.challengers,
           challengeWon := true, log := d.2 })

/-- The method `resolveChallenge(room, challengeData)`. -/
def resolveChallenge (env : Env) (room : Room) (challengeData : ChallengeData) :
    Room × Outcome ChallengeResult :=
  match room.get challengeData.action.playerId with
  | none => (room, Outcome.thrown)
  | some actor =>
    match nextTurn env.now env.fuel (settleChallenge env room challengeData actor).1 with
    | (r, Outcome.ok _) => (r, Outcome.ok (settleChallenge env room challengeData actor).2)
    | (r, Outcome.thrown) => (r, Outcome.thrown)

/-- The call `challengeData.challengers.add(challengerId)` on the `Set`. -/
def addChallenger (cd : ChallengeData) (challengerId : PlayerId) : ChallengeData :=
  if cd.challengers.contains challengerId then cd
  else { cd with challengers := cd.challengers ++ [challengerId] }

/-- The method `handleChallenge(room, challengerId)`. -/
def handleChallenge (env : Env) (room : Room) (challengerId : PlayerId) :
    Room × Outcome (Option ChallengeResult) :=
  if room.gameState.phase.type ≠ PhaseType.CHALLENGE_WINDOW then (room, Outcome.ok none)
  else
    match room.gameState.challengeData with
    | none => (room, Outcome.ok none)
    | some challengeData =>
      match room.get challengerId, room.get challengeData.action.playerId with
      | some challenger, some _ =>
        if !challenger.isAlive then (room, Outcome.ok none)
        else
          let cd := addChallenger challengeData challengerId
          let r1 := room.setGS (fun gs => { gs with challengeData := some cd })
          match resolveChallenge env r1 cd with
          | (r, Outcome.ok result) =>
            (r.setGS (fun gs => { gs with challengeData := none }), Outcome.ok (some result))
          | (r, Outcome.thrown) => (r, Outcome.thrown)
      | _, _ => (room, Outcome.ok none)

/-- The statements under `// 原行动执行` in `handleCounter`: the original action
goes through.  `k` numbers the random draw. -/
def applyUnblocked (env : Env) (k : Nat) (room : Room) (action : ActionResult)
    (log : List String) : Room × Outcome (List String) :=
  if action.type = ActionType.foreign_aid then
    match room.get action.playerId with
    | none => (room, Outcome.thrown)
    | some actor =>
      (room.modify action.playerId (fun p => { p with coins := p.coins + 2 }),
        Outcome.ok (log ++ [actor.name ++ " 获得2枚金币"]))
  else if action.type = ActionType.assassinate then
    match action.targetPlayerId.bind room.get with
    | none => (room, Outcome.ok log)
    | some target =>
      if target.cards.length > 0 then
        ((discardCard (env.key k) room target.id
            (randomIndex (env.pick k) target.cards.length)).1,
          Outcome.ok (log ++ [target.name ++ " 被行刺，被迫弃牌"]))
      else (room, Outcome.ok log)
  else (room, Outcome.ok log)

/-- The branches of `handleCounter` between its checks and the closing
`counterData = null`, `nextTurn`: a block backed by the role (an assassination
is refunded), a block without the role (the blocker discards and the action
goes through), or no block.  The result carries `blocked` and the log. -/
def settleCounter (env : Env) (room : Room) (counterData : CounterData) (blockerId : PlayerId)
    (blocker : Player) (block : Bool) : Room × Outcome (Bool × List String) :=
  let action := counterData.action
  if block then
    if blocker.cards.contains (some counterData.blockerRole) then
      let r1 :=
        if action.type = ActionType.assassinate then
          room.modify action.playerId (fun p => { p with coins := p.coins + 3 })
        else room
      (r1, Outcome.ok (true,
        [blocker.name ++ " 成功阻止了 " ++ action.playerName ++ " 的行动"]))
    else
      let r1 :=
        if blocker.cards.length > 0 then
          (discardCard (env.key 0) room blockerId
            (randomIndex (env.pick 0) blocker.cards.length)).1
        else room
      match applyUnblocked env 1 r1 action [blocker.name ++ " 试图阻止但失败，被迫弃牌"] with
      | (r2, Outcome.ok log) => (r2, Outcome.ok (false, log))
      | (r2, Outcome.thrown) => (r2, Outcome.thrown)
  else
    match applyUnblocked env 0 room action [blocker.name ++ " 选择不阻止"] with
    | (r2, Outcome.ok log) => (r2, Outcome.ok (false, log))
    | (r2, Outcome.thrown) => (r2, Outcome.thrown)

/-- The method `handleCounter(room, blockerId, block)`. -/
def handleCounter (env : Env) (room : Room) (blockerId : PlayerId) (block : Bool) :
    Room × Outcome (Option CounterResult) :=
  if room.gameState.phase.type ≠ PhaseType.COUNTER_WINDOW then (room, Outcome.ok none)
  else
    match room.gameState.counterData with
    | none => (room, Outcome.ok none)
    | some counterData =>
      match room.get blockerId with
      | none => (room, Outcome.ok none)
      | some blocker =>
        if !blocker.isAlive then (room, Outcome.ok none)
        else
          match settleCounter env room counterData blockerId blocker block with
          | (r2, Outcome.thrown) => (r2, Outcome.thrown)
          | (r2, Outcome.ok (blocked, log)) =>
            match nextTurn env.now env.fuel
                (r2.setGS (fun gs => { gs with counterData := none })) with
            | (r3, Outcome.ok _) =>
              (r3, Outcome.ok (some
                { action := counterData.action, blocker := blocker.name, blocked := blocked,
                  log := log }))
            | (r3, Outcome.thrown) => (r3, Outcome.thrown)

/-- The method `handleDiscard(room, playerId, cardIndex)`; `none` is `null`. -/
def handleDiscard (env : Env) (room : Room) (playerId : PlayerId) (cardIndex : Int) :
    Room × Outcome (Option Bool) :=
  if room.gameState.phase.type ≠ PhaseType.DISCARD then (room, Outcome.ok none)
  else
    let d := discardCard (env.key 0) room playerId cardIndex
    if d.2 then
      match nextTurn env.now env.fuel d.1 with
      | (r, Outcome.ok _) => (r, Outcome.ok (some true))
      | (r, Outcome.thrown) => (r, Outcome.thrown)
    else (d.1, Outcome.ok (some false))


/-! ## The transport's calls into the engine (`SocketManager.js`)

Socket traffic (`emit`, broadcasts, the socket map) is left out; what remains
is what each handler does to the room. -/

namespace SocketManager

/-- Turns the end of a callback that returns nothing into what `withLock`
passes on. -/
def noResult {α : Type} (r : Room × Outcome α) : Room × Outcome (Option Unit) :=
  match r with
  | (r1, Outcome.ok _) => (r1, Outcome.ok none)
  | (r1, Outcome.thrown) => (r1, Outcome.thrown)

/-- The handler `handleStartGame`. -/
def handleStartGame (env : Env) (room : Room) (playerId : PlayerId) : Room :=
  match room.get playerId with
  | none => room
  | some player =>
    if player.id ≠ room.hostId then room
    else if room.players.length < 2 then room
    else initializeGame env (room.setGS (fun gs => { gs with status := Status.playing }))

/-- The callback `handleExecuteAction` runs under `withLock`. -/
def executeActionLocked (env : Env) (playerId : PlayerId) (actionType : ActionType)
    (targetPlayerId : Option PlayerId) (r : Room) : Room × Outcome (Option Unit) :=
  match executeAction env r playerId actionType targetPlayerId with
  | (r1, Outcome.thrown) => (r1, Outcome.thrown)
  | (r1, Outcome.ok none) => (r1, Outcome.ok none)
  | (r1, Outcome.ok (some actionResult)) =>
    let r2 := r1.setGS (fun gs =>
      { gs with lastAction := some actionResult, log := gs.log ++ actionResult.log })
    if r2.gameState.challengeData.isSome then
      (startTimer r2 20 TimerCallback.resolveChallengeTimeout, Outcome.ok none)
    else if r2.gameState.counterData.isSome then
      (startTimer r2 15 TimerCallback.resolveCounterTimeout, Outcome.ok none)
    else
      ((withLock r2 (fun r3 => noResult (nextTurn env.now env.fuel r3))).1, Outcome.ok none)

/-- The handler `handleExecuteAction`. -/
def handleExecuteAction (env : Env) (room : Room) (playerId : PlayerId)
    (actionType : ActionType) (targetPlayerId : Option PlayerId) : Room :=
  if room.gameState.phase.type ≠ PhaseType.TURN_START then room
  else if room.gameState.currentPlayer ≠ some playerId then room
  else (withLock room (executeActionLocked env playerId actionType targetPlayerId)).1

/-- The handler `handleChallenge`. -/
def handleChallenge (env : Env) (room : Room) (playerId : PlayerId) : Room :=
  if room.gameState.phase.type ≠ PhaseType.CHALLENGE_WINDOW then room
  else
    (withLock room (fun r =>
      match Coup.handleChallenge env r playerId with
      | (r1, Outcome.thrown) => (r1, Outcome.thrown)
      | (r1, Outcome.ok none) => (r1, Outcome.ok (none : Option Unit))
      | (r1, Outcome.ok (some challengeResult)) =>
        (r1.setGS (fun gs => { gs with log := gs.log ++ challengeResult.log }),
          Outcome.ok none))).1

/-- The handler `handleCounter`. -/
def handleCounter (env : Env) (room : Room) (playerId : PlayerId) (block : Bool) : Room :=
  if room.gameState.phase.type ≠ PhaseType.COUNTER_WINDOW then room
  else
    match room.gameState.counterData with
    | none => room
    | some counterData =>
      if !counterData.potentialBlockers.contains playerId then room
      else
        (withLock room (fun r =>
          match Coup.handleCounter env r playerId block with
          | (r1, Outcome.thrown) => (r1, Outcome.thrown)
          | (r1, Outcome.ok none) => (r1, Outcome.ok (none : Option Unit))
          | (r1, Outcome.ok (some counterResult)) =>
            (r1.setGS (fun gs => { gs with log := gs.log ++ counterResult.log }),
              Outcome.ok none))).1

/-- The handler `handleDiscard`. -/
def handleDiscard (env : Env) (room : Room) (playerId : PlayerId) (cardIndex : Int) : Room :=
  if room.gameState.phase.type ≠ PhaseType.DISCARD then room
  else
    (withLock room (fun r =>
      match Coup.handleDiscard env r playerId cardIndex with
      | (r1, Outcome.thrown) => (r1, Outcome.thrown)
      | (r1, Outcome.ok (some true)) =>
        match r1.get playerId with
        | none => (r1, Outcome.thrown)
        | some player => (r1.pushLog (player.name ++ " 弃掉了一张牌"), Outcome.ok (none : Option Unit))
      | (r1, Outcome.ok _) => (r1, Outcome.ok none))).1

/-- The handler `handleReconnect`, on the player's connectivity fields. -/
def handleReconnect (room : Room) (playerId : PlayerId) : Room :=
  room.modify playerId (fun p => { p with connected := true, disconnectTime := none })

/-- The method `checkDisconnectedPlayerInGame(room, playerId)`. -/
def checkDisconnectedPlayerInGame (env : Env) (room : Room) (playerId : PlayerId) : Room :=
  if room.gameState.currentPlayer = some playerId then
    (withLock room (fun r =>
      match r.get playerId with
      | none => (r, Outcome.thrown)
      | some player =>
        noResult (nextTurn env.now env.fuel
          (r.pushLog (player.name ++ " 已断线，自动跳过回合"))))).1
  else room

/-- The handler `handleDisconnect`, for the socket of `playerId`. -/
def handleDisconnect (env : Env) (room : Room) (playerId : PlayerId) : Room :=
  match room.get playerId with
  | none => room
  | some _ =>
    let r1 := room.modify playerId (fun p =>
      { p with connected := false, disconnectTime := some env.now })
    if r1.gameState.status = Status.playing then checkDisconnectedPlayerInGame env r1 playerId
    else r1

/-- The effect of an unchallenged action in `resolveChallengeTimeout`. -/
def applyUnchallenged (env : Env) (room : Room) (action : ActionResult) (actor : Player) : Room :=
  match action.type with
  | ActionType.tax =>
    (room.modify action.playerId (fun p => { p with coins := p.coins + 3 })).pushLog
      (actor.name ++ " 成功征收3枚金币")
  | ActionType.steal =>
    match action.targetPlayerId.bind room.get with
    | none => room
    | some target =>
      if target.coins > 0 then
        (stealCoins room action.playerId action.targetPlayerId).pushLog
          (actor.name ++ " 成功窃取 " ++ toString (min target.coins 2) ++ " 枚金币")
      else room
  | ActionType.exchange => room.pushLog (actor.name ++ " 完成卡牌交换")
  | ActionType.assassinate =>
    match action.targetPlayerId.bind room.get with
    | none => room
    | some target =>
      if target.cards.length > 0 then
        (discardCard (env.key 0) room target.id
          (randomIndex (env.pick 0) target.cards.length)).1.pushLog
          (target.name ++ " 被行刺，被迫弃牌")
      else room
  | _ => room

/-- The method `resolveChallengeTimeout(room)`. -/
def resolveChallengeTimeout (env : Env) (room : Room) : Room :=
  match room.gameState.challengeData with
  | none => room
  | some _ =>
    (withLock room (fun r =>
      match r.gameState.challengeData with
      | none => (r, Outcome.thrown)
      | some challengeData =>
        let r1 := r.setGS (fun gs => { gs with challengeData := none })
        match r1.get challengeData.action.playerId with
        | none => (r1, Outcome.thrown)
        | some actor =>
          noResult (nextTurn env.now env.fuel
            (applyUnchallenged env
              (r1.pushLog ("挑战时间结束，没有玩家挑战 " ++ actor.name))
              challengeData.action actor)))).1

/-- The method `resolveCounterTimeout(room)`. -/
def resolveCounterTimeout (env : Env) (room : Room) : Room :=
  match room.gameState.counterData with
  | none => room
  | some _ =>
    (withLock room (fun r =>
      match r.gameState.counterData with
      | none => (r, Outcome.thrown)
      | some counterData =>
        let r1 := (r.setGS (fun gs => { gs with counterData := none })).pushLog
          "反制时间结束，执行原行动"
        match applyUnblocked env 0 r1 counterData.action [] with
        | (r2, Outcome.thrown) => (r2, Outcome.thrown)
        | (r2, Outcome.ok log) =>
          noResult (nextTurn env.now env.fuel
            (r2.setGS (fun gs => { gs with log := gs.log ++ log }))))).1

/-- The function a `TimerCallback` stands for. -/
def runCallback (env : Env) : TimerCallback → Room → Room × Outcome Unit
  | TimerCallback.resolveChallengeTimeout => fun r => (resolveChallengeTimeout env r, Outcome.ok ())
  | TimerCallback.resolveCounterTimeout => fun r => (resolveCounterTimeout env r, Outcome.ok ())

/-- The pending timeout of the room expires: it leaves the queue and its
closure runs. -/
def fireTimer (env : Env) (room : Room) : Room :=
  match room.timer with
  | none => room
  | some t => timerBody { room with timer := none } (runCallback env t.callback)

end SocketManager

/-! ## Rooms and runs -/

/-- The room `RoomManager.createRoom(roomCode, hostId)` builds, before any
player is added. -/
def createRoom (roomCode : String) (hostId : PlayerId) : Room :=
  { code := roomCode, hostId := hostId, players := [],
    gameState :=
      { status := Status.waiting, turnIndex := 0, currentPlayer := none, deck := [],
        discardPile := [], lastAction := none,
        phase := { type := PhaseType.TURN_START, data := PhaseData.empty }, log := [],
        challengeData := none, counterData := none, winner := none },
    lock := false, timer := none, immediates := 0 }

/-- A room as `createRoom` and `addPlayer` leave it when the game is started:
the state of `createRoom`, with `status` still `waiting` or already set to
`playing` by `handleStartGame`, and 2 to 6 players under distinct ids. -/
def FreshRoom (room : Room) : Prop :=
  room = { createRoom room.code room.hostId with
            players := room.players,
            gameState := { (createRoom room.code room.hostId).gameState with
                            status := room.gameState.status } } ∧
    2 ≤ room.players.length ∧ room.players.length ≤ 6 ∧
    (room.players.map (fun p => p.id)).Nodup

/-- One callback queued by `setImmediate` in `setPhase` runs. -/
def runImmediate (env : Env) (room : Room) : Room :=
  if room.immediates = 0 then room
  else (advancePhase env { room with immediates := room.immediates - 1 }).1

/-- The calls that act on a started room: the engine's methods called
directly, the transport's handlers (which wrap the engine call in `withLock`),
the two timeout resolutions, the expiry of the timer, a queued `advancePhase`,
and the connectivity signals. -/
inductive Op where
  | executeAction (playerId : PlayerId) (actionType : ActionType) (target : Option PlayerId)
  | handleChallenge (challengerId : PlayerId)
  | handleCounter (blockerId : PlayerId) (block : Bool)
  | handleDiscard (playerId : PlayerId) (cardIndex : Int)
  | nextTurn
  | setPhase (newPhase : PhaseVal)
  | advancePhase
  | onExecuteAction (playerId : PlayerId) (actionType : ActionType) (target : Option PlayerId)
  | onChallenge (playerId : PlayerId)
  | onCounter (playerId : PlayerId) (block : Bool)
  | onDiscard (playerId : PlayerId) (cardIndex : Int)
  | resolveChallengeTimeout
  | resolveCounterTimeout
  | fireTimer
  | runImmediate
  | disconnect (playerId : PlayerId)
  | reconnect (playerId : PlayerId)

/-- The room after the call `op`; a call that throws leaves the room as
mutated up to the throw. -/
def applyOp (env : Env) (op : Op) (room : Room) : Room :=
  match op with
  | Op.executeAction playerId actionType target =>
    (executeAction env room playerId actionType target).1
  | Op.handleChallenge challengerId => (handleChallenge env room challengerId).1
  | Op.handleCounter blockerId block => (handleCounter env room blockerId block).1
  | Op.handleDiscard playerId cardIndex => (handleDiscard env room playerId cardIndex).1
  | Op.nextTurn => (nextTurn env.now env.fuel room).1
  | Op.setPhase newPhase => setPhase env.now room newPhase
  | Op.advancePhase => (advancePhase env room).1
  | Op.onExecuteAction playerId actionType target =>
    SocketManager.handleExecuteAction env room playerId actionType target
  | Op.onChallenge playerId => SocketManager.handleChallenge env room playerId
  | Op.onCounter playerId block => SocketManager.handleCounter env room playerId block
  | Op.onDiscard playerId cardIndex => SocketManager.handleDiscard env room playerId cardIndex
  | Op.resolveChallengeTimeout => SocketManager.resolveChallengeTimeout env room
  | Op.resolveCounterTimeout => SocketManager.resolveCounterTimeout env room
  | Op.fireTimer => SocketManager.fireTimer env room
  | Op.runImmediate => runImmediate env room
  | Op.disconnect playerId => SocketManager.handleDisconnect env room playerId
  | Op.reconnect playerId => SocketManager.handleReconnect room playerId

/-- The rooms a game can be in: `initializeGame` on a fresh room, then any
calls, each with its own clock value and random draws. -/
inductive Reachable : Room → Prop where
  | init (env : Env) (room : Room) : FreshRoom room → Reachable (initializeGame env room)
  | step (env : Env) (op : Op) (room : Room) : Reachable room → Reachable (applyOp env op room)

/-- The number of cards in the deck, the discard pile and all hands. -/
def totalCards (room : Room) : Nat :=
  room.gameState.deck.length + room.gameState.discardPile.length +
    (room.players.map (fun p => p.cards.length)).sum

/-- The number of players with `isAlive = true`. -/
def aliveCount (room : Room) : Nat :=
  (room.players.filter (fun p => p.isAlive)).length

/-- The room of `createTestRoom()` in `test-engine.js`. -/
def testRoom : Room :=
  { code := "test_room", hostId := "player1",
    players :=
      [{ id := "player1", name := "Alice", coins := 2,
         cards := [some Role.duke, some Role.assassin], isAlive := true, connected := true,
         disconnectTime := none },
       { id := "player2", name := "Bob", coins := 2,
         cards := [some Role.captain, some Role.contessa], isAlive := true, connected := true,
         disconnectTime := none }],
    gameState :=
      { status := Status.playing, turnIndex := 0, currentPlayer := some "player1",
        deck := [some Role.ambassador, some Role.duke, some Role.assassin, some Role.captain,
                 some Role.contessa],
        discardPile := [], lastAction := none,
        phase := { type := PhaseType.TURN_START, data := PhaseData.empty }, log := [],
        challengeData := none, counterData := none, winner := none },
    lock := false, timer := none, immediates := 0 }

/-- A clock value and draws for the examples: every random index is 0, no
shuffle reorders, and the stack takes 8 nested calls. -/
def testEnv : Env :=
  { now := 100000, pick := fun _ => 0, key := fun _ => [], fuel := 8 }

/-- A lobby of two connected players, as `handleCreateRoom` and
`handleJoinRoom` build it. -/
def lobbyRoom : Room :=
  { createRoom "ROOM01" "player_a" with
    players :=
      [{ id := "player_a", name := "Ann", coins := 2, cards := [], isAlive := true,
         connected := true, disconnectTime := none },
       { id := "player_b", name := "Ben", coins := 2, cards := [], isAlive := true,
         connected := true, disconnectTime := none }] }

/-- A call returned a result that is not `null`. -/
def Outcome.accepted {α : Type} : Outcome (Option α) → Bool
  | Outcome.ok (some _) => true
  | _ => false

/-- What the disconnect sweep does to a player: nothing, or `isAlive = false`
with an empty hand. -/
def SweptPlayer (p q : Player) : Prop :=
  q = p ∨ q = { p with isAlive := false, cards := [] }

/-- What a phase transition and a change of turn leave alone: all of the room
but the phase, the turn, the winner, the log, the timer and the queue, and the
players up to the disconnect sweep. -/
structure TurnFrame (r r' : Room) : Prop where
  code : r'.code = r.code
  hostId : r'.hostId = r.hostId
  lock : r'.lock = r.lock
  status : r'.gameState.status = r.gameState.status
  deck : r'.gameState.deck = r.gameState.deck
  discardPile : r'.gameState.discardPile = r.gameState.discardPile
  lastAction : r'.gameState.lastAction = r.gameState.lastAction
  challengeData : r'.gameState.challengeData = r.gameState.challengeData
  counterData : r'.gameState.counterData = r.gameState.counterData
  players : List.Forall₂ SweptPlayer r.players r'.players

/-- The room of `testChallengeMechanism` in `test-engine.js` once Alice, who
holds no Duke, has declared tax. -/
def taxDeclaredRoom : Room :=
  (executeAction testEnv
    (testRoom.modify "player1" (fun p => { p with cards := [some Role.assassin, some Role.captain] }))
    "player1" ActionType.tax none).1

/-- The room of `testCounterMechanism` in `test-engine.js` once Bob, facing
Alice's Duke, has declared foreign aid. -/
def aidDeclaredRoom : Room :=
  (executeAction testEnv (testRoom.setGS (fun gs => { gs with currentPlayer := some "player2" }))
    "player2" ActionType.foreign_aid none).1

/-- The room of `testChallengeMechanism` in `test-engine.js`: Alice's hand is
replaced by Assassin and Captain, so she holds no Duke. -/
def bluffRoom : Room :=
  testRoom.modify "player1" (fun p => { p with cards := [some Role.assassin, some Role.captain] })

/-- Draws for the examples that start from the lobby: the first shuffle deals
Contessa and Duke to the first player and two Contessas to the second. -/
def lobbyEnv : Env :=
  { now := 100000, pick := fun _ => 0,
    key := fun k => if k = 0 then [0, 0, 1, 1, 1, 1, 1, 1, 1, 1, 1, 1, 1] else [],
    fuel := 8 }

/-- The game started from `lobbyRoom`. -/
def startedRoom : Room :=
  initializeGame lobbyEnv lobbyRoom

/-- The started game after a direct `nextTurn`, which makes Ben the current
player, and two declarations by Ben through the transport's
`handleExecuteAction`: tax, then foreign aid. -/
def twoWindowsRoom : Room :=
  applyOp lobbyEnv (Op.onExecuteAction "player_b" ActionType.foreign_aid none)
    (applyOp lobbyEnv (Op.onExecuteAction "player_b" ActionType.tax none)
      (applyOp lobbyEnv Op.nextTurn startedRoom))

/-- The room of `createTestRoom()` in which Bob went offline 70 seconds before
the clock value of `testEnv`, as in `testDisconnectedPlayerHandling`. -/
def lateSweepRoom : Room :=
  testRoom.modify "player2" (fun p => { p with connected := false, disconnectTime := some 30000 })

/-- What holds of every player of a started game: the coins are not negative,
and the hand holds two cards, or it is empty and the player is not alive. -/
def PlayerOK (p : Player) : Prop :=
  0 ≤ p.coins ∧ (p.cards.length = 2 ∨ (p.cards = [] ∧ p.isAlive = false))

/-- The invariant of a started game: every player is `PlayerOK`, at most six
players are seated, and deck and discard pile together hold the 15 cards less
two per seated player. -/
structure GameInv (r : Room) : Prop where
  players : ∀ p ∈ r.players, PlayerOK p
  seats : r.players.length ≤ 6
  piles : r.gameState.deck.length + r.gameState.discardPile.length + 2 * r.players.length = 15

/-- A change to a player that keeps the seat: id, name, coins and connectivity
stay, only the hand and `isAlive` may differ. -/
def KeepsSeat (f : Player → Player) : Prop :=
  ∀ p, (f p).id = p.id ∧ (f p).name = p.name ∧ (f p).coins = p.coins ∧
    (f p).connected = p.connected ∧ (f p).disconnectTime = p.disconnectTime

/-- The player as `forceEliminatePlayer` leaves it: `isAlive = false` and
`cards = []`. -/
def eliminated (p : Player) : Player :=
  { p with isAlive := false, cards := [] }

/-- The log line `forceEliminatePlayer` writes for a player. -/
def eliminationLine (p : Player) : String :=
  p.name ++ " 长时间未连接，被系统淘汰"

/-- The room of `createTestRoom()` in which Bob went offline exactly 60 seconds
before the clock value of `testEnv`. -/
def onTimeRoom : Room :=
  testRoom.modify "player2" (fun p => { p with connected := false, disconnectTime := some 40000 })

/-- A slot of a hand as `getFilteredGameState` shows it: the card itself, or
the string `'hidden'`. -/
inductive ShownCard where
  | card (c : Card)
  | hidden
  deriving DecidableEq, Repr

/-- An entry of `filteredPlayers`: `{ ...player, cards, cardsCount }`. -/
structure FilteredPlayer where
  id : PlayerId
  name : String
  coins : Int
  cards : List ShownCard
  isAlive : Bool
  connected : Bool
  disconnectTime : Option Nat
  cardsCount : Nat
  deriving DecidableEq, Repr

/-- An entry of `playersList`. -/
structure PlayerSummary where
  id : PlayerId
  name : String
  coins : Int
  cardsCount : Nat
  isAlive : Bool
  connected : Bool
  deriving DecidableEq, Repr

/-- The object `phase.data` as a reader of the room finds it: the shared
player object of `{ winner }` written out in full. -/
inductive PhaseDataObject where
  | empty
  | playerId (id : PlayerId)
  | winner (player : Option Player)
  deriving DecidableEq, Repr

/-- The value of `room.gameState.phase.data`, the winner's player object read
from `room.players`, where it sits. -/
def phaseDataObject (room : Room) : PhaseDataObject :=
  match room.gameState.phase.data with
  | PhaseData.empty => PhaseDataObject.empty
  | PhaseData.playerId id => PhaseDataObject.playerId id
  | PhaseData.winner ref => PhaseDataObject.winner (ref.bind room.get)

/-- The object `getFilteredGameState` returns: the copied fields of
`room.gameState` (`state`, a shallow copy, so that `state.phase.data` is the
phase data of the room itself, given in full as `phaseData`), the object
`players` as its entries in insertion order (key and value), and
`playersList`. -/
structure FilteredGameState where
  state : GameState
  phaseData : PhaseDataObject
  players : List (PlayerId × FilteredPlayer)
  playersList : List PlayerSummary
  deriving DecidableEq, Repr

/-- The method `getFilteredGameState(room, viewerId)`; `none` is the default
`viewerId = null`.  The method assigns to nothing in the room, so the room is
not part of the result. -/
def getFilteredGameState (room : Room) (viewerId : Option PlayerId) : FilteredGameState :=
  { state := room.gameState,
    phaseData := phaseDataObject room,
    players := room.players.map (fun player =>
      (player.id,
       { id := player.id, name := player.name, coins := player.coins,
         cards :=
           if viewerId = some player.id then player.cards.map ShownCard.card
           else List.replicate player.cards.length ShownCard.hidden,
         isAlive := player.isAlive, connected := player.connected,
         disconnectTime := player.disconnectTime, cardsCount := player.cards.length })),
    playersList := room.players.map (fun p =>
      { id := p.id, name := p.name, coins := p.coins, cardsCount := p.cards.length,
        isAlive := p.isAlive, connected := p.connected || false }) }

/-- Two players that differ at most in which cards they hold: the same fields
and the same number of cards, and the same cards when the player is the
viewer. -/
def SameButHand (viewerId : Option PlayerId) (p q : Player) : Prop :=
  q = { p with cards := q.cards } ∧ q.cards.length = p.cards.length ∧
    (viewerId = some p.id → q.cards = p.cards)

/-- The room of `createTestRoom()` in which both players went offline 10
seconds before the clock value of `testEnv`. -/
def allOfflineRoom : Room :=
  { testRoom with
    players := testRoom.players.map (fun p =>
      { p with connected := false, disconnectTime := some 90000 }) }

/-- The room differs from `r` at most in the players, the deck and the discard
pile. -/
structure PilesFrame (r s : Room) : Prop where
  code : s.code = r.code
  hostId : s.hostId = r.hostId
  lock : s.lock = r.lock
  timer : s.timer = r.timer
  immediates : s.immediates = r.immediates
  status : s.gameState.status = r.gameState.status
  turnIndex : s.gameState.turnIndex = r.gameState.turnIndex
  currentPlayer : s.gameState.currentPlayer = r.gameState.currentPlayer
  lastAction : s.gameState.lastAction = r.gameState.lastAction
  phase : s.gameState.phase = r.gameState.phase
  log : s.gameState.log = r.gameState.log
  challengeData : s.gameState.challengeData = r.gameState.challengeData
  counterData : s.gameState.counterData = r.gameState.counterData
  winner : s.gameState.winner = r.gameState.winner

/-- The ways a call of `executeAction` on `room` can end, `x` being the room
and the value it ends with: the room is returned as it was; the effect is
applied to players and piles and the call ends in `finishAction`; a counter
window is opened on a room changed in players and piles only; or a challenge
window is opened on the unchanged room, by an actor whose hand lacks the role
the action claims. -/
def DeclarationShape (env : Env) (room : Room) (id : PlayerId) (kind : ActionType)
    (x : Room × Outcome (Option ActionResult)) : Prop :=
  (∃ o, x = (room, Outcome.ok o)) ∨
    (∃ s ar, PilesFrame room s ∧ x = finishAction env s ar) ∨
    (∃ s cd ar, PilesFrame room s ∧
      x = (setPhase env.now (s.setGS (fun gs => { gs with counterData := some cd }))
            { type := PhaseType.COUNTER_WINDOW, data := PhaseData.empty },
           Outcome.ok (some ar))) ∨
    (∃ player ar, room.get id = some player ∧
      includesRole player.cards (requiredRole kind) = false ∧
      ar.type = kind ∧ ar.playerId = id ∧ x = openChallenge env room ar)

/-- The room of `createTestRoom()` in which Bob is no longer alive. -/
def lastOneRoom : Room :=
  testRoom.modify "player2" (fun p => { p with isAlive := false, cards := [] })

/-- The room of `createTestRoom()` in which Bob is no longer alive, after
`nextTurn`: the game is over and Alice has won. -/
def wonRoom : Room :=
  (nextTurn testEnv.now testEnv.fuel lastOneRoom).1

/-- The room of `createTestRoom()` in which Alice has 7 coins and Bob, still
alive, has no card left. -/
def emptyHandRoom : Room :=
  (testRoom.modify "player1" (fun p => { p with coins := 7 })).modify "player2"
    (fun p => { p with cards := [] })

/-- The rooms a game passes through: `initializeGame` on a fresh room, then any
calls except a direct `setPhase`, which the engine makes only from inside its
own methods. -/
inductive Played : Room → Prop where
  | init (env : Env) (room : Room) : FreshRoom room → Played (initializeGame env room)
  | step (env : Env) (op : Op) (room : Room) : (∀ p, op ≠ Op.setPhase p) → Played room →
      Played (applyOp env op room)

/-- The phase GAME_OVER is held only with at most one alive player. -/
def OverMeansOne (r : Room) : Prop :=
  r.gameState.phase.type = PhaseType.GAME_OVER → aliveCount r ≤ 1

/-- The step from `r` to `s` keeps the phase and revives nobody. -/
structure Quiet (r s : Room) : Prop where
  phase : s.gameState.phase = r.gameState.phase
  alive : aliveCount s ≤ aliveCount r

/-- The game started from `lobbyRoom` after its first `nextTurn`, the
disconnect of Ben, a `nextTurn` 100 seconds later, whose sweep eliminates Ben,
and one more `nextTurn`, which finds Ann the only one alive and ends the
game. -/
def overRoom : Room :=
  applyOp { lobbyEnv with now := 200000 } Op.nextTurn
    (applyOp { lobbyEnv with now := 200000 } Op.nextTurn
      (applyOp lobbyEnv (Op.disconnect "player_b") (applyOp lobbyEnv Op.nextTurn startedRoom)))

/-- The log line of an automatic skip. -/
def skipLine (p : Player) : String :=
  p.name ++ " 已断线，自动跳过回合"

/-- The alive players on the `d` seats that follow seat `i`, going round the
table, in the order of the seats. -/
def passedOver (ps : List Player) : Nat → Nat → List Player
  | _, 0 => []
  | i, d + 1 =>
    (match ps[(i + 1) % ps.length]? with
      | some p => if p.isAlive then [p] else []
      | none => []) ++ passedOver ps (i + 1) d

/-- Three at a table as in `test-security-upgrade.js`: Alice has the turn, Bob
went offline 10 seconds before the clock value of `testEnv`, Carol is
connected. -/
def threeRoom : Room :=
  { testRoom with
    players :=
      [{ id := "player1", name := "Alice", coins := 2,
         cards := [some Role.duke, some Role.assassin], isAlive := true, connected := true,
         disconnectTime := none },
       { id := "player2", name := "Bob", coins := 2,
         cards := [some Role.captain, some Role.contessa], isAlive := true, connected := false,
         disconnectTime := some 90000 },
       { id := "player3", name := "Carol", coins := 2,
         cards := [some Role.ambassador, some Role.duke], isAlive := true, connected := true,
         disconnectTime := none }],
    gameState := { testRoom.gameState with
      deck := [some Role.assassin, some Role.captain, some Role.contessa] } }

/-- The lobby of `lobbyRoom` after Ben's socket closed at clock value 39000,
which is 61 seconds before the clock value of `lobbyEnv`. -/
def staleLobbyRoom : Room :=
  SocketManager.handleDisconnect { lobbyEnv with now := 39000 } lobbyRoom "player_b"

/-- The 15 cards of the game: three of each role. -/
def fullDeck : List Card :=
  [Role.duke, Role.assassin, Role.captain, Role.ambassador, Role.contessa].flatMap
    (fun role => List.replicate 3 (some role))

/-- The player as the loop of `initializeGame` leaves it, holding `cards`. -/
def dealtPlayer (p : Player) (cards : List Card) : Player :=
  { p with coins := 2, cards := cards, isAlive := true }

/-- The room of `createTestRoom()` with the guard held and Alice, who has the
turn, offline since 10 seconds before the clock value of `testEnv`. -/
def lockedOfflineRoom : Room :=
  { testRoom.modify "player1" (fun p => { p with connected := false, disconnectTime := some 90000 })
    with lock := true }

/-- The room of `createTestRoom()` in which Alice has 7 coins. -/
def richRoom : Room :=
  testRoom.modify "player1" (fun p => { p with coins := 7 })

/-- A callback for `withLock` that logs `msg` and returns `v`. -/
def logging (msg : String) (v : Nat) (r : Room) : Room × Outcome (Option Nat) :=
  (r.pushLog msg, Outcome.ok (some v))

/-- The game of `bluffRoom` after Alice declared tax through the transport's
`handleExecuteAction`: challenge data is pending and the 20 second timer is
armed. -/
def armedRoom : Room :=
  SocketManager.handleExecuteAction testEnv bluffRoom "player1" ActionType.tax none

/-- Some alive player whose id satisfies `P` is connected: with such a player
at the table `nextTurn` finds somebody to give the turn to. -/
def Online (P : PlayerId → Prop) (r : Room) : Prop :=
  ∃ p ∈ r.players, p.isAlive = true ∧ p.connected = true ∧ P p.id

/-- The room of `createTestRoom()` in which Bob has no coins. -/
def brokeTargetRoom : Room :=
  testRoom.modify "player2" (fun p => { p with coins := 0 })

/-- The counter window of `aidDeclaredRoom` with Alice, the potential blocker,
holding Assassin and Captain instead of her Duke. -/
def noDukeRoom : Room :=
  aidDeclaredRoom.modify "player1"
    (fun p => { p with cards := [some Role.assassin, some Role.captain] })

/-- The room of `createTestRoom()` with Alice holding Captain and Duke. -/
def captainRoom : Room :=
  testRoom.modify "player1" (fun p => { p with cards := [some Role.captain, some Role.duke] })

/-- The room of `createTestRoom()` in which Bob has the turn and nobody holds
a Duke. -/
def noDukeAidRoom : Room :=
  (testRoom.modify "player1"
    (fun p => { p with cards := [some Role.assassin, some Role.captain] })).setGS
    (fun gs => { gs with currentPlayer := some "player2", turnIndex := 1 })

/-- A challenge window built by hand on the room of `createTestRoom()`: Alice,
who holds a Duke, is on record as having declared tax. -/
def provenTaxRoom : Room :=
  testRoom.setGS (fun gs =>
    { gs with
      phase := { type := PhaseType.CHALLENGE_WINDOW, data := PhaseData.empty },
      challengeData := some (ChallengeData.mk
        { playerId := "player1", playerName := "Alice", type := ActionType.tax,
          targetPlayerId := none, success := true, log := [] } []) })

/-- A challenge window built by hand on the room of `createTestRoom()`: Alice,
holding Ambassador and Assassin, is on record as having declared an
exchange. -/
def provenExchangeRoom : Room :=
  (testRoom.modify "player1"
    (fun p => { p with cards := [some Role.ambassador, some Role.assassin] })).setGS (fun gs =>
    { gs with
      phase := { type := PhaseType.CHALLENGE_WINDOW, data := PhaseData.empty },
      challengeData := some (ChallengeData.mk
        { playerId := "player1", playerName := "Alice", type := ActionType.exchange,
          targetPlayerId := none, success := true, log := [] } []) })

/-- The room of `createTestRoom()` with Alice holding Ambassador and
Assassin. -/
def ambassadorRoom : Room :=
  testRoom.modify "player1"
    (fun p => { p with cards := [some Role.ambassador, some Role.assassin] })

/-- The room of `createTestRoom()` in which Alice has 3 coins; Bob holds a
Contessa. -/
def threeCoinRoom : Room :=
  testRoom.modify "player1" (fun p => { p with coins := 3 })

/-- The counter window of Scenario C: in the room of `createTestRoom()` with 3
coins for Alice, she has declared the assassination of Bob, who holds a
Contessa. -/
def assassinationDeclaredRoom : Room :=
  (executeAction testEnv threeCoinRoom "player1" ActionType.assassinate (some "player2")).1

/-- The room of `testChallengeMechanism` (Alice holds Assassin and Captain, no
Duke) with a deck of three cards whose last card, the next one drawn, is a
Duke. -/
def dukeNextRoom : Room :=
  (testRoom.modify "player1"
    (fun p => { p with cards := [some Role.assassin, some Role.captain] })).setGS (fun gs =>
    { gs with deck := [some Role.ambassador, some Role.contessa, some Role.duke] })

/-- The challenge window Alice's tax opens on `dukeNextRoom`, with both players
gone offline 10 seconds before the clock value of `testEnv`. -/
def offlineWindowRoom : Room :=
  { (executeAction testEnv dukeNextRoom "player1" ActionType.tax none).1 with
    players := (executeAction testEnv dukeNextRoom "player1" ActionType.tax none).1.players.map
      (fun p => { p with connected := false, disconnectTime := some 90000 }) }

/-- The room Bob's challenge on `offlineWindowRoom` leaves when it throws, once
both players are back online. -/
def reopenedWindowRoom : Room :=
  SocketManager.handleReconnect
    (SocketManager.handleReconnect (handleChallenge testEnv offlineWindowRoom "player2").1
      "player1") "player2"

/-! ## The guard -/

theorem withLock_locked {α : Type} (room : Room) (fn : Room → Room × Outcome (Option α))
    (h : room.lock = true) : withLock room fn = (room, none) := by
  simp [withLock, h]

theorem setPhase_locked (now : Nat) (room : Room) (p : PhaseVal) (h : room.lock = true) :
    setPhase now room p = room := by
  simp [setPhase, withLock_locked _ _ h]

theorem withLock_of_ok {α : Type} (room : Room) (fn : Room → Room × Outcome (Option α))
    (h : room.lock = false) (r : Room) (v : Option α)
    (hfn : fn { room with lock := true } = (r, Outcome.ok v)) :
    withLock room fn = ({ r with lock := false }, v) := by
  simp [withLock, h, hfn]

theorem withLock_of_thrown {α : Type} (room : Room) (fn : Room → Room × Outcome (Option α))
    (h : room.lock = false) (r : Room)
    (hfn : fn { room with lock := true } = (r, Outcome.thrown)) :
    withLock room fn = ({ r with lock := false }, none) := by
  simp [withLock, h, hfn]

theorem withLock_lock_clear {α : Type} (room : Room) (fn : Room → Room × Outcome (Option α))
    (h : room.lock = false) : (withLock room fn).1.lock = false := by
  rcases hfn : fn { room with lock := true } with ⟨r, v | _⟩ <;> simp [withLock, h, hfn]

/-- C7: on a room whose lock flag is set, `withLock` returns null without
running the operation and leaves the room as it is; the closure of a timer
that expires while the lock is set does not run its callback either. -/
theorem withLock_rejects_when_locked {α : Type} (room : Room)
    (fn : Room → Room × Outcome (Option α)) (callback : Room → Room × Outcome Unit)
    (env : Env) (seconds : Nat) (cb : TimerCallback) (h : room.lock = true) :
    withLock room fn = (room, none) ∧ timerBody room callback = room ∧
      SocketManager.fireTimer env (startTimer room seconds cb) = { room with timer := none } := by
  refine ⟨withLock_locked room fn h, ?_, ?_⟩
  · simp [timerBody, withLock_locked _ _ h]
  · simp [SocketManager.fireTimer, startTimer, clearTimer, timerBody, withLock, h]

theorem withLock_rejects_when_locked_witness :
    ({ testRoom with lock := true }).lock = true ∧
      withLock { testRoom with lock := true }
          (fun r => (r.pushLog "ran", Outcome.ok (some true))) =
        ({ testRoom with lock := true }, none) ∧
      timerBody { testRoom with lock := true } (fun r => (r.pushLog "fired", Outcome.ok ())) =
        { testRoom with lock := true } :=
  ⟨rfl,
    (withLock_rejects_when_locked { testRoom with lock := true }
      (fun r => (r.pushLog "ran", Outcome.ok (some true)))
      (fun r => (r.pushLog "fired", Outcome.ok ())) testEnv 20
      TimerCallback.resolveChallengeTimeout rfl).1,
    (withLock_rejects_when_locked { testRoom with lock := true }
      (fun r => (r.pushLog "ran", (Outcome.ok (some true) : Outcome (Option Bool))))
      (fun r => (r.pushLog "fired", Outcome.ok ())) testEnv 20
      TimerCallback.resolveChallengeTimeout rfl).2.1⟩

/-- C8: on a room whose lock flag is clear, `withLock` ends with the lock flag
clear whether the operation returns or throws; it hands back the operation's
result when the operation returns, and null, not the fault, when it throws. -/
theorem withLock_releases {α : Type} (room : Room) (fn : Room → Room × Outcome (Option α))
    (h : room.lock = false) :
    (withLock room fn).1.lock = false ∧
      (∀ r v, fn { room with lock := true } = (r, Outcome.ok v) →
        withLock room fn = ({ r with lock := false }, v)) ∧
      (∀ r, fn { room with lock := true } = (r, Outcome.thrown) →
        withLock room fn = ({ r with lock := false }, none)) := by
  exact ⟨withLock_lock_clear room fn h, withLock_of_ok room fn h, withLock_of_thrown room fn h⟩

theorem withLock_releases_witness :
    (withLock testRoom
        (fun r => (r.pushLog "half done", (Outcome.thrown : Outcome (Option Bool))))).1.lock
        = false ∧
      withLock testRoom (fun r => (r.pushLog "done", Outcome.ok (some true))) =
        (testRoom.pushLog "done", some true) :=
  ⟨(withLock_releases testRoom (fun r => (r.pushLog "half done", Outcome.thrown)) rfl).1,
    (withLock_releases testRoom (fun r => (r.pushLog "done", Outcome.ok (some true))) rfl).2.1
      _ _ rfl⟩

/-- C9: when an operation running under `withLock` calls `withLock` on the
same room, the inner call returns null without running its operation, and the
outer call goes on with that null, hands back its own result and releases the
lock.  The outer operation is `pre`, then the inner call, then `post`; `pre`
does not touch the lock flag. -/
theorem withLock_not_reentrant {α β : Type} (room : Room) (pre : Room → Room)
    (inner : Room → Room × Outcome (Option β))
    (post : Room × Option β → Room × Outcome (Option α))
    (h : room.lock = false) (hpre : ∀ r, (pre r).lock = r.lock) :
    withLock room (fun r => post (withLock (pre r) inner)) =
        withLock room (fun r => post (pre r, none)) ∧
      (withLock room (fun r => post (withLock (pre r) inner))).1.lock = false ∧
      (∀ r v, post (pre { room with lock := true }, none) = (r, Outcome.ok v) →
        (withLock room (fun r => post (withLock (pre r) inner))).2 = v) := by
  have hin : withLock (pre { room with lock := true }) inner
      = (pre { room with lock := true }, none) := withLock_locked _ _ (by rw [hpre])
  have heq : withLock room (fun r => post (withLock (pre r) inner)) =
      withLock room (fun r => post (pre r, none)) := by
    simp only [withLock, h]
    simp only [withLock] at hin
    simp [hin]
  refine ⟨heq, ?_, ?_⟩
  · exact withLock_lock_clear room _ h
  · intro r v hp
    rw [heq, withLock_of_ok room _ h r v hp]

theorem withLock_not_reentrant_witness :
    testRoom.lock = false ∧
      withLock testRoom (fun r =>
          ((withLock (r.pushLog "outer")
            (fun r1 => (r1.pushLog "inner", (Outcome.ok (some 1) : Outcome (Option Nat))))).1,
            (Outcome.ok (some 2) : Outcome (Option Nat)))) =
        withLock testRoom (fun r => (r.pushLog "outer", Outcome.ok (some 2))) :=
  ⟨rfl,
    (withLock_not_reentrant testRoom (fun r => r.pushLog "outer")
      (fun r1 => (r1.pushLog "inner", (Outcome.ok (some 1) : Outcome (Option Nat))))
      (fun x => (x.1, (Outcome.ok (some 2) : Outcome (Option Nat)))) rfl (fun _ => rfl)).1⟩

/-! ## What a change of turn leaves alone -/

theorem sweptPlayer_refl (p : Player) : SweptPlayer p p := Or.inl rfl

theorem sweptPlayer_trans {p q s : Player} (h1 : SweptPlayer p q) (h2 : SweptPlayer q s) :
    SweptPlayer p s := by
  rcases h1 with rfl | rfl
  · exact h2
  · rcases h2 with rfl | rfl
    · exact Or.inr rfl
    · exact Or.inr rfl

theorem swept_refl (ps : List Player) : List.Forall₂ SweptPlayer ps ps := by
  induction ps with
  | nil => exact List.Forall₂.nil
  | cons p ps ih => exact List.Forall₂.cons (sweptPlayer_refl p) ih

theorem swept_trans {ps qs ss : List Player} (h1 : List.Forall₂ SweptPlayer ps qs)
    (h2 : List.Forall₂ SweptPlayer qs ss) : List.Forall₂ SweptPlayer ps ss := by
  induction h1 generalizing ss with
  | nil => cases h2; exact List.Forall₂.nil
  | cons hpq _ ih =>
    cases h2 with
    | cons hqs hrest => exact List.Forall₂.cons (sweptPlayer_trans hpq hqs) (ih hrest)

theorem swept_modify (ps : List Player) (id : PlayerId) :
    List.Forall₂ SweptPlayer ps
      (modifyPlayer ps id (fun p => { p with isAlive := false, cards := [] })) := by
  induction ps with
  | nil => exact List.Forall₂.nil
  | cons p ps ih =>
    simp only [modifyPlayer]
    split
    · exact List.Forall₂.cons (Or.inr rfl) (swept_refl ps)
    · exact List.Forall₂.cons (Or.inl rfl) ih

theorem turnFrame_refl (r : Room) : TurnFrame r r :=
  ⟨rfl, rfl, rfl, rfl, rfl, rfl, rfl, rfl, rfl, swept_refl _⟩

theorem turnFrame_trans {r s t : Room} (h1 : TurnFrame r s) (h2 : TurnFrame s t) :
    TurnFrame r t :=
  ⟨h2.code.trans h1.code, h2.hostId.trans h1.hostId, h2.lock.trans h1.lock,
    h2.status.trans h1.status, h2.deck.trans h1.deck, h2.discardPile.trans h1.discardPile,
    h2.lastAction.trans h1.lastAction, h2.challengeData.trans h1.challengeData,
    h2.counterData.trans h1.counterData, swept_trans h1.players h2.players⟩

theorem turnFrame_pushLog (r : Room) (msg : String) : TurnFrame r (r.pushLog msg) :=
  ⟨rfl, rfl, rfl, rfl, rfl, rfl, rfl, rfl, rfl, swept_refl _⟩

theorem turnFrame_forceEliminate (r : Room) (id : PlayerId) :
    TurnFrame r (forceEliminatePlayer r id) := by
  unfold forceEliminatePlayer
  split
  · exact turnFrame_refl r
  · exact ⟨rfl, rfl, rfl, rfl, rfl, rfl, rfl, rfl, rfl, swept_modify _ _⟩

theorem turnFrame_foldl_forceEliminate (l : List Player) (r : Room) :
    TurnFrame r (l.foldl (fun r p => forceEliminatePlayer r p.id) r) := by
  induction l generalizing r with
  | nil => exact turnFrame_refl r
  | cons p l ih => exact turnFrame_trans (turnFrame_forceEliminate r p.id) (ih _)

theorem turnFrame_checkDisconnected (now : Nat) (r : Room) :
    TurnFrame r (checkDisconnectedPlayers now r) :=
  turnFrame_foldl_forceEliminate _ r

theorem setPhase_unlocked (now : Nat) (r : Room) (p : PhaseVal) (h : r.lock = false) :
    setPhase now r p =
      { checkDisconnectedPlayers now
          ((clearTimer { r with lock := true }).setGS (fun gs => { gs with phase := p })) with
        immediates := (checkDisconnectedPlayers now
          ((clearTimer { r with lock := true }).setGS
            (fun gs => { gs with phase := p }))).immediates + 1,
        lock := false } := by
  simp [setPhase, withLock, h]

theorem turnFrame_setPhase (now : Nat) (r : Room) (p : PhaseVal) :
    TurnFrame r (setPhase now r p) := by
  cases h : r.lock with
  | true => rw [setPhase_locked now r p h]; exact turnFrame_refl r
  | false =>
    rw [setPhase_unlocked now r p h]
    have hf := turnFrame_checkDisconnected now
      ((clearTimer { r with lock := true }).setGS (fun gs => { gs with phase := p }))
    exact ⟨hf.code, hf.hostId, h.symm, hf.status, hf.deck, hf.discardPile, hf.lastAction,
      hf.challengeData, hf.counterData, hf.players⟩

theorem turnFrame_nextTurnBody (now : Nat) (recurse : Room → Room × Outcome Unit)
    (hrec : ∀ r, TurnFrame r (recurse r).1) (r : Room) :
    TurnFrame r (nextTurnBody now recurse r).1 := by
  unfold nextTurnBody
  simp only
  split
  · refine turnFrame_trans ?_ (turnFrame_setPhase _ _ _)
    exact ⟨rfl, rfl, rfl, rfl, rfl, rfl, rfl, rfl, rfl, swept_refl _⟩
  · split
    · exact turnFrame_refl r
    · split
      · exact turnFrame_refl r
      · split
        · refine turnFrame_trans ?_ (hrec _)
          exact ⟨rfl, rfl, rfl, rfl, rfl, rfl, rfl, rfl, rfl, swept_refl _⟩
        · refine turnFrame_trans ?_ (turnFrame_setPhase _ _ _)
          exact ⟨rfl, rfl, rfl, rfl, rfl, rfl, rfl, rfl, rfl, swept_refl _⟩

theorem turnFrame_nextTurn (now fuel : Nat) (r : Room) :
    TurnFrame r (nextTurn now fuel r).1 := by
  induction fuel generalizing r with
  | zero => exact turnFrame_nextTurnBody now _ (fun r => turnFrame_refl r) r
  | succ n ih => exact turnFrame_nextTurnBody now _ ih r

theorem handleChallenge_no_data (env : Env) (room : Room) (c : PlayerId)
    (h : room.gameState.challengeData = none) :
    handleChallenge env room c = (room, Outcome.ok none) := by
  unfold handleChallenge
  split
  · rfl
  · simp [h]

theorem handleCounter_no_data (env : Env) (room : Room) (b : PlayerId) (block : Bool)
    (h : room.gameState.counterData = none) :
    handleCounter env room b block = (room, Outcome.ok none) := by
  unfold handleCounter
  split
  · rfl
  · simp [h]

theorem handleChallenge_accepted_clears (env : Env) (room r : Room) (c : PlayerId)
    (out : Outcome (Option ChallengeResult)) (h : handleChallenge env room c = (r, out))
    (ha : out.accepted = true) : r.gameState.challengeData = none := by
  unfold handleChallenge at h
  simp only at h
  repeat' split at h
  all_goals (cases h; first | (simp [Outcome.accepted] at ha; done) | simp [Room.setGS])

theorem handleCounter_accepted_clears (env : Env) (room r : Room) (b : PlayerId) (block : Bool)
    (out : Outcome (Option CounterResult)) (h : handleCounter env room b block = (r, out))
    (ha : out.accepted = true) : r.gameState.counterData = none := by
  unfold handleCounter at h
  split at h
  · cases h; simp [Outcome.accepted] at ha
  · split at h
    · cases h; simp [Outcome.accepted] at ha
    · split at h
      · cases h; simp [Outcome.accepted] at ha
      · split at h
        · cases h; simp [Outcome.accepted] at ha
        · split at h
          · cases h; simp [Outcome.accepted] at ha
          · split at h
            · rename_i hnt
              cases h
              have h1 := congrArg (fun x => x.1.gameState.counterData) hnt
              simp only [(turnFrame_nextTurn _ _ _).counterData] at h1
              simpa [Room.setGS] using h1.symm
            · cases h; simp [Outcome.accepted] at ha

/-- C4: once `handleChallenge` (respectively `handleCounter`) has been accepted
and has returned its result, a second call by any player returns null and
leaves the whole room as it is, so no coins, hand, deck, discard pile, current
player or phase changes. -/
theorem second_response_rejected (env env2 : Env) (room : Room) :
    (∀ c c2, (handleChallenge env room c).2.accepted = true →
      handleChallenge env2 (handleChallenge env room c).1 c2 =
        ((handleChallenge env room c).1, Outcome.ok none)) ∧
    (∀ b block b2 block2, (handleCounter env room b block).2.accepted = true →
      handleCounter env2 (handleCounter env room b block).1 b2 block2 =
        ((handleCounter env room b block).1, Outcome.ok none)) :=
  ⟨fun c c2 h =>
    handleChallenge_no_data env2 _ c2 (handleChallenge_accepted_clears env room _ c _ rfl h),
   fun b block b2 block2 h =>
    handleCounter_no_data env2 _ b2 block2
      (handleCounter_accepted_clears env room _ b block _ rfl h)⟩


theorem second_response_rejected_witness :
    ((handleChallenge testEnv taxDeclaredRoom "player2").2.accepted = true ∧
      handleChallenge testEnv (handleChallenge testEnv taxDeclaredRoom "player2").1 "player2" =
        ((handleChallenge testEnv taxDeclaredRoom "player2").1, Outcome.ok none)) ∧
    ((handleCounter testEnv aidDeclaredRoom "player1" true).2.accepted = true ∧
      handleCounter testEnv (handleCounter testEnv aidDeclaredRoom "player1" true).1 "player1" true =
        ((handleCounter testEnv aidDeclaredRoom "player1" true).1, Outcome.ok none)) :=
  ⟨⟨by decide, (second_response_rejected testEnv testEnv taxDeclaredRoom).1 _ _ (by decide)⟩,
   ⟨by decide, (second_response_rejected testEnv testEnv aidDeclaredRoom).2 _ _ _ _ (by decide)⟩⟩

/-- C10: a tax declaration run inside `withLock` on a free room, by the current
player, alive and holding no Duke, in phase TURN_START, records the pending
challenge for the tax but leaves the phase as it was, TURN_START: the
`setPhase` call inside `executeAction` finds the lock set and is dropped. -/
theorem tax_under_lock_keeps_phase (env : Env) (room : Room) (playerId : PlayerId)
    (target : Option PlayerId) (player : Player) (hlock : room.lock = false)
    (hget : room.get playerId = some player) (halive : player.isAlive = true)
    (hphase : room.gameState.phase.type = PhaseType.TURN_START)
    (hcur : room.gameState.currentPlayer = some playerId)
    (hduke : player.cards.contains (some Role.duke) = false) :
    (SocketManager.handleExecuteAction env room playerId ActionType.tax target).gameState.phase
        = room.gameState.phase ∧
      (SocketManager.handleExecuteAction env room playerId ActionType.tax
          target).gameState.phase.type ≠ PhaseType.CHALLENGE_WINDOW ∧
      (SocketManager.handleExecuteAction env room playerId ActionType.tax
          target).gameState.challengeData.map (fun c => c.action.type) = some ActionType.tax := by
  have hget' : ({ room with lock := true } : Room).get playerId = some player := hget
  have hex : executeAction env { room with lock := true } playerId ActionType.tax target =
      (({ room with lock := true } : Room).setGS (fun gs =>
        { gs with challengeData := some (ChallengeData.mk
            (ActionResult.mk playerId player.name ActionType.tax target true
              [player.name ++ " 声称拥有公爵，征收税金"]) []) }),
        Outcome.ok (some (ActionResult.mk playerId player.name ActionType.tax target true
              [player.name ++ " 声称拥有公爵，征收税金"]))) := by
    unfold executeAction
    simp only [hget', halive, hphase, hcur, hduke, openChallenge]
    simp [setPhase_locked, Room.setGS]
  simp [SocketManager.handleExecuteAction, hphase, hcur, withLock, hlock,
    SocketManager.executeActionLocked, hex, Room.setGS, startTimer, clearTimer]

theorem tax_under_lock_keeps_phase_witness :
    (SocketManager.handleExecuteAction testEnv bluffRoom "player1" ActionType.tax
        none).gameState.phase.type = PhaseType.TURN_START ∧
      (SocketManager.handleExecuteAction testEnv bluffRoom "player1" ActionType.tax
        none).gameState.challengeData.map (fun c => c.action.type) = some ActionType.tax := by
  have h := tax_under_lock_keeps_phase testEnv bluffRoom "player1" none
    { id := "player1", name := "Alice", coins := 2,
      cards := [some Role.assassin, some Role.captain], isAlive := true, connected := true,
      disconnectTime := none } rfl (by decide) rfl rfl rfl (by decide)
  exact ⟨by rw [h.1]; rfl, h.2.2⟩

theorem freshRoom_lobbyRoom : FreshRoom lobbyRoom :=
  ⟨rfl, by decide, by decide, by decide⟩

/-- C3: the started game of `lobbyRoom`, after a direct `nextTurn` and two
declarations sent through the transport (tax by a player without Duke, then
foreign aid while another player holds Duke), is a reachable room in which
`challengeData` and `counterData` are both set, with the phase still
TURN_START. -/
theorem both_windows_pending :
    Reachable twoWindowsRoom ∧ twoWindowsRoom.gameState.challengeData.isSome = true ∧
      twoWindowsRoom.gameState.counterData.isSome = true ∧
      twoWindowsRoom.gameState.phase.type = PhaseType.TURN_START :=
  ⟨Reachable.step _ _ _ (Reachable.step _ _ _ (Reachable.step _ _ _
      (Reachable.init lobbyEnv lobbyRoom freshRoom_lobbyRoom))),
    by decide, by decide, by decide⟩

theorem forceEliminate_gameState (r : Room) (id : PlayerId) :
    ∃ log, (forceEliminatePlayer r id).gameState = { r.gameState with log := log } := by
  unfold forceEliminatePlayer
  split
  · exact ⟨r.gameState.log, rfl⟩
  · exact ⟨_, rfl⟩

theorem foldl_forceEliminate_gameState (l : List Player) (r : Room) :
    ∃ log, (l.foldl (fun r p => forceEliminatePlayer r p.id) r).gameState =
      { r.gameState with log := log } := by
  induction l generalizing r with
  | nil => exact ⟨r.gameState.log, rfl⟩
  | cons p l ih =>
    obtain ⟨log1, h1⟩ := forceEliminate_gameState r p.id
    obtain ⟨log2, h2⟩ := ih (forceEliminatePlayer r p.id)
    exact ⟨log2, by simp only [List.foldl_cons, h2, h1]⟩

theorem checkDisconnected_gameState (now : Nat) (r : Room) :
    ∃ log, (checkDisconnectedPlayers now r).gameState = { r.gameState with log := log } :=
  foldl_forceEliminate_gameState _ r

theorem setPhase_gameState_unlocked (now : Nat) (r : Room) (p : PhaseVal) (h : r.lock = false) :
    ∃ log, (setPhase now r p).gameState = { r.gameState with phase := p, log := log } := by
  rw [setPhase_unlocked now r p h]
  obtain ⟨log, hl⟩ := checkDisconnected_gameState now
    ((clearTimer { r with lock := true }).setGS (fun gs => { gs with phase := p }))
  exact ⟨log, by simp only [hl]; rfl⟩

theorem setPhase_currentPlayer (now : Nat) (r : Room) (p : PhaseVal) :
    (setPhase now r p).gameState.currentPlayer = r.gameState.currentPlayer := by
  cases h : r.lock with
  | true => rw [setPhase_locked now r p h]
  | false =>
    obtain ⟨log, hl⟩ := setPhase_gameState_unlocked now r p h
    rw [hl]

theorem checkDisconnected_none (now : Nat) (r : Room)
    (h : ∀ p ∈ r.players, disconnectedTooLong now p = false) :
    checkDisconnectedPlayers now r = r := by
  unfold checkDisconnectedPlayers
  have : r.players.filter (disconnectedTooLong now) = [] := by
    rw [List.filter_eq_nil_iff]
    intro p hp
    simp [h p hp]
  rw [this]
  rfl

theorem drawCard_room (key : List Nat) (r : Room) :
    (drawCard key r).1 = { r with gameState :=
      { r.gameState with deck := (drawCard key r).1.gameState.deck,
                         discardPile := (drawCard key r).1.gameState.discardPile } } := by
  unfold drawCard
  split <;> rfl

theorem dealPlayers_room (key : List Nat) (ps : List Player) (r : Room) :
    (dealPlayers key ps r).2 = { r with gameState :=
      { r.gameState with deck := (dealPlayers key ps r).2.gameState.deck,
                         discardPile := (dealPlayers key ps r).2.gameState.discardPile } } := by
  induction ps generalizing r with
  | nil => rfl
  | cons p ps ih =>
    simp only [dealPlayers]
    rw [ih, drawCard_room key (drawCard key r).1, drawCard_room key r]

/-- C5: `initializeGame` does not set `gameState.currentPlayer`; started from a
freshly created room, whose current player is null, the game begins with no
current player at all. -/
theorem initializeGame_no_current_player (env : Env) (room : Room) (h : FreshRoom room) :
    (initializeGame env room).gameState.currentPlayer = none := by
  have h0 : room.gameState.currentPlayer = none := by
    rw [h.1]
    rfl
  unfold initializeGame
  simp only [setPhase_currentPlayer]
  rw [dealPlayers_room]
  exact h0

theorem initializeGame_no_current_player_witness :
    FreshRoom lobbyRoom ∧ (initializeGame lobbyEnv lobbyRoom).gameState.currentPlayer = none :=
  ⟨freshRoom_lobbyRoom, initializeGame_no_current_player lobbyEnv lobbyRoom freshRoom_lobbyRoom⟩

/-- C6, as stated, fails: with Alice connected and Bob offline for 70 seconds,
`nextTurn` on the free room counts two alive players, passes over Bob, chooses
Alice and only then sweeps Bob out in `setPhase`; it returns with one alive
player and the phase TURN_START. -/
theorem nextTurn_sweeps_after_count :
    lateSweepRoom.lock = false ∧
      (nextTurn testEnv.now testEnv.fuel lateSweepRoom).2 = Outcome.ok () ∧
      ¬ (2 ≤ aliveCount (nextTurn testEnv.now testEnv.fuel lateSweepRoom).1 ∨
          (nextTurn testEnv.now testEnv.fuel lateSweepRoom).1.gameState.phase.type =
            PhaseType.GAME_OVER) := by
  decide

theorem setPhase_phase_unlocked (now : Nat) (r : Room) (p : PhaseVal) (h : r.lock = false) :
    (setPhase now r p).gameState.phase = p := by
  obtain ⟨log, hl⟩ := setPhase_gameState_unlocked now r p h
  rw [hl]

theorem setPhase_players_quiet (now : Nat) (r : Room) (p : PhaseVal)
    (hq : ∀ q ∈ r.players, disconnectedTooLong now q = false) :
    (setPhase now r p).players = r.players := by
  cases h : r.lock with
  | true => rw [setPhase_locked now r p h]
  | false =>
    rw [setPhase_unlocked now r p h]
    simp only
    rw [checkDisconnected_none now
      ((clearTimer { r with lock := true }).setGS (fun gs => { gs with phase := p })) hq]
    rfl

theorem nextTurnBody_alive_or_over (now : Nat) (recurse : Room → Room × Outcome Unit)
    (hrec : ∀ r r', r.lock = false → recurse r = (r', Outcome.ok ()) →
      (r'.gameState.phase.type = PhaseType.GAME_OVER ∨
        (2 ≤ aliveCount r ∧ r'.gameState.phase.type = PhaseType.TURN_START)) ∧
      ((∀ p ∈ r.players, disconnectedTooLong now p = false) →
        2 ≤ aliveCount r' ∨ r'.gameState.phase.type = PhaseType.GAME_OVER))
    (r r' : Room) (hlock : r.lock = false)
    (hret : nextTurnBody now recurse r = (r', Outcome.ok ())) :
    (r'.gameState.phase.type = PhaseType.GAME_OVER ∨
        (2 ≤ aliveCount r ∧ r'.gameState.phase.type = PhaseType.TURN_START)) ∧
      ((∀ p ∈ r.players, disconnectedTooLong now p = false) →
        2 ≤ aliveCount r' ∨ r'.gameState.phase.type = PhaseType.GAME_OVER) := by
  unfold nextTurnBody at hret
  simp only at hret
  split at hret
  · cases hret
    have hp := setPhase_phase_unlocked now
      (r.setGS (fun gs => { gs with winner :=
        (r.players.filter (fun p => p.isAlive)).head?.map (fun p => p.id) }))
      { type := PhaseType.GAME_OVER,
        data := PhaseData.winner
          ((r.players.filter (fun p => p.isAlive)).head?.map (fun p => p.id)) } hlock
    simp only [hp]
    exact ⟨Or.inl trivial, fun _ => Or.inr trivial⟩
  · rename_i halive
    have h2 : 2 ≤ aliveCount r := by
      unfold aliveCount
      omega
    split at hret
    · cases hret
    · split at hret
      · cases hret
      · rename_i nextIndex currentPlayer _
        split at hret
        · have := hrec _ _ (by exact hlock) hret
          exact ⟨this.1.imp id (fun h => ⟨h2, h.2⟩), fun hq => this.2 hq⟩
        · cases hret
          refine ⟨Or.inr ⟨h2, ?_⟩, fun hq => Or.inl ?_⟩
          · rw [setPhase_phase_unlocked now _ _ (by exact hlock)]
          · unfold aliveCount
            rw [setPhase_players_quiet now _ _ (by exact hq)]
            exact h2

/-- C6, amended: whenever `nextTurn` returns on a room whose guard is free,
either the phase is GAME_OVER, or the phase is TURN_START and at least two
players were alive when `nextTurn` counted them.  The disconnect sweep runs in
the closing `setPhase`, after the count and the choice of the next player; so
on return at least two players are alive or the phase is GAME_OVER provided no
player has been disconnected for more than 60 seconds. -/
theorem nextTurn_alive_or_over (now fuel : Nat) (room room' : Room)
    (hlock : room.lock = false) (hret : nextTurn now fuel room = (room', Outcome.ok ())) :
    (room'.gameState.phase.type = PhaseType.GAME_OVER ∨
        (2 ≤ aliveCount room ∧ room'.gameState.phase.type = PhaseType.TURN_START)) ∧
      ((∀ p ∈ room.players, disconnectedTooLong now p = false) →
        2 ≤ aliveCount room' ∨ room'.gameState.phase.type = PhaseType.GAME_OVER) := by
  induction fuel generalizing room room' with
  | zero =>
    exact nextTurnBody_alive_or_over now _
      (fun r r' _ h => by cases h) room room' hlock hret
  | succ n ih =>
    exact nextTurnBody_alive_or_over now _ (fun r r' hl h => ih r r' hl h) room room' hlock hret

theorem nextTurn_alive_or_over_witness :
    testRoom.lock = false ∧
      nextTurn testEnv.now testEnv.fuel testRoom =
        ((nextTurn testEnv.now testEnv.fuel testRoom).1, Outcome.ok ()) ∧
      (2 ≤ aliveCount (nextTurn testEnv.now testEnv.fuel testRoom).1 ∨
        (nextTurn testEnv.now testEnv.fuel testRoom).1.gameState.phase.type =
          PhaseType.GAME_OVER) :=
  ⟨rfl, by decide,
    (nextTurn_alive_or_over testEnv.now testEnv.fuel testRoom _ rfl (by decide)).2
      (by decide)⟩

/-! ## The invariant of a started game -/

theorem getPlayer_mem {ps : List Player} {id : PlayerId} {p : Player}
    (h : getPlayer ps id = some p) : p ∈ ps :=
  List.mem_of_find?_eq_some h

theorem getPlayer_id {ps : List Player} {id : PlayerId} {p : Player}
    (h : getPlayer ps id = some p) : p.id = id := by
  have := List.find?_some h
  simpa using this

theorem mem_modifyPlayer {ps : List Player} {id : PlayerId} {f : Player → Player} {q : Player}
    (h : q ∈ modifyPlayer ps id f) :
    q ∈ ps ∨ ∃ p, getPlayer ps id = some p ∧ q = f p := by
  induction ps with
  | nil => simp [modifyPlayer] at h
  | cons p ps ih =>
    simp only [modifyPlayer] at h
    by_cases hp : (p.id == id) = true
    · rw [if_pos hp] at h
      rcases List.mem_cons.1 h with h1 | h1
      · exact Or.inr ⟨p, by simp [getPlayer, List.find?, hp], h1⟩
      · exact Or.inl (List.mem_cons_of_mem _ h1)
    · rw [if_neg hp] at h
      rcases List.mem_cons.1 h with h1 | h1
      · exact Or.inl (h1 ▸ List.mem_cons_self _ _)
      · rcases ih h1 with h2 | ⟨p', hp', hq⟩
        · exact Or.inl (List.mem_cons_of_mem _ h2)
        · refine Or.inr ⟨p', ?_, hq⟩
          simp only [getPlayer, List.find?] at hp' ⊢
          simp only [Bool.not_eq_true] at hp
          simp [hp, hp']

theorem length_modifyPlayer (ps : List Player) (id : PlayerId) (f : Player → Player) :
    (modifyPlayer ps id f).length = ps.length := by
  induction ps with
  | nil => rfl
  | cons p ps ih =>
    simp only [modifyPlayer]
    split <;> simp [ih]

theorem gameInv_modify {r : Room} (h : GameInv r) (id : PlayerId) (f : Player → Player)
    (hf : ∀ p, r.get id = some p → PlayerOK p → PlayerOK (f p)) : GameInv (r.modify id f) := by
  refine ⟨?_, ?_, ?_⟩
  · intro q hq
    rcases mem_modifyPlayer hq with h1 | ⟨p, hp, rfl⟩
    · exact h.players q h1
    · exact hf p hp (h.players p (getPlayer_mem hp))
  · simpa [Room.modify, length_modifyPlayer] using h.seats
  · simpa [Room.modify, length_modifyPlayer] using h.piles

theorem gameInv_setGS {r : Room} (h : GameInv r) (f : GameState → GameState)
    (hf : (f r.gameState).deck.length + (f r.gameState).discardPile.length =
      r.gameState.deck.length + r.gameState.discardPile.length) : GameInv (r.setGS f) :=
  ⟨h.players, h.seats, by
    have := h.piles
    simp only [Room.setGS]
    omega⟩

theorem gameInv_pushLog {r : Room} (h : GameInv r) (msg : String) : GameInv (r.pushLog msg) :=
  gameInv_setGS h _ rfl

theorem playerOK_swept {p q : Player} (h : SweptPlayer p q) (hp : PlayerOK p) : PlayerOK q := by
  rcases h with rfl | rfl
  · exact hp
  · exact ⟨hp.1, Or.inr ⟨rfl, rfl⟩⟩

theorem swept_mem {ps qs : List Player} (h : List.Forall₂ SweptPlayer ps qs) {q : Player}
    (hq : q ∈ qs) : ∃ p, p ∈ ps ∧ SweptPlayer p q := by
  induction h with
  | nil => cases hq
  | cons hab _ ih =>
    rcases List.mem_cons.1 hq with h1 | h1
    · exact ⟨_, List.mem_cons_self _ _, h1 ▸ hab⟩
    · obtain ⟨p, hp, hpq⟩ := ih h1
      exact ⟨p, List.mem_cons_of_mem _ hp, hpq⟩

theorem gameInv_turnFrame {r r' : Room} (h : GameInv r) (hf : TurnFrame r r') : GameInv r' := by
  have hlen : r'.players.length = r.players.length := hf.players.length_eq.symm
  refine ⟨?_, ?_, ?_⟩
  · intro q hq
    obtain ⟨p, hp, hpq⟩ := swept_mem hf.players hq
    exact playerOK_swept hpq (h.players p hp)
  · rw [hlen]; exact h.seats
  · rw [hlen, hf.deck, hf.discardPile]; exact h.piles

theorem gameInv_lock {r : Room} (h : GameInv r) (b : Bool) : GameInv { r with lock := b } :=
  ⟨h.players, h.seats, h.piles⟩

theorem gameInv_withLock {α : Type} {r : Room} (h : GameInv r)
    (fn : Room → Room × Outcome (Option α)) (hfn : ∀ s, GameInv s → GameInv (fn s).1) :
    GameInv (withLock r fn).1 := by
  unfold withLock
  split
  · exact h
  · have := hfn _ (gameInv_lock h true)
    split
    · rename_i r1 v heq
      rw [heq] at this
      exact gameInv_lock this false
    · rename_i r1 heq
      rw [heq] at this
      exact gameInv_lock this false

theorem gameInv_setPhase {r : Room} (h : GameInv r) (now : Nat) (p : PhaseVal) :
    GameInv (setPhase now r p) :=
  gameInv_turnFrame h (turnFrame_setPhase now r p)

theorem gameInv_nextTurn {r : Room} (h : GameInv r) (now fuel : Nat) :
    GameInv (nextTurn now fuel r).1 :=
  gameInv_turnFrame h (turnFrame_nextTurn now fuel r)

theorem length_permute {α : Type} (key : List Nat) (l : List α) :
    (permute key l).length = l.length := by
  induction key generalizing l with
  | nil => rfl
  | cons k ks ih =>
    simp only [permute]
    split
    · rename_i y hy
      obtain ⟨hlt, _⟩ := List.getElem?_eq_some.1 hy
      simp only [List.length_cons, ih, List.length_eraseIdx, hlt, if_true]
      omega
    · rfl

theorem length_filter_some_none (l : List Card) :
    (l.filter Option.isSome).length + (l.filter Option.isNone).length = l.length := by
  induction l with
  | nil => rfl
  | cons c l ih =>
    cases c with
    | none => simp [List.filter]; omega
    | some r => simp [List.filter]; omega

theorem length_shuffle (key : List Nat) (l : List Card) : (shuffle key l).length = l.length := by
  simp only [shuffle, List.length_append, length_permute]
  exact length_filter_some_none l

theorem drawCard_players (key : List Nat) (r : Room) : (drawCard key r).1.players = r.players := by
  rw [drawCard_room]

theorem drawCard_piles (key : List Nat) (r : Room)
    (h : 1 ≤ r.gameState.deck.length + r.gameState.discardPile.length) :
    (drawCard key r).1.gameState.deck.length + (drawCard key r).1.gameState.discardPile.length + 1
      = r.gameState.deck.length + r.gameState.discardPile.length := by
  unfold drawCard
  split
  · rename_i h0
    simp only [Room.setGS, List.length_dropLast, length_shuffle, List.length_nil]
    omega
  · rename_i h0
    simp only [Room.setGS, List.length_dropLast]
    omega

theorem modifyPlayer_twice (ps : List Player) (id : PlayerId) (f g : Player → Player)
    (hf : ∀ p, (f p).id = p.id) :
    modifyPlayer (modifyPlayer ps id f) id g = modifyPlayer ps id (fun p => g (f p)) := by
  induction ps with
  | nil => rfl
  | cons p ps ih =>
    simp only [modifyPlayer]
    by_cases hp : (p.id == id) = true
    · simp only [hp, if_true, modifyPlayer, hf]
    · simp only [hp, if_false, modifyPlayer, ih]
      simp

theorem gameInv_modify_twice {r s : Room} (h : GameInv r) (id : PlayerId)
    (f g : Player → Player) (hs : s.players = modifyPlayer r.players id f)
    (hid : ∀ p, (f p).id = p.id)
    (hpiles : s.gameState.deck.length + s.gameState.discardPile.length =
      r.gameState.deck.length + r.gameState.discardPile.length)
    (hfg : ∀ p, r.get id = some p → PlayerOK p → PlayerOK (g (f p))) :
    GameInv (s.modify id g) := by
  have hpl : (s.modify id g).players = modifyPlayer r.players id (fun p => g (f p)) := by
    simp only [Room.modify, hs]
    exact modifyPlayer_twice _ _ _ _ hid
  refine ⟨?_, ?_, ?_⟩
  · intro q hq
    rw [hpl] at hq
    rcases mem_modifyPlayer hq with h1 | ⟨p, hp, rfl⟩
    · exact h.players q h1
    · exact hfg p hp (h.players p (getPlayer_mem hp))
  · rw [hpl, length_modifyPlayer]; exact h.seats
  · rw [hpl, length_modifyPlayer]
    have := h.piles
    simp only [Room.modify]
    omega

theorem gameInv_discardCard {r : Room} (h : GameInv r) (key : List Nat) (id : PlayerId)
    (i : Int) : GameInv (discardCard key r id i).1 := by
  unfold discardCard
  split
  · exact h
  · rename_i player hget
    have hok := h.players player (getPlayer_mem hget)
    split
    · exact h
    · rename_i halive
      split
      · exact h
      · rename_i hidx
        have hlen : player.cards.length = 2 := by
          rcases hok.2 with h2 | ⟨_, h2⟩
          · exact h2
          · simp [h2] at halive
        have hi : i.toNat < 2 := by omega
        have hrest : (player.cards.eraseIdx i.toNat).length = 1 := by
          rw [List.length_eraseIdx]
          simp [hlen, hi]
        simp only [hrest]
        simp only [Nat.one_ne_zero, if_false, Nat.one_lt_ofNat, if_true]
        refine gameInv_modify_twice h id
          (fun p => { p with cards := p.cards.eraseIdx i.toNat }) _ ?_ (fun _ => rfl) ?_ ?_
        · rw [drawCard_players]
          rfl
        · have hd := drawCard_piles key ((r.modify id (fun p =>
              { p with cards := p.cards.eraseIdx i.toNat })).setGS (fun gs =>
                { gs with discardPile := gs.discardPile ++ [(player.cards[i.toNat]?).join] }))
              (by simp only [Room.setGS, List.length_append, List.length_singleton]; omega)
          simp only [Room.setGS, Room.modify, List.length_append, List.length_singleton] at hd
          simp only [Room.setGS, Room.modify]
          omega
        · intro p hp _
          have hpp : p = player := by
            rw [hget] at hp
            exact (Option.some.inj hp).symm
          subst hpp
          refine ⟨hok.1, Or.inl ?_⟩
          simp [hrest]

theorem playerOK_coins {p : Player} (hp : PlayerOK p) (c : Int) (hc : 0 ≤ c) :
    PlayerOK { p with coins := c } :=
  ⟨hc, hp.2⟩

theorem playerOK_dead {p : Player} (hp : PlayerOK p) : PlayerOK { p with isAlive := false } :=
  ⟨hp.1, hp.2.imp id (fun h => ⟨h.1, rfl⟩)⟩

theorem gameInv_gain {r : Room} (h : GameInv r) (id : PlayerId) (k : Int) (hk : 0 ≤ k) :
    GameInv (r.modify id (fun p => { p with coins := p.coins + k })) :=
  gameInv_modify h id _ (fun p _ hp => playerOK_coins hp _ (by have := hp.1; omega))

theorem gameInv_kill {r : Room} (h : GameInv r) (id : PlayerId) :
    GameInv (r.modify id (fun p => { p with isAlive := false })) :=
  gameInv_modify h id _ (fun _ _ hp => playerOK_dead hp)

theorem gameInv_finishAction {r : Room} (h : GameInv r) (env : Env) (ar : ActionResult) :
    GameInv (finishAction env r ar).1 := by
  unfold finishAction
  split
  · have := gameInv_nextTurn h env.now env.fuel
    split
    · rename_i heq; rw [heq] at this; exact this
    · rename_i heq; rw [heq] at this; exact this
  · exact h

theorem gameInv_openChallenge {r : Room} (h : GameInv r) (env : Env) (ar : ActionResult) :
    GameInv (openChallenge env r ar).1 :=
  gameInv_setPhase (gameInv_setGS h _ rfl) _ _

theorem gameInv_loseCardOrDie {r : Room} (h : GameInv r) (env : Env) (id : PlayerId)
    (target : Player) (m1 m2 : String) : GameInv (loseCardOrDie env r id target m1 m2).1 := by
  unfold loseCardOrDie
  split
  · exact gameInv_discardCard h _ _ _
  · exact gameInv_kill h _

theorem get_of_bind {r : Room} {t : Option PlayerId} {p : Player}
    (h : t.bind r.get = some p) : r.get p.id = some p := by
  cases t with
  | none => simp at h
  | some id =>
    have h1 : r.get id = some p := h
    rw [getPlayer_id h1]
    exact h1

theorem gameInv_stealCoins {r : Room} (h : GameInv r) (actorId : PlayerId)
    (t : Option PlayerId) : GameInv (stealCoins r actorId t) := by
  unfold stealCoins
  split
  · exact h
  · rename_i target hget
    have hg := get_of_bind hget
    have hok := h.players target (getPlayer_mem hg)
    split
    · refine gameInv_gain (gameInv_modify h _ _ ?_) _ _ ?_
      · intro p hp hpok
        rw [hg] at hp
        cases hp
        exact playerOK_coins hpok _ (by have := hpok.1; omega)
      · have := hok.1; omega
    · exact h

theorem gameInv_exchange {r : Room} (h : GameInv r) (k1 k2 : List Nat) (id : PlayerId)
    (player : Player) (hget : r.get id = some player) (hc : player.cards ≠ []) :
    GameInv (((drawCard k2 (drawCard k1 r).1).1.modify id (fun p =>
        { p with cards := (player.cards ++ [(drawCard k1 r).2,
            (drawCard k2 (drawCard k1 r).1).2]).take 2 })).setGS (fun gs =>
        { gs with discardPile := gs.discardPile ++ (player.cards ++ [(drawCard k1 r).2,
            (drawCard k2 (drawCard k1 r).1).2]).drop 2 })) := by
  have hok := h.players player (getPlayer_mem hget)
  have hlen : player.cards.length = 2 := by
    rcases hok.2 with h2 | ⟨h2, _⟩
    · exact h2
    · exact absurd h2 hc
  have hp := h.piles
  have hs := h.seats
  have hd1 := drawCard_piles k1 r (by omega)
  have hd2 := drawCard_piles k2 (drawCard k1 r).1 (by omega)
  refine ⟨?_, ?_, ?_⟩
  · intro q hq
    simp only [Room.setGS, Room.modify, drawCard_players] at hq
    rcases mem_modifyPlayer hq with h1 | ⟨p, hp, rfl⟩
    · exact h.players q h1
    · have hpok := h.players p (getPlayer_mem hp)
      refine ⟨hpok.1, Or.inl ?_⟩
      simp [hlen]
  · simp only [Room.setGS, Room.modify, drawCard_players, length_modifyPlayer]
    exact hs
  · simp only [Room.setGS, Room.modify, drawCard_players, length_modifyPlayer,
      List.length_append, List.length_drop, List.length_cons, List.length_nil, hlen]
    omega

theorem gameInv_executeAction {r : Room} (h : GameInv r) (env : Env) (id : PlayerId)
    (a : ActionType) (t : Option PlayerId) : GameInv (executeAction env r id a t).1 := by
  unfold executeAction
  split
  · exact h
  · rename_i player hget
    have hok := h.players player (getPlayer_mem hget)
    split
    · exact h
    · split
      · exact h
      · split
        · exact h
        · cases a with
          | income => exact gameInv_finishAction (gameInv_gain h _ _ (by decide)) _ _
          | foreign_aid =>
            simp only
            split
            · exact gameInv_setPhase (gameInv_setGS h _ rfl) _ _
            · exact gameInv_finishAction (gameInv_gain h _ _ (by decide)) _ _
          | coup =>
            simp only
            split
            · exact h
            · rename_i hc
              split
              · exact h
              · split
                · exact h
                · refine gameInv_finishAction (gameInv_loseCardOrDie (gameInv_modify h _ _ ?_)
                    _ _ _ _ _) _ _
                  intro p hp hpok
                  rw [hget] at hp
                  cases hp
                  exact playerOK_coins hpok _ (by omega)
          | tax =>
            simp only
            split
            · exact gameInv_openChallenge h _ _
            · exact gameInv_finishAction (gameInv_gain h _ _ (by decide)) _ _
          | assassinate =>
            simp only
            split
            · exact h
            · rename_i hc
              split
              · exact h
              · split
                · exact h
                · have h1 : GameInv (r.modify id (fun p => { p with coins := p.coins - 3 })) := by
                    refine gameInv_modify h _ _ ?_
                    intro p hp hpok
                    rw [hget] at hp
                    cases hp
                    exact playerOK_coins hpok _ (by omega)
                  split
                  · exact gameInv_setPhase (gameInv_setGS h1 _ rfl) _ _
                  · exact gameInv_finishAction (gameInv_loseCardOrDie h1 _ _ _ _ _) _ _
          | steal =>
            simp only
            split
            · exact h
            · rename_i stealTarget htg
              have hg := get_of_bind htg
              have htok := h.players stealTarget (getPlayer_mem hg)
              split
              · exact h
              · split
                · exact gameInv_finishAction h _ _
                · split
                  · exact gameInv_openChallenge h _ _
                  · refine gameInv_finishAction (gameInv_gain (gameInv_modify h _ _ ?_) _ _ ?_) _ _
                    · intro p hp hpok
                      rw [hg] at hp
                      cases hp
                      exact playerOK_coins hpok _ (by have := hpok.1; omega)
                    · have := htok.1; omega
          | exchange =>
            simp only
            split
            · exact gameInv_openChallenge h _ _
            · rename_i hamb
              refine gameInv_finishAction (gameInv_exchange h _ _ id player hget ?_) _ _
              intro hnil
              simp [hnil] at hamb
          | other s => exact gameInv_finishAction h _ _

theorem gameInv_challengersDiscard {r : Room} (h : GameInv r) (env : Env) (k : Nat)
    (ids : List PlayerId) (log : List String) :
    GameInv (challengersDiscard env k ids r log).1 := by
  induction ids generalizing r k log with
  | nil => exact h
  | cons c ids ih =>
    simp only [challengersDiscard]
    split
    · exact ih h _ _
    · split
      · exact ih (gameInv_discardCard h _ _ _) _ _
      · exact ih h _ _

theorem gameInv_settleChallenge {r : Room} (h : GameInv r) (env : Env) (cd : ChallengeData)
    (actor : Player) : GameInv (settleChallenge env r cd actor).1 := by
  unfold settleChallenge
  simp only
  split
  · simp only
    split
    · exact gameInv_gain (gameInv_challengersDiscard h _ _ _ _) _ _ (by decide)
    · split
      · exact gameInv_stealCoins (gameInv_challengersDiscard h _ _ _ _) _ _
      · exact gameInv_challengersDiscard h _ _ _ _
  · simp only
    have hd : GameInv (if actor.cards.length > 0 then
        ((discardCard (env.key 0) r cd.action.playerId
            (randomIndex (env.pick 0) actor.cards.length)).1,
          [actor.name ++ " 没有 " ++ roleName (requiredRole cd.action.type) ++ "，挑战成功！",
            actor.name ++ " 被迫弃牌"])
      else (r, [actor.name ++ " 没有 " ++ roleName (requiredRole cd.action.type) ++
            "，挑战成功！"])).1 := by
      split
      · exact gameInv_discardCard h _ _ _
      · exact h
    split
    · exact gameInv_gain hd _ _ (by decide)
    · exact hd

theorem gameInv_resolveChallenge {r : Room} (h : GameInv r) (env : Env) (cd : ChallengeData) :
    GameInv (resolveChallenge env r cd).1 := by
  unfold resolveChallenge
  split
  · exact h
  · have := gameInv_nextTurn (gameInv_settleChallenge h env cd ‹Player›) env.now env.fuel
    split
    · rename_i heq; rw [heq] at this; exact this
    · rename_i heq; rw [heq] at this; exact this

theorem gameInv_handleChallenge {r : Room} (h : GameInv r) (env : Env) (c : PlayerId) :
    GameInv (handleChallenge env r c).1 := by
  unfold handleChallenge
  split
  · exact h
  · split
    · exact h
    · rename_i cd _
      split
      · split
        · exact h
        · simp only
          have := gameInv_resolveChallenge
            (gameInv_setGS h (fun gs => { gs with challengeData := some (addChallenger cd c) })
              rfl) env (addChallenger cd c)
          split
          · rename_i r1 _ heq
            rw [heq] at this
            have h2 : GameInv r1 := this
            exact gameInv_setGS h2 (fun gs => { gs with challengeData := none }) rfl
          · rename_i heq
            rw [heq] at this
            exact this
      · exact h

theorem gameInv_applyUnblocked {r : Room} (h : GameInv r) (env : Env) (k : Nat)
    (action : ActionResult) (log : List String) :
    GameInv (applyUnblocked env k r action log).1 := by
  unfold applyUnblocked
  split
  · split
    · exact h
    · exact gameInv_gain h _ _ (by decide)
  · split
    · split
      · exact h
      · split
        · exact gameInv_discardCard h _ _ _
        · exact h
    · exact h

theorem gameInv_settleCounter {r : Room} (h : GameInv r) (env : Env) (cd : CounterData)
    (b : PlayerId) (blocker : Player) (block : Bool) :
    GameInv (settleCounter env r cd b blocker block).1 := by
  unfold settleCounter
  simp only
  split
  · split
    · simp only
      split
      · exact gameInv_gain h _ _ (by decide)
      · exact h
    · have h1 : GameInv (if blocker.cards.length > 0 then
          (discardCard (env.key 0) r b (randomIndex (env.pick 0) blocker.cards.length)).1
        else r) := by
        split
        · exact gameInv_discardCard h _ _ _
        · exact h
      have := gameInv_applyUnblocked h1 env 1 cd.action
        [blocker.name ++ " 试图阻止但失败，被迫弃牌"]
      split
      · rename_i heq; rw [heq] at this; exact this
      · rename_i heq; rw [heq] at this; exact this
  · have := gameInv_applyUnblocked h env 0 cd.action [blocker.name ++ " 选择不阻止"]
    split
    · rename_i heq; rw [heq] at this; exact this
    · rename_i heq; rw [heq] at this; exact this

theorem gameInv_handleCounter {r : Room} (h : GameInv r) (env : Env) (b : PlayerId)
    (block : Bool) : GameInv (handleCounter env r b block).1 := by
  unfold handleCounter
  split
  · exact h
  · split
    · exact h
    · split
      · exact h
      · split
        · exact h
        · have hs := gameInv_settleCounter h env ‹CounterData› b ‹Player› block
          split
          · rename_i heq; rw [heq] at hs; exact hs
          · rename_i heq
            rw [heq] at hs
            have := gameInv_nextTurn (gameInv_setGS hs
              (fun gs => { gs with counterData := none }) rfl) env.now env.fuel
            split
            · rename_i heq2; rw [heq2] at this; exact this
            · rename_i heq2; rw [heq2] at this; exact this

theorem gameInv_handleDiscard {r : Room} (h : GameInv r) (env : Env) (id : PlayerId)
    (i : Int) : GameInv (handleDiscard env r id i).1 := by
  unfold handleDiscard
  split
  · exact h
  · simp only
    split
    · have := gameInv_nextTurn (gameInv_discardCard h (env.key 0) id i) env.now env.fuel
      split
      · rename_i heq; rw [heq] at this; exact this
      · rename_i heq; rw [heq] at this; exact this
    · exact gameInv_discardCard h _ _ _

theorem gameInv_advancePhase {r : Room} (h : GameInv r) (env : Env) :
    GameInv (advancePhase env r).1 := by
  unfold advancePhase
  split
  · split
    · exact gameInv_nextTurn (gameInv_pushLog h _) _ _
    · exact h
  · exact h

theorem gameInv_startTimer {r : Room} (h : GameInv r) (s : Nat) (cb : TimerCallback) :
    GameInv (startTimer r s cb) :=
  ⟨h.players, h.seats, h.piles⟩

theorem gameInv_noResult {α : Type} (x : Room × Outcome α) (h : GameInv x.1) :
    GameInv (SocketManager.noResult x).1 := by
  unfold SocketManager.noResult
  split <;> exact h

theorem gameInv_executeActionLocked {r : Room} (h : GameInv r) (env : Env) (id : PlayerId)
    (a : ActionType) (t : Option PlayerId) :
    GameInv (SocketManager.executeActionLocked env id a t r).1 := by
  unfold SocketManager.executeActionLocked
  have := gameInv_executeAction h env id a t
  split
  · rename_i heq; rw [heq] at this; exact this
  · rename_i heq; rw [heq] at this; exact this
  · rename_i r1 ar heq
    rw [heq] at this
    have h2 : GameInv (r1.setGS (fun gs =>
        { gs with lastAction := some ar, log := gs.log ++ ar.log })) := gameInv_setGS this _ rfl
    simp only
    split
    · exact gameInv_startTimer h2 _ _
    · split
      · exact gameInv_startTimer h2 _ _
      · exact gameInv_withLock h2 _
          (fun s hs => gameInv_noResult _ (gameInv_nextTurn hs _ _))

theorem gameInv_onExecuteAction {r : Room} (h : GameInv r) (env : Env) (id : PlayerId)
    (a : ActionType) (t : Option PlayerId) :
    GameInv (SocketManager.handleExecuteAction env r id a t) := by
  unfold SocketManager.handleExecuteAction
  split
  · exact h
  · split
    · exact h
    · exact gameInv_withLock h _ (fun s hs => gameInv_executeActionLocked hs env id a t)

theorem gameInv_onChallenge {r : Room} (h : GameInv r) (env : Env) (id : PlayerId) :
    GameInv (SocketManager.handleChallenge env r id) := by
  unfold SocketManager.handleChallenge
  split
  · exact h
  · refine gameInv_withLock h _ (fun s hs => ?_)
    have := gameInv_handleChallenge hs env id
    split
    · rename_i heq; rw [heq] at this; exact this
    · rename_i heq; rw [heq] at this; exact this
    · rename_i r1 res heq
      rw [heq] at this
      have h2 : GameInv r1 := this
      exact gameInv_setGS h2 (fun gs => { gs with log := gs.log ++ res.log }) rfl

theorem gameInv_onCounter {r : Room} (h : GameInv r) (env : Env) (id : PlayerId)
    (block : Bool) : GameInv (SocketManager.handleCounter env r id block) := by
  unfold SocketManager.handleCounter
  split
  · exact h
  · split
    · exact h
    · split
      · exact h
      · refine gameInv_withLock h _ (fun s hs => ?_)
        have := gameInv_handleCounter hs env id block
        split
        · rename_i heq; rw [heq] at this; exact this
        · rename_i heq; rw [heq] at this; exact this
        · rename_i r1 res heq
          rw [heq] at this
          have h2 : GameInv r1 := this
          exact gameInv_setGS h2 (fun gs => { gs with log := gs.log ++ res.log }) rfl

theorem gameInv_onDiscard {r : Room} (h : GameInv r) (env : Env) (id : PlayerId)
    (i : Int) : GameInv (SocketManager.handleDiscard env r id i) := by
  unfold SocketManager.handleDiscard
  split
  · exact h
  · refine gameInv_withLock h _ (fun s hs => ?_)
    have := gameInv_handleDiscard hs env id i
    split
    · rename_i heq; rw [heq] at this; exact this
    · rename_i r1 heq
      rw [heq] at this
      have h2 : GameInv r1 := this
      split
      · exact h2
      · exact gameInv_pushLog h2 _
    · rename_i heq; rw [heq] at this; exact this

theorem gameInv_reconnect {r : Room} (h : GameInv r) (id : PlayerId) :
    GameInv (SocketManager.handleReconnect r id) :=
  gameInv_modify h id _ (fun _ _ hp => ⟨hp.1, hp.2⟩)

theorem gameInv_checkDisconnectedPlayerInGame {r : Room} (h : GameInv r) (env : Env)
    (id : PlayerId) : GameInv (SocketManager.checkDisconnectedPlayerInGame env r id) := by
  unfold SocketManager.checkDisconnectedPlayerInGame
  split
  · refine gameInv_withLock h _ (fun s hs => ?_)
    split
    · exact hs
    · exact gameInv_noResult _ (gameInv_nextTurn (gameInv_pushLog hs _) _ _)
  · exact h

theorem gameInv_disconnect {r : Room} (h : GameInv r) (env : Env) (id : PlayerId) :
    GameInv (SocketManager.handleDisconnect env r id) := by
  unfold SocketManager.handleDisconnect
  split
  · exact h
  · have h1 : GameInv (r.modify id (fun p =>
        { p with connected := false, disconnectTime := some env.now })) :=
      gameInv_modify h id _ (fun _ _ hp => ⟨hp.1, hp.2⟩)
    simp only
    split
    · exact gameInv_checkDisconnectedPlayerInGame h1 env id
    · exact h1

theorem gameInv_applyUnchallenged {r : Room} (h : GameInv r) (env : Env) (action : ActionResult)
    (actor : Player) : GameInv (SocketManager.applyUnchallenged env r action actor) := by
  unfold SocketManager.applyUnchallenged
  split
  · exact gameInv_pushLog (gameInv_gain h _ _ (by decide)) _
  · split
    · exact h
    · split
      · exact gameInv_pushLog (gameInv_stealCoins h _ _) _
      · exact h
  · exact gameInv_pushLog h _
  · split
    · exact h
    · split
      · exact gameInv_pushLog (gameInv_discardCard h _ _ _) _
      · exact h
  · exact h

theorem gameInv_resolveChallengeTimeout {r : Room} (h : GameInv r) (env : Env) :
    GameInv (SocketManager.resolveChallengeTimeout env r) := by
  unfold SocketManager.resolveChallengeTimeout
  split
  · exact h
  · refine gameInv_withLock h _ (fun s hs => ?_)
    split
    · exact hs
    · have h1 : GameInv (s.setGS (fun gs => { gs with challengeData := none })) :=
        gameInv_setGS hs _ rfl
      simp only
      split
      · exact h1
      · exact gameInv_noResult _ (gameInv_nextTurn
          (gameInv_applyUnchallenged (gameInv_pushLog h1 _) env _ _) _ _)

theorem gameInv_resolveCounterTimeout {r : Room} (h : GameInv r) (env : Env) :
    GameInv (SocketManager.resolveCounterTimeout env r) := by
  unfold SocketManager.resolveCounterTimeout
  split
  · exact h
  · refine gameInv_withLock h _ (fun s hs => ?_)
    split
    · exact hs
    · rename_i cd _
      have h1 : GameInv ((s.setGS (fun gs => { gs with counterData := none })).pushLog
          "反制时间结束，执行原行动") := gameInv_pushLog (gameInv_setGS hs _ rfl) _
      have := gameInv_applyUnblocked h1 env 0 cd.action []
      simp only
      split
      · rename_i heq; rw [heq] at this; exact this
      · rename_i r2 log heq
        rw [heq] at this
        have h2 : GameInv r2 := this
        exact gameInv_noResult _ (gameInv_nextTurn
          (gameInv_setGS h2 (fun gs => { gs with log := gs.log ++ log }) rfl) _ _)

theorem gameInv_fireTimer {r : Room} (h : GameInv r) (env : Env) :
    GameInv (SocketManager.fireTimer env r) := by
  unfold SocketManager.fireTimer
  split
  · exact h
  · rename_i t _
    unfold timerBody
    refine gameInv_withLock (r := { r with timer := none }) ⟨h.players, h.seats, h.piles⟩ _
      (fun s hs => ?_)
    have : GameInv (SocketManager.runCallback env t.callback s).1 := by
      cases t.callback with
      | resolveChallengeTimeout => exact gameInv_resolveChallengeTimeout hs env
      | resolveCounterTimeout => exact gameInv_resolveCounterTimeout hs env
    split
    · rename_i heq; rw [heq] at this; exact this
    · rename_i heq; rw [heq] at this; exact this

theorem gameInv_runImmediate {r : Room} (h : GameInv r) (env : Env) :
    GameInv (runImmediate env r) := by
  unfold runImmediate
  split
  · exact h
  · exact gameInv_advancePhase (r := { r with immediates := r.immediates - 1 })
      ⟨h.players, h.seats, h.piles⟩ env

theorem gameInv_applyOp {r : Room} (h : GameInv r) (env : Env) (op : Op) :
    GameInv (applyOp env op r) := by
  cases op with
  | executeAction id a t => exact gameInv_executeAction h env id a t
  | handleChallenge c => exact gameInv_handleChallenge h env c
  | handleCounter b block => exact gameInv_handleCounter h env b block
  | handleDiscard id i => exact gameInv_handleDiscard h env id i
  | nextTurn => exact gameInv_nextTurn h _ _
  | setPhase p => exact gameInv_setPhase h _ _
  | advancePhase => exact gameInv_advancePhase h env
  | onExecuteAction id a t => exact gameInv_onExecuteAction h env id a t
  | onChallenge id => exact gameInv_onChallenge h env id
  | onCounter id block => exact gameInv_onCounter h env id block
  | onDiscard id i => exact gameInv_onDiscard h env id i
  | resolveChallengeTimeout => exact gameInv_resolveChallengeTimeout h env
  | resolveCounterTimeout => exact gameInv_resolveCounterTimeout h env
  | fireTimer => exact gameInv_fireTimer h env
  | runImmediate => exact gameInv_runImmediate h env
  | disconnect id => exact gameInv_disconnect h env id
  | reconnect id => exact gameInv_reconnect h id

theorem drawCard_nonempty (key : List Nat) (r : Room) (h : r.gameState.deck.length ≠ 0) :
    (drawCard key r).1.gameState.deck.length + 1 = r.gameState.deck.length ∧
      (drawCard key r).1.gameState.discardPile = r.gameState.discardPile := by
  unfold drawCard
  refine ⟨?_, ?_⟩
  · simp only [h, if_false, Room.setGS, List.length_dropLast]
    omega
  · simp only [h, if_false, Room.setGS]

theorem dealPlayers_spec (key : List Nat) (ps : List Player) (r : Room)
    (h : 2 * ps.length ≤ r.gameState.deck.length) :
    (∀ q ∈ (dealPlayers key ps r).1, PlayerOK q) ∧
      (dealPlayers key ps r).1.length = ps.length ∧
      (dealPlayers key ps r).2.gameState.deck.length + 2 * ps.length = r.gameState.deck.length ∧
      (dealPlayers key ps r).2.gameState.discardPile = r.gameState.discardPile := by
  induction ps generalizing r with
  | nil => exact ⟨fun q hq => absurd hq (List.not_mem_nil q), rfl, rfl, rfl⟩
  | cons p ps ih =>
    simp only [List.length_cons] at h
    obtain ⟨h1, h1d⟩ := drawCard_nonempty key r (by omega)
    obtain ⟨h2, h2d⟩ := drawCard_nonempty key (drawCard key r).1 (by omega)
    obtain ⟨ha, hb, hc, hd⟩ := ih (drawCard key (drawCard key r).1).1 (by omega)
    simp only [dealPlayers]
    refine ⟨?_, ?_, ?_, ?_⟩
    · intro q hq
      rcases List.mem_cons.1 hq with rfl | hq
      · exact ⟨by show (0 : Int) ≤ 2; decide, Or.inl rfl⟩
      · exact ha q hq
    · simp [hb]
    · simp only [List.length_cons]
      omega
    · rw [hd, h2d, h1d]

theorem length_initializeDeck (key : List Nat) : (initializeDeck key).length = 15 := by
  unfold initializeDeck
  rw [length_shuffle]
  rfl

theorem gameInv_initializeGame (env : Env) (room : Room) (h : FreshRoom room) :
    GameInv (initializeGame env room) := by
  unfold initializeGame
  simp only
  apply gameInv_setPhase
  obtain ⟨ha, hb, hc, hd⟩ := dealPlayers_spec (env.key 1) room.players
    (room.setGS (fun gs =>
      { gs with deck := initializeDeck (env.key 0), discardPile := [], turnIndex := 0,
                lastAction := none }))
    (by
      have := h.2.2.1
      simp only [Room.setGS, length_initializeDeck]
      omega)
  refine ⟨ha, ?_, ?_⟩
  · simp only [Room.setGS] at hb ⊢
    rw [hb]
    exact h.2.2.1
  · simp only [Room.setGS, length_initializeDeck] at hb hc hd ⊢
    rw [hb, hd]
    simp only [List.length_nil]
    omega

theorem gameInv_of_reachable {r : Room} (h : Reachable r) : GameInv r := by
  induction h with
  | init env room hf => exact gameInv_initializeGame env room hf
  | step env op room _ ih => exact gameInv_applyOp ih env op

theorem sum_hands (ps : List Player) (h : ∀ p ∈ ps, PlayerOK p) :
    (ps.map (fun p => p.cards.length)).sum + 2 * (ps.filter (fun p => p.cards.isEmpty)).length
      = 2 * ps.length := by
  induction ps with
  | nil => rfl
  | cons p ps ih =>
    have hp := (h p (List.mem_cons_self _ _)).2
    have ih' := ih (fun q hq => h q (List.mem_cons_of_mem _ hq))
    rcases hp with h2 | ⟨h0, _⟩
    · have hne : p.cards.isEmpty = false := by
        cases hc : p.cards with
        | nil => simp [hc] at h2
        | cons _ _ => rfl
      simp only [List.map_cons, List.sum_cons, List.filter_cons, hne, h2, List.length_cons]
      simp only [Bool.false_eq_true, if_false]
      omega
    · simp only [List.map_cons, List.sum_cons, List.filter_cons, h0, List.isEmpty_nil,
        List.length_nil, if_true, List.length_cons]
      omega

/-- C1, as stated, fails: in the game started from a lobby in which Ben went
offline 61 seconds earlier, the sweep at the end of `initializeGame` clears
Ben's hand without moving his cards to a pile, and 13 cards are left. -/
theorem total_cards_not_always_15 :
    Reachable (initializeGame lobbyEnv
        (SocketManager.handleDisconnect { lobbyEnv with now := 39000 } lobbyRoom "player_b")) ∧
      totalCards (initializeGame lobbyEnv
        (SocketManager.handleDisconnect { lobbyEnv with now := 39000 } lobbyRoom "player_b")) = 13 :=
  ⟨Reachable.init _ _ ⟨rfl, by decide, by decide, by decide⟩, by decide⟩

/-- C1, amended: in every room reachable from `initializeGame` (2 to 6 players)
the cards in the deck, the discard pile and the hands number 15 less two for
every player whose hand is empty; a hand is empty only for a player who is not
alive (the disconnect sweep clears the hand of the player it eliminates and
drops the cards), and every other hand holds 2 cards.  So the total is at most
15, and exactly 15 while no hand has been cleared. -/
theorem total_cards_reachable (room : Room) (h : Reachable room) :
    totalCards room + 2 * (room.players.filter (fun p => p.cards.isEmpty)).length = 15 ∧
      (∀ p ∈ room.players, p.cards.length = 2 ∨ (p.cards = [] ∧ p.isAlive = false)) ∧
      totalCards room ≤ 15 ∧
      ((∀ p ∈ room.players, p.cards ≠ []) → totalCards room = 15) := by
  have hinv := gameInv_of_reachable h
  have hs := sum_hands room.players hinv.players
  have hp := hinv.piles
  have h1 : totalCards room + 2 * (room.players.filter (fun p => p.cards.isEmpty)).length
      = 15 := by
    unfold totalCards
    omega
  refine ⟨h1, fun p hp => (hinv.players p hp).2, by omega, fun hne => ?_⟩
  have : room.players.filter (fun p => p.cards.isEmpty) = [] := by
    rw [List.filter_eq_nil_iff]
    intro p hp
    have := hne p hp
    cases hc : p.cards with
    | nil => exact absurd hc this
    | cons _ _ => simp
  rw [this] at h1
  simpa using h1

theorem total_cards_reachable_witness :
    Reachable startedRoom ∧ totalCards startedRoom = 15 :=
  ⟨Reachable.init lobbyEnv lobbyRoom freshRoom_lobbyRoom,
    (total_cards_reachable startedRoom
      (Reachable.init lobbyEnv lobbyRoom freshRoom_lobbyRoom)).2.2.2 (by decide)⟩

/-- C2: in every room reachable from `initializeGame` by the engine's
operations, the transport's handlers and timeout resolutions, and the
connectivity signals, every player's coins are a non-negative integer. -/
theorem coins_nonneg_reachable (room : Room) (h : Reachable room) :
    ∀ p ∈ room.players, 0 ≤ p.coins :=
  fun p hp => ((gameInv_of_reachable h).players p hp).1

theorem coins_nonneg_reachable_witness :
    Reachable twoWindowsRoom ∧ ∀ p ∈ twoWindowsRoom.players, 0 ≤ p.coins :=
  ⟨Reachable.step _ _ _ (Reachable.step _ _ _ (Reachable.step _ _ _
      (Reachable.init lobbyEnv lobbyRoom freshRoom_lobbyRoom))),
    coins_nonneg_reachable twoWindowsRoom
      (Reachable.step _ _ _ (Reachable.step _ _ _ (Reachable.step _ _ _
        (Reachable.init lobbyEnv lobbyRoom freshRoom_lobbyRoom))))⟩

/-! ## Lookups after a mutation -/

theorem getPlayer_modify_same (ps : List Player) (id : PlayerId) (f : Player → Player)
    (hid : ∀ p, (f p).id = p.id) :
    getPlayer (modifyPlayer ps id f) id = (getPlayer ps id).map f := by
  induction ps with
  | nil => rfl
  | cons p ps ih =>
    simp only [modifyPlayer]
    by_cases hp : (p.id == id) = true
    · simp [getPlayer, List.find?, hp, hid]
    · simp only [Bool.not_eq_true] at hp
      simp only [getPlayer, List.find?, hp] at ih ⊢
      simpa using ih

theorem getPlayer_modify_other (ps : List Player) (id id' : PlayerId) (f : Player → Player)
    (hid : ∀ p, (f p).id = p.id) (hne : id' ≠ id) :
    getPlayer (modifyPlayer ps id f) id' = getPlayer ps id' := by
  induction ps with
  | nil => rfl
  | cons p ps ih =>
    simp only [modifyPlayer]
    by_cases hp : (p.id == id) = true
    · have hpid : p.id = id := by simpa using hp
      have h1 : (p.id == id') = false := by
        simp only [beq_eq_false_iff_ne, ne_eq]
        rw [hpid]
        exact fun h => hne h.symm
      have h2 : ((f p).id == id') = false := by rw [hid]; exact h1
      simp [getPlayer, List.find?, hp, h1, h2]
    · simp only [Bool.not_eq_true] at hp
      simp only [hp]
      by_cases hq : (p.id == id') = true
      · simp [getPlayer, List.find?, hq]
      · simp only [Bool.not_eq_true] at hq
        simp only [getPlayer, List.find?, hq] at ih ⊢
        simpa using ih

theorem get_modify_same (r : Room) (id : PlayerId) (f : Player → Player)
    (hid : ∀ p, (f p).id = p.id) : (r.modify id f).get id = (r.get id).map f :=
  getPlayer_modify_same r.players id f hid

theorem get_modify_other (r : Room) (id id' : PlayerId) (f : Player → Player)
    (hid : ∀ p, (f p).id = p.id) (hne : id' ≠ id) : (r.modify id f).get id' = r.get id' :=
  getPlayer_modify_other r.players id id' f hid hne

theorem sweptPlayer_id {p q : Player} (h : SweptPlayer p q) : q.id = p.id := by
  rcases h with rfl | rfl <;> rfl

theorem sweptPlayer_coins {p q : Player} (h : SweptPlayer p q) : q.coins = p.coins := by
  rcases h with rfl | rfl <;> rfl

theorem getPlayer_swept {ps qs : List Player} (h : List.Forall₂ SweptPlayer ps qs)
    (id : PlayerId) :
    (getPlayer ps id = none → getPlayer qs id = none) ∧
      (∀ p, getPlayer ps id = some p → ∃ q, getPlayer qs id = some q ∧ SweptPlayer p q) := by
  induction h with
  | nil => exact ⟨fun _ => rfl, fun p hp => by simp [getPlayer] at hp⟩
  | cons hab _ ih =>
    rename_i a b l1 l2 _
    have hid := sweptPlayer_id hab
    by_cases ha : (a.id == id) = true
    · have hb : (b.id == id) = true := by rw [hid]; exact ha
      refine ⟨fun hn => ?_, fun p hp => ?_⟩
      · simp [getPlayer, List.find?, ha] at hn
      · simp only [getPlayer, List.find?, ha] at hp
        cases hp
        exact ⟨b, by simp [getPlayer, List.find?, hb], hab⟩
    · simp only [Bool.not_eq_true] at ha
      have hb : (b.id == id) = false := by rw [hid]; exact ha
      simp only [getPlayer, List.find?, ha, hb] at ih ⊢
      exact ih

/-! ## What a forced discard does -/

theorem get_modify_coins (r : Room) (id id' : PlayerId) (f : Player → Player)
    (hid : ∀ p, (f p).id = p.id) (hc : ∀ p, (f p).coins = p.coins) :
    ((r.modify id f).get id').map (fun p => p.coins) = (r.get id').map (fun p => p.coins) := by
  by_cases h : id' = id
  · subst h
    rw [get_modify_same r id' f hid]
    cases r.get id' <;> simp [hc]
  · rw [get_modify_other r id id' f hid h]

theorem discardCard_room (key : List Nat) (r : Room) (id : PlayerId) (i : Int) :
    (discardCard key r id i).1 =
      { r with
        players := (discardCard key r id i).1.players,
        gameState :=
          { r.gameState with deck := (discardCard key r id i).1.gameState.deck,
                             discardPile := (discardCard key r id i).1.gameState.discardPile } } := by
  unfold discardCard
  split
  · rfl
  · split
    · rfl
    · split
      · rfl
      · simp only
        split
        · rfl
        · split
          · simp only [Room.modify]
            rw [drawCard_room]
            rfl
          · rfl

theorem modifyPlayer_self (ps : List Player) (id : PlayerId) :
    modifyPlayer ps id (fun p => p) = ps := by
  induction ps with
  | nil => rfl
  | cons p ps ih =>
    simp only [modifyPlayer, ih]
    split <;> rfl

theorem discardCard_players (key : List Nat) (r : Room) (id : PlayerId) (i : Int) :
    ∃ f, KeepsSeat f ∧ (discardCard key r id i).1.players = modifyPlayer r.players id f := by
  unfold discardCard
  split
  · exact ⟨fun p => p, fun _ => ⟨rfl, rfl, rfl, rfl, rfl⟩, (modifyPlayer_self _ _).symm⟩
  · split
    · exact ⟨fun p => p, fun _ => ⟨rfl, rfl, rfl, rfl, rfl⟩, (modifyPlayer_self _ _).symm⟩
    · split
      · exact ⟨fun p => p, fun _ => ⟨rfl, rfl, rfl, rfl, rfl⟩, (modifyPlayer_self _ _).symm⟩
      · rename_i player _ _ _
        simp only
        split
        · exact ⟨fun p => { p with cards := p.cards.eraseIdx i.toNat, isAlive := false },
            fun _ => ⟨rfl, rfl, rfl, rfl, rfl⟩,
            modifyPlayer_twice r.players id _ _ (fun _ => rfl)⟩
        · split
          · refine ⟨fun p => { p with cards := p.cards.eraseIdx i.toNat ++
              [(drawCard key ((r.modify id (fun p =>
                { p with cards := p.cards.eraseIdx i.toNat })).setGS (fun gs =>
                  { gs with discardPile :=
                      gs.discardPile ++ [(player.cards[i.toNat]?).join] }))).2] },
              fun _ => ⟨rfl, rfl, rfl, rfl, rfl⟩, ?_⟩
            simp only [Room.modify, drawCard_players, Room.setGS]
            exact modifyPlayer_twice r.players id _ _ (fun _ => rfl)
          · exact ⟨fun p => { p with cards := p.cards.eraseIdx i.toNat },
              fun _ => ⟨rfl, rfl, rfl, rfl, rfl⟩, rfl⟩

theorem discardCard_get_other (key : List Nat) (r : Room) (id id' : PlayerId) (i : Int)
    (hne : id' ≠ id) : (discardCard key r id i).1.get id' = r.get id' := by
  obtain ⟨f, hf, hp⟩ := discardCard_players key r id i
  show getPlayer (discardCard key r id i).1.players id' = _
  rw [hp]
  exact getPlayer_modify_other r.players id id' f (fun p => (hf p).1) hne

theorem discardCard_coins (key : List Nat) (r : Room) (id id' : PlayerId) (i : Int) :
    ((discardCard key r id i).1.get id').map (fun p => p.coins) =
      (r.get id').map (fun p => p.coins) := by
  obtain ⟨f, hf, hp⟩ := discardCard_players key r id i
  show (getPlayer (discardCard key r id i).1.players id').map _ = _
  rw [hp]
  exact get_modify_coins r id id' f (fun p => (hf p).1) (fun p => (hf p).2.2.1)

theorem drawCard_of_nonempty (key : List Nat) (r : Room) (h : r.gameState.deck ≠ []) :
    drawCard key r =
      (r.setGS (fun gs => { gs with deck := gs.deck.dropLast }), r.gameState.deck.getLast?.join) := by
  unfold drawCard
  have h0 : r.gameState.deck.length ≠ 0 := by
    intro h1
    exact h (List.length_eq_zero.1 h1)
  simp only [h0, if_false]

/-- The forced discard in the ordinary case: an alive player holding two cards
gives up the card at index `i`, which goes on the discard pile, and takes the
last card of a deck that is not empty. -/
theorem discardCard_two (key : List Nat) (r : Room) (id : PlayerId) (p : Player) (i : Nat)
    (hget : r.get id = some p) (halive : p.isAlive = true) (hlen : p.cards.length = 2)
    (hi : i < 2) (hdeck : r.gameState.deck ≠ []) :
    discardCard key r id (i : Int) =
      ({ r with
          players := modifyPlayer r.players id (fun q =>
            { q with cards := q.cards.eraseIdx i ++ [r.gameState.deck.getLast?.join] }),
          gameState :=
            { r.gameState with
              deck := r.gameState.deck.dropLast,
              discardPile := r.gameState.discardPile ++ [(p.cards[i]?).join] } }, true) := by
  have hrest : (p.cards.eraseIdx i).length = 1 := by
    rw [List.length_eraseIdx]
    simp [hlen, hi]
  unfold discardCard
  simp only [hget, halive, Bool.not_true, Bool.false_eq_true, if_false, Int.toNat_ofNat, hrest,
    Nat.one_ne_zero, Nat.one_lt_ofNat, if_true]
  have hidx : ¬ ((i : Int) < 0 ∨ (i : Int) ≥ (p.cards.length : Int)) := by
    rw [hlen]
    omega
  simp only [hidx, if_false]
  rw [drawCard_of_nonempty key _ (by simpa [Room.setGS, Room.modify] using hdeck)]
  simp only [Room.modify, Room.setGS]
  have h2 := modifyPlayer_twice r.players id
    (fun p => { p with cards := p.cards.eraseIdx i })
    (fun p => { p with cards := p.cards ++ [r.gameState.deck.getLast?.join] }) (fun _ => rfl)
  simp only at h2
  rw [h2]

/-! ## The disconnect sweep, player by player -/

theorem modifyPlayer_eq_map (ps : List Player) (id : PlayerId) (f : Player → Player)
    (hn : (ps.map (fun p => p.id)).Nodup) :
    modifyPlayer ps id f = ps.map (fun p => if p.id = id then f p else p) := by
  induction ps with
  | nil => rfl
  | cons p rest ih =>
    rw [List.map_cons, List.nodup_cons] at hn
    unfold modifyPlayer
    by_cases hp : p.id = id
    · have hrest : rest.map (fun q => if q.id = id then f q else q) = rest := by
        conv_rhs => rw [← List.map_id rest]
        apply List.map_congr_left
        intro q hq
        have : q.id ≠ id := by
          intro hq2
          exact hn.1 (List.mem_map.2 ⟨q, hq, by rw [hq2, hp]⟩)
        simp [this]
      simp [hp, hrest]
    · simp [hp, ih hn.2]

theorem getPlayer_of_mem {ps : List Player} (hn : (ps.map (fun p => p.id)).Nodup) {q : Player}
    (hq : q ∈ ps) : getPlayer ps q.id = some q := by
  induction ps with
  | nil => cases hq
  | cons p rest ih =>
    rw [List.map_cons, List.nodup_cons] at hn
    unfold getPlayer
    rcases List.mem_cons.1 hq with h | h
    · subst h
      simp [List.find?]
    · have : p.id ≠ q.id := by
        intro hpq
        exact hn.1 (List.mem_map.2 ⟨q, h, hpq.symm⟩)
      have h2 := ih hn.2 h
      unfold getPlayer at h2
      have hb : (p.id == q.id) = false := by simpa using this
      rw [List.find?, hb]
      exact h2

theorem foldl_forceEliminate_spec (l : List Player) (r : Room)
    (hn : (r.players.map (fun p => p.id)).Nodup)
    (hl : ∀ a ∈ l, ∃ q ∈ r.players, q.id = a.id ∧ q.name = a.name) :
    l.foldl (fun r p => forceEliminatePlayer r p.id) r =
      { r with
        players := r.players.map
          (fun p => if p.id ∈ l.map (fun a => a.id) then eliminated p else p),
        gameState := { r.gameState with log := r.gameState.log ++ l.map eliminationLine } } := by
  induction l generalizing r with
  | nil => simp
  | cons a l ih =>
    obtain ⟨q, hq, hqid, hqname⟩ := hl a (List.mem_cons_self a l)
    have hget : r.get a.id = some q := by
      have := getPlayer_of_mem hn hq
      rw [hqid] at this
      exact this
    have hstep : forceEliminatePlayer r a.id =
        { r with
          players := r.players.map (fun p => if p.id = a.id then eliminated p else p),
          gameState := { r.gameState with log := r.gameState.log ++ [eliminationLine a] } } := by
      unfold forceEliminatePlayer
      rw [hget]
      simp only [Room.modify, Room.pushLog, Room.setGS, eliminationLine, hqname]
      rw [modifyPlayer_eq_map _ _ _ hn]
      rfl
    rw [List.foldl_cons, hstep, ih]
    · simp only [List.map_map, List.map_cons, List.append_assoc, List.singleton_append]
      congr 1
      apply List.map_congr_left
      intro p _
      simp only [Function.comp, List.mem_cons]
      by_cases h1 : p.id = a.id
      · simp [h1, eliminated]
      · simp [h1]
    · simp only [List.map_map]
      have : (r.players.map ((fun p => p.id) ∘ fun p => if p.id = a.id then eliminated p else p))
          = r.players.map (fun p => p.id) := by
        apply List.map_congr_left
        intro p _
        simp only [Function.comp]
        split <;> rfl
      rw [this]
      exact hn
    · intro b hb
      obtain ⟨q2, hq2, hid2, hname2⟩ := hl b (List.mem_cons_of_mem a hb)
      refine ⟨if q2.id = a.id then eliminated q2 else q2, ?_, ?_, ?_⟩
      · exact List.mem_map.2 ⟨q2, hq2, rfl⟩
      · split <;> simpa [eliminated] using hid2
      · split <;> simpa [eliminated] using hname2

/-- The sweep on a room whose player ids are distinct (they are the keys of a
`Map`): every player who has been disconnected too long is replaced by the
eliminated player, one log line is written for each, and nothing else
changes. -/
theorem checkDisconnected_spec (now : Nat) (r : Room)
    (hn : (r.players.map (fun p => p.id)).Nodup) :
    checkDisconnectedPlayers now r =
      { r with
        players := r.players.map
          (fun p => if disconnectedTooLong now p then eliminated p else p),
        gameState := { r.gameState with
          log := r.gameState.log ++
            (r.players.filter (disconnectedTooLong now)).map eliminationLine } } := by
  unfold checkDisconnectedPlayers
  rw [foldl_forceEliminate_spec _ _ hn]
  · congr 1
    apply List.map_congr_left
    intro p hp
    by_cases h : disconnectedTooLong now p = true
    · have : p.id ∈ (r.players.filter (disconnectedTooLong now)).map (fun a => a.id) :=
        List.mem_map.2 ⟨p, List.mem_filter.2 ⟨hp, h⟩, rfl⟩
      simp [this, h]
    · have : ¬ p.id ∈ (r.players.filter (disconnectedTooLong now)).map (fun a => a.id) := by
        intro hm
        obtain ⟨a, ha, haid⟩ := List.mem_map.1 hm
        have ha2 := List.mem_filter.1 ha
        have := List.inj_on_of_nodup_map hn ha2.1 hp haid
        rw [this] at ha2
        exact h ha2.2
      simp [this, h]
  · intro a ha
    exact ⟨a, (List.mem_filter.1 ha).1, rfl, rfl⟩

theorem disconnectedTooLong_iff (now : Nat) (p : Player) :
    disconnectedTooLong now p = true ↔
      p.connected = false ∧ ∃ t, p.disconnectTime = some t ∧ t ≠ 0 ∧
        (now : Int) - (t : Int) > 60000 := by
  unfold disconnectedTooLong
  cases hc : p.connected <;> cases ht : p.disconnectTime <;> simp

/-- Claim C35: on a room with distinct player ids `checkDisconnectedPlayers`
replaces exactly the players that are disconnected, have a disconnect time
recorded and have been away for more than 60000 ms by the eliminated player
(`isAlive = false`, empty hand), appends one log line for each of them in
seating order, and leaves the other players, the deck, the discard pile, the
phase, the current player, the guard and the timer as they were; a player away
for exactly 60000 ms is not eliminated. -/
theorem sweep_eliminates_exactly_overdue (now : Nat) (room : Room)
    (hn : (room.players.map (fun p => p.id)).Nodup) :
    (checkDisconnectedPlayers now room).players =
        room.players.map (fun p =>
          if disconnectedTooLong now p then { p with isAlive := false, cards := [] } else p) ∧
      (checkDisconnectedPlayers now room).gameState =
        { room.gameState with
          log := room.gameState.log ++
            (room.players.filter (disconnectedTooLong now)).map
              (fun p => p.name ++ " 长时间未连接，被系统淘汰") } ∧
      (checkDisconnectedPlayers now room).lock = room.lock ∧
      (checkDisconnectedPlayers now room).timer = room.timer ∧
      (∀ p, disconnectedTooLong now p = true ↔
        p.connected = false ∧ ∃ t, p.disconnectTime = some t ∧ t ≠ 0 ∧
          (now : Int) - (t : Int) > 60000) ∧
      (∀ (p : Player) (t : Nat), p.disconnectTime = some t → (now : Int) - (t : Int) = 60000 →
        disconnectedTooLong now p = false) := by
  rw [checkDisconnected_spec now room hn]
  refine ⟨rfl, rfl, rfl, rfl, disconnectedTooLong_iff now, ?_⟩
  intro p t ht h6
  unfold disconnectedTooLong
  rw [ht]
  simp [h6]

theorem sweep_eliminates_exactly_overdue_witness :
    (checkDisconnectedPlayers testEnv.now lateSweepRoom).players =
        lateSweepRoom.players.map (fun p =>
          if disconnectedTooLong testEnv.now p then { p with isAlive := false, cards := [] }
          else p) ∧
      (checkDisconnectedPlayers testEnv.now lateSweepRoom).gameState.log =
        ["Bob 长时间未连接，被系统淘汰"] ∧
      aliveCount (checkDisconnectedPlayers testEnv.now lateSweepRoom) = 1 ∧
      checkDisconnectedPlayers testEnv.now onTimeRoom = onTimeRoom :=
  ⟨(sweep_eliminates_exactly_overdue testEnv.now lateSweepRoom (by decide)).1,
    by decide, by decide, by decide⟩

/-! ## The filtered view -/

/-- The entries of the projection: `getFilteredGameState` shows every player
other than the viewer with as many `'hidden'` placeholders as the hand has
cards and the viewer with the real hand, and `cardsCount` is the size of the
real hand in both lists.  Two rooms that differ only in which cards the hands
of players other than the viewer hold have the same entries and the same copied
state, and the same projection altogether while the phase data names no
winner. -/
theorem filtered_players_hide_other_hands (room : Room) (viewerId : Option PlayerId) :
    (getFilteredGameState room viewerId).players.map (fun e => (e.1, e.2.cards, e.2.cardsCount)) =
        room.players.map (fun p =>
          (p.id,
           if viewerId = some p.id then p.cards.map ShownCard.card
           else List.replicate p.cards.length ShownCard.hidden,
           p.cards.length)) ∧
      (∀ e ∈ (getFilteredGameState room viewerId).players, e.2.cards.length = e.2.cardsCount) ∧
      (getFilteredGameState room viewerId).playersList.map (fun s => s.cardsCount) =
        room.players.map (fun p => p.cards.length) ∧
      (∀ others, List.Forall₂ (SameButHand viewerId) room.players others →
        (getFilteredGameState { room with players := others } viewerId).players =
          (getFilteredGameState room viewerId).players ∧
        (getFilteredGameState { room with players := others } viewerId).playersList =
          (getFilteredGameState room viewerId).playersList ∧
        (getFilteredGameState { room with players := others } viewerId).state =
          (getFilteredGameState room viewerId).state ∧
        ((∀ ref, room.gameState.phase.data ≠ PhaseData.winner ref) →
          getFilteredGameState { room with players := others } viewerId =
            getFilteredGameState room viewerId)) := by
  refine ⟨?_, ?_, ?_, ?_⟩
  · simp [getFilteredGameState, Function.comp]
  · intro e he
    simp only [getFilteredGameState, List.mem_map] at he
    obtain ⟨p, _, rfl⟩ := he
    by_cases h : viewerId = some p.id <;> simp [h]
  · simp [getFilteredGameState, Function.comp]
  · intro others h
    have key : ∀ ps qs : List Player, List.Forall₂ (SameButHand viewerId) ps qs →
        (getFilteredGameState { room with players := qs } viewerId).players =
          (getFilteredGameState { room with players := ps } viewerId).players ∧
        (getFilteredGameState { room with players := qs } viewerId).playersList =
          (getFilteredGameState { room with players := ps } viewerId).playersList := by
      intro ps qs hpq
      induction hpq with
      | nil => exact ⟨rfl, rfl⟩
      | @cons a b l1 l2 hab _ ih =>
        obtain ⟨h1, h2, h3⟩ := hab
        simp only [getFilteredGameState, List.map_cons] at ih ⊢
        rw [ih.1, ih.2]
        have hid : b.id = a.id := by rw [h1]
        have hname : b.name = a.name := by rw [h1]
        have hcoins : b.coins = a.coins := by rw [h1]
        have halive : b.isAlive = a.isAlive := by rw [h1]
        have hconn : b.connected = a.connected := by rw [h1]
        have hdt : b.disconnectTime = a.disconnectTime := by rw [h1]
        by_cases hv : viewerId = some a.id
        · have hc := h3 hv
          simp [hid, hname, hcoins, halive, hconn, hdt, hc]
        · simp [hid, hname, hcoins, halive, hconn, hdt, hv, h2]
    obtain ⟨k1, k2⟩ := key room.players others h
    refine ⟨k1, k2, rfl, ?_⟩
    intro hdata
    have hpd : phaseDataObject { room with players := others } = phaseDataObject room := by
      unfold phaseDataObject
      show (match room.gameState.phase.data with
        | PhaseData.empty => PhaseDataObject.empty
        | PhaseData.playerId id => PhaseDataObject.playerId id
        | PhaseData.winner ref =>
          PhaseDataObject.winner (ref.bind ({ room with players := others } : Room).get)) = _
      cases hd : room.gameState.phase.data with
      | empty => rfl
      | playerId id => rfl
      | winner ref => exact absurd hd (hdata ref)
    show FilteredGameState.mk _ _ _ _ = FilteredGameState.mk _ _ _ _
    congr 1

/-- Claim C38, where the code parts from it: once `nextTurn` has ended the game
in the room of `createTestRoom()` with Bob out, `phase.data.winner` is Alice's
player object, and the projection for Bob, which copies the phase, carries it
with her real hand, Duke and Assassin, while her entry in `players` shows two
placeholders.  The same room with two Contessas in Alice's hand, which differs
only in the contents of a hand that is not the viewer's, has another
projection for Bob. -/
theorem filtered_view_shows_winner_hand :
    wonRoom.gameState.phase.type = PhaseType.GAME_OVER ∧
      wonRoom.gameState.winner = some "player1" ∧
      (getFilteredGameState wonRoom (some "player2")).phaseData =
        PhaseDataObject.winner (some
          { id := "player1", name := "Alice", coins := 2,
            cards := [some Role.duke, some Role.assassin], isAlive := true, connected := true,
            disconnectTime := none }) ∧
      (getFilteredGameState wonRoom (some "player2")).players.map (fun e => (e.1, e.2.cards)) =
        [("player1", [ShownCard.hidden, ShownCard.hidden]), ("player2", [])] ∧
      getFilteredGameState
          (wonRoom.modify "player1"
            (fun p => { p with cards := [some Role.contessa, some Role.contessa] }))
          (some "player2") ≠
        getFilteredGameState wonRoom (some "player2") := by
  decide

/-! ## A table where everybody alive is offline -/

theorem seekAlive_alive (ps : List Player) (k i j : Nat) (h : seekAlive ps k i = some j) :
    ∃ p, ps[j]? = some p ∧ p.isAlive = true := by
  induction k generalizing i with
  | zero => simp [seekAlive] at h
  | succ n ih =>
    unfold seekAlive at h
    split at h
    · cases h
    · rename_i p hp
      by_cases ha : p.isAlive = true
      · simp only [ha, if_true] at h
        cases h
        exact ⟨p, hp, ha⟩
      · simp only [ha] at h
        exact ih _ h

theorem nextTurnBody_all_offline (now : Nat) (recurse : Room → Room × Outcome Unit) (room : Room)
    (hrec : ∀ r, r.players = room.players → (recurse r).2 = Outcome.thrown)
    (h2 : 2 ≤ aliveCount room)
    (hoff : ∀ p ∈ room.players, p.isAlive = true → p.connected = false) :
    (nextTurnBody now recurse room).2 = Outcome.thrown := by
  unfold nextTurnBody
  have hn : ¬ (room.players.filter (fun p => p.isAlive)).length ≤ 1 := by
    unfold aliveCount at h2
    omega
  simp only [hn, if_false]
  split
  · rfl
  · rename_i j hj
    split
    · rfl
    · rename_i cur hcur
      obtain ⟨p, hp, ha⟩ := seekAlive_alive _ _ _ _ hj
      rw [hcur] at hp
      cases hp
      have hc := hoff cur (List.getElem?_mem hcur) ha
      simp only [hc, Bool.not_false, if_true]
      exact hrec _ rfl

/-- Claim C34, where the code parts from it: on a room with at least two alive
players who are all disconnected, `nextTurn` does not return however deep the
stack is; every activation picks the next alive seat, finds the player
disconnected and calls itself again. -/
theorem nextTurn_all_offline_never_returns (now fuel : Nat) (room : Room)
    (h2 : 2 ≤ aliveCount room)
    (hoff : ∀ p ∈ room.players, p.isAlive = true → p.connected = false) :
    (nextTurn now fuel room).2 = Outcome.thrown := by
  induction fuel generalizing room with
  | zero =>
    exact nextTurnBody_all_offline now _ room (fun _ _ => rfl) h2 hoff
  | succ n ih =>
    refine nextTurnBody_all_offline now _ room ?_ h2 hoff
    intro r hr
    apply ih
    · unfold aliveCount
      rw [hr]
      exact h2
    · rw [hr]
      exact hoff

theorem nextTurn_all_offline_never_returns_witness :
    2 ≤ aliveCount allOfflineRoom ∧
      (∀ p ∈ allOfflineRoom.players, disconnectedTooLong testEnv.now p = false) ∧
      ∀ fuel, (nextTurn testEnv.now fuel allOfflineRoom).2 = Outcome.thrown :=
  ⟨by decide, by decide,
    fun fuel => nextTurn_all_offline_never_returns testEnv.now fuel allOfflineRoom
      (by decide) (by decide)⟩
/-! ## Hands of alive players -/

theorem map_isAlive_modify (ps : List Player) (id : PlayerId) (f : Player → Player)
    (hf : ∀ p, (f p).isAlive = p.isAlive) :
    (modifyPlayer ps id f).map (fun p => p.isAlive) = ps.map (fun p => p.isAlive) := by
  induction ps with
  | nil => rfl
  | cons p rest ih =>
    unfold modifyPlayer
    split
    · simp [hf]
    · simp [ih]

/-- A forced discard from a hand of two cards: the card goes, a replacement is
drawn, and the player stays alive. -/
theorem discardCard_redraw (key : List Nat) (r : Room) (id : PlayerId) (p : Player) (i : Int)
    (hget : r.get id = some p) (halive : p.isAlive = true) (hlen : p.cards.length = 2)
    (h0 : 0 ≤ i) (h2 : i < 2) :
    discardCard key r id i =
      ((drawCard key ((r.modify id (fun q => { q with cards := q.cards.eraseIdx i.toNat })).setGS
          (fun gs => { gs with discardPile := gs.discardPile ++ [(p.cards[i.toNat]?).join] }))).1.modify
        id (fun q => { q with cards := q.cards ++
          [(drawCard key ((r.modify id (fun q => { q with cards := q.cards.eraseIdx i.toNat })).setGS
            (fun gs => { gs with discardPile :=
              gs.discardPile ++ [(p.cards[i.toNat]?).join] }))).2] }), true) := by
  unfold discardCard
  rw [hget]
  have hi : ¬ (i < 0 ∨ i ≥ (p.cards.length : Int)) := by
    rw [hlen]
    omega
  have hrest : (p.cards.eraseIdx i.toNat).length = 1 := by
    have hlt : i.toNat < 2 := by omega
    rw [List.length_eraseIdx, hlen]
    simp [hlt]
  simp [halive, hi, hrest]

theorem discardCard_keeps_alive (key : List Nat) (r : Room) (id : PlayerId) (i : Int)
    (h : ∀ p ∈ r.players, p.isAlive = true → p.cards.length = 2) :
    (discardCard key r id i).1.players.map (fun p => p.isAlive) =
      r.players.map (fun p => p.isAlive) := by
  cases hget : r.get id with
  | none => simp [discardCard, hget]
  | some p =>
    by_cases halive : p.isAlive = true
    · by_cases hi : i < 0 ∨ i ≥ (p.cards.length : Int)
      · simp [discardCard, hget, halive, hi]
      · have hlen := h p (getPlayer_mem hget) halive
        rw [hlen] at hi
        rw [discardCard_redraw key r id p i hget halive hlen (by omega) (by omega)]
        simp only [Room.modify, drawCard_players, Room.setGS]
        refine (map_isAlive_modify _ _ _ ?_).trans (map_isAlive_modify _ _ _ ?_) <;>
          intro _ <;> rfl
    · simp [discardCard, hget, halive]

/-- Claim C39: in every room reached from `initializeGame` on a fresh room of 2
to 6 players, every alive player holds exactly two cards; hence a forced
discard on such a room (`discardCard`, and the discard of coup and
assassination on an alive target) leaves every `isAlive` flag as it was and
gives the room back with every alive player still holding two cards.  A player
who is not alive has the empty hand or two cards, and the only statement that
empties a hand is the one in `forceEliminatePlayer`. -/
theorem alive_players_hold_two (room : Room) (h : Reachable room) :
    (∀ p ∈ room.players, p.isAlive = true → p.cards.length = 2) ∧
      (∀ key id i,
        (discardCard key room id i).1.players.map (fun p => p.isAlive) =
            room.players.map (fun p => p.isAlive) ∧
          ∀ p ∈ (discardCard key room id i).1.players, p.isAlive = true → p.cards.length = 2) ∧
      (∀ env id target m1 m2, room.get id = some target → target.isAlive = true →
        (loseCardOrDie env room id target m1 m2).1.players.map (fun p => p.isAlive) =
          room.players.map (fun p => p.isAlive)) := by
  have hinv := gameInv_of_reachable h
  have h2 : ∀ r : Room, GameInv r → ∀ p ∈ r.players, p.isAlive = true → p.cards.length = 2 := by
    intro r hr p hp ha
    rcases (hr.players p hp).2 with h1 | h1
    · exact h1
    · rw [h1.2] at ha
      cases ha
  refine ⟨h2 room hinv, ?_, ?_⟩
  · intro key id i
    exact ⟨discardCard_keeps_alive key room id i (h2 room hinv),
      h2 _ (gameInv_discardCard hinv key id i)⟩
  · intro env id target m1 m2 hget halive
    have hlen := h2 room hinv target (getPlayer_mem hget) halive
    unfold loseCardOrDie
    simp only [hlen, show (2 : Nat) > 0 by decide, if_true]
    exact discardCard_keeps_alive _ room id _ (h2 room hinv)

theorem alive_players_hold_two_witness :
    Reachable startedRoom ∧ ∀ p ∈ startedRoom.players, p.isAlive = true → p.cards.length = 2 :=
  ⟨Reachable.init lobbyEnv lobbyRoom freshRoom_lobbyRoom,
    (alive_players_hold_two startedRoom
      (Reachable.init lobbyEnv lobbyRoom freshRoom_lobbyRoom)).1⟩

/-! ## The shape of a declaration -/

theorem pilesFrame_refl (r : Room) : PilesFrame r r :=
  ⟨rfl, rfl, rfl, rfl, rfl, rfl, rfl, rfl, rfl, rfl, rfl, rfl, rfl, rfl⟩

theorem pilesFrame_trans {r s t : Room} (h1 : PilesFrame r s) (h2 : PilesFrame s t) :
    PilesFrame r t :=
  ⟨h2.code.trans h1.code, h2.hostId.trans h1.hostId, h2.lock.trans h1.lock,
    h2.timer.trans h1.timer, h2.immediates.trans h1.immediates, h2.status.trans h1.status,
    h2.turnIndex.trans h1.turnIndex, h2.currentPlayer.trans h1.currentPlayer,
    h2.lastAction.trans h1.lastAction, h2.phase.trans h1.phase, h2.log.trans h1.log,
    h2.challengeData.trans h1.challengeData, h2.counterData.trans h1.counterData,
    h2.winner.trans h1.winner⟩

theorem pilesFrame_modify (r : Room) (id : PlayerId) (f : Player → Player) :
    PilesFrame r (r.modify id f) :=
  ⟨rfl, rfl, rfl, rfl, rfl, rfl, rfl, rfl, rfl, rfl, rfl, rfl, rfl, rfl⟩

theorem pilesFrame_discardPile (r : Room) (l : List Card) :
    PilesFrame r (r.setGS (fun gs => { gs with discardPile := l })) :=
  ⟨rfl, rfl, rfl, rfl, rfl, rfl, rfl, rfl, rfl, rfl, rfl, rfl, rfl, rfl⟩

theorem pilesFrame_drawCard (key : List Nat) (r : Room) : PilesFrame r (drawCard key r).1 := by
  rw [drawCard_room]
  exact ⟨rfl, rfl, rfl, rfl, rfl, rfl, rfl, rfl, rfl, rfl, rfl, rfl, rfl, rfl⟩

theorem pilesFrame_discardCard (key : List Nat) (r : Room) (id : PlayerId) (i : Int) :
    PilesFrame r (discardCard key r id i).1 := by
  rw [discardCard_room]
  exact ⟨rfl, rfl, rfl, rfl, rfl, rfl, rfl, rfl, rfl, rfl, rfl, rfl, rfl, rfl⟩

theorem pilesFrame_loseCardOrDie (env : Env) (r : Room) (id : PlayerId) (target : Player)
    (m1 m2 : String) : PilesFrame r (loseCardOrDie env r id target m1 m2).1 := by
  unfold loseCardOrDie
  split
  · exact pilesFrame_discardCard _ _ _ _
  · exact pilesFrame_modify _ _ _

theorem executeAction_cases (env : Env) (room : Room) (id : PlayerId) (kind : ActionType)
    (target : Option PlayerId) :
    DeclarationShape env room id kind (executeAction env room id kind target) := by
  unfold executeAction
  split
  · exact Or.inl ⟨_, rfl⟩
  rename_i player hget
  split
  · exact Or.inl ⟨_, rfl⟩
  split
  · exact Or.inl ⟨_, rfl⟩
  split
  · exact Or.inl ⟨_, rfl⟩
  split
  · exact Or.inr (Or.inl ⟨_, _, pilesFrame_modify _ _ _, rfl⟩)
  · simp only
    split
    · exact Or.inr (Or.inr (Or.inl ⟨_, _, _, pilesFrame_refl _, rfl⟩))
    · exact Or.inr (Or.inl ⟨_, _, pilesFrame_modify _ _ _, rfl⟩)
  · split
    · exact Or.inl ⟨_, rfl⟩
    split
    · exact Or.inl ⟨_, rfl⟩
    split
    · exact Or.inl ⟨_, rfl⟩
    · exact Or.inr (Or.inl ⟨_, _,
        pilesFrame_trans (pilesFrame_modify _ _ _) (pilesFrame_loseCardOrDie _ _ _ _ _ _), rfl⟩)
  · simp only
    split
    · rename_i hd
      refine Or.inr (Or.inr (Or.inr ⟨player, _, hget, ?_, rfl, rfl, rfl⟩))
      simpa [includesRole, requiredRole] using hd
    · exact Or.inr (Or.inl ⟨_, _, pilesFrame_modify _ _ _, rfl⟩)
  · split
    · exact Or.inl ⟨_, rfl⟩
    split
    · exact Or.inl ⟨_, rfl⟩
    split
    · exact Or.inl ⟨_, rfl⟩
    simp only
    split
    · exact Or.inr (Or.inr (Or.inl ⟨_, _, _, pilesFrame_modify _ _ _, rfl⟩))
    · exact Or.inr (Or.inl ⟨_, _,
        pilesFrame_trans (pilesFrame_modify _ _ _) (pilesFrame_loseCardOrDie _ _ _ _ _ _), rfl⟩)
  · simp only
    split
    · exact Or.inl ⟨_, rfl⟩
    split
    · exact Or.inl ⟨_, rfl⟩
    split
    · exact Or.inr (Or.inl ⟨_, _, pilesFrame_refl _, rfl⟩)
    split
    · rename_i hd
      refine Or.inr (Or.inr (Or.inr ⟨player, _, hget, ?_, rfl, rfl, rfl⟩))
      simpa [includesRole, requiredRole] using hd
    · exact Or.inr (Or.inl ⟨_, _,
        pilesFrame_trans (pilesFrame_modify _ _ _) (pilesFrame_modify _ _ _), rfl⟩)
  · simp only
    split
    · rename_i hd
      refine Or.inr (Or.inr (Or.inr ⟨player, _, hget, ?_, rfl, rfl, rfl⟩))
      simpa [includesRole, requiredRole] using hd
    · refine Or.inr (Or.inl ⟨_, _, ?_, rfl⟩)
      exact pilesFrame_trans (pilesFrame_drawCard _ _)
        (pilesFrame_trans (pilesFrame_drawCard _ _)
          (pilesFrame_trans (pilesFrame_modify _ _ _) (pilesFrame_discardPile _ _)))
  · exact Or.inr (Or.inl ⟨_, _, pilesFrame_refl _, rfl⟩)
/-! ## Challenges, step by step -/

theorem addChallenger_action (cd : ChallengeData) (c : PlayerId) :
    (addChallenger cd c).action = cd.action := by
  unfold addChallenger
  split <;> rfl

/-- What an accepted `handleChallenge` was called on and what it returns: data
was pending for an actor who is seated, and the result is the one
`settleChallenge` computes from the actor's hand. -/
theorem handleChallenge_accepted (env : Env) (r r2 : Room) (c : PlayerId) (res : ChallengeResult)
    (h : handleChallenge env r c = (r2, Outcome.ok (some res))) :
    ∃ cd challenger actor r3,
      r.gameState.phase.type = PhaseType.CHALLENGE_WINDOW ∧
      r.gameState.challengeData = some cd ∧
      r.get c = some challenger ∧ challenger.isAlive = true ∧
      r.get cd.action.playerId = some actor ∧
      nextTurn env.now env.fuel
        (settleChallenge env
          (r.setGS (fun gs => { gs with challengeData := some (addChallenger cd c) }))
          (addChallenger cd c) actor).1 = (r3, Outcome.ok ()) ∧
      r2 = r3.setGS (fun gs => { gs with challengeData := none }) ∧
      res = (settleChallenge env
          (r.setGS (fun gs => { gs with challengeData := some (addChallenger cd c) }))
          (addChallenger cd c) actor).2 := by
  unfold handleChallenge at h
  split at h
  · cases h
  rename_i hphase
  split at h
  · cases h
  rename_i cd hcd
  split at h
  · rename_i challenger actor0 hc ha0
    split at h
    · cases h
    rename_i halive
    simp only at h
    split at h
    · rename_i r3 result hres
      cases h
      unfold resolveChallenge at hres
      split at hres
      · cases hres
      rename_i actor hactor
      split at hres
      · rename_i r4 u hnt
        cases hres
        refine ⟨cd, challenger, actor, r3, by simpa using hphase, hcd, hc, by simpa using halive,
          ?_, ?_, rfl, rfl⟩
        · rw [addChallenger_action] at hactor
          exact hactor
        · rw [hnt]
      · cases hres
    · cases h
  · cases h

/-- The room `handleChallenge` returns when it is called in a challenge window
with data pending, by a seated alive challenger, against a seated actor. -/
theorem handleChallenge_eq (env : Env) (r : Room) (c : PlayerId) (cd : ChallengeData)
    (challenger actor : Player)
    (hphase : r.gameState.phase.type = PhaseType.CHALLENGE_WINDOW)
    (hcd : r.gameState.challengeData = some cd)
    (hc : r.get c = some challenger) (halive : challenger.isAlive = true)
    (ha : r.get cd.action.playerId = some actor) (r3 : Room)
    (hnt : nextTurn env.now env.fuel
        (settleChallenge env
          (r.setGS (fun gs => { gs with challengeData := some (addChallenger cd c) }))
          (addChallenger cd c) actor).1 = (r3, Outcome.ok ())) :
    handleChallenge env r c =
      (r3.setGS (fun gs => { gs with challengeData := none }),
        Outcome.ok (some (settleChallenge env
          (r.setGS (fun gs => { gs with challengeData := some (addChallenger cd c) }))
          (addChallenger cd c) actor).2)) := by
  have ha2 : (r.setGS (fun gs => { gs with challengeData := some (addChallenger cd c) })).get
      (addChallenger cd c).action.playerId = some actor := by
    rw [addChallenger_action]
    exact ha
  unfold handleChallenge
  simp only [hphase, ne_eq, not_true_eq_false, if_false, hcd, hc, ha, halive, Bool.not_true]
  unfold resolveChallenge
  simp only [ha2, hnt]
  rfl

theorem settleChallenge_won (env : Env) (r : Room) (cd : ChallengeData) (actor : Player) :
    (settleChallenge env r cd actor).2.challengeWon =
      !includesRole actor.cards (requiredRole cd.action.type) := by
  unfold settleChallenge
  by_cases h : includesRole actor.cards (requiredRole cd.action.type) = true
  · simp only [h, if_true]
    rfl
  · simp only [h]
    simp

theorem includesRole_swept {p q : Player} (h : SweptPlayer p q) (role : Option Role)
    (hp : includesRole p.cards role = false) : includesRole q.cards role = false := by
  rcases h with h | h
  · rw [h]
    exact hp
  · rw [h]
    cases role <;> rfl

theorem turnFrame_finishAction (env : Env) (r : Room) (ar : ActionResult) :
    TurnFrame r (finishAction env r ar).1 := by
  unfold finishAction
  split
  · have := turnFrame_nextTurn env.now env.fuel r
    split
    · rename_i heq
      rw [heq] at this
      exact this
    · rename_i heq
      rw [heq] at this
      exact this
  · exact turnFrame_refl r

/-- The first challenge after a bluff: when `executeAction` on a room with a
free guard and no challenge pending leaves challenge data pending, the actor's
hand did not hold the role the action claims and the room is in
CHALLENGE_WINDOW with the actor's hand still without that role (it is the same
hand, or the empty hand of a swept player); every `handleChallenge` that is
accepted on this room resolves with `challengeWon = true`. -/
theorem challenge_window_reveals_bluff (env env2 : Env) (room r1 : Room) (id : PlayerId)
    (kind : ActionType) (target : Option PlayerId) (out : Outcome (Option ActionResult))
    (hlock : room.lock = false) (hnone : room.gameState.challengeData = none)
    (hexec : executeAction env room id kind target = (r1, out))
    (hopen : r1.gameState.challengeData.isSome = true) :
    (∃ player, room.get id = some player ∧
        includesRole player.cards (requiredRole kind) = false) ∧
      (∃ q, r1.get id = some q ∧ includesRole q.cards (requiredRole kind) = false) ∧
      r1.gameState.phase.type = PhaseType.CHALLENGE_WINDOW ∧
      (∀ c r2 res, handleChallenge env2 r1 c = (r2, Outcome.ok (some res)) →
        res.challengeWon = true) := by
  have hshape := executeAction_cases env room id kind target
  rw [hexec] at hshape
  rcases hshape with ⟨o, h⟩ | ⟨s, ar, hs, h⟩ | ⟨s, cd, ar, hs, h⟩ | ⟨player, ar, hget, hrole, hty, hid, h⟩
  · cases h
    rw [hnone] at hopen
    cases hopen
  · have h1 : r1 = (finishAction env s ar).1 := congrArg Prod.fst h
    rw [h1, (turnFrame_finishAction env s ar).challengeData, hs.challengeData, hnone] at hopen
    cases hopen
  · have h1 : r1 = _ := congrArg Prod.fst h
    rw [h1, (turnFrame_setPhase _ _ _).challengeData] at hopen
    simp only [Room.setGS] at hopen
    rw [hs.challengeData, hnone] at hopen
    cases hopen
  · have h1 : r1 = (openChallenge env room ar).1 := congrArg Prod.fst h
    have hframe : TurnFrame
        (room.setGS (fun gs => { gs with challengeData := some (ChallengeData.mk ar []) })) r1 := by
      rw [h1]
      exact turnFrame_setPhase _ _ _
    obtain ⟨q, hq, hsw⟩ := (getPlayer_swept hframe.players id).2 player hget
    have hqrole := includesRole_swept hsw _ hrole
    have hcd : r1.gameState.challengeData = some (ChallengeData.mk ar []) := hframe.challengeData
    refine ⟨⟨player, hget, hrole⟩, ⟨q, hq, hqrole⟩, ?_, ?_⟩
    · rw [h1]
      unfold openChallenge
      simp only
      rw [setPhase_phase_unlocked _ _ _ (show (room.setGS _).lock = false from hlock)]
    · intro c r2 res hres
      obtain ⟨cd, challenger, actor, r3, _, hcd2, _, _, hactor, _, _, hr⟩ :=
        handleChallenge_accepted env2 r1 r2 c res hres
      rw [hcd] at hcd2
      cases hcd2
      simp only at hactor
      rw [hid] at hactor
      have : actor = q := by
        have := hq.symm.trans hactor
        cases this
        rfl
      rw [hr, settleChallenge_won, addChallenger_action, this]
      simp only
      rw [hty, hqrole]
      rfl

theorem challenge_window_reveals_bluff_witness :
    (taxDeclaredRoom.gameState.phase.type = PhaseType.CHALLENGE_WINDOW ∧
        (handleChallenge testEnv taxDeclaredRoom "player2").2.accepted = true) ∧
      ∀ c r2 res, handleChallenge testEnv taxDeclaredRoom c = (r2, Outcome.ok (some res)) →
        res.challengeWon = true :=
  ⟨by decide,
    (challenge_window_reveals_bluff testEnv testEnv bluffRoom taxDeclaredRoom "player1"
      ActionType.tax none (executeAction testEnv bluffRoom "player1" ActionType.tax none).2
      (by decide) (by decide) rfl (by decide)).2.2.2⟩

/-! ## The end of the game -/

theorem aliveCount_eq_count (r : Room) :
    aliveCount r = (r.players.map (fun p => p.isAlive)).count true := by
  unfold aliveCount
  rw [List.count, List.countP_map, List.countP_eq_length_filter]
  congr 1
  apply List.filter_congr
  intro p _
  simp

theorem aliveCount_of_map {r s : Room}
    (h : s.players.map (fun p => p.isAlive) = r.players.map (fun p => p.isAlive)) :
    aliveCount s = aliveCount r := by
  rw [aliveCount_eq_count, aliveCount_eq_count, h]

theorem aliveCount_modify (r : Room) (id : PlayerId) (f : Player → Player)
    (hf : ∀ p, (f p).isAlive = p.isAlive) : aliveCount (r.modify id f) = aliveCount r :=
  aliveCount_of_map (map_isAlive_modify _ _ _ hf)

theorem length_filter_alive_kill (ps : List Player) (id : PlayerId) (p : Player)
    (f : Player → Player) (hf : ∀ q, (f q).isAlive = false)
    (hget : getPlayer ps id = some p) (ha : p.isAlive = true) :
    ((modifyPlayer ps id f).filter (fun q => q.isAlive)).length + 1 =
      (ps.filter (fun q => q.isAlive)).length := by
  induction ps with
  | nil => cases hget
  | cons a rest ih =>
    unfold getPlayer at hget
    unfold modifyPlayer
    by_cases h : (a.id == id) = true
    · rw [List.find?, h] at hget
      cases hget
      simp [h, hf, ha]
    · have hb : (a.id == id) = false := by simpa using h
      rw [List.find?, hb] at hget
      have := ih hget
      simp only [hb, Bool.false_eq_true, if_false, List.filter_cons]
      split
      · simp only [List.length_cons]
        omega
      · exact this

theorem nextTurn_over (now fuel : Nat) (room : Room) (h1 : aliveCount room ≤ 1) :
    nextTurn now fuel room =
      (setPhase now
        (room.setGS (fun gs =>
          { gs with winner := (room.players.filter (fun p => p.isAlive)).head?.map (fun p => p.id) }))
        { type := PhaseType.GAME_OVER,
          data := PhaseData.winner
            ((room.players.filter (fun p => p.isAlive)).head?.map (fun p => p.id)) },
       Outcome.ok ()) := by
  unfold aliveCount at h1
  cases fuel <;> simp [nextTurn, nextTurnBody, h1]

/-- Claim C32: on a room with a free guard and at most one alive player
`nextTurn` returns, the phase is GAME_OVER, `gameState.winner` is the id of the
alive player, or null when nobody is alive, and `turnIndex` and
`currentPlayer` are as before.  And when, in TURN_START with a free guard and
nothing pending, the current player (7 coins or more) declares a coup on the
only other alive player, whose hand is empty, the call returns a successful
record and the room is in GAME_OVER with the actor as winner. -/
theorem game_over_when_one_left (env : Env) :
    (∀ room : Room, room.lock = false → aliveCount room ≤ 1 →
      (nextTurn env.now env.fuel room).2 = Outcome.ok () ∧
      (nextTurn env.now env.fuel room).1.gameState.phase.type = PhaseType.GAME_OVER ∧
      (nextTurn env.now env.fuel room).1.gameState.winner =
        (room.players.filter (fun p => p.isAlive)).head?.map (fun p => p.id) ∧
      (nextTurn env.now env.fuel room).1.gameState.phase.data =
        PhaseData.winner ((room.players.filter (fun p => p.isAlive)).head?.map (fun p => p.id)) ∧
      (aliveCount room = 0 → (nextTurn env.now env.fuel room).1.gameState.winner = none) ∧
      (∀ p, room.players.filter (fun p => p.isAlive) = [p] →
        (nextTurn env.now env.fuel room).1.gameState.winner = some p.id) ∧
      (nextTurn env.now env.fuel room).1.gameState.turnIndex = room.gameState.turnIndex ∧
      (nextTurn env.now env.fuel room).1.gameState.currentPlayer =
        room.gameState.currentPlayer) ∧
    (∀ (room : Room) (id tid : PlayerId) (actor target : Player),
      room.lock = false →
      room.gameState.phase.type = PhaseType.TURN_START →
      room.gameState.challengeData = none → room.gameState.counterData = none →
      room.gameState.currentPlayer = some id →
      room.get id = some actor → actor.isAlive = true → 7 ≤ actor.coins →
      room.get tid = some target → target.isAlive = true → target.cards = [] →
      tid ≠ id → aliveCount room = 2 →
      (∃ ar, (executeAction env room id ActionType.coup (some tid)).2 = Outcome.ok (some ar) ∧
        ar.success = true) ∧
      (executeAction env room id ActionType.coup (some tid)).1.gameState.phase.type =
        PhaseType.GAME_OVER ∧
      (executeAction env room id ActionType.coup (some tid)).1.gameState.winner = some id) := by
  constructor
  · intro room hlock h1
    rw [nextTurn_over env.now env.fuel room h1]
    obtain ⟨log, hl⟩ := setPhase_gameState_unlocked env.now
      (room.setGS (fun gs =>
        { gs with winner := (room.players.filter (fun p => p.isAlive)).head?.map (fun p => p.id) }))
      { type := PhaseType.GAME_OVER,
        data := PhaseData.winner
          ((room.players.filter (fun p => p.isAlive)).head?.map (fun p => p.id)) } hlock
    dsimp only
    rw [hl]
    refine ⟨rfl, rfl, rfl, rfl, ?_, ?_, rfl, rfl⟩
    · intro h0
      unfold aliveCount at h0
      simp only [Room.setGS]
      rw [List.length_eq_zero.1 h0]
      rfl
    · intro p hp
      simp only [Room.setGS]
      rw [hp]
      rfl
  · intro room id tid actor target hlock hphase hcd hctr hcur hget halive hcoins htget htalive
      htcards hne h2
    have htid : target.id = tid := getPlayer_id htget
    have hc7 : ¬ actor.coins < 7 := by omega
    -- the room after the payment and the elimination
    have hget1 : (room.modify id (fun p => { p with coins := p.coins - 7 })).get tid =
        some target := by
      rw [get_modify_other room id tid (fun p => { p with coins := p.coins - 7 })
        (fun _ => rfl) hne]
      exact htget
    have hcount : aliveCount
        ((room.modify id (fun p => { p with coins := p.coins - 7 })).modify tid
          (fun p => { p with isAlive := false })) = 1 := by
      have h3 := length_filter_alive_kill
        (room.modify id (fun p => { p with coins := p.coins - 7 })).players tid target
        (fun p => { p with isAlive := false }) (fun _ => rfl) hget1 htalive
      have h4 := aliveCount_modify room id (fun p => { p with coins := p.coins - 7 }) (fun _ => rfl)
      unfold aliveCount at h4 h2 ⊢
      simp only [Room.modify] at h3 h4 ⊢
      omega
    have hactor : ((room.modify id (fun p => { p with coins := p.coins - 7 })).modify tid
          (fun p => { p with isAlive := false })).get id =
        some { actor with coins := actor.coins - 7 } := by
      rw [get_modify_other (room.modify id (fun p => { p with coins := p.coins - 7 })) tid id
          (fun p => { p with isAlive := false }) (fun _ => rfl) (Ne.symm hne),
        get_modify_same room id (fun p => { p with coins := p.coins - 7 }) (fun _ => rfl), hget]
      rfl
    have hwin : (((room.modify id (fun p => { p with coins := p.coins - 7 })).modify tid
          (fun p => { p with isAlive := false })).players.filter (fun p => p.isAlive)).head?.map
          (fun p => p.id) = some id := by
      have hmem : ({ actor with coins := actor.coins - 7 } : Player) ∈
          (((room.modify id (fun p => { p with coins := p.coins - 7 })).modify tid
            (fun p => { p with isAlive := false })).players.filter (fun p => p.isAlive)) :=
        List.mem_filter.2 ⟨getPlayer_mem hactor, halive⟩
      unfold aliveCount at hcount
      obtain ⟨a, ha⟩ := List.length_eq_one.1 hcount
      rw [ha] at hmem ⊢
      rw [List.mem_singleton] at hmem
      rw [← hmem]
      simp only [List.head?_cons, Option.map_some']
      exact congrArg some (getPlayer_id hget)
    have hexec : executeAction env room id ActionType.coup (some tid) =
        finishAction env
          ((room.modify id (fun p => { p with coins := p.coins - 7 })).modify tid
            (fun p => { p with isAlive := false }))
          { playerId := id, playerName := actor.name, type := ActionType.coup,
            targetPlayerId := some tid, success := true,
            log := [actor.name ++ " 发动政变，花费7金币", target.name ++ " 没有卡牌，被淘汰！"] } := by
      unfold executeAction
      simp only [hget, halive, hphase, hcur, hc7, Option.bind, htget, htalive, loseCardOrDie,
        htcards, htid]
      simp
    rw [hexec]
    unfold finishAction
    have hpend : ((room.modify id (fun p => { p with coins := p.coins - 7 })).modify tid
          (fun p => { p with isAlive := false })).gameState = room.gameState := rfl
    simp only [hpend, hcd, hctr, Option.isNone_none, Bool.and_self, if_true]
    rw [nextTurn_over _ _ _ (le_of_eq hcount), hwin]
    simp only
    obtain ⟨log, hl⟩ := setPhase_gameState_unlocked env.now
      ((((room.modify id (fun p => { p with coins := p.coins - 7 })).modify tid
          (fun p => { p with isAlive := false }))).setGS (fun gs => { gs with winner := some id }))
      { type := PhaseType.GAME_OVER, data := PhaseData.winner (some id) } hlock
    refine ⟨⟨_, rfl, rfl⟩, ?_, ?_⟩
    · rw [hl]
    · rw [hl]
      rfl

theorem game_over_when_one_left_witness :
    (nextTurn testEnv.now testEnv.fuel lastOneRoom).1.gameState.phase.type = PhaseType.GAME_OVER ∧
      (nextTurn testEnv.now testEnv.fuel lastOneRoom).1.gameState.winner = some "player1" ∧
      (executeAction testEnv emptyHandRoom "player1" ActionType.coup (some "player2")).1.gameState.phase.type
        = PhaseType.GAME_OVER ∧
      (executeAction testEnv emptyHandRoom "player1" ActionType.coup (some "player2")).1.gameState.winner
        = some "player1" :=
  ⟨((game_over_when_one_left testEnv).1 lastOneRoom (by decide) (by decide)).2.1,
    (((game_over_when_one_left testEnv).1 lastOneRoom (by decide) (by decide)).2.2.2.2.2.1
      { id := "player1", name := "Alice", coins := 2,
        cards := [some Role.duke, some Role.assassin], isAlive := true, connected := true,
        disconnectTime := none } (by decide)),
    ((game_over_when_one_left testEnv).2 emptyHandRoom "player1" "player2"
      { id := "player1", name := "Alice", coins := 7,
        cards := [some Role.duke, some Role.assassin], isAlive := true, connected := true,
        disconnectTime := none }
      { id := "player2", name := "Bob", coins := 2, cards := [], isAlive := true,
        connected := true, disconnectTime := none }
      (by decide) (by decide) (by decide) (by decide) (by decide) (by decide) (by decide)
      (by decide) (by decide) (by decide) (by decide) (by decide) (by decide)).2.1,
    ((game_over_when_one_left testEnv).2 emptyHandRoom "player1" "player2"
      { id := "player1", name := "Alice", coins := 7,
        cards := [some Role.duke, some Role.assassin], isAlive := true, connected := true,
        disconnectTime := none }
      { id := "player2", name := "Bob", coins := 2, cards := [], isAlive := true,
        connected := true, disconnectTime := none }
      (by decide) (by decide) (by decide) (by decide) (by decide) (by decide) (by decide)
      (by decide) (by decide) (by decide) (by decide) (by decide) (by decide)).2.2⟩

/-! ## GAME_OVER is kept -/

theorem quiet_refl (r : Room) : Quiet r r := ⟨rfl, le_refl _⟩

theorem quiet_trans {r s t : Room} (h1 : Quiet r s) (h2 : Quiet s t) : Quiet r t :=
  ⟨h2.phase.trans h1.phase, le_trans h2.alive h1.alive⟩

theorem length_filter_alive_modify_le (ps : List Player) (id : PlayerId) (f : Player → Player)
    (hf : ∀ p, (f p).isAlive = true → p.isAlive = true) :
    ((modifyPlayer ps id f).filter (fun p => p.isAlive)).length ≤
      (ps.filter (fun p => p.isAlive)).length := by
  induction ps with
  | nil => exact le_refl _
  | cons a rest ih =>
    unfold modifyPlayer
    split
    · simp only [List.filter_cons]
      by_cases h1 : (f a).isAlive = true
      · have := hf a h1
        simp [h1, this]
      · by_cases h2 : a.isAlive = true <;> simp [h1, h2]
    · simp only [List.filter_cons]
      split <;> simp [ih]

theorem quiet_modify (r : Room) (id : PlayerId) (f : Player → Player)
    (hf : ∀ p, (f p).isAlive = true → p.isAlive = true) : Quiet r (r.modify id f) :=
  ⟨rfl, length_filter_alive_modify_le _ _ _ hf⟩

theorem quiet_coins (r : Room) (id : PlayerId) (g : Player → Int) :
    Quiet r (r.modify id (fun p => { p with coins := g p })) :=
  quiet_modify _ _ _ (fun _ h => h)

theorem quiet_kill (r : Room) (id : PlayerId) :
    Quiet r (r.modify id (fun p => { p with isAlive := false })) :=
  quiet_modify _ _ _ (fun _ h => by cases h)

theorem quiet_setGS (r : Room) (f : GameState → GameState)
    (hf : (f r.gameState).phase = r.gameState.phase) : Quiet r (r.setGS f) :=
  ⟨hf, le_refl _⟩

theorem quiet_pushLog (r : Room) (msg : String) : Quiet r (r.pushLog msg) :=
  ⟨rfl, le_refl _⟩

theorem quiet_drawCard (key : List Nat) (r : Room) : Quiet r (drawCard key r).1 := by
  refine ⟨(pilesFrame_drawCard key r).phase, ?_⟩
  unfold aliveCount
  rw [drawCard_players]

theorem quiet_discardCard (key : List Nat) (r : Room) (id : PlayerId) (i : Int) :
    Quiet r (discardCard key r id i).1 := by
  refine ⟨(pilesFrame_discardCard key r id i).phase, ?_⟩
  unfold discardCard
  split
  · exact le_refl _
  split
  · exact le_refl _
  split
  · exact le_refl _
  simp only
  split
  · exact le_trans (length_filter_alive_modify_le _ _ _ (fun _ h => by cases h))
      (length_filter_alive_modify_le _ _ _ (fun _ h => h))
  split
  · refine le_trans (length_filter_alive_modify_le _ _ _ (fun _ h => h)) ?_
    rw [drawCard_players]
    exact length_filter_alive_modify_le _ _ _ (fun _ h => h)
  · exact length_filter_alive_modify_le _ _ _ (fun _ h => h)

theorem quiet_stealCoins (r : Room) (actorId : PlayerId) (t : Option PlayerId) :
    Quiet r (stealCoins r actorId t) := by
  unfold stealCoins
  split
  · exact quiet_refl r
  · split
    · exact quiet_trans (quiet_coins _ _ _) (quiet_coins _ _ _)
    · exact quiet_refl r

theorem quiet_loseCardOrDie (env : Env) (r : Room) (id : PlayerId) (target : Player)
    (m1 m2 : String) : Quiet r (loseCardOrDie env r id target m1 m2).1 := by
  unfold loseCardOrDie
  split
  · exact quiet_discardCard _ _ _ _
  · exact quiet_kill _ _

theorem quiet_challengersDiscard (env : Env) (k : Nat) (ids : List PlayerId) (r : Room)
    (log : List String) : Quiet r (challengersDiscard env k ids r log).1 := by
  induction ids generalizing k r log with
  | nil => exact quiet_refl r
  | cons c rest ih =>
    unfold challengersDiscard
    split
    · exact ih _ _ _
    · split
      · exact quiet_trans (quiet_discardCard _ _ _ _) (ih _ _ _)
      · exact ih _ _ _

theorem quiet_settleChallenge (env : Env) (r : Room) (cd : ChallengeData) (actor : Player) :
    Quiet r (settleChallenge env r cd actor).1 := by
  unfold settleChallenge
  simp only
  split
  · simp only
    split
    · exact quiet_trans (quiet_challengersDiscard _ _ _ _ _) (quiet_coins _ _ _)
    · split
      · exact quiet_trans (quiet_challengersDiscard _ _ _ _ _) (quiet_stealCoins _ _ _)
      · exact quiet_challengersDiscard _ _ _ _ _
  · simp only
    split
    · split
      · exact quiet_trans (quiet_discardCard _ _ _ _) (quiet_coins _ _ _)
      · exact quiet_coins _ _ _
    · split
      · exact quiet_discardCard _ _ _ _
      · exact quiet_refl r

theorem quiet_applyUnblocked (env : Env) (k : Nat) (r : Room) (action : ActionResult)
    (log : List String) : Quiet r (applyUnblocked env k r action log).1 := by
  unfold applyUnblocked
  split
  · split
    · exact quiet_refl r
    · exact quiet_coins _ _ _
  · split
    · split
      · exact quiet_refl r
      · split
        · exact quiet_discardCard _ _ _ _
        · exact quiet_refl r
    · exact quiet_refl r

theorem quiet_settleCounter (env : Env) (r : Room) (cd : CounterData) (b : PlayerId)
    (blocker : Player) (block : Bool) : Quiet r (settleCounter env r cd b blocker block).1 := by
  unfold settleCounter
  simp only
  split
  · split
    · simp only
      split
      · exact quiet_coins _ _ _
      · exact quiet_refl r
    · have h1 : Quiet r (if blocker.cards.length > 0 then
          (discardCard (env.key 0) r b (randomIndex (env.pick 0) blocker.cards.length)).1
          else r) := by
        split
        · exact quiet_discardCard _ _ _ _
        · exact quiet_refl r
      have h2 := quiet_applyUnblocked env 1 (if blocker.cards.length > 0 then
          (discardCard (env.key 0) r b (randomIndex (env.pick 0) blocker.cards.length)).1
          else r) cd.action [blocker.name ++ " 试图阻止但失败，被迫弃牌"]
      have h3 := quiet_trans h1 h2
      split
      · rename_i heq
        rw [heq] at h3
        exact h3
      · rename_i heq
        rw [heq] at h3
        exact h3
  · have h3 := quiet_applyUnblocked env 0 r cd.action [blocker.name ++ " 选择不阻止"]
    split
    · rename_i heq
      rw [heq] at h3
      exact h3
    · rename_i heq
      rw [heq] at h3
      exact h3

theorem quiet_applyUnchallenged (env : Env) (r : Room) (action : ActionResult) (actor : Player) :
    Quiet r (SocketManager.applyUnchallenged env r action actor) := by
  unfold SocketManager.applyUnchallenged
  split
  · exact quiet_trans (quiet_coins _ _ _) (quiet_pushLog _ _)
  · split
    · exact quiet_refl r
    · split
      · exact quiet_trans (quiet_stealCoins _ _ _) (quiet_pushLog _ _)
      · exact quiet_refl r
  · exact quiet_pushLog _ _
  · split
    · exact quiet_refl r
    · split
      · exact quiet_trans (quiet_discardCard _ _ _ _) (quiet_pushLog _ _)
      · exact quiet_refl r
  · exact quiet_refl r
theorem length_filter_alive_swept {ps qs : List Player} (h : List.Forall₂ SweptPlayer ps qs) :
    (qs.filter (fun p => p.isAlive)).length ≤ (ps.filter (fun p => p.isAlive)).length := by
  induction h with
  | nil => exact le_refl _
  | @cons a b l1 l2 hab _ ih =>
    simp only [List.filter_cons]
    rcases hab with h1 | h1
    · rw [h1]
      split <;> simp [ih]
    · rw [h1]
      simp only [Bool.false_eq_true, if_false]
      split
      · simp only [List.length_cons]
        omega
      · exact ih

theorem aliveCount_turnFrame {r s : Room} (h : TurnFrame r s) : aliveCount s ≤ aliveCount r :=
  length_filter_alive_swept h.players

theorem setPhase_phase_cases (now : Nat) (r : Room) (p : PhaseVal) :
    (setPhase now r p).gameState.phase = r.gameState.phase ∨
      (setPhase now r p).gameState.phase = p := by
  cases h : r.lock with
  | true => rw [setPhase_locked now r p h]; exact Or.inl rfl
  | false => exact Or.inr (setPhase_phase_unlocked now r p h)

/-- What `nextTurn` can do to the phase: leave it, set TURN_START, or set
GAME_OVER when at most one player was alive. -/
theorem nextTurnBody_phase (now : Nat) (recurse : Room → Room × Outcome Unit)
    (hrec : ∀ r, (recurse r).1.gameState.phase = r.gameState.phase ∨
      (recurse r).1.gameState.phase.type = PhaseType.TURN_START ∨
      ((recurse r).1.gameState.phase.type = PhaseType.GAME_OVER ∧ aliveCount r ≤ 1))
    (r : Room) :
    (nextTurnBody now recurse r).1.gameState.phase = r.gameState.phase ∨
      (nextTurnBody now recurse r).1.gameState.phase.type = PhaseType.TURN_START ∨
      ((nextTurnBody now recurse r).1.gameState.phase.type = PhaseType.GAME_OVER ∧
        aliveCount r ≤ 1) := by
  unfold nextTurnBody
  simp only
  split
  · rename_i h1
    rcases setPhase_phase_cases now
      (r.setGS (fun gs =>
        { gs with winner := (r.players.filter (fun p => p.isAlive)).head?.map (fun p => p.id) }))
      { type := PhaseType.GAME_OVER,
        data := PhaseData.winner
          ((r.players.filter (fun p => p.isAlive)).head?.map (fun p => p.id)) } with h | h
    · exact Or.inl h
    · refine Or.inr (Or.inr ⟨?_, h1⟩)
      rw [h]
  · split
    · exact Or.inl rfl
    · split
      · exact Or.inl rfl
      · rename_i cur _
        split
        · exact hrec _
        · rcases setPhase_phase_cases now
            (r.setGS (fun gs =>
              { gs with turnIndex := _, currentPlayer := some cur.id }))
            { type := PhaseType.TURN_START, data := PhaseData.playerId cur.id } with h | h
          · exact Or.inl h
          · refine Or.inr (Or.inl ?_)
            rw [h]

theorem nextTurn_phase (now fuel : Nat) (r : Room) :
    (nextTurn now fuel r).1.gameState.phase = r.gameState.phase ∨
      (nextTurn now fuel r).1.gameState.phase.type = PhaseType.TURN_START ∨
      ((nextTurn now fuel r).1.gameState.phase.type = PhaseType.GAME_OVER ∧ aliveCount r ≤ 1) := by
  induction fuel generalizing r with
  | zero => exact nextTurnBody_phase now _ (fun _ => Or.inl rfl) r
  | succ n ih => exact nextTurnBody_phase now _ (fun s => ih s) r

theorem over_of_phase {r : Room} (h : r.gameState.phase.type ≠ PhaseType.GAME_OVER) :
    OverMeansOne r := fun h1 => absurd h1 h

theorem over_quiet {r s : Room} (h : OverMeansOne r) (hq : Quiet r s) : OverMeansOne s := by
  intro h1
  rw [hq.phase] at h1
  exact le_trans hq.alive (h h1)

theorem over_nextTurn {r : Room} (h : OverMeansOne r) (now fuel : Nat) :
    OverMeansOne (nextTurn now fuel r).1 := by
  intro h1
  have ha := aliveCount_turnFrame (turnFrame_nextTurn now fuel r)
  rcases nextTurn_phase now fuel r with h2 | h2 | h2
  · rw [h2] at h1
    exact le_trans ha (h h1)
  · rw [h2] at h1
    cases h1
  · exact le_trans ha h2.2

theorem over_setPhase {r : Room} (h : OverMeansOne r) (now : Nat) (p : PhaseVal)
    (hp : p.type ≠ PhaseType.GAME_OVER) : OverMeansOne (setPhase now r p) := by
  intro h1
  have ha := aliveCount_turnFrame (turnFrame_setPhase now r p)
  rcases setPhase_phase_cases now r p with h2 | h2
  · rw [h2] at h1
    exact le_trans ha (h h1)
  · rw [h2] at h1
    exact absurd h1 hp

theorem over_lock {r : Room} (h : OverMeansOne r) (b : Bool) :
    OverMeansOne { r with lock := b } := h

theorem over_withLock {α : Type} {r : Room} (h : OverMeansOne r)
    (fn : Room → Room × Outcome (Option α))
    (hfn : ∀ s, OverMeansOne s → OverMeansOne (fn s).1) : OverMeansOne (withLock r fn).1 := by
  unfold withLock
  split
  · exact h
  · have := hfn _ (over_lock h true)
    split
    · rename_i heq
      rw [heq] at this
      exact over_lock this false
    · rename_i heq
      rw [heq] at this
      exact over_lock this false

theorem over_finishAction {r : Room} (h : OverMeansOne r) (env : Env) (ar : ActionResult) :
    OverMeansOne (finishAction env r ar).1 := by
  unfold finishAction
  split
  · have := over_nextTurn h env.now env.fuel
    split
    · rename_i heq
      rw [heq] at this
      exact this
    · rename_i heq
      rw [heq] at this
      exact this
  · exact h

theorem executeAction_off_phase (env : Env) (room : Room) (id : PlayerId) (kind : ActionType)
    (target : Option PlayerId) (h : room.gameState.phase.type ≠ PhaseType.TURN_START) :
    executeAction env room id kind target = (room, Outcome.ok none) := by
  unfold executeAction
  split
  · rfl
  · split
    · rfl
    · simp [h]

theorem handleChallenge_off_phase (env : Env) (room : Room) (c : PlayerId)
    (h : room.gameState.phase.type ≠ PhaseType.CHALLENGE_WINDOW) :
    handleChallenge env room c = (room, Outcome.ok none) := by
  unfold handleChallenge
  simp [h]

theorem handleCounter_off_phase (env : Env) (room : Room) (b : PlayerId) (block : Bool)
    (h : room.gameState.phase.type ≠ PhaseType.COUNTER_WINDOW) :
    handleCounter env room b block = (room, Outcome.ok none) := by
  unfold handleCounter
  simp [h]

theorem handleDiscard_off_phase (env : Env) (room : Room) (id : PlayerId) (i : Int)
    (h : room.gameState.phase.type ≠ PhaseType.DISCARD) :
    handleDiscard env room id i = (room, Outcome.ok none) := by
  unfold handleDiscard
  simp [h]

theorem over_executeAction {r : Room} (h : OverMeansOne r) (env : Env) (id : PlayerId)
    (a : ActionType) (t : Option PlayerId) : OverMeansOne (executeAction env r id a t).1 := by
  by_cases hp : r.gameState.phase.type = PhaseType.TURN_START
  · have hne : ∀ s : Room, s.gameState.phase = r.gameState.phase → OverMeansOne s := by
      intro s hs
      apply over_of_phase
      rw [hs, hp]
      decide
    rcases executeAction_cases env r id a t with ⟨o, h1⟩ | ⟨s, ar, hs, h1⟩ | ⟨s, cd, ar, hs, h1⟩ |
        ⟨player, ar, _, _, _, _, h1⟩
    · rw [h1]
      exact h
    · rw [h1]
      exact over_finishAction (hne s hs.phase) env ar
    · rw [h1]
      exact over_setPhase
        (hne (s.setGS (fun gs => { gs with counterData := some cd })) hs.phase) env.now
        { type := PhaseType.COUNTER_WINDOW, data := PhaseData.empty } (by decide)
    · rw [h1]
      exact over_setPhase
        (hne (r.setGS (fun gs => { gs with challengeData := some (ChallengeData.mk ar []) })) rfl)
        env.now { type := PhaseType.CHALLENGE_WINDOW, data := PhaseData.empty } (by decide)
  · rw [executeAction_off_phase env r id a t hp]
    exact h

theorem over_resolveChallenge {r : Room} (h : OverMeansOne r) (env : Env) (cd : ChallengeData) :
    OverMeansOne (resolveChallenge env r cd).1 := by
  unfold resolveChallenge
  split
  · exact h
  · rename_i actor _
    have := over_nextTurn (over_quiet h (quiet_settleChallenge env r cd actor)) env.now env.fuel
    split
    · rename_i heq
      rw [heq] at this
      exact this
    · rename_i heq
      rw [heq] at this
      exact this

theorem over_handleChallenge {r : Room} (h : OverMeansOne r) (env : Env) (c : PlayerId) :
    OverMeansOne (handleChallenge env r c).1 := by
  unfold handleChallenge
  split
  · exact h
  split
  · exact h
  split
  · split
    · exact h
    · rename_i cd _ _ _ _ _ _ _ _
      have := over_resolveChallenge
        (over_quiet h (quiet_setGS r (fun gs =>
          { gs with challengeData := some (addChallenger cd c) }) rfl)) env (addChallenger cd c)
      simp only
      split
      · rename_i heq
        rw [heq] at this
        dsimp only at this ⊢
        exact over_quiet this (quiet_setGS _ _ rfl)
      · rename_i heq
        rw [heq] at this
        exact this
  · exact h

theorem over_handleCounter {r : Room} (h : OverMeansOne r) (env : Env) (b : PlayerId)
    (block : Bool) : OverMeansOne (handleCounter env r b block).1 := by
  unfold handleCounter
  split
  · exact h
  split
  · exact h
  split
  · exact h
  split
  · exact h
  rename_i cd _ _ blocker _ _
  have h1 := over_quiet h (quiet_settleCounter env r cd b blocker block)
  split
  · rename_i heq
    rw [heq] at h1
    exact h1
  · rename_i r2 blocked log heq
    rw [heq] at h1
    have h2 := over_nextTurn (over_quiet h1 (quiet_setGS r2 (fun gs =>
      { gs with counterData := none }) rfl)) env.now env.fuel
    split
    · rename_i heq2
      rw [heq2] at h2
      exact h2
    · rename_i heq2
      rw [heq2] at h2
      exact h2

theorem over_handleDiscard {r : Room} (h : OverMeansOne r) (env : Env) (id : PlayerId)
    (i : Int) : OverMeansOne (handleDiscard env r id i).1 := by
  unfold handleDiscard
  split
  · exact h
  have h1 := over_quiet h (quiet_discardCard (env.key 0) r id i)
  simp only
  split
  · have h2 := over_nextTurn h1 env.now env.fuel
    split
    · rename_i heq
      rw [heq] at h2
      exact h2
    · rename_i heq
      rw [heq] at h2
      exact h2
  · exact h1

theorem over_advancePhase {r : Room} (h : OverMeansOne r) (env : Env) :
    OverMeansOne (advancePhase env r).1 := by
  unfold advancePhase
  split
  · split
    · exact over_nextTurn (over_quiet h (quiet_pushLog _ _)) _ _
    · exact h
  · exact h
theorem over_noResult {α : Type} (x : Room × Outcome α) (h : OverMeansOne x.1) :
    OverMeansOne (SocketManager.noResult x).1 := by
  unfold SocketManager.noResult
  split <;> exact h

theorem quiet_connectivity (r : Room) (id : PlayerId) (c : Bool) (t : Option Nat) :
    Quiet r (r.modify id (fun p => { p with connected := c, disconnectTime := t })) :=
  quiet_modify _ _ _ (fun _ h => h)

theorem over_executeActionLocked {r : Room} (h : OverMeansOne r) (env : Env) (id : PlayerId)
    (a : ActionType) (t : Option PlayerId) :
    OverMeansOne (SocketManager.executeActionLocked env id a t r).1 := by
  unfold SocketManager.executeActionLocked
  have := over_executeAction h env id a t
  split
  · rename_i heq; rw [heq] at this; exact this
  · rename_i heq; rw [heq] at this; exact this
  · rename_i r1 ar heq
    rw [heq] at this
    have h2 : OverMeansOne (r1.setGS (fun gs =>
        { gs with lastAction := some ar, log := gs.log ++ ar.log })) :=
      over_quiet this (quiet_setGS r1 _ rfl)
    simp only
    split
    · exact h2
    · split
      · exact h2
      · exact over_withLock h2 _
          (fun s hs => over_noResult _ (over_nextTurn hs _ _))

theorem over_onExecuteAction {r : Room} (h : OverMeansOne r) (env : Env) (id : PlayerId)
    (a : ActionType) (t : Option PlayerId) :
    OverMeansOne (SocketManager.handleExecuteAction env r id a t) := by
  unfold SocketManager.handleExecuteAction
  split
  · exact h
  · split
    · exact h
    · exact over_withLock h _ (fun s hs => over_executeActionLocked hs env id a t)

theorem over_onChallenge {r : Room} (h : OverMeansOne r) (env : Env) (id : PlayerId) :
    OverMeansOne (SocketManager.handleChallenge env r id) := by
  unfold SocketManager.handleChallenge
  split
  · exact h
  · refine over_withLock h _ (fun s hs => ?_)
    have := over_handleChallenge hs env id
    split
    · rename_i heq; rw [heq] at this; exact this
    · rename_i heq; rw [heq] at this; exact this
    · rename_i r1 res heq
      rw [heq] at this
      have h2 : OverMeansOne r1 := this
      exact over_quiet h2 (quiet_setGS r1 (fun gs => { gs with log := gs.log ++ res.log }) rfl)

theorem over_onCounter {r : Room} (h : OverMeansOne r) (env : Env) (id : PlayerId)
    (block : Bool) : OverMeansOne (SocketManager.handleCounter env r id block) := by
  unfold SocketManager.handleCounter
  split
  · exact h
  · split
    · exact h
    · split
      · exact h
      · refine over_withLock h _ (fun s hs => ?_)
        have := over_handleCounter hs env id block
        split
        · rename_i heq; rw [heq] at this; exact this
        · rename_i heq; rw [heq] at this; exact this
        · rename_i r1 res heq
          rw [heq] at this
          have h2 : OverMeansOne r1 := this
          exact over_quiet h2
            (quiet_setGS r1 (fun gs => { gs with log := gs.log ++ res.log }) rfl)

theorem over_onDiscard {r : Room} (h : OverMeansOne r) (env : Env) (id : PlayerId)
    (i : Int) : OverMeansOne (SocketManager.handleDiscard env r id i) := by
  unfold SocketManager.handleDiscard
  split
  · exact h
  · refine over_withLock h _ (fun s hs => ?_)
    have := over_handleDiscard hs env id i
    split
    · rename_i heq; rw [heq] at this; exact this
    · rename_i r1 heq
      rw [heq] at this
      have h2 : OverMeansOne r1 := this
      split
      · exact h2
      · exact over_quiet h2 (quiet_pushLog _ _)
    · rename_i heq; rw [heq] at this; exact this

theorem over_reconnect {r : Room} (h : OverMeansOne r) (id : PlayerId) :
    OverMeansOne (SocketManager.handleReconnect r id) :=
  over_quiet h (quiet_connectivity r id true none)

theorem over_checkDisconnectedPlayerInGame {r : Room} (h : OverMeansOne r) (env : Env)
    (id : PlayerId) : OverMeansOne (SocketManager.checkDisconnectedPlayerInGame env r id) := by
  unfold SocketManager.checkDisconnectedPlayerInGame
  split
  · refine over_withLock h _ (fun s hs => ?_)
    split
    · exact hs
    · exact over_noResult _ (over_nextTurn (over_quiet hs (quiet_pushLog _ _)) _ _)
  · exact h

theorem over_disconnect {r : Room} (h : OverMeansOne r) (env : Env) (id : PlayerId) :
    OverMeansOne (SocketManager.handleDisconnect env r id) := by
  unfold SocketManager.handleDisconnect
  split
  · exact h
  · have h1 : OverMeansOne (r.modify id (fun p =>
        { p with connected := false, disconnectTime := some env.now })) :=
      over_quiet h (quiet_connectivity r id false (some env.now))
    simp only
    split
    · exact over_checkDisconnectedPlayerInGame h1 env id
    · exact h1

theorem over_resolveChallengeTimeout {r : Room} (h : OverMeansOne r) (env : Env) :
    OverMeansOne (SocketManager.resolveChallengeTimeout env r) := by
  unfold SocketManager.resolveChallengeTimeout
  split
  · exact h
  · refine over_withLock h _ (fun s hs => ?_)
    split
    · exact hs
    · have h1 : OverMeansOne (s.setGS (fun gs => { gs with challengeData := none })) :=
        over_quiet hs (quiet_setGS s _ rfl)
      simp only
      split
      · exact h1
      · exact over_noResult _ (over_nextTurn
          (over_quiet (over_quiet h1 (quiet_pushLog _ _))
            (quiet_applyUnchallenged env _ _ _)) _ _)

theorem over_resolveCounterTimeout {r : Room} (h : OverMeansOne r) (env : Env) :
    OverMeansOne (SocketManager.resolveCounterTimeout env r) := by
  unfold SocketManager.resolveCounterTimeout
  split
  · exact h
  · refine over_withLock h _ (fun s hs => ?_)
    split
    · exact hs
    · rename_i cd _
      have h1 : OverMeansOne ((s.setGS (fun gs => { gs with counterData := none })).pushLog
          "反制时间结束，执行原行动") :=
        over_quiet (over_quiet hs (quiet_setGS s _ rfl)) (quiet_pushLog _ _)
      have := over_quiet h1 (quiet_applyUnblocked env 0 _ cd.action [])
      simp only
      split
      · rename_i heq; rw [heq] at this; exact this
      · rename_i r2 log heq
        rw [heq] at this
        have h2 : OverMeansOne r2 := this
        exact over_noResult _ (over_nextTurn
          (over_quiet h2 (quiet_setGS r2 (fun gs => { gs with log := gs.log ++ log }) rfl)) _ _)

theorem over_fireTimer {r : Room} (h : OverMeansOne r) (env : Env) :
    OverMeansOne (SocketManager.fireTimer env r) := by
  unfold SocketManager.fireTimer
  split
  · exact h
  · rename_i t _
    unfold timerBody
    refine over_withLock (r := { r with timer := none }) h _ (fun s hs => ?_)
    have : OverMeansOne (SocketManager.runCallback env t.callback s).1 := by
      cases t.callback with
      | resolveChallengeTimeout => exact over_resolveChallengeTimeout hs env
      | resolveCounterTimeout => exact over_resolveCounterTimeout hs env
    split
    · rename_i heq; rw [heq] at this; exact this
    · rename_i heq; rw [heq] at this; exact this

theorem over_runImmediate {r : Room} (h : OverMeansOne r) (env : Env) :
    OverMeansOne (runImmediate env r) := by
  unfold runImmediate
  split
  · exact h
  · exact over_advancePhase (r := { r with immediates := r.immediates - 1 }) h env

theorem over_applyOp {r : Room} (h : OverMeansOne r) (env : Env) (op : Op)
    (hop : ∀ p, op ≠ Op.setPhase p) : OverMeansOne (applyOp env op r) := by
  cases op with
  | executeAction id a t => exact over_executeAction h env id a t
  | handleChallenge c => exact over_handleChallenge h env c
  | handleCounter b block => exact over_handleCounter h env b block
  | handleDiscard id i => exact over_handleDiscard h env id i
  | nextTurn => exact over_nextTurn h _ _
  | setPhase p => exact absurd rfl (hop p)
  | advancePhase => exact over_advancePhase h env
  | onExecuteAction id a t => exact over_onExecuteAction h env id a t
  | onChallenge id => exact over_onChallenge h env id
  | onCounter id block => exact over_onCounter h env id block
  | onDiscard id i => exact over_onDiscard h env id i
  | resolveChallengeTimeout => exact over_resolveChallengeTimeout h env
  | resolveCounterTimeout => exact over_resolveCounterTimeout h env
  | fireTimer => exact over_fireTimer h env
  | runImmediate => exact over_runImmediate h env
  | disconnect id => exact over_disconnect h env id
  | reconnect id => exact over_reconnect h id

theorem over_initializeGame (env : Env) (room : Room) (h : FreshRoom room) :
    OverMeansOne (initializeGame env room) := by
  apply over_of_phase
  unfold initializeGame
  simp only
  rw [setPhase_phase_unlocked]
  · decide
  · rw [dealPlayers_room]
    simp only [Room.setGS]
    rw [h.1]
    rfl

theorem over_of_played {r : Room} (h : Played r) : OverMeansOne r := by
  induction h with
  | init env room hf => exact over_initializeGame env room hf
  | step env op room hop _ ih => exact over_applyOp ih env op hop

theorem played_reachable {r : Room} (h : Played r) : Reachable r := by
  induction h with
  | init env room hf => exact Reachable.init env room hf
  | step env op room _ _ ih => exact Reachable.step env op room ih

/-- Claim C37: in every room with phase GAME_OVER that a game reaches from
`initializeGame` (by the engine's calls, the transport's handlers, timeouts and
connectivity signals), `executeAction`, `handleChallenge`, `handleCounter` and
`handleDiscard` return null and give back the room as it is, and `nextTurn` and
`advancePhase` leave the phase GAME_OVER. -/
theorem game_over_is_terminal (env : Env) (room : Room) (h : Played room)
    (hover : room.gameState.phase.type = PhaseType.GAME_OVER) :
    (∀ id kind target, executeAction env room id kind target = (room, Outcome.ok none)) ∧
      (∀ c, handleChallenge env room c = (room, Outcome.ok none)) ∧
      (∀ b block, handleCounter env room b block = (room, Outcome.ok none)) ∧
      (∀ id i, handleDiscard env room id i = (room, Outcome.ok none)) ∧
      (nextTurn env.now env.fuel room).2 = Outcome.ok () ∧
      (nextTurn env.now env.fuel room).1.gameState.phase.type = PhaseType.GAME_OVER ∧
      (advancePhase env room).2 = Outcome.ok () ∧
      (advancePhase env room).1.gameState.phase.type = PhaseType.GAME_OVER := by
  have hone : aliveCount room ≤ 1 := over_of_played h hover
  have hnt : ∀ s : Room, s.gameState.phase.type = PhaseType.GAME_OVER → aliveCount s ≤ 1 →
      (nextTurn env.now env.fuel s).2 = Outcome.ok () ∧
      (nextTurn env.now env.fuel s).1.gameState.phase.type = PhaseType.GAME_OVER := by
    intro s hs h1
    rw [nextTurn_over env.now env.fuel s h1]
    refine ⟨rfl, ?_⟩
    rcases setPhase_phase_cases env.now
      (s.setGS (fun gs =>
        { gs with winner := (s.players.filter (fun p => p.isAlive)).head?.map (fun p => p.id) }))
      { type := PhaseType.GAME_OVER,
        data := PhaseData.winner
          ((s.players.filter (fun p => p.isAlive)).head?.map (fun p => p.id)) } with h2 | h2
    · dsimp only
      rw [h2]
      exact hs
    · dsimp only
      rw [h2]
  refine ⟨?_, ?_, ?_, ?_, (hnt room hover hone).1, (hnt room hover hone).2, ?_, ?_⟩
  · intro id kind target
    exact executeAction_off_phase env room id kind target (by rw [hover]; decide)
  · intro c
    exact handleChallenge_off_phase env room c (by rw [hover]; decide)
  · intro b block
    exact handleCounter_off_phase env room b block (by rw [hover]; decide)
  · intro id i
    exact handleDiscard_off_phase env room id i (by rw [hover]; decide)
  · unfold advancePhase
    split
    · split
      · exact (hnt (room.pushLog _) hover hone).1
      · rfl
    · rfl
  · unfold advancePhase
    split
    · split
      · exact (hnt (room.pushLog _) hover hone).2
      · exact hover
    · exact hover

theorem game_over_is_terminal_witness :
    Played overRoom ∧ overRoom.gameState.phase.type = PhaseType.GAME_OVER ∧
      executeAction lobbyEnv overRoom "player_a" ActionType.income none =
        (overRoom, Outcome.ok none) ∧
      (nextTurn lobbyEnv.now lobbyEnv.fuel overRoom).1.gameState.phase.type =
        PhaseType.GAME_OVER :=
  have hp : Played overRoom :=
    Played.step _ _ _ (fun _ h => by cases h)
      (Played.step _ _ _ (fun _ h => by cases h)
        (Played.step _ _ _ (fun _ h => by cases h)
          (Played.step _ _ _ (fun _ h => by cases h)
            (Played.init lobbyEnv lobbyRoom freshRoom_lobbyRoom))))
  ⟨hp, by decide,
    (game_over_is_terminal lobbyEnv overRoom hp (by decide)).1 "player_a" ActionType.income none,
    (game_over_is_terminal lobbyEnv overRoom hp (by decide)).2.2.2.2.2.1⟩

/-! ## Whose turn is next -/

theorem seekAlive_first (ps : List Player) (k i e : Nat) (p : Player) (hi : i < ps.length)
    (he : e < k) (hp : ps[(i + e) % ps.length]? = some p) (ha : p.isAlive = true)
    (hnone : ∀ e' < e, ∀ q, ps[(i + e') % ps.length]? = some q → q.isAlive = false) :
    seekAlive ps k i = some ((i + e) % ps.length) := by
  induction k generalizing i e with
  | zero => omega
  | succ k ih =>
    unfold seekAlive
    have hget : ps[i]? = some ps[i] := List.getElem?_eq_getElem hi
    rw [hget]
    simp only
    cases e with
    | zero =>
      have h0 : (i + 0) % ps.length = i := Nat.mod_eq_of_lt hi
      rw [h0] at hp ⊢
      rw [hget] at hp
      cases hp
      simp [ha]
    | succ e1 =>
      have hdead : ps[i].isAlive = false := by
        apply hnone 0 (by omega)
        rw [Nat.add_zero, Nat.mod_eq_of_lt hi]
        exact hget
      simp only [hdead, Bool.false_eq_true, if_false]
      have hpos : 0 < ps.length := by omega
      have hshift : ∀ x, ((i + 1) % ps.length + x) % ps.length = (i + (x + 1)) % ps.length := by
        intro x
        rw [Nat.mod_add_mod]
        congr 1
        omega
      rw [← hshift e1]
      apply ih ((i + 1) % ps.length) e1 (Nat.mod_lt _ hpos) (by omega)
      · rw [hshift]
        exact hp
      · intro e' he' q hq
        rw [hshift] at hq
        exact hnone (e' + 1) (by omega) q hq

theorem passedOver_none (ps : List Player) (i d : Nat)
    (h : ∀ d' < d, ∀ q, ps[(i + 1 + d') % ps.length]? = some q → q.isAlive = false) :
    passedOver ps i d = [] := by
  induction d generalizing i with
  | zero => rfl
  | succ d ih =>
    unfold passedOver
    have h1 : passedOver ps (i + 1) d = [] := by
      apply ih
      intro d' hd' q hq
      apply h (d' + 1) (by omega) q
      rw [← hq]
      congr 2
      omega
    rw [h1, List.append_nil]
    split
    · rename_i p hp
      have := h 0 (by omega) p (by rw [Nat.add_zero]; exact hp)
      simp [this]
    · rfl

theorem passedOver_succ (ps : List Player) (i d : Nat) :
    passedOver ps i (d + 1) =
      (match ps[(i + 1) % ps.length]? with
        | some p => if p.isAlive then [p] else []
        | none => []) ++ passedOver ps (i + 1) d := rfl

theorem passedOver_add (ps : List Player) (i a b : Nat) :
    passedOver ps i (a + b) = passedOver ps i a ++ passedOver ps (i + a) b := by
  induction a generalizing i with
  | zero => simp [passedOver]
  | succ a ih =>
    have : a + 1 + b = (a + b) + 1 := by omega
    rw [this]
    have h3 : i + 1 + a = i + (a + 1) := by omega
    rw [passedOver_succ, passedOver_succ ps i a, ih (i + 1), List.append_assoc, h3]

theorem passedOver_mod (ps : List Player) (i d : Nat) :
    passedOver ps (i % ps.length) d = passedOver ps i d := by
  induction d generalizing i with
  | zero => rfl
  | succ d ih =>
    unfold passedOver
    have h1 : (i % ps.length + 1) % ps.length = (i + 1) % ps.length := Nat.mod_add_mod _ _ _
    rw [h1]
    congr 1
    rw [← ih (i % ps.length + 1), ← ih (i + 1), h1]

theorem passedOver_mem (ps : List Player) (i d : Nat) (q : Player) (h : q ∈ passedOver ps i d) :
    ∃ d' < d, ps[(i + 1 + d') % ps.length]? = some q ∧ q.isAlive = true := by
  induction d generalizing i with
  | zero => cases h
  | succ d ih =>
    unfold passedOver at h
    rcases List.mem_append.1 h with h1 | h1
    · split at h1
      · rename_i p hp
        by_cases ha : p.isAlive = true
        · simp only [ha, if_true, List.mem_singleton] at h1
          subst h1
          exact ⟨0, by omega, by rw [Nat.add_zero]; exact hp, ha⟩
        · simp [ha] at h1
      · cases h1
    · obtain ⟨d', hd', hq, ha⟩ := ih (i + 1) h1
      refine ⟨d' + 1, by omega, ?_, ha⟩
      rw [← hq]
      congr 2
      omega

/-- One activation of `nextTurn` on a room with two or more alive players, the
first alive player after the current seat being `e` seats away. -/
theorem nextTurnBody_step (now : Nat) (recurse : Room → Room × Outcome Unit) (room : Room)
    (h2 : 2 ≤ aliveCount room) (e : Nat) (pe : Player) (he : e < room.players.length)
    (hseat : room.players[(room.gameState.turnIndex + 1 + e) % room.players.length]? = some pe)
    (halive : pe.isAlive = true)
    (hnone : ∀ e' < e, ∀ q,
      room.players[(room.gameState.turnIndex + 1 + e') % room.players.length]? = some q →
        q.isAlive = false) :
    nextTurnBody now recurse room =
      if !pe.connected then
        recurse ((room.setGS (fun gs =>
          { gs with turnIndex := (room.gameState.turnIndex + 1 + e) % room.players.length,
                    currentPlayer := some pe.id })).pushLog (skipLine pe))
      else
        (setPhase now
          (room.setGS (fun gs =>
            { gs with turnIndex := (room.gameState.turnIndex + 1 + e) % room.players.length,
                      currentPlayer := some pe.id }))
          { type := PhaseType.TURN_START, data := PhaseData.playerId pe.id }, Outcome.ok ()) := by
  have hpos : 0 < room.players.length := by omega
  have hmod : ∀ x, ((room.gameState.turnIndex + 1) % room.players.length + x) % room.players.length
      = (room.gameState.turnIndex + 1 + x) % room.players.length := fun x => Nat.mod_add_mod _ _ _
  have hseek : seekAlive room.players room.players.length
      ((room.gameState.turnIndex + 1) % room.players.length) =
      some ((room.gameState.turnIndex + 1 + e) % room.players.length) := by
    rw [← hmod e]
    apply seekAlive_first _ _ _ e pe (Nat.mod_lt _ hpos) he
    · rw [hmod]
      exact hseat
    · exact halive
    · intro e' he' q hq
      rw [hmod] at hq
      exact hnone e' he' q hq
  unfold nextTurnBody
  have hn : ¬ (room.players.filter (fun p => p.isAlive)).length ≤ 1 := by
    unfold aliveCount at h2
    omega
  simp only [hn, if_false, hseek, hseat]
  rfl
/-- The room `nextTurn` returns when the first alive and connected player after
the current seat is `d` seats away: that player has the turn, one skip line
has been logged for every alive player passed over, and the phase transition
to TURN_START has run.  The stack has to take one nested call for each player
skipped. -/
theorem nextTurn_selects (now : Nat) (d : Nat) :
    ∀ (fuel : Nat) (room : Room) (cur : Player),
      2 ≤ aliveCount room → d < room.players.length → d ≤ fuel →
      room.players[(room.gameState.turnIndex + 1 + d) % room.players.length]? = some cur →
      cur.isAlive = true → cur.connected = true →
      (∀ d' < d, ∀ q,
        room.players[(room.gameState.turnIndex + 1 + d') % room.players.length]? = some q →
          ¬ (q.isAlive = true ∧ q.connected = true)) →
      nextTurn now fuel room =
        (setPhase now
          (room.setGS (fun gs =>
            { gs with turnIndex := (room.gameState.turnIndex + 1 + d) % room.players.length,
                      currentPlayer := some cur.id,
                      log := gs.log ++
                        (passedOver room.players room.gameState.turnIndex d).map skipLine }))
          { type := PhaseType.TURN_START, data := PhaseData.playerId cur.id }, Outcome.ok ()) := by
  induction d using Nat.strong_induction_on with
  | _ d ih =>
    intro fuel room cur h2 hd hfuel hseat halive hconn hmin
    classical
    have hex : ∃ e, ∃ q,
        room.players[(room.gameState.turnIndex + 1 + e) % room.players.length]? = some q ∧
          q.isAlive = true := ⟨d, cur, hseat, halive⟩
    obtain ⟨pe, hseat_e, halive_e⟩ := Nat.find_spec hex
    have hle : Nat.find hex ≤ d := Nat.find_min' hex ⟨cur, hseat, halive⟩
    have hnone : ∀ e' < Nat.find hex, ∀ q,
        room.players[(room.gameState.turnIndex + 1 + e') % room.players.length]? = some q →
          q.isAlive = false := by
      intro e' he' q hq
      cases hqa : q.isAlive
      · rfl
      · exact absurd ⟨q, hq, hqa⟩ (Nat.find_min hex he')
    have hbody : ∀ recurse, nextTurnBody now recurse room = _ := fun recurse =>
      nextTurnBody_step now recurse room h2 (Nat.find hex) pe (by omega) hseat_e halive_e hnone
    by_cases hed : Nat.find hex = d
    · have hnt : ∃ recurse, nextTurn now fuel room = nextTurnBody now recurse room := by
        cases fuel
        · exact ⟨_, rfl⟩
        · exact ⟨_, rfl⟩
      obtain ⟨recurse, hnt⟩ := hnt
      rw [hnt, hbody]
      rw [hed] at hseat_e hnone ⊢
      rw [hseat] at hseat_e
      cases hseat_e
      simp only [hconn, Bool.not_true, Bool.false_eq_true, if_false]
      rw [passedOver_none _ _ _ hnone]
      simp only [List.map_nil, List.append_nil]
    · have hlt : Nat.find hex < d := by omega
      have hoff : pe.connected = false := by
        cases hc : pe.connected
        · rfl
        · exact absurd ⟨halive_e, hc⟩ (hmin _ hlt pe hseat_e)
      obtain ⟨f, rfl⟩ : ∃ f, fuel = f + 1 := ⟨fuel - 1, by omega⟩
      show nextTurnBody now (nextTurn now f) room = _
      rw [hbody]
      simp only [hoff, Bool.not_false, if_true]
      have hsplit : d = Nat.find hex + ((d - Nat.find hex - 1) + 1) := by omega
      have hseat2 : ∀ x, ((room.gameState.turnIndex + 1 + Nat.find hex) % room.players.length
          + 1 + x) % room.players.length =
          (room.gameState.turnIndex + 1 + (Nat.find hex + 1 + x)) % room.players.length := by
        intro x
        rw [Nat.add_assoc, Nat.mod_add_mod]
        congr 1
        omega
      have hlast : (room.gameState.turnIndex + 1 + (Nat.find hex + 1 + (d - Nat.find hex - 1)))
          = room.gameState.turnIndex + 1 + d := by omega
      rw [ih (d - Nat.find hex - 1) (by omega) f
        ((room.setGS (fun gs =>
          { gs with turnIndex :=
                      (room.gameState.turnIndex + 1 + Nat.find hex) % room.players.length,
                    currentPlayer := some pe.id })).pushLog (skipLine pe))
        cur h2
        (show d - Nat.find hex - 1 < room.players.length by omega)
        (by omega)
        (by
          simp only [Room.pushLog, Room.setGS]
          rw [hseat2, hlast]
          exact hseat)
        halive hconn
        (by
          intro d' hd' q hq
          simp only [Room.pushLog, Room.setGS] at hq
          rw [hseat2] at hq
          exact hmin _ (by omega) q hq)]
      simp only [Room.pushLog, Room.setGS]
      rw [hseat2, hlast]
      have hpass : passedOver room.players room.gameState.turnIndex d =
          pe :: passedOver room.players
            ((room.gameState.turnIndex + 1 + Nat.find hex) % room.players.length)
            (d - Nat.find hex - 1) := by
        rw [hsplit, passedOver_add, passedOver_none _ _ _ hnone, List.nil_append, passedOver_succ,
          passedOver_mod]
        have h5 : room.gameState.turnIndex + Nat.find hex + 1 =
            room.gameState.turnIndex + 1 + Nat.find hex := by omega
        rw [h5, hseat_e]
        simp only [halive_e, if_true, List.singleton_append]
        congr 2
        omega
      rw [hpass]
      simp only [List.map_cons, List.append_assoc, List.singleton_append]
theorem exists_seat_after (ps : List Player) (i : Nat) (p : Player) (hp : p ∈ ps) :
    ∃ d, d < ps.length ∧ ps[(i + 1 + d) % ps.length]? = some p := by
  obtain ⟨j, hj, hjp⟩ := List.mem_iff_getElem.1 hp
  have hpos : 0 < ps.length := by omega
  refine ⟨(j + ps.length - (i + 1) % ps.length) % ps.length, Nat.mod_lt _ hpos, ?_⟩
  have ha : (i + 1) % ps.length < ps.length := Nat.mod_lt _ hpos
  have h1 : (i + 1 + (j + ps.length - (i + 1) % ps.length) % ps.length) % ps.length = j := by
    rw [Nat.add_mod_mod, ← Nat.mod_add_mod]
    have : (i + 1) % ps.length + (j + ps.length - (i + 1) % ps.length) = j + ps.length := by
      omega
    rw [this, Nat.add_mod_right, Nat.mod_eq_of_lt hj]
  rw [h1, List.getElem?_eq_getElem hj, hjp]

/-- The phase transition on a room with a free guard and distinct player ids,
field by field. -/
theorem setPhase_spec (now : Nat) (r : Room) (p : PhaseVal) (hlock : r.lock = false)
    (hn : (r.players.map (fun q => q.id)).Nodup) :
    setPhase now r p =
      { r with
        timer := none,
        immediates := r.immediates + 1,
        players := r.players.map
          (fun q => if disconnectedTooLong now q then eliminated q else q),
        gameState := { r.gameState with
          phase := p,
          log := r.gameState.log ++
            (r.players.filter (disconnectedTooLong now)).map eliminationLine } } := by
  rw [setPhase_unlocked now r p hlock, checkDisconnected_spec]
  · simp only [clearTimer, Room.setGS]
    cases r
    simp only at hlock
    subst hlock
    rfl
  · exact hn

theorem map_sweep_ids (now : Nat) (ps : List Player) :
    (ps.map (fun q => if disconnectedTooLong now q then eliminated q else q)).map (fun q => q.id) =
      ps.map (fun q => q.id) := by
  rw [List.map_map]
  apply List.map_congr_left
  intro q _
  simp only [Function.comp]
  split <;> rfl

theorem disconnectedTooLong_connected (now : Nat) (p : Player) (h : p.connected = true) :
    disconnectedTooLong now p = false := by
  unfold disconnectedTooLong
  simp [h]

/-- The call `nextTurn` on a room with a free guard, distinct ids, two or more
alive players and an alive connected one: the seat chosen and the room
returned. -/
theorem nextTurn_spec (now fuel : Nat) (room : Room)
    (hlock : room.lock = false) (hn : (room.players.map (fun q => q.id)).Nodup)
    (h2 : 2 ≤ aliveCount room)
    (hconn : ∃ p ∈ room.players, p.isAlive = true ∧ p.connected = true)
    (hfuel : room.players.length ≤ fuel) :
    ∃ d cur, d < room.players.length ∧
      room.players[(room.gameState.turnIndex + 1 + d) % room.players.length]? = some cur ∧
      cur.isAlive = true ∧ cur.connected = true ∧
      (∀ d' < d, ∀ q,
        room.players[(room.gameState.turnIndex + 1 + d') % room.players.length]? = some q →
          ¬ (q.isAlive = true ∧ q.connected = true)) ∧
      nextTurn now fuel room =
        ({ room with
           timer := none,
           immediates := room.immediates + 1,
           players := room.players.map
             (fun q => if disconnectedTooLong now q then eliminated q else q),
           gameState := { room.gameState with
             turnIndex := (room.gameState.turnIndex + 1 + d) % room.players.length,
             currentPlayer := some cur.id,
             phase := { type := PhaseType.TURN_START, data := PhaseData.playerId cur.id },
             log := room.gameState.log ++
               (passedOver room.players room.gameState.turnIndex d).map skipLine ++
               (room.players.filter (disconnectedTooLong now)).map eliminationLine } },
         Outcome.ok ()) := by
  classical
  obtain ⟨p, hp, hpa, hpc⟩ := hconn
  obtain ⟨d0, hd0, hseat0⟩ := exists_seat_after room.players room.gameState.turnIndex p hp
  have hex : ∃ d, ∃ q,
      room.players[(room.gameState.turnIndex + 1 + d) % room.players.length]? = some q ∧
        q.isAlive = true ∧ q.connected = true := ⟨d0, p, hseat0, hpa, hpc⟩
  obtain ⟨cur, hseat, halive, hcon⟩ := Nat.find_spec hex
  have hle : Nat.find hex ≤ d0 := Nat.find_min' hex ⟨p, hseat0, hpa, hpc⟩
  have hmin : ∀ d' < Nat.find hex, ∀ q,
      room.players[(room.gameState.turnIndex + 1 + d') % room.players.length]? = some q →
        ¬ (q.isAlive = true ∧ q.connected = true) := by
    intro d' hd' q hq hqa
    exact Nat.find_min hex hd' ⟨q, hq, hqa⟩
  have hsel := nextTurn_selects now (Nat.find hex) fuel room cur h2 (by omega) (by omega) hseat
    halive hcon hmin
  refine ⟨Nat.find hex, cur, by omega, hseat, halive, hcon, hmin, ?_⟩
  rw [hsel, setPhase_spec now _ _ (show (room.setGS _).lock = false from hlock)
    (show ((room.setGS _).players.map (fun q => q.id)).Nodup from hn)]
  rfl

/-- The call `nextTurn` returns when at most one player is alive or some alive
player is connected, provided the stack takes one nested call per seat. -/
theorem nextTurn_returns (now fuel : Nat) (room : Room)
    (h : aliveCount room ≤ 1 ∨ ∃ p ∈ room.players, p.isAlive = true ∧ p.connected = true)
    (hfuel : room.players.length ≤ fuel) :
    nextTurn now fuel room = ((nextTurn now fuel room).1, Outcome.ok ()) := by
  classical
  by_cases h1 : aliveCount room ≤ 1
  · rw [nextTurn_over now fuel room h1]
  · rcases h with h | ⟨p, hp, hpa, hpc⟩
    · exact absurd h h1
    · obtain ⟨d0, hd0, hseat0⟩ := exists_seat_after room.players room.gameState.turnIndex p hp
      have hex : ∃ d, ∃ q,
          room.players[(room.gameState.turnIndex + 1 + d) % room.players.length]? = some q ∧
            q.isAlive = true ∧ q.connected = true := ⟨d0, p, hseat0, hpa, hpc⟩
      obtain ⟨cur, hseat, halive, hcon⟩ := Nat.find_spec hex
      have hle : Nat.find hex ≤ d0 := Nat.find_min' hex ⟨p, hseat0, hpa, hpc⟩
      have hmin : ∀ d' < Nat.find hex, ∀ q,
          room.players[(room.gameState.turnIndex + 1 + d') % room.players.length]? = some q →
            ¬ (q.isAlive = true ∧ q.connected = true) := by
        intro d' hd' q hq hqa
        exact Nat.find_min hex hd' ⟨q, hq, hqa⟩
      rw [nextTurn_selects now (Nat.find hex) fuel room cur (by omega) (by omega) (by omega)
        hseat halive hcon hmin]

/-- Claim C33: on a room with a free guard, distinct player ids, at least two
alive players of whom one is connected, and a stack that takes one nested call
per seat, `nextTurn` returns; with `d` the least number such that the player
`cur` sitting `d + 1` seats after `turnIndex` (going round) is alive and
connected, `turnIndex` is that seat, `currentPlayer` is `cur`, the phase is
TURN_START for `cur`, the log has grown by one skip line for every alive player
passed over, each of them disconnected, followed by the lines of the sweep,
and `cur` is still seated there, alive. -/
theorem nextTurn_picks_next_connected (now fuel : Nat) (room : Room)
    (hlock : room.lock = false) (hn : (room.players.map (fun q => q.id)).Nodup)
    (h2 : 2 ≤ aliveCount room)
    (hconn : ∃ p ∈ room.players, p.isAlive = true ∧ p.connected = true)
    (hfuel : room.players.length ≤ fuel) :
    ∃ d cur, d < room.players.length ∧
      room.players[(room.gameState.turnIndex + 1 + d) % room.players.length]? = some cur ∧
      cur.isAlive = true ∧ cur.connected = true ∧
      (∀ d' < d, ∀ q,
        room.players[(room.gameState.turnIndex + 1 + d') % room.players.length]? = some q →
          ¬ (q.isAlive = true ∧ q.connected = true)) ∧
      (nextTurn now fuel room).2 = Outcome.ok () ∧
      (nextTurn now fuel room).1.gameState.currentPlayer = some cur.id ∧
      (nextTurn now fuel room).1.gameState.turnIndex =
        (room.gameState.turnIndex + 1 + d) % room.players.length ∧
      (nextTurn now fuel room).1.gameState.phase =
        { type := PhaseType.TURN_START, data := PhaseData.playerId cur.id } ∧
      (nextTurn now fuel room).1.gameState.log =
        room.gameState.log ++
          (passedOver room.players room.gameState.turnIndex d).map
            (fun q => q.name ++ " 已断线，自动跳过回合") ++
          (room.players.filter (disconnectedTooLong now)).map
            (fun q => q.name ++ " 长时间未连接，被系统淘汰") ∧
      (∀ q ∈ passedOver room.players room.gameState.turnIndex d,
        q.isAlive = true ∧ q.connected = false) ∧
      (nextTurn now fuel room).1.players[(room.gameState.turnIndex + 1 + d) %
        room.players.length]? = some cur ∧
      (nextTurn now fuel room).1.get cur.id = some cur := by
  obtain ⟨d, cur, hd, hseat, halive, hcon, hmin, heq⟩ :=
    nextTurn_spec now fuel room hlock hn h2 hconn hfuel
  have hsw : disconnectedTooLong now cur = false := disconnectedTooLong_connected now cur hcon
  refine ⟨d, cur, hd, hseat, halive, hcon, hmin, ?_⟩
  rw [heq]
  have hseat' : (room.players.map
      (fun q => if disconnectedTooLong now q then eliminated q else q))[
        (room.gameState.turnIndex + 1 + d) % room.players.length]? = some cur := by
    rw [List.getElem?_map, hseat]
    simp [hsw]
  refine ⟨rfl, rfl, rfl, rfl, rfl, ?_, hseat', ?_⟩
  · intro q hq
    obtain ⟨d', hd', hq1, hq2⟩ := passedOver_mem _ _ _ _ hq
    refine ⟨hq2, ?_⟩
    cases hc : q.connected
    · rfl
    · exact absurd ⟨hq2, hc⟩ (hmin d' hd' q hq1)
  · have hmem := List.getElem?_mem hseat'
    have hn' : ((room.players.map
        (fun q => if disconnectedTooLong now q then eliminated q else q)).map
          (fun q => q.id)).Nodup := by
      rw [map_sweep_ids]
      exact hn
    exact getPlayer_of_mem hn' hmem

theorem nextTurn_picks_next_connected_witness :
    (nextTurn testEnv.now testEnv.fuel threeRoom).2 = Outcome.ok () ∧
      (nextTurn testEnv.now testEnv.fuel threeRoom).1.gameState.currentPlayer = some "player3" ∧
      (nextTurn testEnv.now testEnv.fuel threeRoom).1.gameState.turnIndex = 2 ∧
      (nextTurn testEnv.now testEnv.fuel threeRoom).1.gameState.log = ["Bob 已断线，自动跳过回合"] ∧
      ∃ (d : Nat) (cur : Player), d < threeRoom.players.length ∧
        (nextTurn testEnv.now testEnv.fuel threeRoom).1.gameState.currentPlayer = some cur.id :=
  ⟨by decide, by decide, by decide, by decide, by
    obtain ⟨d, cur, h⟩ := nextTurn_picks_next_connected testEnv.now testEnv.fuel threeRoom
      (by decide) (by decide) (by decide) (by decide) (by decide)
    exact ⟨d, cur, h.1, h.2.2.2.2.2.2.1⟩⟩

/-! ## Shuffling and dealing -/

theorem cons_eraseIdx_perm {α : Type} (l : List α) (i : Nat) (y : α) (h : l[i]? = some y) :
    (y :: l.eraseIdx i).Perm l := by
  induction l generalizing i with
  | nil => simp at h
  | cons a t ih =>
    cases i with
    | zero =>
      simp only [List.getElem?_cons_zero, Option.some.injEq] at h
      subst h
      exact List.Perm.refl _
    | succ j =>
      simp only [List.getElem?_cons_succ] at h
      simp only [List.eraseIdx_cons_succ]
      exact (List.Perm.swap a y _).trans ((ih j h).cons a)

theorem permute_perm {α : Type} (key : List Nat) (l : List α) : (permute key l).Perm l := by
  induction key generalizing l with
  | nil => exact List.Perm.refl _
  | cons k ks ih =>
    unfold permute
    split
    · rename_i y hy
      exact ((ih _).cons y).trans (cons_eraseIdx_perm l _ y hy)
    · exact List.Perm.refl _

theorem shuffle_perm (key : List Nat) (l : List Card) : (shuffle key l).Perm l := by
  unfold shuffle
  have h1 : l.filter Option.isNone = l.filter (fun x => !Option.isSome x) := by
    apply List.filter_congr
    intro x _
    cases x <;> rfl
  rw [h1]
  exact ((permute_perm key _).append_right _).trans (List.filter_append_perm _ l)

theorem initializeDeck_perm (key : List Nat) : (initializeDeck key).Perm fullDeck :=
  shuffle_perm key _

theorem getLast_join_mem (l : List Card) (h : l ≠ []) : l.getLast?.join ∈ l := by
  rw [List.getLast?_eq_getLast l h]
  exact List.getLast_mem h

theorem dropLast_concat_getLast (l : List Card) (h : l ≠ []) :
    l.dropLast ++ [l.getLast?.join] = l := by
  rw [List.getLast?_eq_getLast l h]
  exact List.dropLast_append_getLast h

/-- The dealing loop when the deck holds two cards for everybody: each player
is the old player with 2 coins, `isAlive = true` and a hand of two cards, and
the hands and the rest of the deck are the deck the loop started from. -/
theorem dealPlayers_deal (key : List Nat) (ps : List Player) (r : Room)
    (h : 2 * ps.length ≤ r.gameState.deck.length) :
    List.Forall₂ (fun p q => q = dealtPlayer p q.cards ∧ q.cards.length = 2) ps
        (dealPlayers key ps r).1 ∧
      ((dealPlayers key ps r).2.gameState.deck ++
        (dealPlayers key ps r).1.flatMap (fun q => q.cards)).Perm r.gameState.deck := by
  induction ps generalizing r with
  | nil =>
    simp only [dealPlayers, List.flatMap_nil, List.append_nil]
    exact ⟨List.Forall₂.nil, List.Perm.refl _⟩
  | cons p ps ih =>
    simp only [List.length_cons] at h
    have hne1 : r.gameState.deck ≠ [] := by
      intro h0
      rw [h0] at h
      simp at h
    have hd1 := drawCard_of_nonempty key r hne1
    have hne2 : r.gameState.deck.dropLast ≠ [] := by
      intro h0
      have := congrArg List.length h0
      simp only [List.length_dropLast, List.length_nil] at this
      omega
    have hd2 := drawCard_of_nonempty key
      (r.setGS (fun gs => { gs with deck := gs.deck.dropLast })) hne2
    have hlen : 2 * ps.length ≤
        ((r.setGS (fun gs => { gs with deck := gs.deck.dropLast })).setGS
          (fun gs => { gs with deck := gs.deck.dropLast })).gameState.deck.length := by
      simp only [Room.setGS, List.length_dropLast]
      omega
    obtain ⟨ih1, ih2⟩ := ih _ hlen
    simp only [dealPlayers, hd1, hd2]
    refine ⟨List.Forall₂.cons ⟨rfl, rfl⟩ ih1, ?_⟩
    simp only [List.flatMap_cons]
    have e1 := dropLast_concat_getLast r.gameState.deck hne1
    have e2 := dropLast_concat_getLast r.gameState.deck.dropLast hne2
    have hD : r.gameState.deck = r.gameState.deck.dropLast.dropLast ++
        [r.gameState.deck.dropLast.getLast?.join, r.gameState.deck.getLast?.join] := by
      have : [r.gameState.deck.dropLast.getLast?.join, r.gameState.deck.getLast?.join] =
          [r.gameState.deck.dropLast.getLast?.join] ++ [r.gameState.deck.getLast?.join] := rfl
      rw [this, ← List.append_assoc, e2, e1]
    simp only [Room.setGS] at ih2 ⊢
    refine List.Perm.trans ?_ (List.Perm.of_eq hD.symm)
    refine (List.perm_middle.trans (List.Perm.cons _ List.perm_middle)).trans ?_
    refine ((ih2.cons _).cons _).trans ?_
    exact (List.Perm.swap _ _ _).trans
      (show ([r.gameState.deck.dropLast.getLast?.join, r.gameState.deck.getLast?.join] ++
          r.gameState.deck.dropLast.dropLast).Perm _ from List.perm_append_comm)
theorem dealt_mem {ps qs : List Player}
    (h : List.Forall₂ (fun p q => q = dealtPlayer p q.cards ∧ q.cards.length = 2) ps qs)
    {q : Player} (hq : q ∈ qs) :
    ∃ p ∈ ps, q = dealtPlayer p q.cards ∧ q.cards.length = 2 := by
  induction h with
  | nil => cases hq
  | @cons a b l1 l2 hab _ ih =>
    rcases List.mem_cons.1 hq with h1 | h1
    · subst h1
      exact ⟨a, List.mem_cons_self _ _, hab⟩
    · obtain ⟨p, hp, hpq⟩ := ih h1
      exact ⟨p, List.mem_cons_of_mem _ hp, hpq⟩

theorem dealt_ids {ps qs : List Player}
    (h : List.Forall₂ (fun p q => q = dealtPlayer p q.cards ∧ q.cards.length = 2) ps qs) :
    qs.map (fun q => q.id) = ps.map (fun q => q.id) := by
  induction h with
  | nil => rfl
  | @cons a b l1 l2 hab _ ih =>
    simp only [List.map_cons, ih]
    rw [hab.1]
    rfl

theorem dealt_tooLong (now : Nat) (p : Player) (cards : List Card) :
    disconnectedTooLong now (dealtPlayer p cards) = disconnectedTooLong now p := rfl

theorem count_fullDeck (role : Role) :
    (fullDeck.filter (fun c => decide (c = some role))).length = 3 := by
  cases role <;> decide

/-- Claim C31, as stated, fails: in the lobby where Ben went offline 61 seconds
before the start (two players, free guard) the sweep at the end of
`initializeGame` eliminates Ben, who is then not alive and holds no card. -/
theorem initializeGame_may_sweep :
    staleLobbyRoom.lock = false ∧ staleLobbyRoom.players.length = 2 ∧
      ¬ (∀ p ∈ (initializeGame lobbyEnv staleLobbyRoom).players,
          p.isAlive = true ∧ p.cards.length = 2) ∧
      (initializeGame lobbyEnv staleLobbyRoom).players.map
          (fun p => (p.id, p.isAlive, p.cards.length)) =
        [("player_a", true, 2), ("player_b", false, 0)] := by
  decide

/-- Claim C31, amended: on a room with a free guard and 2 to 6 players under
distinct ids `initializeGame` deals every player 2 coins, `isAlive = true` and
a hand of two cards (the list `dealt`), and the closing transition then
eliminates the players disconnected for more than 60 seconds.  Every player
ends with 2 coins, alive with 2 cards or not alive with none; the deck holds
15 - 2n cards, the discard pile is empty, the dealt hands and the deck hold
three copies of each role, and the phase is TURN_START.  When no player has
been disconnected that long, every player is alive with 2 cards and the hands
and the deck hold three copies of each role. -/
theorem initializeGame_deals (env : Env) (room : Room) (hlock : room.lock = false)
    (hn : (room.players.map (fun p => p.id)).Nodup)
    (h2 : 2 ≤ room.players.length) (h6 : room.players.length ≤ 6) :
    ∃ dealt : List Player,
      List.Forall₂ (fun p q => q = dealtPlayer p q.cards ∧ q.cards.length = 2)
        room.players dealt ∧
      (initializeGame env room).players =
        dealt.map (fun q => if disconnectedTooLong env.now q then eliminated q else q) ∧
      (∀ role : Role, (((initializeGame env room).gameState.deck ++
        dealt.flatMap (fun q => q.cards)).filter (fun c => decide (c = some role))).length = 3) ∧
      (initializeGame env room).gameState.deck.length = 15 - 2 * room.players.length ∧
      (initializeGame env room).gameState.discardPile = [] ∧
      (initializeGame env room).gameState.phase =
        { type := PhaseType.TURN_START, data := PhaseData.empty } ∧
      (∀ q ∈ (initializeGame env room).players, q.coins = 2) ∧
      (∀ q ∈ (initializeGame env room).players,
        (q.isAlive = true ∧ q.cards.length = 2) ∨ (q.isAlive = false ∧ q.cards = [])) ∧
      ((∀ p ∈ room.players, disconnectedTooLong env.now p = false) →
        (∀ q ∈ (initializeGame env room).players,
          q.isAlive = true ∧ q.coins = 2 ∧ q.cards.length = 2) ∧
        ∀ role : Role, (((initializeGame env room).gameState.deck ++
          (initializeGame env room).players.flatMap (fun q => q.cards)).filter
            (fun c => decide (c = some role))).length = 3) := by
  have hdeck : 2 * room.players.length ≤
      (room.setGS (fun gs =>
        { gs with deck := initializeDeck (env.key 0), discardPile := [], turnIndex := 0,
                  lastAction := none })).gameState.deck.length := by
    simp only [Room.setGS, length_initializeDeck]
    omega
  obtain ⟨hF, hperm⟩ := dealPlayers_deal (env.key 1) room.players _ hdeck
  obtain ⟨_, _, hlen, hdisc⟩ := dealPlayers_spec (env.key 1) room.players _ hdeck
  have hroom := dealPlayers_room (env.key 1) room.players
    (room.setGS (fun gs =>
      { gs with deck := initializeDeck (env.key 0), discardPile := [], turnIndex := 0,
                lastAction := none }))
  have hinit : initializeGame env room = setPhase env.now
      { (dealPlayers (env.key 1) room.players
          (room.setGS (fun gs =>
            { gs with deck := initializeDeck (env.key 0), discardPile := [], turnIndex := 0,
                      lastAction := none }))).2 with
        players := (dealPlayers (env.key 1) room.players
          (room.setGS (fun gs =>
            { gs with deck := initializeDeck (env.key 0), discardPile := [], turnIndex := 0,
                      lastAction := none }))).1 }
      { type := PhaseType.TURN_START, data := PhaseData.empty } := rfl
  have hlock2 : (dealPlayers (env.key 1) room.players
      (room.setGS (fun gs =>
        { gs with deck := initializeDeck (env.key 0), discardPile := [], turnIndex := 0,
                  lastAction := none }))).2.lock = false := by
    rw [hroom]
    exact hlock
  have hspec := setPhase_spec env.now
    { (dealPlayers (env.key 1) room.players
        (room.setGS (fun gs =>
          { gs with deck := initializeDeck (env.key 0), discardPile := [], turnIndex := 0,
                    lastAction := none }))).2 with
      players := (dealPlayers (env.key 1) room.players
        (room.setGS (fun gs =>
          { gs with deck := initializeDeck (env.key 0), discardPile := [], turnIndex := 0,
                    lastAction := none }))).1 }
    { type := PhaseType.TURN_START, data := PhaseData.empty } hlock2
    (by
      show (List.map (fun (q : Player) => q.id) _).Nodup
      rw [dealt_ids hF]
      exact hn)
  rw [hinit, hspec]
  generalize (dealPlayers (env.key 1) room.players
      (room.setGS (fun gs =>
        { gs with deck := initializeDeck (env.key 0), discardPile := [], turnIndex := 0,
                  lastAction := none }))) = dd at hF hperm hlen hdisc
  simp only [Room.setGS, length_initializeDeck] at hperm hlen hdisc
  have hcount : ∀ role : Role, ((dd.2.gameState.deck ++
      dd.1.flatMap (fun (q : Player) => q.cards)).filter
        (fun c => decide (c = some role))).length = 3 := by
    intro role
    exact (List.Perm.length_eq (List.Perm.filter _ (hperm.trans (initializeDeck_perm _)))).trans
      (count_fullDeck role)
  have hmem : ∀ q ∈ dd.1.map
      (fun (q : Player) => if disconnectedTooLong env.now q then eliminated q else q),
      q.coins = 2 ∧ ((q.isAlive = true ∧ q.cards.length = 2) ∨ (q.isAlive = false ∧ q.cards = [])) := by
    intro q hq
    obtain ⟨q0, hq0, rfl⟩ := List.mem_map.1 hq
    obtain ⟨p, _, hp1, hp2⟩ := dealt_mem hF hq0
    have hc : q0.coins = 2 := by rw [hp1]; rfl
    have ha : q0.isAlive = true := by rw [hp1]; rfl
    split
    · exact ⟨hc, Or.inr ⟨rfl, rfl⟩⟩
    · exact ⟨hc, Or.inl ⟨ha, hp2⟩⟩
  refine ⟨dd.1, hF, rfl, hcount, by simp only; omega, hdisc, rfl,
    fun q hq => (hmem q hq).1, fun q hq => (hmem q hq).2, ?_⟩
  intro hquiet
  have hsame : dd.1.map
      (fun (q : Player) => if disconnectedTooLong env.now q then eliminated q else q)
      = dd.1 := by
    conv_rhs => rw [← List.map_id dd.1]
    apply List.map_congr_left
    intro q hq
    obtain ⟨p, hp, hp1, _⟩ := dealt_mem hF hq
    have : disconnectedTooLong env.now q = false := by
      rw [hp1, dealt_tooLong]
      exact hquiet p hp
    simp [this]
  simp only [hsame]
  refine ⟨?_, hcount⟩
  intro q hq
  obtain ⟨p, _, hp1, hp2⟩ := dealt_mem hF hq
  refine ⟨by rw [hp1]; rfl, by rw [hp1]; rfl, hp2⟩

theorem initializeGame_deals_witness :
    (∀ q ∈ (initializeGame lobbyEnv lobbyRoom).players,
        q.isAlive = true ∧ q.coins = 2 ∧ q.cards.length = 2) ∧
      (initializeGame lobbyEnv lobbyRoom).gameState.deck.length = 11 ∧
      ∀ role : Role, (((initializeGame lobbyEnv lobbyRoom).gameState.deck ++
        (initializeGame lobbyEnv lobbyRoom).players.flatMap (fun q => q.cards)).filter
          (fun c => decide (c = some role))).length = 3 := by
  obtain ⟨dealt, _, _, _, hlen, _, _, _, _, hq⟩ :=
    initializeGame_deals lobbyEnv lobbyRoom (by decide) (by decide) (by decide) (by decide)
  exact ⟨(hq (by decide)).1, hlen, (hq (by decide)).2⟩
/-! ## The contract of `discardCard` -/

theorem drawCard_of_empty (key : List Nat) (r : Room) (h : r.gameState.deck = []) :
    drawCard key r =
      (r.setGS (fun gs =>
        { gs with deck := (shuffle key gs.discardPile).dropLast, discardPile := [] }),
       (shuffle key r.gameState.discardPile).getLast?.join) := by
  unfold drawCard
  simp [h, Room.setGS]

/-- Claim C36: `discardCard` returns true exactly when the player is seated,
alive and the index is within the hand; when it returns false the room is as
it was.  On success the card at the index leaves the hand for the end of the
discard pile; then a player left without a card is marked not alive, a player
left with one card draws a replacement (the last card of the deck, or, the deck
being empty, of the reshuffled discard pile, which becomes the deck), and a
larger hand is left as it is.  The replacement is a card when deck, discard
pile and hand hold cards only. -/
theorem discardCard_contract (key : List Nat) (r : Room) (id : PlayerId) (i : Int) :
    ((discardCard key r id i).2 = true ↔
        ∃ p, r.get id = some p ∧ p.isAlive = true ∧ 0 ≤ i ∧ i < (p.cards.length : Int)) ∧
      ((discardCard key r id i).2 = false → (discardCard key r id i).1 = r) ∧
      (∀ p, r.get id = some p → p.isAlive = true → 0 ≤ i → i < (p.cards.length : Int) →
        p.cards[i.toNat]? = some (p.cards[i.toNat]?).join ∧
        ((p.cards.eraseIdx i.toNat).length = 0 →
          (discardCard key r id i).1 =
            { r with
              players := modifyPlayer r.players id
                (fun q => { q with cards := q.cards.eraseIdx i.toNat, isAlive := false }),
              gameState := { r.gameState with
                discardPile := r.gameState.discardPile ++ [(p.cards[i.toNat]?).join] } }) ∧
        ((p.cards.eraseIdx i.toNat).length = 1 →
          ∃ drawn deck' pile',
            (discardCard key r id i).1 =
              { r with
                players := modifyPlayer r.players id
                  (fun q => { q with cards := q.cards.eraseIdx i.toNat ++ [drawn] }),
                gameState := { r.gameState with deck := deck', discardPile := pile' } } ∧
            (r.gameState.deck ≠ [] →
              deck' ++ [drawn] = r.gameState.deck ∧
              pile' = r.gameState.discardPile ++ [(p.cards[i.toNat]?).join]) ∧
            (r.gameState.deck = [] →
              (deck' ++ [drawn]).Perm
                (r.gameState.discardPile ++ [(p.cards[i.toNat]?).join]) ∧
              pile' = []) ∧
            ((∀ c ∈ r.gameState.deck ++ r.gameState.discardPile ++ p.cards,
                c.isSome = true) → drawn.isSome = true)) ∧
        (2 ≤ (p.cards.eraseIdx i.toNat).length →
          (discardCard key r id i).1 =
            { r with
              players := modifyPlayer r.players id
                (fun q => { q with cards := q.cards.eraseIdx i.toNat }),
              gameState := { r.gameState with
                discardPile := r.gameState.discardPile ++ [(p.cards[i.toNat]?).join] } })) := by
  have hiff : (discardCard key r id i).2 = true ↔
      ∃ p, r.get id = some p ∧ p.isAlive = true ∧ 0 ≤ i ∧ i < (p.cards.length : Int) := by
    cases hget : r.get id with
    | none => simp [discardCard, hget]
    | some p =>
      by_cases ha : p.isAlive = true
      · by_cases hi : i < 0 ∨ i ≥ (p.cards.length : Int)
        · have : ¬ (0 ≤ i ∧ i < (p.cards.length : Int)) := by omega
          simp [discardCard, hget, ha, hi, this]
        · have h3 : 0 ≤ i ∧ i < (p.cards.length : Int) := by omega
          unfold discardCard
          simp only [hget, ha, Bool.not_true, Bool.false_eq_true, if_false, hi]
          constructor
          · intro _
            exact ⟨p, rfl, ha, h3.1, h3.2⟩
          · intro _
            split
            · rfl
            · split <;> rfl
      · simp [discardCard, hget, ha]
  refine ⟨hiff, ?_, ?_⟩
  · intro hfalse
    cases hget : r.get id with
    | none => simp [discardCard, hget]
    | some p =>
      by_cases ha : p.isAlive = true
      · by_cases hi : i < 0 ∨ i ≥ (p.cards.length : Int)
        · simp [discardCard, hget, ha, hi]
        · have := hiff.2 ⟨p, hget, ha, by omega, by omega⟩
          rw [this] at hfalse
          cases hfalse
      · simp [discardCard, hget, ha]
  · intro p hget ha h0 hlt
    have hi : ¬ (i < 0 ∨ i ≥ (p.cards.length : Int)) := by omega
    have hnat : i.toNat < p.cards.length := by omega
    have hcard : p.cards[i.toNat]? = some (p.cards[i.toNat]?).join := by
      rw [List.getElem?_eq_getElem hnat]
      rfl
    have hmem : (p.cards[i.toNat]?).join ∈ p.cards := List.getElem?_mem hcard
    refine ⟨hcard, ?_, ?_, ?_⟩
    · intro hrest
      unfold discardCard
      simp only [hget, ha, Bool.not_true, Bool.false_eq_true, if_false, hi, hrest, if_true]
      simp only [Room.modify, Room.setGS]
      (rw [modifyPlayer_twice]; exact fun _ => rfl)
    · intro hrest
      have h10 : ¬ (p.cards.eraseIdx i.toNat).length = 0 := by omega
      have h12 : (p.cards.eraseIdx i.toNat).length < 2 := by omega
      have hdc : discardCard key r id i =
          ((drawCard key ((r.modify id (fun q => { q with cards := q.cards.eraseIdx i.toNat })).setGS
              (fun gs => { gs with discardPile :=
                gs.discardPile ++ [(p.cards[i.toNat]?).join] }))).1.modify
            id (fun q => { q with cards := q.cards ++
              [(drawCard key ((r.modify id (fun q =>
                { q with cards := q.cards.eraseIdx i.toNat })).setGS
                (fun gs => { gs with discardPile :=
                  gs.discardPile ++ [(p.cards[i.toNat]?).join] }))).2] }), true) := by
        unfold discardCard
        simp only [hget, ha, Bool.not_true, Bool.false_eq_true, if_false, hi, h10, h12, if_true]
      rw [hdc]
      by_cases hdeck : r.gameState.deck = []
      · have hd := drawCard_of_empty key
          ((r.modify id (fun q => { q with cards := q.cards.eraseIdx i.toNat })).setGS
            (fun gs => { gs with discardPile :=
              gs.discardPile ++ [(p.cards[i.toNat]?).join] })) hdeck
        rw [hd]
        have hne : shuffle key (r.gameState.discardPile ++ [(p.cards[i.toNat]?).join]) ≠ [] := by
          intro h0
          have := congrArg List.length h0
          rw [length_shuffle] at this
          simp at this
        refine ⟨(shuffle key (r.gameState.discardPile ++ [(p.cards[i.toNat]?).join])).getLast?.join,
          (shuffle key (r.gameState.discardPile ++ [(p.cards[i.toNat]?).join])).dropLast, [],
          ?_, fun h => absurd hdeck h, fun _ => ⟨?_, rfl⟩, ?_⟩
        · simp only [Room.modify, Room.setGS]
          (rw [modifyPlayer_twice]; exact fun _ => rfl)
        · rw [dropLast_concat_getLast _ hne]
          exact shuffle_perm _ _
        · intro hall
          have h1 := getLast_join_mem _ hne
          have h2 := (shuffle_perm key _).mem_iff.1 h1
          apply hall
          rcases List.mem_append.1 h2 with h3 | h3
          · exact List.mem_append_left _ (List.mem_append_right _ h3)
          · rw [List.mem_singleton] at h3
            rw [h3]
            exact List.mem_append_right _ hmem
      · have hd := drawCard_of_nonempty key
          ((r.modify id (fun q => { q with cards := q.cards.eraseIdx i.toNat })).setGS
            (fun gs => { gs with discardPile :=
              gs.discardPile ++ [(p.cards[i.toNat]?).join] })) hdeck
        rw [hd]
        refine ⟨r.gameState.deck.getLast?.join, r.gameState.deck.dropLast,
          r.gameState.discardPile ++ [(p.cards[i.toNat]?).join],
          ?_, fun _ => ⟨?_, rfl⟩, fun h => absurd h hdeck, ?_⟩
        · simp only [Room.modify, Room.setGS]
          (rw [modifyPlayer_twice]; exact fun _ => rfl)
        · exact dropLast_concat_getLast _ hdeck
        · intro hall
          apply hall
          exact List.mem_append_left _ (List.mem_append_left _ (getLast_join_mem _ hdeck))
    · intro hrest
      have h10 : ¬ (p.cards.eraseIdx i.toNat).length = 0 := by omega
      have h12 : ¬ (p.cards.eraseIdx i.toNat).length < 2 := by omega
      unfold discardCard
      simp only [hget, ha, Bool.not_true, Bool.false_eq_true, if_false, hi, h10, h12]
      rfl

theorem discardCard_contract_witness :
    (discardCard [] testRoom "player2" 0).2 = true ∧
      (discardCard [] testRoom "player2" 2).2 = false ∧
      (discardCard [] testRoom "player2" 2).1 = testRoom ∧
      ((discardCard [] testRoom "player2" 0).1.get "player2").map (fun p => p.cards) =
        some [some Role.contessa, some Role.contessa] ∧
      (discardCard [] testRoom "player2" 0).1.gameState.discardPile = [some Role.captain] :=
  ⟨((discardCard_contract [] testRoom "player2" 0).1).2
      ⟨_, (by decide : testRoom.get "player2" = some
        { id := "player2", name := "Bob", coins := 2,
          cards := [some Role.captain, some Role.contessa], isAlive := true, connected := true,
          disconnectTime := none }), rfl, by decide, by decide⟩,
    by decide,
    (discardCard_contract [] testRoom "player2" 2).2.1 (by decide),
    by decide, by decide⟩

/-! ## Transitions, the guard and rejected declarations -/

theorem getPlayer_map (ps : List Player) (id : PlayerId) (f : Player → Player)
    (hf : ∀ p, (f p).id = p.id) :
    getPlayer (ps.map f) id = (getPlayer ps id).map f := by
  induction ps with
  | nil => rfl
  | cons a rest ih =>
    unfold getPlayer at ih ⊢
    simp only [List.map_cons, List.find?, hf]
    cases (a.id == id)
    · exact ih
    · rfl

theorem sweep_id (now : Nat) (p : Player) :
    (if disconnectedTooLong now p then eliminated p else p).id = p.id := by
  split <;> rfl

/-- Claim C11: on a room with a free guard (and distinct player ids)
`setPhase(room, p)` leaves the phase equal to `p`, no timer armed, so that an
expiry has nothing to run, every player who has been disconnected for more
than 60 seconds eliminated, the other players as they were, and the guard
free. -/
theorem setPhase_on_free_guard (env : Env) (now : Nat) (room : Room) (p : PhaseVal)
    (hlock : room.lock = false) (hn : (room.players.map (fun q => q.id)).Nodup) :
    (setPhase now room p).gameState.phase = p ∧
      (setPhase now room p).timer = none ∧
      SocketManager.fireTimer env (setPhase now room p) = setPhase now room p ∧
      (setPhase now room p).lock = false ∧
      (setPhase now room p).players =
        room.players.map (fun q =>
          if disconnectedTooLong now q then { q with isAlive := false, cards := [] } else q) ∧
      (∀ id q, room.get id = some q → disconnectedTooLong now q = true →
        (setPhase now room p).get id = some { q with isAlive := false, cards := [] }) ∧
      (∀ id q, room.get id = some q → disconnectedTooLong now q = false →
        (setPhase now room p).get id = some q) := by
  rw [setPhase_spec now room p hlock hn]
  refine ⟨rfl, rfl, rfl, hlock, rfl, ?_, ?_⟩
  · intro id q hq ht
    show getPlayer _ id = _
    rw [getPlayer_map _ _ _ (sweep_id now)]
    have hq' : getPlayer room.players id = some q := hq
    rw [hq']
    simp [ht, eliminated]
  · intro id q hq ht
    show getPlayer _ id = _
    rw [getPlayer_map _ _ _ (sweep_id now)]
    have hq' : getPlayer room.players id = some q := hq
    rw [hq']
    simp [ht]

theorem setPhase_on_free_guard_witness :
    (setPhase testEnv.now (startTimer lateSweepRoom 20 TimerCallback.resolveChallengeTimeout)
        { type := PhaseType.COUNTER_WINDOW, data := PhaseData.empty }).gameState.phase =
        { type := PhaseType.COUNTER_WINDOW, data := PhaseData.empty } ∧
      (setPhase testEnv.now (startTimer lateSweepRoom 20 TimerCallback.resolveChallengeTimeout)
        { type := PhaseType.COUNTER_WINDOW, data := PhaseData.empty }).timer = none ∧
      ((setPhase testEnv.now (startTimer lateSweepRoom 20 TimerCallback.resolveChallengeTimeout)
        { type := PhaseType.COUNTER_WINDOW, data := PhaseData.empty }).get "player2").map
          (fun q => (q.isAlive, q.cards)) = some (false, []) :=
  ⟨(setPhase_on_free_guard testEnv testEnv.now
      (startTimer lateSweepRoom 20 TimerCallback.resolveChallengeTimeout)
      { type := PhaseType.COUNTER_WINDOW, data := PhaseData.empty } (by decide) (by decide)).1,
    by decide, by decide⟩

/-- Claim C12, as stated, fails: `advancePhase` takes no guard.  Run on the
room of `createTestRoom()` with the lock flag set and the current player Alice
offline, it logs the skip and moves the turn to Bob; only the phase transition
at the end of `nextTurn`, which does go through `withLock`, is dropped.  The
timer's closure, which is wrapped in `withLock`, leaves the same room alone. -/
theorem advancePhase_ignores_guard :
    lockedOfflineRoom.lock = true ∧
      (advancePhase testEnv lockedOfflineRoom).1.gameState.log = ["Alice 已断线，自动跳过回合"] ∧
      lockedOfflineRoom.gameState.log = [] ∧
      (advancePhase testEnv lockedOfflineRoom).1.gameState.turnIndex = 1 ∧
      lockedOfflineRoom.gameState.turnIndex = 0 ∧
      (advancePhase testEnv lockedOfflineRoom).1.gameState.currentPlayer = some "player2" ∧
      lockedOfflineRoom.gameState.currentPlayer = some "player1" ∧
      (advancePhase testEnv lockedOfflineRoom).1.gameState.phase =
        lockedOfflineRoom.gameState.phase ∧
      timerBody lockedOfflineRoom (advancePhase testEnv) = lockedOfflineRoom := by
  decide

/-- Claim C13, where the code parts from it: two calls of `withLock` made one
after the other on the room of `createTestRoom()`, as `testConcurrentSafety`
makes them, both run their operation; the log shows both and the second call
returns its value, where the claim and the test have the second one rejected. -/
theorem sequential_calls_both_run :
    testRoom.lock = false ∧
      (withLock (withLock testRoom (logging "first" 1)).1 (logging "second" 2)).1.gameState.log =
        ["first", "second"] ∧
      (withLock testRoom (logging "first" 1)).2 = some 1 ∧
      (withLock (withLock testRoom (logging "first" 1)).1 (logging "second" 2)).2 = some 2 := by
  decide

/-- Two calls of `withLock` made one after the other, on any room with a free
guard: the first releases the guard before it returns, so the second runs its
operation on the room the first one left and returns its value. -/
theorem second_call_runs {α β : Type} (room : Room)
    (op1 : Room → Room × Outcome (Option α)) (op2 : Room → Room × Outcome (Option β))
    (h : room.lock = false) (s : Room) (v : Option β)
    (h2 : op2 { (withLock room op1).1 with lock := true } = (s, Outcome.ok v)) :
    (withLock room op1).1.lock = false ∧
      withLock (withLock room op1).1 op2 = ({ s with lock := false }, v) :=
  ⟨withLock_lock_clear room op1 h,
    withLock_of_ok (withLock room op1).1 op2 (withLock_lock_clear room op1 h) s v h2⟩

theorem second_call_runs_witness :
    (withLock testRoom (logging "first" 1)).1.lock = false ∧
      withLock (withLock testRoom (logging "first" 1)).1 (logging "second" 2) =
        ({ ({ (withLock testRoom (logging "first" 1)).1 with lock := true } : Room).pushLog
            "second" with lock := false }, some 2) :=
  second_call_runs testRoom (logging "first" 1) (logging "second" 2) (by decide) _ _ rfl

/-- Claim C14: `executeAction` returns null and gives the room back as it is
when the phase is not TURN_START, when the player is not the current player,
when no player has the id, or when the player is not alive. -/
theorem executeAction_rejects (env : Env) (room : Room) (id : PlayerId) (kind : ActionType)
    (target : Option PlayerId)
    (h : room.gameState.phase.type ≠ PhaseType.TURN_START ∨
      room.gameState.currentPlayer ≠ some id ∨ room.get id = none ∨
      ∃ p, room.get id = some p ∧ p.isAlive = false) :
    executeAction env room id kind target = (room, Outcome.ok none) := by
  unfold executeAction
  split
  · rfl
  · rename_i player hget
    split
    · rfl
    · rename_i halive
      rcases h with h | h | h | ⟨p, hp, ha⟩
      · simp [h]
      · simp [h]
      · rw [hget] at h
        cases h
      · rw [hget] at hp
        cases hp
        simp [ha] at halive

theorem executeAction_rejects_witness :
    executeAction testEnv taxDeclaredRoom "player1" ActionType.income none =
        (taxDeclaredRoom, Outcome.ok none) ∧
      executeAction testEnv testRoom "player2" ActionType.income none =
        (testRoom, Outcome.ok none) ∧
      executeAction testEnv testRoom "nobody" ActionType.income none =
        (testRoom, Outcome.ok none) ∧
      executeAction testEnv lastOneRoom "player2" ActionType.income none =
        (lastOneRoom, Outcome.ok none) :=
  ⟨executeAction_rejects testEnv taxDeclaredRoom "player1" ActionType.income none
      (Or.inl (by decide)),
    executeAction_rejects testEnv testRoom "player2" ActionType.income none
      (Or.inr (Or.inl (by decide))),
    executeAction_rejects testEnv testRoom "nobody" ActionType.income none
      (Or.inr (Or.inr (Or.inl (by decide)))),
    executeAction_rejects testEnv lastOneRoom "player2" ActionType.income none
      (Or.inr (Or.inr (Or.inr ⟨_, (by decide : lastOneRoom.get "player2" = some
        { id := "player2", name := "Bob", coins := 2, cards := [], isAlive := false,
          connected := true, disconnectTime := none }), rfl⟩)))⟩
/-- Claim C15, where the code parts from it: a steal declared by the current
player against a target that is missing or not alive gives the room back as
it is, but the record it returns has `success = true`: `executeAction` sets
the flag before it looks the target up.  Coup and assassinate in the same
situation, and with too few coins, return `success = false`. -/
theorem steal_without_target_reports_success (env : Env) (room : Room) (id : PlayerId)
    (target : Option PlayerId) (player : Player)
    (hget : room.get id = some player) (halive : player.isAlive = true)
    (hphase : room.gameState.phase.type = PhaseType.TURN_START)
    (hcur : room.gameState.currentPlayer = some id)
    (htarget : target.bind room.get = none ∨
      ∃ t, target.bind room.get = some t ∧ t.isAlive = false) :
    (∃ ar, executeAction env room id ActionType.steal target = (room, Outcome.ok (some ar)) ∧
        ar.success = true) ∧
      (∃ ar, executeAction env room id ActionType.coup target = (room, Outcome.ok (some ar)) ∧
        ar.success = false) ∧
      (∃ ar, executeAction env room id ActionType.assassinate target =
          (room, Outcome.ok (some ar)) ∧ ar.success = false) := by
  unfold executeAction
  simp only [hget, halive, hphase, hcur, Bool.not_true, Bool.false_eq_true, if_false, ne_eq,
    not_true_eq_false]
  rcases htarget with h | ⟨t, h, ht⟩
  · simp only [h]
    refine ⟨⟨_, rfl, rfl⟩, ?_, ?_⟩
    · split
      · exact ⟨_, rfl, rfl⟩
      · exact ⟨_, rfl, rfl⟩
    · split
      · exact ⟨_, rfl, rfl⟩
      · exact ⟨_, rfl, rfl⟩
  · simp only [h, ht, Bool.not_false, if_true]
    refine ⟨⟨_, rfl, rfl⟩, ?_, ?_⟩
    · split
      · exact ⟨_, rfl, rfl⟩
      · exact ⟨_, rfl, rfl⟩
    · split
      · exact ⟨_, rfl, rfl⟩
      · exact ⟨_, rfl, rfl⟩

theorem steal_without_target_reports_success_witness :
    ∃ ar, executeAction testEnv testRoom "player1" ActionType.steal (some "nobody") =
        (testRoom, Outcome.ok (some ar)) ∧ ar.success = true :=
  (steal_without_target_reports_success testEnv testRoom "player1" (some "nobody")
    { id := "player1", name := "Alice", coins := 2,
      cards := [some Role.duke, some Role.assassin], isAlive := true, connected := true,
      disconnectTime := none }
    (by decide) rfl (by decide) (by decide) (Or.inl (by decide))).1

/-- Claim C16, as stated, fails: in the room of `createTestRoom()` with 7 coins
for Alice, her coup against herself is carried out; she pays the 7 coins, her
Duke goes to the discard pile and the turn passes to Bob. -/
theorem self_target_is_accepted :
    (executeAction testEnv richRoom "player1" ActionType.coup (some "player1")).2.accepted = true ∧
      ((executeAction testEnv richRoom "player1" ActionType.coup (some "player1")).1.get
        "player1").map (fun p => p.coins) = some 0 ∧
      (executeAction testEnv richRoom "player1" ActionType.coup
        (some "player1")).1.gameState.discardPile = [some Role.duke] ∧
      (executeAction testEnv richRoom "player1" ActionType.coup
        (some "player1")).1.gameState.currentPlayer = some "player2" := by
  decide

/-- Claim C21, as stated, fails: in the counter window after Bob's foreign aid,
where Alice is the only potential blocker, the engine's `handleCounter`
accepts Bob himself as `blockerId`; with `block = false` the aid goes through
and Bob has 4 coins. -/
theorem engine_accepts_any_blocker :
    aidDeclaredRoom.gameState.phase.type = PhaseType.COUNTER_WINDOW ∧
      aidDeclaredRoom.gameState.counterData.map (fun c => c.potentialBlockers) =
        some ["player1"] ∧
      (handleCounter testEnv aidDeclaredRoom "player2" false).2.accepted = true ∧
      ((handleCounter testEnv aidDeclaredRoom "player2" false).1.get "player2").map
        (fun p => p.coins) = some 4 := by
  decide

/-- Claim C21, amended: it is the transport's handler that turns away a player
who is not among `counterData.potentialBlockers`; it does so before it takes
the guard or calls the engine, and the room stays as it is. -/
theorem transport_rejects_outsider (env : Env) (room : Room) (id : PlayerId) (block : Bool)
    (cd : CounterData) (hcd : room.gameState.counterData = some cd)
    (hout : cd.potentialBlockers.contains id = false) :
    SocketManager.handleCounter env room id block = room := by
  unfold SocketManager.handleCounter
  split
  · rfl
  · simp only [hcd, hout, Bool.not_false, if_true]

theorem transport_rejects_outsider_witness :
    SocketManager.handleCounter testEnv aidDeclaredRoom "player2" false = aidDeclaredRoom :=
  transport_rejects_outsider testEnv aidDeclaredRoom "player2" false
    (CounterData.mk
      { playerId := "player2", playerName := "Bob", type := ActionType.foreign_aid,
        targetPlayerId := none, success := true, log := ["Bob 寻求外国援助"] }
      Role.duke ["player1"])
    (by decide) (by decide)

/-- Claim C25, where the code parts from it: when the timer of a room with a
free guard expires, its closure takes the guard and calls the timeout
resolution, whose own `withLock` finds the guard held and returns null.  The
room is left as it was, but for the timer: no coins move, no card is lost and
the pending data stays. -/
theorem timer_expiry_applies_nothing (env : Env) (room : Room) (t : Timer)
    (hlock : room.lock = false) (ht : room.timer = some t) :
    SocketManager.fireTimer env room = { room with timer := none } := by
  unfold SocketManager.fireTimer
  rw [ht]
  simp only
  unfold timerBody
  have hcb : ∀ r : Room, r.lock = true →
      SocketManager.runCallback env t.callback r = (r, Outcome.ok ()) := by
    intro r hr
    cases t.callback with
    | resolveChallengeTimeout =>
      simp only [SocketManager.runCallback, SocketManager.resolveChallengeTimeout]
      split
      · rfl
      · rw [withLock_locked _ _ hr]
    | resolveCounterTimeout =>
      simp only [SocketManager.runCallback, SocketManager.resolveCounterTimeout]
      split
      · rfl
      · rw [withLock_locked _ _ hr]
  unfold withLock
  simp only [hlock, Bool.false_eq_true, if_false]
  rw [hcb _ rfl]

theorem timer_expiry_applies_nothing_witness :
    armedRoom.gameState.challengeData.isSome = true ∧
      armedRoom.timer = some { seconds := 20, callback := TimerCallback.resolveChallengeTimeout } ∧
      SocketManager.fireTimer testEnv armedRoom = { armedRoom with timer := none } ∧
      ((SocketManager.fireTimer testEnv armedRoom).get "player1").map (fun p => p.coins) =
        some 2 :=
  ⟨by decide, by decide,
    timer_expiry_applies_nothing testEnv armedRoom
      { seconds := 20, callback := TimerCallback.resolveChallengeTimeout } (by decide) (by decide),
    by decide⟩

/-! ## Declarations that take effect -/

theorem exists_online_modifyPlayer (P : PlayerId → Prop) (ps : List Player) (id : PlayerId)
    (f : Player → Player)
    (hf : ∀ p, (f p).isAlive = p.isAlive ∧ (f p).connected = p.connected ∧ (f p).id = p.id)
    (p : Player) (hp : p ∈ ps) (ha : p.isAlive = true) (hc : p.connected = true) (hP : P p.id) :
    ∃ q ∈ modifyPlayer ps id f, q.isAlive = true ∧ q.connected = true ∧ P q.id := by
  induction ps with
  | nil => cases hp
  | cons a rest ih =>
    unfold modifyPlayer
    split
    · rcases List.mem_cons.1 hp with h1 | h1
      · subst h1
        refine ⟨f p, List.mem_cons_self _ _, ?_, ?_, ?_⟩
        · rw [(hf p).1]; exact ha
        · rw [(hf p).2.1]; exact hc
        · rw [(hf p).2.2]; exact hP
      · exact ⟨p, List.mem_cons_of_mem _ h1, ha, hc, hP⟩
    · rcases List.mem_cons.1 hp with h1 | h1
      · subst h1
        exact ⟨p, List.mem_cons_self _ _, ha, hc, hP⟩
      · obtain ⟨q, hq, hq1, hq2, hq3⟩ := ih h1
        exact ⟨q, List.mem_cons_of_mem _ hq, hq1, hq2, hq3⟩

theorem online_modify (P : PlayerId → Prop) (r : Room) (id : PlayerId) (f : Player → Player)
    (hf : ∀ p, (f p).isAlive = p.isAlive ∧ (f p).connected = p.connected ∧ (f p).id = p.id)
    (h : Online P r) : Online P (r.modify id f) := by
  obtain ⟨p, hp, ha, hc, hP⟩ := h
  exact exists_online_modifyPlayer P r.players id f hf p hp ha hc hP

theorem online_coins (P : PlayerId → Prop) (r : Room) (id : PlayerId) (g : Player → Int)
    (h : Online P r) : Online P (r.modify id (fun p => { p with coins := g p })) :=
  online_modify P r id _ (fun _ => ⟨rfl, rfl, rfl⟩) h

theorem online_weaken {P Q : PlayerId → Prop} {r : Room} (h : Online P r)
    (hPQ : ∀ id, P id → Q id) : Online Q r := by
  obtain ⟨p, hp, ha, hc, hP⟩ := h
  exact ⟨p, hp, ha, hc, hPQ _ hP⟩

theorem mem_modify_other {ps : List Player} {id : PlayerId} {f : Player → Player} {p : Player}
    (hp : p ∈ ps) (hne : p.id ≠ id) : p ∈ modifyPlayer ps id f := by
  induction ps with
  | nil => cases hp
  | cons a rest ih =>
    unfold modifyPlayer
    rcases List.mem_cons.1 hp with h1 | h1
    · subst h1
      have : (p.id == id) = false := by simpa using hne
      simp [this]
    · split
      · exact List.mem_cons_of_mem _ h1
      · exact List.mem_cons_of_mem _ (ih h1)

/-- A forced discard leaves a player with another id at the table, alive and
connected as before. -/
theorem online_discardCard (P : PlayerId → Prop) (key : List Nat) (r : Room) (id : PlayerId)
    (i : Int) (h : Online (fun x => P x ∧ x ≠ id) r) :
    Online P (discardCard key r id i).1 := by
  obtain ⟨p, hp, ha, hc, hP, hne⟩ := h
  obtain ⟨f, _, hpl⟩ := discardCard_players key r id i
  refine ⟨p, ?_, ha, hc, hP⟩
  rw [hpl]
  exact mem_modify_other hp hne

theorem online_setGS (P : PlayerId → Prop) (r : Room) (f : GameState → GameState)
    (h : Online P r) : Online P (r.setGS f) := h

theorem length_players_modify (r : Room) (id : PlayerId) (f : Player → Player) :
    (r.modify id f).players.length = r.players.length :=
  length_modifyPlayer _ _ _

theorem length_players_discardCard (key : List Nat) (r : Room) (id : PlayerId) (i : Int) :
    (discardCard key r id i).1.players.length = r.players.length := by
  obtain ⟨f, _, hpl⟩ := discardCard_players key r id i
  rw [hpl]
  exact length_modifyPlayer _ _ _

/-- The end of a successful declaration with nothing pending: `nextTurn` runs
and returns, given an alive connected player and a stack that takes one nested
call per seat. -/
theorem finishAction_runs (env : Env) (r : Room) (ar : ActionResult) (P : PlayerId → Prop)
    (hs : ar.success = true) (hcd : r.gameState.challengeData = none)
    (hct : r.gameState.counterData = none) (hon : Online P r)
    (hfuel : r.players.length ≤ env.fuel) :
    finishAction env r ar = ((nextTurn env.now env.fuel r).1, Outcome.ok (some ar)) := by
  obtain ⟨p, hp, ha, hc, _⟩ := hon
  have := nextTurn_returns env.now env.fuel r (Or.inr ⟨p, hp, ha, hc⟩) hfuel
  unfold finishAction
  simp only [hs, hcd, hct, Option.isNone_none, Bool.and_self, if_true]
  rw [this]

theorem coins_turnFrame {r s : Room} (h : TurnFrame r s) (id : PlayerId) :
    (s.get id).map (fun p => p.coins) = (r.get id).map (fun p => p.coins) := by
  cases hg : r.get id with
  | none =>
    have := (getPlayer_swept h.players id).1 hg
    show (getPlayer s.players id).map _ = _
    rw [this]
  | some p =>
    obtain ⟨q, hq, hsw⟩ := (getPlayer_swept h.players id).2 p hg
    show (getPlayer s.players id).map _ = _
    rw [hq]
    simp [sweptPlayer_coins hsw]

theorem coins_nextTurn (now fuel : Nat) (r : Room) (id : PlayerId) :
    ((nextTurn now fuel r).1.get id).map (fun p => p.coins) = (r.get id).map (fun p => p.coins) :=
  coins_turnFrame (turnFrame_nextTurn now fuel r) id

theorem coins_setPhase (now : Nat) (r : Room) (p : PhaseVal) (id : PlayerId) :
    ((setPhase now r p).get id).map (fun q => q.coins) = (r.get id).map (fun q => q.coins) :=
  coins_turnFrame (turnFrame_setPhase now r p) id
/-- Claim C27: foreign aid declared by the current player (TURN_START, nothing
pending) opens a counter window exactly when some other alive player holds a
Duke.  Then counter data is pending with `blockerRole` Duke and exactly those
players, in seating order, as potential blockers, the actor's coins are as
before and, the guard being free, the phase is COUNTER_WINDOW.  When no other
alive player holds a Duke, no counter data is left, the actor has two coins
more and `nextTurn` has run on the room. -/
theorem foreign_aid_window (env : Env) (room : Room) (id : PlayerId) (player : Player)
    (target : Option PlayerId)
    (hlock : room.lock = false)
    (hget : room.get id = some player) (halive : player.isAlive = true)
    (hphase : room.gameState.phase.type = PhaseType.TURN_START)
    (hcur : room.gameState.currentPlayer = some id)
    (hcd : room.gameState.challengeData = none) (hct : room.gameState.counterData = none)
    (hon : Online (fun _ => True) room) (hfuel : room.players.length ≤ env.fuel) :
    ((executeAction env room id ActionType.foreign_aid target).1.gameState.counterData.isSome = true ↔
        ∃ p ∈ room.players, p.isAlive = true ∧ p.id ≠ id ∧ p.cards.contains (some Role.duke) = true) ∧
      ((∃ p ∈ room.players, p.isAlive = true ∧ p.id ≠ id ∧
          p.cards.contains (some Role.duke) = true) →
        (executeAction env room id ActionType.foreign_aid target).2.accepted = true ∧
        (executeAction env room id ActionType.foreign_aid target).1.gameState.phase.type =
          PhaseType.COUNTER_WINDOW ∧
        (executeAction env room id ActionType.foreign_aid target).1.gameState.counterData.map
            (fun c => (c.blockerRole, c.potentialBlockers)) =
          some (Role.duke,
            (room.players.filter (fun p =>
              p.isAlive && p.id != id && p.cards.contains (some Role.duke))).map (fun p => p.id)) ∧
        ((executeAction env room id ActionType.foreign_aid target).1.get id).map (fun p => p.coins) =
          some player.coins) ∧
      ((¬ ∃ p ∈ room.players, p.isAlive = true ∧ p.id ≠ id ∧
          p.cards.contains (some Role.duke) = true) →
        (∃ ar, ar.success = true ∧
          executeAction env room id ActionType.foreign_aid target =
            ((nextTurn env.now env.fuel
              (room.modify id (fun p => { p with coins := p.coins + 2 }))).1,
             Outcome.ok (some ar))) ∧
        (executeAction env room id ActionType.foreign_aid target).1.gameState.counterData = none ∧
        ((executeAction env room id ActionType.foreign_aid target).1.get id).map (fun p => p.coins) =
          some (player.coins + 2)) := by
  have hdukes : (0 < (room.players.filter (fun p =>
      p.isAlive && p.id != id && p.cards.contains (some Role.duke))).length) ↔
      ∃ p ∈ room.players, p.isAlive = true ∧ p.id ≠ id ∧
        p.cards.contains (some Role.duke) = true := by
    rw [List.length_pos_iff_exists_mem]
    constructor
    · rintro ⟨p, hp⟩
      obtain ⟨h1, h2⟩ := List.mem_filter.1 hp
      simp only [Bool.and_eq_true, bne_iff_ne, ne_eq] at h2
      exact ⟨p, h1, h2.1.1, h2.1.2, h2.2⟩
    · rintro ⟨p, h1, h2, h3, h4⟩
      refine ⟨p, List.mem_filter.2 ⟨h1, ?_⟩⟩
      simp only [Bool.and_eq_true, bne_iff_ne, ne_eq]
      exact ⟨⟨h2, h3⟩, h4⟩
  have hexec : executeAction env room id ActionType.foreign_aid target =
      if (room.players.filter (fun p =>
          p.isAlive && p.id != id && p.cards.contains (some Role.duke))).length > 0 then
        (setPhase env.now
          (room.setGS (fun gs =>
            { gs with counterData := some (CounterData.mk
                { playerId := id, playerName := player.name, type := ActionType.foreign_aid,
                  targetPlayerId := target, success := true, log := [player.name ++ " 寻求外国援助"] }
                Role.duke
                ((room.players.filter (fun p =>
                  p.isAlive && p.id != id && p.cards.contains (some Role.duke))).map
                    (fun p => p.id))) }))
          { type := PhaseType.COUNTER_WINDOW, data := PhaseData.empty },
         Outcome.ok (some
          { playerId := id, playerName := player.name, type := ActionType.foreign_aid,
            targetPlayerId := target, success := true, log := [player.name ++ " 寻求外国援助"] }))
      else
        finishAction env (room.modify id (fun p => { p with coins := p.coins + 2 }))
          { playerId := id, playerName := player.name, type := ActionType.foreign_aid,
            targetPlayerId := target, success := true,
            log := [player.name ++ " 寻求外国援助"] ++ [player.name ++ " 成功获得2枚金币"] } := by
    unfold executeAction
    simp only [hget, halive, hphase, hcur, Bool.not_true, Bool.false_eq_true, if_false, ne_eq,
      not_true_eq_false]
  have hfin := finishAction_runs env (room.modify id (fun p => { p with coins := p.coins + 2 }))
    { playerId := id, playerName := player.name, type := ActionType.foreign_aid,
      targetPlayerId := target, success := true,
      log := [player.name ++ " 寻求外国援助"] ++ [player.name ++ " 成功获得2枚金币"] }
    (fun _ => True) rfl hcd hct (online_coins _ room id _ hon)
    (by rw [length_players_modify]; exact hfuel)
  have hcoins2 : ((room.modify id (fun p => { p with coins := p.coins + 2 })).get id).map
      (fun p => p.coins) = some (player.coins + 2) := by
    rw [get_modify_same room id (fun p => { p with coins := p.coins + 2 }) (fun _ => rfl), hget]
    rfl
  have hyes : (∃ p ∈ room.players, p.isAlive = true ∧ p.id ≠ id ∧
      p.cards.contains (some Role.duke) = true) →
      (executeAction env room id ActionType.foreign_aid target).2.accepted = true ∧
      (executeAction env room id ActionType.foreign_aid target).1.gameState.phase.type =
        PhaseType.COUNTER_WINDOW ∧
      (executeAction env room id ActionType.foreign_aid target).1.gameState.counterData.map
          (fun c => (c.blockerRole, c.potentialBlockers)) =
        some (Role.duke,
          (room.players.filter (fun p =>
            p.isAlive && p.id != id && p.cards.contains (some Role.duke))).map (fun p => p.id)) ∧
      ((executeAction env room id ActionType.foreign_aid target).1.get id).map (fun p => p.coins) =
        some player.coins := by
    intro h
    rw [hexec]
    simp only [gt_iff_lt, hdukes.2 h, if_true]
    refine ⟨rfl, ?_, ?_, ?_⟩
    · rw [setPhase_phase_unlocked _ _ _ (show (room.setGS _).lock = false from hlock)]
    · rw [(turnFrame_setPhase _ _ _).counterData]
      rfl
    · rw [coins_setPhase]
      show (room.get id).map _ = _
      rw [hget]
      rfl
  have hno : (¬ ∃ p ∈ room.players, p.isAlive = true ∧ p.id ≠ id ∧
      p.cards.contains (some Role.duke) = true) →
      (∃ ar, ar.success = true ∧
        executeAction env room id ActionType.foreign_aid target =
          ((nextTurn env.now env.fuel
            (room.modify id (fun p => { p with coins := p.coins + 2 }))).1,
           Outcome.ok (some ar))) ∧
      (executeAction env room id ActionType.foreign_aid target).1.gameState.counterData = none ∧
      ((executeAction env room id ActionType.foreign_aid target).1.get id).map (fun p => p.coins) =
        some (player.coins + 2) := by
    intro h
    have h0 : ¬ (0 < (room.players.filter (fun p =>
        p.isAlive && p.id != id && p.cards.contains (some Role.duke))).length) :=
      fun hh => h (hdukes.1 hh)
    rw [hexec]
    simp only [gt_iff_lt, h0, if_false]
    rw [hfin]
    refine ⟨⟨_, rfl, rfl⟩, ?_, ?_⟩
    · rw [(turnFrame_nextTurn _ _ _).counterData]
      exact hct
    · rw [coins_nextTurn]
      exact hcoins2
  refine ⟨?_, hyes, hno⟩
  constructor
  · intro h
    by_contra hn
    rw [(hno hn).2.1] at h
    cases h
  · intro h
    have := (hyes h).2.2.1
    cases hc : (executeAction env room id ActionType.foreign_aid target).1.gameState.counterData
    · rw [hc] at this
      cases this
    · rfl

theorem foreign_aid_window_witness :
    (executeAction testEnv (testRoom.setGS (fun gs => { gs with currentPlayer := some "player2" }))
        "player2" ActionType.foreign_aid none).1.gameState.counterData.map
          (fun c => (c.blockerRole, c.potentialBlockers)) = some (Role.duke, ["player1"]) ∧
      ((executeAction testEnv noDukeAidRoom "player2" ActionType.foreign_aid none).1.get
        "player2").map (fun p => p.coins) = some 4 :=
  ⟨((foreign_aid_window testEnv
      (testRoom.setGS (fun gs => { gs with currentPlayer := some "player2" })) "player2"
      { id := "player2", name := "Bob", coins := 2,
        cards := [some Role.captain, some Role.contessa], isAlive := true, connected := true,
        disconnectTime := none } none
      (by decide) (by decide) rfl (by decide) (by decide) (by decide) (by decide)
      ⟨_, List.mem_cons_self _ _, rfl, rfl, trivial⟩ (by decide)).2.1
      ⟨_, List.mem_cons_self _ _, rfl, by decide, by decide⟩).2.2.1,
   ((foreign_aid_window testEnv noDukeAidRoom "player2"
      { id := "player2", name := "Bob", coins := 2,
        cards := [some Role.captain, some Role.contessa], isAlive := true, connected := true,
        disconnectTime := none } none
      (by decide) (by decide) rfl (by decide) (by decide) (by decide) (by decide)
      ⟨_, List.mem_cons_self _ _, rfl, rfl, trivial⟩ (by decide)).2.2
      (by decide)).2.2⟩
/-- Claim C28: a steal declared by the current player, who holds a Captain,
against another alive player with `t` coins (TURN_START, nothing pending)
succeeds without a window.  When `t` is not 0, `min t 2` coins go from the
target to the actor, so the sum of the two is as before, nobody else's coins
change, and `nextTurn` has run; when `t` is 0 no coins move and `nextTurn` has
run. -/
theorem steal_moves_coins (env : Env) (room : Room) (id tid : PlayerId) (player tp : Player)
    (hget : room.get id = some player) (halive : player.isAlive = true)
    (hphase : room.gameState.phase.type = PhaseType.TURN_START)
    (hcur : room.gameState.currentPlayer = some id)
    (hcd : room.gameState.challengeData = none) (hct : room.gameState.counterData = none)
    (hcap : player.cards.contains (some Role.captain) = true)
    (htget : room.get tid = some tp) (htalive : tp.isAlive = true) (hne : tid ≠ id)
    (hon : Online (fun _ => True) room) (hfuel : room.players.length ≤ env.fuel) :
    (∃ ar, ar.success = true ∧
        executeAction env room id ActionType.steal (some tid) =
          ((nextTurn env.now env.fuel
            (if tp.coins = 0 then room
             else (room.modify tid (fun p => { p with coins := p.coins - min tp.coins 2 })).modify id
               (fun p => { p with coins := p.coins + min tp.coins 2 }))).1,
           Outcome.ok (some ar))) ∧
      ((executeAction env room id ActionType.steal (some tid)).1.get id).map (fun p => p.coins) =
        some (player.coins + (if tp.coins = 0 then 0 else min tp.coins 2)) ∧
      ((executeAction env room id ActionType.steal (some tid)).1.get tid).map (fun p => p.coins) =
        some (tp.coins - (if tp.coins = 0 then 0 else min tp.coins 2)) ∧
      (∀ other, other ≠ id → other ≠ tid →
        ((executeAction env room id ActionType.steal (some tid)).1.get other).map
          (fun p => p.coins) = (room.get other).map (fun p => p.coins)) ∧
      (executeAction env room id ActionType.steal (some tid)).1.gameState.counterData = none ∧
      (executeAction env room id ActionType.steal (some tid)).1.gameState.challengeData = none := by
  have htid : tp.id = tid := getPlayer_id htget
  by_cases h0 : tp.coins = 0
  · have hexec : executeAction env room id ActionType.steal (some tid) =
        finishAction env room
          { playerId := id, playerName := player.name, type := ActionType.steal,
            targetPlayerId := some tid, success := true,
            log := [player.name ++ " 声称拥有队长，试图窃取金币"] ++ [tp.name ++ " 没有金币可偷"] } := by
      unfold executeAction
      simp only [hget, halive, hphase, hcur, Bool.not_true, Bool.false_eq_true, if_false, ne_eq,
        not_true_eq_false, Option.bind, htget, htalive, h0, if_true]
    rw [hexec, finishAction_runs env room _ (fun _ => True) rfl hcd hct hon hfuel]
    simp only [h0, if_true]
    refine ⟨⟨_, rfl, rfl⟩, ?_, ?_, ?_, ?_, ?_⟩
    · rw [coins_nextTurn, hget]
      simp
    · rw [coins_nextTurn, htget]
      simp [h0]
    · intro other _ _
      rw [coins_nextTurn]
    · rw [(turnFrame_nextTurn _ _ _).counterData]
      exact hct
    · rw [(turnFrame_nextTurn _ _ _).challengeData]
      exact hcd
  · have hexec : executeAction env room id ActionType.steal (some tid) =
        finishAction env
          ((room.modify tid (fun p => { p with coins := p.coins - min tp.coins 2 })).modify id
            (fun p => { p with coins := p.coins + min tp.coins 2 }))
          { playerId := id, playerName := player.name, type := ActionType.steal,
            targetPlayerId := some tid, success := true,
            log := [player.name ++ " 声称拥有队长，试图窃取金币"] ++
              [player.name ++ " 成功窃取 " ++ toString (min tp.coins 2) ++ " 枚金币"] } := by
      unfold executeAction
      simp only [hget, halive, hphase, hcur, Bool.not_true, Bool.false_eq_true, if_false, ne_eq,
        not_true_eq_false, Option.bind, htget, htalive, h0, hcap, htid]
    have hon2 : Online (fun _ => True)
        ((room.modify tid (fun p => { p with coins := p.coins - min tp.coins 2 })).modify id
          (fun p => { p with coins := p.coins + min tp.coins 2 })) :=
      online_coins _ _ id _ (online_coins _ room tid _ hon)
    have hfin : ∀ ar : ActionResult, ar.success = true →
        finishAction env
          ((room.modify tid (fun p => { p with coins := p.coins - min tp.coins 2 })).modify id
            (fun p => { p with coins := p.coins + min tp.coins 2 })) ar = _ :=
      fun ar hs => finishAction_runs env _ ar (fun _ => True) hs hcd hct hon2
        (by rw [length_players_modify, length_players_modify]; exact hfuel)
    rw [hexec, hfin _ rfl]
    simp only [h0, if_false]
    refine ⟨⟨_, rfl, rfl⟩, ?_, ?_, ?_, ?_, ?_⟩
    · rw [coins_nextTurn,
        get_modify_same _ id (fun p => { p with coins := p.coins + min tp.coins 2 }) (fun _ => rfl),
        get_modify_other room tid id (fun p => { p with coins := p.coins - min tp.coins 2 })
          (fun _ => rfl) (Ne.symm hne), hget]
      rfl
    · rw [coins_nextTurn,
        get_modify_other _ id tid (fun p => { p with coins := p.coins + min tp.coins 2 })
          (fun _ => rfl) hne,
        get_modify_same room tid (fun p => { p with coins := p.coins - min tp.coins 2 })
          (fun _ => rfl), htget]
      rfl
    · intro other h1 h2
      rw [coins_nextTurn,
        get_modify_other _ id other (fun p => { p with coins := p.coins + min tp.coins 2 })
          (fun _ => rfl) h1,
        get_modify_other room tid other (fun p => { p with coins := p.coins - min tp.coins 2 })
          (fun _ => rfl) h2]
    · rw [(turnFrame_nextTurn _ _ _).counterData]
      exact hct
    · rw [(turnFrame_nextTurn _ _ _).challengeData]
      exact hcd

theorem steal_moves_coins_witness :
    ((executeAction testEnv captainRoom "player1" ActionType.steal (some "player2")).1.get
        "player1").map (fun p => p.coins) = some 4 ∧
      ((executeAction testEnv captainRoom "player1" ActionType.steal (some "player2")).1.get
        "player2").map (fun p => p.coins) = some 0 :=
  ⟨(steal_moves_coins testEnv captainRoom "player1" "player2"
      { id := "player1", name := "Alice", coins := 2,
        cards := [some Role.captain, some Role.duke], isAlive := true, connected := true,
        disconnectTime := none }
      { id := "player2", name := "Bob", coins := 2,
        cards := [some Role.captain, some Role.contessa], isAlive := true, connected := true,
        disconnectTime := none }
      (by decide) rfl (by decide) (by decide) (by decide) (by decide) (by decide) (by decide) rfl
      (by decide) ⟨_, List.mem_cons_self _ _, rfl, rfl, trivial⟩ (by decide)).2.1,
   (steal_moves_coins testEnv captainRoom "player1" "player2"
      { id := "player1", name := "Alice", coins := 2,
        cards := [some Role.captain, some Role.duke], isAlive := true, connected := true,
        disconnectTime := none }
      { id := "player2", name := "Bob", coins := 2,
        cards := [some Role.captain, some Role.contessa], isAlive := true, connected := true,
        disconnectTime := none }
      (by decide) rfl (by decide) (by decide) (by decide) (by decide) (by decide) (by decide) rfl
      (by decide) ⟨_, List.mem_cons_self _ _, rfl, rfl, trivial⟩ (by decide)).2.2.1⟩

/-- Claim C17, as stated, fails: in the room of `createTestRoom()` with no
coins for Bob, Alice, who holds no Captain, declares a steal against him; no
challenge is left pending and the phase is TURN_START, with the turn passed
to Bob. -/
theorem steal_from_broke_target_opens_no_window :
    (brokeTargetRoom.get "player1").map (fun p => p.cards.contains (some Role.captain)) =
        some false ∧
      (executeAction testEnv brokeTargetRoom "player1" ActionType.steal (some "player2")).2.accepted
        = true ∧
      (executeAction testEnv brokeTargetRoom "player1" ActionType.steal
        (some "player2")).1.gameState.challengeData = none ∧
      (executeAction testEnv brokeTargetRoom "player1" ActionType.steal
        (some "player2")).1.gameState.phase.type = PhaseType.TURN_START ∧
      (executeAction testEnv brokeTargetRoom "player1" ActionType.steal
        (some "player2")).1.gameState.currentPlayer = some "player2" := by
  decide

/-- Claim C17, amended: on a room with a free guard, a tax or an exchange
declared by the current player whose hand lacks the claimed role, and a steal
declared by such a player against an alive target who has coins, leaves a
challenge pending for that action, with no challenger yet, and the phase
CHALLENGE_WINDOW; the effect is not applied: deck and discard pile are as
before and every player is as before (or swept by the transition), with the
same coins. -/
theorem bluff_opens_challenge (env : Env) (room : Room) (id : PlayerId) (player : Player)
    (kind : ActionType) (target : Option PlayerId)
    (hlock : room.lock = false)
    (hget : room.get id = some player) (halive : player.isAlive = true)
    (hphase : room.gameState.phase.type = PhaseType.TURN_START)
    (hcur : room.gameState.currentPlayer = some id)
    (hkind : kind = ActionType.tax ∨ kind = ActionType.exchange ∨
      (kind = ActionType.steal ∧ ∃ tp, target.bind room.get = some tp ∧ tp.isAlive = true ∧
        tp.coins ≠ 0))
    (hrole : includesRole player.cards (requiredRole kind) = false) :
    ∃ ar, ar.type = kind ∧ ar.playerId = id ∧ ar.targetPlayerId = target ∧
      (executeAction env room id kind target).2 = Outcome.ok (some ar) ∧
      (executeAction env room id kind target).1.gameState.challengeData =
        some (ChallengeData.mk ar []) ∧
      (executeAction env room id kind target).1.gameState.phase.type =
        PhaseType.CHALLENGE_WINDOW ∧
      (executeAction env room id kind target).1.gameState.deck = room.gameState.deck ∧
      (executeAction env room id kind target).1.gameState.discardPile =
        room.gameState.discardPile ∧
      List.Forall₂ SweptPlayer room.players (executeAction env room id kind target).1.players ∧
      (∀ other, ((executeAction env room id kind target).1.get other).map (fun p => p.coins) =
        (room.get other).map (fun p => p.coins)) := by
  have hopen : ∀ ar : ActionResult,
      executeAction env room id kind target = openChallenge env room ar →
      (executeAction env room id kind target).2 = Outcome.ok (some ar) ∧
      (executeAction env room id kind target).1.gameState.challengeData =
        some (ChallengeData.mk ar []) ∧
      (executeAction env room id kind target).1.gameState.phase.type =
        PhaseType.CHALLENGE_WINDOW ∧
      (executeAction env room id kind target).1.gameState.deck = room.gameState.deck ∧
      (executeAction env room id kind target).1.gameState.discardPile =
        room.gameState.discardPile ∧
      List.Forall₂ SweptPlayer room.players (executeAction env room id kind target).1.players ∧
      (∀ other, ((executeAction env room id kind target).1.get other).map (fun p => p.coins) =
        (room.get other).map (fun p => p.coins)) := by
    intro ar h
    rw [h]
    have hf := turnFrame_setPhase env.now
      (room.setGS (fun gs => { gs with challengeData := some (ChallengeData.mk ar []) }))
      { type := PhaseType.CHALLENGE_WINDOW, data := PhaseData.empty }
    refine ⟨rfl, hf.challengeData, ?_, hf.deck, hf.discardPile, hf.players, ?_⟩
    · unfold openChallenge
      simp only
      rw [setPhase_phase_unlocked _ _ _ (show (room.setGS _).lock = false from hlock)]
    · intro other
      exact coins_turnFrame hf other
  rcases hkind with h | h | ⟨h, tp, htp, htalive, htcoins⟩
  · subst h
    have hd : player.cards.contains (some Role.duke) = false := hrole
    refine ⟨{ playerId := id, playerName := player.name, type := ActionType.tax,
              targetPlayerId := target, success := true,
              log := [player.name ++ " 声称拥有公爵，征收税金"] }, rfl, rfl, rfl, hopen _ ?_⟩
    unfold executeAction
    simp only [hget, halive, hphase, hcur, Bool.not_true, Bool.false_eq_true, if_false, ne_eq,
      not_true_eq_false, hd, Bool.not_false, if_true]
  · subst h
    have hd : player.cards.contains (some Role.ambassador) = false := hrole
    refine ⟨{ playerId := id, playerName := player.name, type := ActionType.exchange,
              targetPlayerId := target, success := true,
              log := [player.name ++ " 声称拥有大使，进行卡牌交换"] }, rfl, rfl, rfl, hopen _ ?_⟩
    unfold executeAction
    simp only [hget, halive, hphase, hcur, Bool.not_true, Bool.false_eq_true, if_false, ne_eq,
      not_true_eq_false, hd, Bool.not_false, if_true]
  · subst h
    have hd : player.cards.contains (some Role.captain) = false := hrole
    refine ⟨{ playerId := id, playerName := player.name, type := ActionType.steal,
              targetPlayerId := target, success := true,
              log := [player.name ++ " 声称拥有队长，试图窃取金币"] }, rfl, rfl, rfl, hopen _ ?_⟩
    unfold executeAction
    simp only [hget, halive, hphase, hcur, Bool.not_true, Bool.false_eq_true, if_false, ne_eq,
      not_true_eq_false, hd, Bool.not_false, if_true, htp, htalive, htcoins]

theorem bluff_opens_challenge_witness :
    ∃ ar, ar.type = ActionType.tax ∧
      (executeAction testEnv bluffRoom "player1" ActionType.tax none).1.gameState.challengeData =
        some (ChallengeData.mk ar []) ∧
      (executeAction testEnv bluffRoom "player1" ActionType.tax none).1.gameState.phase.type =
        PhaseType.CHALLENGE_WINDOW := by
  obtain ⟨ar, h1, _, _, _, h2, h3, _⟩ := bluff_opens_challenge testEnv bluffRoom "player1"
    { id := "player1", name := "Alice", coins := 2,
      cards := [some Role.assassin, some Role.captain], isAlive := true, connected := true,
      disconnectTime := none } ActionType.tax none
    (by decide) (by decide) rfl (by decide) (by decide) (Or.inl rfl) (by decide)
  exact ⟨ar, h1, h2, h3⟩
/-! ## Counters, step by step -/

/-- The room and the result `handleCounter` returns when it is called in a
counter window with data pending by a seated alive player, the branches
settle and `nextTurn` returns. -/
theorem handleCounter_eq (env : Env) (room : Room) (b : PlayerId) (block : Bool)
    (cd : CounterData) (blocker : Player) (s r3 : Room) (blocked : Bool) (log : List String)
    (hphase : room.gameState.phase.type = PhaseType.COUNTER_WINDOW)
    (hcd : room.gameState.counterData = some cd)
    (hb : room.get b = some blocker) (halive : blocker.isAlive = true)
    (hs : settleCounter env room cd b blocker block = (s, Outcome.ok (blocked, log)))
    (hnt : nextTurn env.now env.fuel (s.setGS (fun gs => { gs with counterData := none })) =
      (r3, Outcome.ok ())) :
    handleCounter env room b block =
      (r3, Outcome.ok (some
        { action := cd.action, blocker := blocker.name, blocked := blocked, log := log })) := by
  unfold handleCounter
  simp only [hphase, ne_eq, not_true_eq_false, if_false, hcd, hb, halive, Bool.not_true,
    Bool.false_eq_true, hs, hnt]

/-- What an accepted `handleCounter` reports as `blocked`: a block was asked
for and the blocker's hand holds the blocking role. -/
theorem handleCounter_accepted (env : Env) (room r2 : Room) (b : PlayerId) (block : Bool)
    (res : CounterResult) (h : handleCounter env room b block = (r2, Outcome.ok (some res))) :
    ∃ cd blocker, room.gameState.counterData = some cd ∧ room.get b = some blocker ∧
      res.blocked = (block && blocker.cards.contains (some cd.blockerRole)) := by
  unfold handleCounter at h
  split at h
  · cases h
  split at h
  · cases h
  rename_i cd hcd
  split at h
  · cases h
  rename_i blocker hb
  split at h
  · cases h
  split at h
  · cases h
  rename_i s blocked log hs
  split at h
  · cases h
    refine ⟨cd, blocker, hcd, hb, ?_⟩
    simp only
    unfold settleCounter at hs
    simp only at hs
    cases block
    · simp only [Bool.false_eq_true, if_false] at hs
      split at hs
      · cases hs
        rfl
      · cases hs
    · simp only [if_true] at hs
      split at hs
      · rename_i hrole
        cases hs
        rw [hrole]
        rfl
      · rename_i hrole
        split at hs
        · cases hs
          rw [Bool.eq_false_iff.2 hrole]
          rfl
        · cases hs
  · cases h

/-- Claim C22, as stated, fails: in the counter window after Bob's foreign aid,
with the potential blocker Alice holding no Duke, her `block = true` is not
taken at face value: the result has `blocked = false`, she loses a card to
the discard pile and Bob gets his 2 coins. -/
theorem block_without_role_fails :
    noDukeRoom.gameState.phase.type = PhaseType.COUNTER_WINDOW ∧
      noDukeRoom.gameState.counterData.map (fun c => c.potentialBlockers) = some ["player1"] ∧
      (handleCounter testEnv noDukeRoom "player1" true).2 =
        Outcome.ok (some
          { action :=
              { playerId := "player2", playerName := "Bob", type := ActionType.foreign_aid,
                targetPlayerId := none, success := true, log := ["Bob 寻求外国援助"] },
            blocker := "Alice", blocked := false,
            log := ["Alice 试图阻止但失败，被迫弃牌", "Bob 获得2枚金币"] }) ∧
      (handleCounter testEnv noDukeRoom "player1" true).1.gameState.discardPile =
        [some Role.assassin] ∧
      ((handleCounter testEnv noDukeRoom "player1" true).1.get "player2").map (fun p => p.coins) =
        some 4 := by
  decide

theorem hands_turnFrame {r s : Room} (h : TurnFrame r s) (id : PlayerId) (p : Player)
    (hp : r.get id = some p) :
    ∃ q, s.get id = some q ∧ (q.cards = p.cards ∨ (q.cards = [] ∧ q.isAlive = false)) := by
  obtain ⟨q, hq, hsw⟩ := (getPlayer_swept h.players id).2 p hp
  refine ⟨q, hq, ?_⟩
  rcases hsw with h1 | h1
  · rw [h1]
    exact Or.inl rfl
  · rw [h1]
    exact Or.inr ⟨rfl, rfl⟩

theorem get_modify_coins_only (r : Room) (id id' : PlayerId) (g : Player → Int) (p : Player)
    (hp : r.get id' = some p) :
    ∃ q, (r.modify id (fun x => { x with coins := g x })).get id' = some q ∧
      q.cards = p.cards ∧ q.coins = (if id' = id then g p else p.coins) := by
  by_cases h : id' = id
  · subst h
    refine ⟨{ p with coins := g p }, ?_, rfl, by simp⟩
    rw [get_modify_same r id' (fun x => { x with coins := g x }) (fun _ => rfl), hp]
    rfl
  · refine ⟨p, ?_, rfl, by simp [h]⟩
    rw [get_modify_other r id id' (fun x => { x with coins := g x }) (fun _ => rfl) h]
    exact hp

/-- Claim C22, amended: in a counter window a `block = true` by a seated alive
player succeeds exactly when the blocker's hand holds `counterData.blockerRole`.
Then the result has `blocked = true`, the action's effect is not applied (deck
and discard pile are as before, every hand is as before unless the closing
transition sweeps its player, no coins come in for foreign aid), the 3 coins
of an assassination go back to the actor, the counter data is cleared and
`nextTurn` has run.  When the hand does not hold the role, every result
`handleCounter` returns has `blocked = false`. -/
theorem block_needs_the_role (env : Env) (room : Room) (b : PlayerId) (cd : CounterData)
    (blocker : Player)
    (hphase : room.gameState.phase.type = PhaseType.COUNTER_WINDOW)
    (hcd : room.gameState.counterData = some cd)
    (hb : room.get b = some blocker) (halive : blocker.isAlive = true)
    (hon : Online (fun _ => True) room) (hfuel : room.players.length ≤ env.fuel) :
    (blocker.cards.contains (some cd.blockerRole) = true →
      (∃ res, res.blocked = true ∧
        handleCounter env room b true =
          ((nextTurn env.now env.fuel
            ((if cd.action.type = ActionType.assassinate then
                room.modify cd.action.playerId (fun p => { p with coins := p.coins + 3 })
              else room).setGS (fun gs => { gs with counterData := none }))).1,
           Outcome.ok (some res))) ∧
      (handleCounter env room b true).1.gameState.deck = room.gameState.deck ∧
      (handleCounter env room b true).1.gameState.discardPile = room.gameState.discardPile ∧
      (handleCounter env room b true).1.gameState.counterData = none ∧
      (∀ id, ((handleCounter env room b true).1.get id).map (fun p => p.coins) =
        (room.get id).map (fun p =>
          if cd.action.type = ActionType.assassinate ∧ id = cd.action.playerId then p.coins + 3
          else p.coins)) ∧
      (∀ id p, room.get id = some p →
        ∃ q, (handleCounter env room b true).1.get id = some q ∧
          (q.cards = p.cards ∨ (q.cards = [] ∧ q.isAlive = false)))) ∧
    (blocker.cards.contains (some cd.blockerRole) = false →
      ∀ r2 res, handleCounter env room b true = (r2, Outcome.ok (some res)) →
        res.blocked = false) := by
  constructor
  · intro hrole
    have hs : settleCounter env room cd b blocker true =
        (if cd.action.type = ActionType.assassinate then
            room.modify cd.action.playerId (fun p => { p with coins := p.coins + 3 })
          else room,
         Outcome.ok (true, [blocker.name ++ " 成功阻止了 " ++ cd.action.playerName ++ " 的行动"])) := by
      unfold settleCounter
      simp only [if_true, hrole]
    have hon2 : Online (fun _ => True)
        ((if cd.action.type = ActionType.assassinate then
            room.modify cd.action.playerId (fun p => { p with coins := p.coins + 3 })
          else room).setGS (fun gs => { gs with counterData := none })) := by
      split
      · exact online_coins _ room _ _ hon
      · exact hon
    have hlen : ((if cd.action.type = ActionType.assassinate then
            room.modify cd.action.playerId (fun p => { p with coins := p.coins + 3 })
          else room).setGS (fun gs => { gs with counterData := none })).players.length ≤
        env.fuel := by
      split
      · show (room.modify _ _).players.length ≤ _
        rw [length_players_modify]
        exact hfuel
      · exact hfuel
    obtain ⟨p, hp, ha, hc, _⟩ := hon2
    have hret := nextTurn_returns env.now env.fuel _ (Or.inr ⟨p, hp, ha, hc⟩) hlen
    have heq := handleCounter_eq env room b true cd blocker _ _ true _ hphase hcd hb halive hs hret
    have hframe := turnFrame_nextTurn env.now env.fuel
      ((if cd.action.type = ActionType.assassinate then
            room.modify cd.action.playerId (fun p => { p with coins := p.coins + 3 })
          else room).setGS (fun gs => { gs with counterData := none }))
    rw [heq]
    refine ⟨⟨_, rfl, rfl⟩, ?_, ?_, ?_, ?_, ?_⟩
    · rw [hframe.deck]
      split <;> rfl
    · rw [hframe.discardPile]
      split <;> rfl
    · rw [hframe.counterData]
      rfl
    · intro id
      rw [coins_turnFrame hframe id]
      by_cases hk : cd.action.type = ActionType.assassinate
      · simp only [hk, if_true, true_and]
        show ((room.modify cd.action.playerId
          (fun p => { p with coins := p.coins + 3 })).get id).map _ = _
        cases hg : room.get id with
        | none =>
          have := get_modify_coins room cd.action.playerId id
            (fun p => { p with coins := p.coins + 3 }) (fun _ => rfl)
          by_cases hid : id = cd.action.playerId
          · subst hid
            rw [get_modify_same room _ (fun p => { p with coins := p.coins + 3 }) (fun _ => rfl),
              hg]
            rfl
          · rw [get_modify_other room _ id (fun p => { p with coins := p.coins + 3 })
              (fun _ => rfl) hid, hg]
            rfl
        | some q =>
          obtain ⟨q', hq', _, hcoins⟩ := get_modify_coins_only room cd.action.playerId id
            (fun p => p.coins + 3) q hg
          rw [hq']
          simp only [Option.map_some', hcoins]
      · simp only [hk, if_false, false_and]
        rfl
    · intro id p hp
      have hsettled : ∃ q, ((if cd.action.type = ActionType.assassinate then
            room.modify cd.action.playerId (fun p => { p with coins := p.coins + 3 })
          else room).setGS (fun gs => { gs with counterData := none })).get id = some q ∧
          q.cards = p.cards := by
        split
        · obtain ⟨q', hq', hc', _⟩ := get_modify_coins_only room cd.action.playerId id
            (fun p => p.coins + 3) p hp
          exact ⟨q', hq', hc'⟩
        · exact ⟨p, hp, rfl⟩
      obtain ⟨q, hq, hqc⟩ := hsettled
      obtain ⟨q2, hq2, hq2c⟩ := hands_turnFrame hframe id q hq
      refine ⟨q2, hq2, ?_⟩
      rw [← hqc]
      exact hq2c
  · intro hrole r2 res h
    obtain ⟨cd', blocker', hcd', hb', hres⟩ := handleCounter_accepted env room r2 b true res h
    rw [hcd] at hcd'
    cases hcd'
    rw [hb] at hb'
    cases hb'
    rw [hres, hrole]
    rfl

theorem block_needs_the_role_witness :
    (∃ res, res.blocked = true ∧
        (handleCounter testEnv aidDeclaredRoom "player1" true).2 = Outcome.ok (some res)) ∧
      ((handleCounter testEnv aidDeclaredRoom "player1" true).1.get "player2").map
        (fun p => p.coins) = some 2 ∧
      ∀ r2 res, handleCounter testEnv noDukeRoom "player1" true = (r2, Outcome.ok (some res)) →
        res.blocked = false := by
  have h1 := (block_needs_the_role testEnv aidDeclaredRoom "player1"
    (CounterData.mk
      { playerId := "player2", playerName := "Bob", type := ActionType.foreign_aid,
        targetPlayerId := none, success := true, log := ["Bob 寻求外国援助"] }
      Role.duke ["player1"])
    { id := "player1", name := "Alice", coins := 2,
      cards := [some Role.duke, some Role.assassin], isAlive := true, connected := true,
      disconnectTime := none }
    (by decide) (by decide) (by decide) rfl
    ⟨_, List.mem_cons_self _ _, rfl, rfl, trivial⟩ (by decide)).1 (by decide)
  have h2 := (block_needs_the_role testEnv noDukeRoom "player1"
    (CounterData.mk
      { playerId := "player2", playerName := "Bob", type := ActionType.foreign_aid,
        targetPlayerId := none, success := true, log := ["Bob 寻求外国援助"] }
      Role.duke ["player1"])
    { id := "player1", name := "Alice", coins := 2,
      cards := [some Role.assassin, some Role.captain], isAlive := true, connected := true,
      disconnectTime := none }
    (by decide) (by decide) (by decide) rfl
    ⟨_, List.mem_cons_self _ _, rfl, rfl, trivial⟩ (by decide)).2 (by decide)
  obtain ⟨⟨res, hres, heq⟩, _, _, _, hcoins, _⟩ := h1
  exact ⟨⟨res, hres, by rw [heq]⟩, by decide, h2⟩
/-- Claim C23, as stated, fails: in the counter window after Alice, with 3
coins, has declared the assassination of Bob, who holds Captain and Contessa,
Bob declines to block.  The assassination goes through without a refund, yet
Bob's hand holds two cards as before: his Captain went to the discard pile and
the Contessa drawn from the deck took its place. -/
theorem declined_block_keeps_the_hand_at_two :
    assassinationDeclaredRoom.gameState.phase.type = PhaseType.COUNTER_WINDOW ∧
      (assassinationDeclaredRoom.get "player2").map (fun p => p.cards) =
        some [some Role.captain, some Role.contessa] ∧
      (handleCounter testEnv assassinationDeclaredRoom "player2" false).2.accepted = true ∧
      ((handleCounter testEnv assassinationDeclaredRoom "player2" false).1.get "player2").map
        (fun p => p.cards) = some [some Role.contessa, some Role.contessa] ∧
      (handleCounter testEnv assassinationDeclaredRoom "player2" false).1.gameState.discardPile =
        [some Role.captain] ∧
      ((handleCounter testEnv assassinationDeclaredRoom "player2" false).1.get "player1").map
        (fun p => p.coins) = some 0 := by
  decide

/-- Claim C23, amended: in a counter window `handleCounter` with `block = false`
by a seated alive player lets the original action through.  For foreign aid
(actor seated) the actor has exactly 2 coins more.  For an assassination
(target seated, with cards) nobody's coins change, so the actor gets no refund,
and the target discards: an alive target holding two cards, with cards in the
deck, puts the card at a random index on the discard pile and draws the last
card of the deck in its place, so the hand holds two cards again.  In both
cases the result has `blocked = false`, the counter data is cleared and
`nextTurn` has run. -/
theorem unblocked_action_goes_through (env : Env) (room : Room) (b : PlayerId)
    (cd : CounterData) (blocker : Player)
    (hphase : room.gameState.phase.type = PhaseType.COUNTER_WINDOW)
    (hcd : room.gameState.counterData = some cd)
    (hb : room.get b = some blocker) (halive : blocker.isAlive = true)
    (hfuel : room.players.length ≤ env.fuel) :
    (cd.action.type = ActionType.foreign_aid →
      ∀ actor, room.get cd.action.playerId = some actor → Online (fun _ => True) room →
        (∃ res, res.blocked = false ∧
          handleCounter env room b false =
            ((nextTurn env.now env.fuel
              ((room.modify cd.action.playerId (fun p => { p with coins := p.coins + 2 })).setGS
                (fun gs => { gs with counterData := none }))).1,
             Outcome.ok (some res))) ∧
        ((handleCounter env room b false).1.get cd.action.playerId).map (fun p => p.coins) =
          some (actor.coins + 2) ∧
        (handleCounter env room b false).1.gameState.counterData = none) ∧
    (cd.action.type = ActionType.assassinate →
      ∀ tp, cd.action.targetPlayerId.bind room.get = some tp → 0 < tp.cards.length →
        Online (fun x => x ≠ tp.id) room →
        (∃ res, res.blocked = false ∧
          handleCounter env room b false =
            ((nextTurn env.now env.fuel
              ((discardCard (env.key 0) room tp.id
                  (randomIndex (env.pick 0) tp.cards.length)).1.setGS
                (fun gs => { gs with counterData := none }))).1,
             Outcome.ok (some res))) ∧
        (∀ id, ((handleCounter env room b false).1.get id).map (fun p => p.coins) =
          (room.get id).map (fun p => p.coins)) ∧
        (handleCounter env room b false).1.gameState.counterData = none ∧
        (tp.isAlive = true → tp.cards.length = 2 → room.gameState.deck ≠ [] →
          (handleCounter env room b false).1.gameState.discardPile =
            room.gameState.discardPile ++ [(tp.cards[env.pick 0 % 2]?).join] ∧
          (handleCounter env room b false).1.gameState.deck = room.gameState.deck.dropLast ∧
          ∃ q, (handleCounter env room b false).1.get tp.id = some q ∧
            (q.cards = tp.cards.eraseIdx (env.pick 0 % 2) ++ [room.gameState.deck.getLast?.join] ∨
              (q.cards = [] ∧ q.isAlive = false)))) := by
  constructor
  · intro hk actor hactor hon
    have hs : settleCounter env room cd b blocker false =
        (room.modify cd.action.playerId (fun p => { p with coins := p.coins + 2 }),
         Outcome.ok (false, [blocker.name ++ " 选择不阻止"] ++ [actor.name ++ " 获得2枚金币"])) := by
      unfold settleCounter applyUnblocked
      simp only [Bool.false_eq_true, if_false, hk, if_true, hactor]
    have hon2 : Online (fun _ => True)
        ((room.modify cd.action.playerId (fun p => { p with coins := p.coins + 2 })).setGS
          (fun gs => { gs with counterData := none })) := online_coins _ room _ _ hon
    obtain ⟨p, hp, ha, hc, _⟩ := hon2
    have hret := nextTurn_returns env.now env.fuel
      ((room.modify cd.action.playerId (fun p => { p with coins := p.coins + 2 })).setGS
        (fun gs => { gs with counterData := none }))
      (Or.inr ⟨p, hp, ha, hc⟩)
      (by show (room.modify _ _).players.length ≤ _; rw [length_players_modify]; exact hfuel)
    have heq := handleCounter_eq env room b false cd blocker _ _ false _ hphase hcd hb halive hs
      hret
    have hframe := turnFrame_nextTurn env.now env.fuel
      ((room.modify cd.action.playerId (fun p => { p with coins := p.coins + 2 })).setGS
        (fun gs => { gs with counterData := none }))
    rw [heq]
    refine ⟨⟨_, rfl, rfl⟩, ?_, ?_⟩
    · rw [coins_turnFrame hframe]
      show ((room.modify cd.action.playerId
        (fun p => { p with coins := p.coins + 2 })).get cd.action.playerId).map _ = _
      rw [get_modify_same room _ (fun p => { p with coins := p.coins + 2 }) (fun _ => rfl),
        hactor]
      rfl
    · rw [hframe.counterData]
      rfl
  · intro hk tp htp hcards hon
    have hk2 : ¬ cd.action.type = ActionType.foreign_aid := by
      rw [hk]
      decide
    have hs : settleCounter env room cd b blocker false =
        ((discardCard (env.key 0) room tp.id (randomIndex (env.pick 0) tp.cards.length)).1,
         Outcome.ok (false, [blocker.name ++ " 选择不阻止"] ++ [tp.name ++ " 被行刺，被迫弃牌"])) := by
      unfold settleCounter applyUnblocked
      simp only [Bool.false_eq_true, if_false, hk, if_true, htp, hcards, gt_iff_lt]
      have hne : ¬ ActionType.assassinate = ActionType.foreign_aid := by decide
      simp only [hne, if_false]
    have hon2 : Online (fun _ => True)
        ((discardCard (env.key 0) room tp.id (randomIndex (env.pick 0) tp.cards.length)).1.setGS
          (fun gs => { gs with counterData := none })) :=
      online_discardCard _ _ room tp.id _ (online_weaken hon (fun _ h => ⟨trivial, h⟩))
    obtain ⟨p, hp, ha, hc, _⟩ := hon2
    have hret := nextTurn_returns env.now env.fuel
      ((discardCard (env.key 0) room tp.id (randomIndex (env.pick 0) tp.cards.length)).1.setGS
        (fun gs => { gs with counterData := none }))
      (Or.inr ⟨p, hp, ha, hc⟩)
      (by
        show (discardCard _ _ _ _).1.players.length ≤ _
        rw [length_players_discardCard]
        exact hfuel)
    have heq := handleCounter_eq env room b false cd blocker _ _ false _ hphase hcd hb halive hs
      hret
    have hframe := turnFrame_nextTurn env.now env.fuel
      ((discardCard (env.key 0) room tp.id (randomIndex (env.pick 0) tp.cards.length)).1.setGS
        (fun gs => { gs with counterData := none }))
    rw [heq]
    refine ⟨⟨_, rfl, rfl⟩, ?_, ?_, ?_⟩
    · intro id
      rw [coins_turnFrame hframe]
      exact discardCard_coins _ room tp.id id _
    · rw [hframe.counterData]
      rfl
    · intro htalive hlen hdeck
      have htget : room.get tp.id = some tp := get_of_bind htp
      have hidx : randomIndex (env.pick 0) tp.cards.length = ((env.pick 0 % 2 : Nat) : Int) := by
        unfold randomIndex
        rw [hlen]
      have h2 := discardCard_two (env.key 0) room tp.id tp (env.pick 0 % 2) htget htalive hlen
        (Nat.mod_lt _ (by decide)) hdeck
      have hq : ((discardCard (env.key 0) room tp.id
          (randomIndex (env.pick 0) tp.cards.length)).1.setGS
            (fun gs => { gs with counterData := none })).get tp.id =
          some { tp with cards := tp.cards.eraseIdx (env.pick 0 % 2) ++
            [room.gameState.deck.getLast?.join] } := by
        rw [hidx, h2]
        have : getPlayer room.players tp.id = some tp := htget
        refine (getPlayer_modify_same _ tp.id _ ?_).trans ?_
        · intro _
          rfl
        · rw [this]
          rfl
      obtain ⟨q2, hq2, hq2c⟩ := hands_turnFrame hframe tp.id _ hq
      refine ⟨?_, ?_, q2, hq2, hq2c⟩
      · rw [hframe.discardPile]
        simp only [Room.setGS, hidx, h2]
      · rw [hframe.deck]
        simp only [Room.setGS, hidx, h2]

theorem unblocked_action_goes_through_witness :
    (((handleCounter testEnv aidDeclaredRoom "player1" false).1.get "player2").map
        (fun p => p.coins) = some 4 ∧
      (handleCounter testEnv aidDeclaredRoom "player1" false).1.gameState.counterData = none) ∧
    ((handleCounter testEnv assassinationDeclaredRoom "player2" false).1.gameState.discardPile =
        [some Role.captain] ∧
      (handleCounter testEnv assassinationDeclaredRoom "player2" false).1.gameState.counterData =
        none ∧
      ∃ q, (handleCounter testEnv assassinationDeclaredRoom "player2" false).1.get "player2" =
          some q ∧
        (q.cards = [some Role.contessa, some Role.contessa] ∨
          (q.cards = [] ∧ q.isAlive = false))) := by
  have h1 := ((unblocked_action_goes_through testEnv aidDeclaredRoom "player1"
      (CounterData.mk
        { playerId := "player2", playerName := "Bob", type := ActionType.foreign_aid,
          targetPlayerId := none, success := true, log := ["Bob 寻求外国援助"] }
        Role.duke ["player1"])
      { id := "player1", name := "Alice", coins := 2,
        cards := [some Role.duke, some Role.assassin], isAlive := true, connected := true,
        disconnectTime := none }
      (by decide) (by decide) (by decide) rfl (by decide)).1 rfl
      { id := "player2", name := "Bob", coins := 2,
        cards := [some Role.captain, some Role.contessa], isAlive := true, connected := true,
        disconnectTime := none }
      (by decide) ⟨_, List.mem_cons_self _ _, rfl, rfl, trivial⟩)
  have h2 := ((unblocked_action_goes_through testEnv assassinationDeclaredRoom "player2"
      (CounterData.mk
        { playerId := "player1", playerName := "Alice", type := ActionType.assassinate,
          targetPlayerId := some "player2", success := true,
          log := ["Alice 声称拥有刺客，行刺 Bob"] }
        Role.contessa ["player2"])
      { id := "player2", name := "Bob", coins := 2,
        cards := [some Role.captain, some Role.contessa], isAlive := true, connected := true,
        disconnectTime := none }
      (by decide) (by decide) (by decide) rfl (by decide)).2 rfl
      { id := "player2", name := "Bob", coins := 2,
        cards := [some Role.captain, some Role.contessa], isAlive := true, connected := true,
        disconnectTime := none }
      (by decide) (by decide) ⟨_, List.mem_cons_self _ _, rfl, rfl, by decide⟩)
  exact ⟨⟨h1.2.1, h1.2.2⟩, (h2.2.2.2 rfl rfl (by decide)).1, h2.2.2.1,
    (h2.2.2.2 rfl rfl (by decide)).2.2⟩

/-! ## Players across a change of turn -/

theorem map_id_modifyPlayer (ps : List Player) (id : PlayerId) (f : Player → Player)
    (hf : ∀ p, (f p).id = p.id) :
    (modifyPlayer ps id f).map (fun p => p.id) = ps.map (fun p => p.id) := by
  induction ps with
  | nil => rfl
  | cons a rest ih =>
    unfold modifyPlayer
    split
    · simp [hf]
    · simp [ih]

theorem nodup_modify (r : Room) (id : PlayerId) (f : Player → Player)
    (hf : ∀ p, (f p).id = p.id) (hn : (r.players.map (fun p => p.id)).Nodup) :
    ((r.modify id f).players.map (fun p => p.id)).Nodup := by
  show ((modifyPlayer r.players id f).map (fun p => p.id)).Nodup
  rw [map_id_modifyPlayer _ _ _ hf]
  exact hn

theorem nodup_discardCard (key : List Nat) (r : Room) (id : PlayerId) (i : Int)
    (hn : (r.players.map (fun p => p.id)).Nodup) :
    ((discardCard key r id i).1.players.map (fun p => p.id)).Nodup := by
  obtain ⟨f, hf, hpl⟩ := discardCard_players key r id i
  rw [hpl, map_id_modifyPlayer _ _ _ (fun p => (hf p).1)]
  exact hn

/-- The players after a phase transition on a room with distinct ids: as
before (the guard was held) or swept. -/
theorem players_setPhase (now : Nat) (r : Room) (p : PhaseVal)
    (hn : (r.players.map (fun q => q.id)).Nodup) :
    (setPhase now r p).players = r.players ∨
      (setPhase now r p).players =
        r.players.map (fun q => if disconnectedTooLong now q then eliminated q else q) := by
  cases h : r.lock with
  | true =>
    rw [setPhase_locked now r p h]
    exact Or.inl rfl
  | false =>
    rw [setPhase_spec now r p h hn]
    exact Or.inr rfl

theorem players_nextTurnBody (now : Nat) (recurse : Room → Room × Outcome Unit) (r : Room)
    (hn : (r.players.map (fun q => q.id)).Nodup)
    (hrec : ∀ s, s.players = r.players →
      (recurse s).1.players = r.players ∨
        (recurse s).1.players =
          r.players.map (fun q => if disconnectedTooLong now q then eliminated q else q)) :
    (nextTurnBody now recurse r).1.players = r.players ∨
      (nextTurnBody now recurse r).1.players =
        r.players.map (fun q => if disconnectedTooLong now q then eliminated q else q) := by
  unfold nextTurnBody
  simp only
  split
  · exact players_setPhase now (r.setGS _) _ hn
  · split
    · exact Or.inl rfl
    · split
      · exact Or.inl rfl
      · split
        · exact hrec _ rfl
        · exact players_setPhase now (r.setGS _) _ hn

theorem players_nextTurn (now fuel : Nat) (r : Room)
    (hn : (r.players.map (fun q => q.id)).Nodup) :
    (nextTurn now fuel r).1.players = r.players ∨
      (nextTurn now fuel r).1.players =
        r.players.map (fun q => if disconnectedTooLong now q then eliminated q else q) := by
  induction fuel generalizing r with
  | zero => exact players_nextTurnBody now _ r hn (fun s hs => Or.inl hs)
  | succ n ih =>
    refine players_nextTurnBody now _ r hn (fun s hs => ?_)
    have := ih s (by rw [hs]; exact hn)
    rw [hs] at this
    exact this

/-- A connected player is still what the lookup finds after a change of turn,
on a room with distinct ids. -/
theorem get_nextTurn_connected (now fuel : Nat) (r : Room) (id : PlayerId) (p : Player)
    (hn : (r.players.map (fun q => q.id)).Nodup)
    (hp : r.get id = some p) (hc : p.connected = true) :
    (nextTurn now fuel r).1.get id = some p := by
  rcases players_nextTurn now fuel r hn with h | h
  · show getPlayer _ id = _
    rw [h]
    exact hp
  · show getPlayer _ id = _
    rw [h, getPlayer_map _ _ _ (sweep_id now)]
    have hp' : getPlayer r.players id = some p := hp
    rw [hp']
    simp [disconnectedTooLong_connected now p hc]

theorem get_setPhase_connected (now : Nat) (r : Room) (ph : PhaseVal) (id : PlayerId)
    (p : Player) (hn : (r.players.map (fun q => q.id)).Nodup)
    (hp : r.get id = some p) (hc : p.connected = true) :
    (setPhase now r ph).get id = some p := by
  rcases players_setPhase now r ph hn with h | h
  · show getPlayer _ id = _
    rw [h]
    exact hp
  · show getPlayer _ id = _
    rw [h, getPlayer_map _ _ _ (sweep_id now)]
    have hp' : getPlayer r.players id = some p := hp
    rw [hp']
    simp [disconnectedTooLong_connected now p hc]

theorem sum_hands_modify (ps : List Player) (id : PlayerId) (f : Player → Player) (p : Player)
    (hp : getPlayer ps id = some p) :
    ((modifyPlayer ps id f).map (fun q => q.cards.length)).sum + p.cards.length =
      (ps.map (fun q => q.cards.length)).sum + (f p).cards.length := by
  induction ps with
  | nil => cases hp
  | cons a rest ih =>
    unfold getPlayer at hp
    unfold modifyPlayer
    by_cases h : (a.id == id) = true
    · rw [List.find?, h] at hp
      cases hp
      simp only [h, if_true, List.map_cons, List.sum_cons]
      omega
    · have hb : (a.id == id) = false := by simpa using h
      rw [List.find?, hb] at hp
      have := ih hp
      simp only [hb, Bool.false_eq_true, if_false, List.map_cons, List.sum_cons]
      omega

/-- Two seated alive players under different ids make two alive players. -/
theorem two_alive (r : Room) (id1 id2 : PlayerId) (p1 p2 : Player)
    (h1 : r.get id1 = some p1) (h2 : r.get id2 = some p2) (hne : id1 ≠ id2)
    (ha1 : p1.isAlive = true) (ha2 : p2.isAlive = true) : 2 ≤ aliveCount r := by
  have hm1 : p1 ∈ r.players.filter (fun p => p.isAlive) :=
    List.mem_filter.2 ⟨getPlayer_mem h1, ha1⟩
  have hm2 : p2 ∈ r.players.filter (fun p => p.isAlive) :=
    List.mem_filter.2 ⟨getPlayer_mem h2, ha2⟩
  have hd : p1 ≠ p2 := by
    intro h
    apply hne
    rw [← getPlayer_id h1, ← getPlayer_id h2, h]
  unfold aliveCount
  match hl : r.players.filter (fun p => p.isAlive) with
  | [] => rw [hl] at hm1; cases hm1
  | [a] =>
    rw [hl] at hm1 hm2
    rw [List.mem_singleton] at hm1 hm2
    exact absurd (hm1.trans hm2.symm) hd
  | a :: b :: rest =>
    rw [hl]
    simp

/-- The player at a seat keeps `isAlive` and `connected` when a player is
changed by a function that keeps them. -/
theorem getElem?_modify_flags (ps : List Player) (id : PlayerId) (f : Player → Player)
    (hf : ∀ p, (f p).isAlive = p.isAlive ∧ (f p).connected = p.connected)
    (j : Nat) (q : Player) (h : ps[j]? = some q) :
    ∃ q', (modifyPlayer ps id f)[j]? = some q' ∧
      q'.isAlive = q.isAlive ∧ q'.connected = q.connected := by
  induction ps generalizing j with
  | nil => simp at h
  | cons a rest ih =>
    unfold modifyPlayer
    cases j with
    | zero =>
      simp only [List.getElem?_cons_zero, Option.some.injEq] at h
      subst h
      split
      · exact ⟨f a, List.getElem?_cons_zero, (hf a).1, (hf a).2⟩
      · exact ⟨a, List.getElem?_cons_zero, rfl, rfl⟩
    | succ j =>
      simp only [List.getElem?_cons_succ] at h
      split
      · exact ⟨q, by simpa using h, rfl, rfl⟩
      · obtain ⟨q', h1, h2, h3⟩ := ih j h
        exact ⟨q', by simpa using h1, h2, h3⟩

/-- Claim C26, as stated, fails: at the table of three with Alice at turn, Bob
alive but offline for 10 seconds and Carol connected (TURN_START, free guard),
Alice's income makes Carol the current player, not Bob, the next alive player
after Alice in seating order. -/
theorem income_skips_offline_player :
    threeRoom.lock = false ∧ threeRoom.gameState.phase.type = PhaseType.TURN_START ∧
      threeRoom.players.map (fun p => (p.id, p.isAlive, p.connected)) =
        [("player1", true, true), ("player2", true, false), ("player3", true, true)] ∧
      (executeAction testEnv threeRoom "player1" ActionType.income none).2.accepted = true ∧
      (executeAction testEnv threeRoom "player1" ActionType.income
        none).1.gameState.currentPlayer = some "player3" ∧
      ((executeAction testEnv threeRoom "player1" ActionType.income none).1.get "player2").map
        (fun p => p.isAlive) = some true := by
  decide

/-- Claim C26, amended: on a room in TURN_START with a free guard, distinct
ids, nothing pending, at least two alive players and an alive connected one,
income by the current player with `c` coins returns a successful record; the
actor has `c + 1` coins, nobody else's coins change, every hand is as before
unless the closing transition sweeps its player, the phase is TURN_START, and
the current player is the first player after seat `turnIndex`, going round,
who is alive and connected. -/
theorem income_advances_turn (env : Env) (room : Room) (id : PlayerId) (player : Player)
    (hlock : room.lock = false) (hn : (room.players.map (fun q => q.id)).Nodup)
    (hget : room.get id = some player) (halive : player.isAlive = true)
    (hphase : room.gameState.phase.type = PhaseType.TURN_START)
    (hcur : room.gameState.currentPlayer = some id)
    (hcd : room.gameState.challengeData = none) (hct : room.gameState.counterData = none)
    (h2 : 2 ≤ aliveCount room) (hon : Online (fun _ => True) room)
    (hfuel : room.players.length ≤ env.fuel) :
    ∃ d cur ar, d < room.players.length ∧
      (room.modify id (fun p => { p with coins := p.coins + 1 })).players[
        (room.gameState.turnIndex + 1 + d) % room.players.length]? = some cur ∧
      cur.isAlive = true ∧ cur.connected = true ∧
      (∀ d' < d, ∀ q,
        room.players[(room.gameState.turnIndex + 1 + d') % room.players.length]? = some q →
          ¬ (q.isAlive = true ∧ q.connected = true)) ∧
      ar.success = true ∧
      (executeAction env room id ActionType.income none).2 = Outcome.ok (some ar) ∧
      (executeAction env room id ActionType.income none).1.gameState.currentPlayer =
        some cur.id ∧
      (executeAction env room id ActionType.income none).1.gameState.phase =
        { type := PhaseType.TURN_START, data := PhaseData.playerId cur.id } ∧
      ((executeAction env room id ActionType.income none).1.get id).map (fun p => p.coins) =
        some (player.coins + 1) ∧
      (∀ other, other ≠ id →
        ((executeAction env room id ActionType.income none).1.get other).map (fun p => p.coins) =
          (room.get other).map (fun p => p.coins)) ∧
      (∀ other p, room.get other = some p →
        ∃ q, (executeAction env room id ActionType.income none).1.get other = some q ∧
          (q.cards = p.cards ∨ (q.cards = [] ∧ q.isAlive = false))) := by
  have hexec : executeAction env room id ActionType.income none =
      finishAction env (room.modify id (fun p => { p with coins := p.coins + 1 }))
        { playerId := id, playerName := player.name, type := ActionType.income,
          targetPlayerId := none, success := true, log := [player.name ++ " 获得收入，+1金币"] } := by
    unfold executeAction
    simp only [hget, halive, hphase, hcur, Bool.not_true, Bool.false_eq_true, if_false, ne_eq,
      not_true_eq_false]
  have hon2 : Online (fun _ => True) (room.modify id (fun p => { p with coins := p.coins + 1 })) :=
    online_coins _ room id _ hon
  have hlen : (room.modify id (fun p => { p with coins := p.coins + 1 })).players.length =
      room.players.length := length_players_modify _ _ _
  have hfin := finishAction_runs env (room.modify id (fun p => { p with coins := p.coins + 1 }))
    { playerId := id, playerName := player.name, type := ActionType.income,
      targetPlayerId := none, success := true, log := [player.name ++ " 获得收入，+1金币"] }
    (fun _ => True) rfl hcd hct hon2 (by rw [hlen]; exact hfuel)
  obtain ⟨p0, hp0, ha0, hc0, _⟩ := hon2
  obtain ⟨d, cur, hd, hseat, hca, hcc, hmin, heq⟩ := nextTurn_spec env.now env.fuel
    (room.modify id (fun p => { p with coins := p.coins + 1 })) hlock
    (nodup_modify room id (fun p => { p with coins := p.coins + 1 }) (fun _ => rfl) hn)
    (by
      rw [aliveCount_modify room id (fun p => { p with coins := p.coins + 1 }) (fun _ => rfl)]
      exact h2)
    ⟨p0, hp0, ha0, hc0⟩ (by rw [hlen]; exact hfuel)
  rw [hlen] at hd hseat hmin
  have hframe := turnFrame_nextTurn env.now env.fuel
    (room.modify id (fun p => { p with coins := p.coins + 1 }))
  refine ⟨d, cur,
    { playerId := id, playerName := player.name, type := ActionType.income,
      targetPlayerId := none, success := true, log := [player.name ++ " 获得收入，+1金币"] },
    hd, hseat, hca, hcc, ?_, rfl, ?_⟩
  · intro d' hd' q hq hqa
    obtain ⟨q', hq', hqa', hqc'⟩ := getElem?_modify_flags room.players id
      (fun p => { p with coins := p.coins + 1 }) (fun _ => ⟨rfl, rfl⟩) _ q hq
    exact hmin d' hd' q' hq' ⟨by rw [hqa']; exact hqa.1, by rw [hqc']; exact hqa.2⟩
  · rw [hexec, hfin]
    refine ⟨rfl, ?_, ?_, ?_, ?_, ?_⟩
    · rw [heq]
    · rw [heq]
    · rw [coins_turnFrame hframe,
        get_modify_same room id (fun p => { p with coins := p.coins + 1 }) (fun _ => rfl), hget]
      rfl
    · intro other hne
      rw [coins_turnFrame hframe,
        get_modify_other room id other (fun p => { p with coins := p.coins + 1 }) (fun _ => rfl)
          hne]
    · intro other p hp
      obtain ⟨q, hq, hqc, _⟩ := get_modify_coins_only room id other (fun p => p.coins + 1) p hp
      obtain ⟨q2, hq2, hq2c⟩ := hands_turnFrame hframe other q hq
      refine ⟨q2, hq2, ?_⟩
      rw [← hqc]
      exact hq2c

theorem income_advances_turn_witness :
    ((executeAction testEnv threeRoom "player1" ActionType.income none).1.get "player1").map
        (fun p => p.coins) = some 3 ∧
      ∃ (d : Nat) (cur : Player), d < threeRoom.players.length ∧
        (executeAction testEnv threeRoom "player1" ActionType.income
          none).1.gameState.currentPlayer = some cur.id := by
  obtain ⟨d, cur, ar, h1, _, _, _, _, _, _, h2, _, h3, _⟩ :=
    income_advances_turn testEnv threeRoom "player1"
      { id := "player1", name := "Alice", coins := 2,
        cards := [some Role.duke, some Role.assassin], isAlive := true, connected := true,
        disconnectTime := none }
      (by decide) (by decide) (by decide) rfl (by decide) (by decide) (by decide) (by decide)
      (by decide) ⟨_, List.mem_cons_self _ _, rfl, rfl, trivial⟩ (by decide)
  exact ⟨h3, d, cur, h1, h2⟩

/-- Claim C29, as stated, fails: in the room of `createTestRoom()` with 7 coins
for Alice, her coup against Bob leaves Bob with a hand of two cards: the
Captain went to the discard pile and the replacement drawn from the deck took
its place. -/
theorem coup_keeps_the_hand_at_two :
    (executeAction testEnv richRoom "player1" ActionType.coup (some "player2")).2.accepted = true ∧
      ((executeAction testEnv richRoom "player1" ActionType.coup (some "player2")).1.get
        "player2").map (fun p => p.cards) = some [some Role.contessa, some Role.contessa] ∧
      (executeAction testEnv richRoom "player1" ActionType.coup
        (some "player2")).1.gameState.discardPile = [some Role.captain] := by
  decide

/-- Claim C29, amended: a coup declared by the current player with `c ≥ 7`
coins against another alive player (TURN_START, nothing pending) succeeds,
costs the actor 7 coins, leaves no challenge or counter data and ends in
`nextTurn`.  A target holding two cards, with cards in the deck, gives the card
at a random index to the discard pile and draws the last card of the deck in
its place, so the hand holds two cards again; a target whose hand was empty is
marked not alive. -/
theorem coup_forces_discard (env : Env) (room : Room) (id tid : PlayerId) (player tp : Player)
    (hget : room.get id = some player) (halive : player.isAlive = true)
    (hphase : room.gameState.phase.type = PhaseType.TURN_START)
    (hcur : room.gameState.currentPlayer = some id)
    (hcd : room.gameState.challengeData = none) (hct : room.gameState.counterData = none)
    (hcoins : 7 ≤ player.coins)
    (htget : room.get tid = some tp) (htalive : tp.isAlive = true) (hne : tid ≠ id)
    (hon : Online (fun x => x ≠ tid) room) (hfuel : room.players.length ≤ env.fuel) :
    (∃ ar, ar.success = true ∧
        executeAction env room id ActionType.coup (some tid) =
          ((nextTurn env.now env.fuel
            (loseCardOrDie env (room.modify id (fun p => { p with coins := p.coins - 7 })) tid tp
              " 被迫弃掉一张牌" " 没有卡牌，被淘汰！").1).1,
           Outcome.ok (some ar))) ∧
      ((executeAction env room id ActionType.coup (some tid)).1.get id).map (fun p => p.coins) =
        some (player.coins - 7) ∧
      (executeAction env room id ActionType.coup (some tid)).1.gameState.challengeData = none ∧
      (executeAction env room id ActionType.coup (some tid)).1.gameState.counterData = none ∧
      (tp.cards.length = 2 → room.gameState.deck ≠ [] →
        (executeAction env room id ActionType.coup (some tid)).1.gameState.discardPile =
          room.gameState.discardPile ++ [(tp.cards[env.pick 0 % 2]?).join] ∧
        (executeAction env room id ActionType.coup (some tid)).1.gameState.deck =
          room.gameState.deck.dropLast ∧
        ∃ q, (executeAction env room id ActionType.coup (some tid)).1.get tid = some q ∧
          (q.cards = tp.cards.eraseIdx (env.pick 0 % 2) ++ [room.gameState.deck.getLast?.join] ∨
            (q.cards = [] ∧ q.isAlive = false))) ∧
      (tp.cards = [] →
        ∃ q, (executeAction env room id ActionType.coup (some tid)).1.get tid = some q ∧
          q.isAlive = false) := by
  have htid : tp.id = tid := getPlayer_id htget
  have hc7 : ¬ player.coins < 7 := by omega
  have hexec : executeAction env room id ActionType.coup (some tid) =
      finishAction env
        (loseCardOrDie env (room.modify id (fun p => { p with coins := p.coins - 7 })) tid tp
          " 被迫弃掉一张牌" " 没有卡牌，被淘汰！").1
        { playerId := id, playerName := player.name, type := ActionType.coup,
          targetPlayerId := some tid, success := true,
          log := [player.name ++ " 发动政变，花费7金币",
            (loseCardOrDie env (room.modify id (fun p => { p with coins := p.coins - 7 })) tid tp
              " 被迫弃掉一张牌" " 没有卡牌，被淘汰！").2] } := by
    unfold executeAction
    simp only [hget, halive, hphase, hcur, Bool.not_true, Bool.false_eq_true, if_false, ne_eq,
      not_true_eq_false, hc7, Option.bind, htget, htalive, htid]
  have hget1 : (room.modify id (fun p => { p with coins := p.coins - 7 })).get tid = some tp := by
    rw [get_modify_other room id tid (fun p => { p with coins := p.coins - 7 }) (fun _ => rfl) hne]
    exact htget
  have hon1 : Online (fun x => True ∧ x ≠ tid)
      (room.modify id (fun p => { p with coins := p.coins - 7 })) :=
    online_coins _ room id _ (online_weaken hon (fun _ h => ⟨trivial, h⟩))
  have hpf := pilesFrame_loseCardOrDie env
    (room.modify id (fun p => { p with coins := p.coins - 7 })) tid tp
    " 被迫弃掉一张牌" " 没有卡牌，被淘汰！"
  have hon2 : Online (fun _ => True)
      (loseCardOrDie env (room.modify id (fun p => { p with coins := p.coins - 7 })) tid tp
        " 被迫弃掉一张牌" " 没有卡牌，被淘汰！").1 := by
    unfold loseCardOrDie
    split
    · exact online_discardCard _ _ _ tid _ hon1
    · obtain ⟨p, hp, ha, hc, _, hpn⟩ := hon1
      exact ⟨p, mem_modify_other hp hpn, ha, hc, trivial⟩
  have hlen : (loseCardOrDie env (room.modify id (fun p => { p with coins := p.coins - 7 })) tid tp
        " 被迫弃掉一张牌" " 没有卡牌，被淘汰！").1.players.length ≤ env.fuel := by
    unfold loseCardOrDie
    split
    · rw [length_players_discardCard, length_players_modify]
      exact hfuel
    · show (Room.modify _ _ _).players.length ≤ _
      rw [length_players_modify, length_players_modify]
      exact hfuel
  have hfin := finishAction_runs env _
    { playerId := id, playerName := player.name, type := ActionType.coup,
      targetPlayerId := some tid, success := true,
      log := [player.name ++ " 发动政变，花费7金币",
        (loseCardOrDie env (room.modify id (fun p => { p with coins := p.coins - 7 })) tid tp
          " 被迫弃掉一张牌" " 没有卡牌，被淘汰！").2] }
    (fun _ => True) rfl (hpf.challengeData.trans hcd) (hpf.counterData.trans hct) hon2 hlen
  have hframe := turnFrame_nextTurn env.now env.fuel
    (loseCardOrDie env (room.modify id (fun p => { p with coins := p.coins - 7 })) tid tp
      " 被迫弃掉一张牌" " 没有卡牌，被淘汰！").1
  have hcoin : ((loseCardOrDie env (room.modify id (fun p => { p with coins := p.coins - 7 })) tid
      tp " 被迫弃掉一张牌" " 没有卡牌，被淘汰！").1.get id).map (fun p => p.coins) =
      some (player.coins - 7) := by
    have hbase : ((room.modify id (fun p => { p with coins := p.coins - 7 })).get id).map
        (fun p => p.coins) = some (player.coins - 7) := by
      rw [get_modify_same room id (fun p => { p with coins := p.coins - 7 }) (fun _ => rfl), hget]
      rfl
    unfold loseCardOrDie
    split
    · rw [discardCard_coins]
      exact hbase
    · rw [get_modify_coins _ tid id (fun p => { p with isAlive := false }) (fun _ => rfl)
        (fun _ => rfl)]
      exact hbase
  rw [hexec, hfin]
  refine ⟨⟨_, rfl, rfl⟩, ?_, ?_, ?_, ?_, ?_⟩
  · rw [coins_turnFrame hframe]
    exact hcoin
  · rw [hframe.challengeData, hpf.challengeData]
    exact hcd
  · rw [hframe.counterData, hpf.counterData]
    exact hct
  · intro hlen2 hdeck
    have hidx : randomIndex (env.pick 0) tp.cards.length = ((env.pick 0 % 2 : Nat) : Int) := by
      unfold randomIndex
      rw [hlen2]
    have h2 := discardCard_two (env.key 0)
      (room.modify id (fun p => { p with coins := p.coins - 7 })) tid tp (env.pick 0 % 2) hget1
      htalive hlen2 (Nat.mod_lt _ (by decide)) hdeck
    have hl : (loseCardOrDie env (room.modify id (fun p => { p with coins := p.coins - 7 })) tid
        tp " 被迫弃掉一张牌" " 没有卡牌，被淘汰！").1 =
        (discardCard (env.key 0) (room.modify id (fun p => { p with coins := p.coins - 7 })) tid
          ((env.pick 0 % 2 : Nat) : Int)).1 := by
      unfold loseCardOrDie
      have hidx2 : randomIndex (env.pick 0) 2 = ((env.pick 0 % 2 : Nat) : Int) := rfl
      simp only [hlen2, hidx2, show (2 : Nat) > 0 by decide, if_true]
    rw [hl, h2] at hframe ⊢
    refine ⟨hframe.discardPile, hframe.deck, ?_⟩
    have hq : ({ room.modify id (fun p => { p with coins := p.coins - 7 }) with
        players := modifyPlayer (room.modify id (fun p => { p with coins := p.coins - 7 })).players
          tid (fun q => { q with cards := q.cards.eraseIdx (env.pick 0 % 2) ++
            [(room.modify id (fun p => { p with coins := p.coins - 7 })).gameState.deck.getLast?.join] }),
        gameState := { (room.modify id (fun p => { p with coins := p.coins - 7 })).gameState with
          deck := (room.modify id (fun p => { p with coins := p.coins - 7 })).gameState.deck.dropLast,
          discardPile := (room.modify id (fun p => { p with coins := p.coins - 7 })).gameState.discardPile ++
            [(tp.cards[env.pick 0 % 2]?).join] } } : Room).get tid =
        some { tp with cards := tp.cards.eraseIdx (env.pick 0 % 2) ++
          [room.gameState.deck.getLast?.join] } := by
      have : getPlayer (room.modify id (fun p => { p with coins := p.coins - 7 })).players tid =
          some tp := hget1
      refine (getPlayer_modify_same _ tid _ ?_).trans ?_
      · intro _
        rfl
      · rw [this]
        rfl
    obtain ⟨q2, hq2, hq2c⟩ := hands_turnFrame hframe tid _ hq
    exact ⟨q2, hq2, hq2c⟩
  · intro hempty
    have hl : (loseCardOrDie env (room.modify id (fun p => { p with coins := p.coins - 7 })) tid
        tp " 被迫弃掉一张牌" " 没有卡牌，被淘汰！").1 =
        (room.modify id (fun p => { p with coins := p.coins - 7 })).modify tid
          (fun p => { p with isAlive := false }) := by
      unfold loseCardOrDie
      simp [hempty]
    rw [hl] at hframe ⊢
    have hq : ((room.modify id (fun p => { p with coins := p.coins - 7 })).modify tid
        (fun p => { p with isAlive := false })).get tid = some { tp with isAlive := false } := by
      rw [get_modify_same _ tid (fun p => { p with isAlive := false }) (fun _ => rfl), hget1]
      rfl
    obtain ⟨q2, hq2, hsw⟩ := (getPlayer_swept hframe.players tid).2 _ hq
    refine ⟨q2, hq2, ?_⟩
    rcases hsw with h | h
    · rw [h]
    · rw [h]

theorem coup_forces_discard_witness :
    ((executeAction testEnv richRoom "player1" ActionType.coup (some "player2")).1.get
        "player1").map (fun p => p.coins) = some 0 ∧
      (executeAction testEnv richRoom "player1" ActionType.coup
        (some "player2")).1.gameState.discardPile = [some Role.captain] :=
  ⟨(coup_forces_discard testEnv richRoom "player1" "player2"
      { id := "player1", name := "Alice", coins := 7,
        cards := [some Role.duke, some Role.assassin], isAlive := true, connected := true,
        disconnectTime := none }
      { id := "player2", name := "Bob", coins := 2,
        cards := [some Role.captain, some Role.contessa], isAlive := true, connected := true,
        disconnectTime := none }
      (by decide) rfl (by decide) (by decide) (by decide) (by decide) (by decide) (by decide) rfl
      (by decide) ⟨_, List.mem_cons_self _ _, rfl, rfl, by decide⟩ (by decide)).2.1,
    by decide⟩

/-- Claim C30: an exchange declared by the current player, who holds an
Ambassador, with at least two cards in the deck (TURN_START, nothing pending)
succeeds and ends in `nextTurn`.  On the room it leaves, the deck has lost its
last two cards, the actor's hand is the first two cards of the old hand
followed by the two cards drawn (the last card of the deck first), the rest of
them has been appended to the discard pile, and before the closing transition
the number of cards in deck, discard pile and hands is what it was. -/
theorem exchange_draws_two (env : Env) (room : Room) (id : PlayerId) (player : Player)
    (target : Option PlayerId)
    (hget : room.get id = some player) (halive : player.isAlive = true)
    (hphase : room.gameState.phase.type = PhaseType.TURN_START)
    (hcur : room.gameState.currentPlayer = some id)
    (hcd : room.gameState.challengeData = none) (hct : room.gameState.counterData = none)
    (hamb : player.cards.contains (some Role.ambassador) = true)
    (hdeck : 2 ≤ room.gameState.deck.length)
    (hon : Online (fun _ => True) room) (hfuel : room.players.length ≤ env.fuel) :
    ∃ settled : Room,
      settled =
        { room with
          players := modifyPlayer room.players id (fun p =>
            { p with cards := (player.cards ++ [room.gameState.deck.getLast?.join,
              room.gameState.deck.dropLast.getLast?.join]).take 2 }),
          gameState := { room.gameState with
            deck := room.gameState.deck.dropLast.dropLast,
            discardPile := room.gameState.discardPile ++
              (player.cards ++ [room.gameState.deck.getLast?.join,
                room.gameState.deck.dropLast.getLast?.join]).drop 2 } } ∧
      (∃ ar, ar.success = true ∧
        executeAction env room id ActionType.exchange target =
          ((nextTurn env.now env.fuel settled).1, Outcome.ok (some ar))) ∧
      totalCards settled = totalCards room ∧
      settled.gameState.deck.length + 2 = room.gameState.deck.length ∧
      (executeAction env room id ActionType.exchange target).1.gameState.deck =
        room.gameState.deck.dropLast.dropLast ∧
      (executeAction env room id ActionType.exchange target).1.gameState.discardPile =
        room.gameState.discardPile ++
          (player.cards ++ [room.gameState.deck.getLast?.join,
            room.gameState.deck.dropLast.getLast?.join]).drop 2 ∧
      ∃ q, (executeAction env room id ActionType.exchange target).1.get id = some q ∧
        (q.cards = (player.cards ++ [room.gameState.deck.getLast?.join,
            room.gameState.deck.dropLast.getLast?.join]).take 2 ∨
          (q.cards = [] ∧ q.isAlive = false)) := by
  have hne1 : room.gameState.deck ≠ [] := by
    intro h0
    rw [h0] at hdeck
    simp at hdeck
  have hne2 : room.gameState.deck.dropLast ≠ [] := by
    intro h0
    have := congrArg List.length h0
    simp only [List.length_dropLast, List.length_nil] at this
    omega
  have hd1 := drawCard_of_nonempty (env.key 0) room hne1
  have hd2 := drawCard_of_nonempty (env.key 1)
    (room.setGS (fun gs => { gs with deck := gs.deck.dropLast })) hne2
  have hexec : executeAction env room id ActionType.exchange target =
      finishAction env
        { room with
          players := modifyPlayer room.players id (fun p =>
            { p with cards := (player.cards ++ [room.gameState.deck.getLast?.join,
              room.gameState.deck.dropLast.getLast?.join]).take 2 }),
          gameState := { room.gameState with
            deck := room.gameState.deck.dropLast.dropLast,
            discardPile := room.gameState.discardPile ++
              (player.cards ++ [room.gameState.deck.getLast?.join,
                room.gameState.deck.dropLast.getLast?.join]).drop 2 } }
        { playerId := id, playerName := player.name, type := ActionType.exchange,
          targetPlayerId := target, success := true,
          log := [player.name ++ " 声称拥有大使，进行卡牌交换"] ++ [player.name ++ " 完成卡牌交换"] } := by
    unfold executeAction
    simp only [hget, halive, hphase, hcur, Bool.not_true, Bool.false_eq_true, if_false, ne_eq,
      not_true_eq_false, hamb, hd1, hd2]
    rw [← hcur]
    rfl
  have hon2 : Online (fun _ => True)
      ({ room with
          players := modifyPlayer room.players id (fun p =>
            { p with cards := (player.cards ++ [room.gameState.deck.getLast?.join,
              room.gameState.deck.dropLast.getLast?.join]).take 2 }),
          gameState := { room.gameState with
            deck := room.gameState.deck.dropLast.dropLast,
            discardPile := room.gameState.discardPile ++
              (player.cards ++ [room.gameState.deck.getLast?.join,
                room.gameState.deck.dropLast.getLast?.join]).drop 2 } } : Room) :=
    online_modify (fun _ => True) room id (fun p =>
      { p with cards := (player.cards ++ [room.gameState.deck.getLast?.join,
        room.gameState.deck.dropLast.getLast?.join]).take 2 }) (fun _ => ⟨rfl, rfl, rfl⟩) hon
  have hfin := finishAction_runs env
    ({ room with
        players := modifyPlayer room.players id (fun p =>
          { p with cards := (player.cards ++ [room.gameState.deck.getLast?.join,
            room.gameState.deck.dropLast.getLast?.join]).take 2 }),
        gameState := { room.gameState with
          deck := room.gameState.deck.dropLast.dropLast,
          discardPile := room.gameState.discardPile ++
            (player.cards ++ [room.gameState.deck.getLast?.join,
              room.gameState.deck.dropLast.getLast?.join]).drop 2 } } : Room)
    { playerId := id, playerName := player.name, type := ActionType.exchange,
      targetPlayerId := target, success := true,
      log := [player.name ++ " 声称拥有大使，进行卡牌交换"] ++ [player.name ++ " 完成卡牌交换"] }
    (fun _ => True) rfl hcd hct hon2
    (by show (modifyPlayer _ _ _).length ≤ _; rw [length_modifyPlayer]; exact hfuel)
  have hframe := turnFrame_nextTurn env.now env.fuel
    ({ room with
        players := modifyPlayer room.players id (fun p =>
          { p with cards := (player.cards ++ [room.gameState.deck.getLast?.join,
            room.gameState.deck.dropLast.getLast?.join]).take 2 }),
        gameState := { room.gameState with
          deck := room.gameState.deck.dropLast.dropLast,
          discardPile := room.gameState.discardPile ++
            (player.cards ++ [room.gameState.deck.getLast?.join,
              room.gameState.deck.dropLast.getLast?.join]).drop 2 } } : Room)
  refine ⟨_, rfl, ⟨_, rfl, by rw [hexec, hfin]⟩, ?_, ?_, ?_, ?_, ?_⟩
  · unfold totalCards
    have hs := sum_hands_modify room.players id (fun p =>
      { p with cards := (player.cards ++ [room.gameState.deck.getLast?.join,
        room.gameState.deck.dropLast.getLast?.join]).take 2 }) player hget
    have h1 : ((player.cards ++ [room.gameState.deck.getLast?.join,
        room.gameState.deck.dropLast.getLast?.join]).take 2).length +
        ((player.cards ++ [room.gameState.deck.getLast?.join,
        room.gameState.deck.dropLast.getLast?.join]).drop 2).length = player.cards.length + 2 := by
      rw [← List.length_append, List.take_append_drop]
      simp
    simp only [List.length_dropLast, List.length_append] at hs ⊢
    omega
  · simp only [List.length_dropLast]
    omega
  · rw [hexec, hfin, hframe.deck]
  · rw [hexec, hfin, hframe.discardPile]
  · rw [hexec, hfin]
    have hq : ({ room with
        players := modifyPlayer room.players id (fun p =>
          { p with cards := (player.cards ++ [room.gameState.deck.getLast?.join,
            room.gameState.deck.dropLast.getLast?.join]).take 2 }),
        gameState := { room.gameState with
          deck := room.gameState.deck.dropLast.dropLast,
          discardPile := room.gameState.discardPile ++
            (player.cards ++ [room.gameState.deck.getLast?.join,
              room.gameState.deck.dropLast.getLast?.join]).drop 2 } } : Room).get id =
        some { player with cards := (player.cards ++ [room.gameState.deck.getLast?.join,
          room.gameState.deck.dropLast.getLast?.join]).take 2 } := by
      have : getPlayer room.players id = some player := hget
      refine (getPlayer_modify_same _ id _ ?_).trans ?_
      · intro _
        rfl
      · rw [this]
        rfl
    exact hands_turnFrame hframe id _ hq

theorem exchange_draws_two_witness :
    (executeAction testEnv ambassadorRoom "player1" ActionType.exchange none).1.gameState.deck =
        [some Role.ambassador, some Role.duke, some Role.assassin] ∧
      (executeAction testEnv ambassadorRoom "player1" ActionType.exchange
        none).1.gameState.discardPile = [some Role.contessa, some Role.captain] ∧
      totalCards (executeAction testEnv ambassadorRoom "player1" ActionType.exchange none).1 =
        totalCards ambassadorRoom := by
  obtain ⟨settled, _, _, _, _, h1, h2, _⟩ := exchange_draws_two testEnv ambassadorRoom "player1"
    { id := "player1", name := "Alice", coins := 2,
      cards := [some Role.ambassador, some Role.assassin], isAlive := true, connected := true,
      disconnectTime := none } none
    (by decide) rfl (by decide) (by decide) (by decide) (by decide) (by decide) (by decide)
    ⟨_, List.mem_cons_self _ _, rfl, rfl, trivial⟩ (by decide)
  exact ⟨h1, h2, by decide⟩

theorem nodup_setPhase (now : Nat) (r : Room) (p : PhaseVal)
    (hn : (r.players.map (fun q => q.id)).Nodup) :
    ((setPhase now r p).players.map (fun q => q.id)).Nodup := by
  rcases players_setPhase now r p hn with h | h
  · rw [h]
    exact hn
  · rw [h, map_sweep_ids]
    exact hn

theorem length_players_setPhase (now : Nat) (r : Room) (p : PhaseVal)
    (hn : (r.players.map (fun q => q.id)).Nodup) :
    (setPhase now r p).players.length = r.players.length := by
  rcases players_setPhase now r p hn with h | h
  · rw [h]
  · rw [h, List.length_map]

/-- Claim C24: the current player, holding `c ≥ 3` coins, declares an
assassination (TURN_START, guard free, distinct ids) of an alive connected
target who holds a Contessa.  After `executeAction` the actor has `c - 3` coins
and the room is in COUNTER_WINDOW with `blockerRole` Contessa and the target as
the only potential blocker.  When the target then calls `handleCounter` with
`block = true`, the call returns with `blocked = true` after `nextTurn` has run
on the room in which the actor got 3 coins back and `counterData` was cleared:
the actor has `c` coins again, the target is as before (the hand included) and
`counterData` is `none`. -/
theorem assassinate_blocked_by_contessa (env env2 : Env) (room : Room) (id tid : PlayerId)
    (player tp : Player)
    (hlock : room.lock = false)
    (hn : (room.players.map (fun q => q.id)).Nodup)
    (hget : room.get id = some player) (halive : player.isAlive = true)
    (hphase : room.gameState.phase.type = PhaseType.TURN_START)
    (hcur : room.gameState.currentPlayer = some id)
    (hcoins : 3 ≤ player.coins)
    (htget : room.get tid = some tp) (htalive : tp.isAlive = true)
    (htconn : tp.connected = true)
    (hcont : tp.cards.contains (some Role.contessa) = true) (hne : tid ≠ id)
    (hfuel : room.players.length ≤ env2.fuel) :
    ((executeAction env room id ActionType.assassinate (some tid)).2.accepted = true ∧
      ((executeAction env room id ActionType.assassinate (some tid)).1.get id).map
          (fun p => p.coins) = some (player.coins - 3) ∧
      (executeAction env room id ActionType.assassinate (some tid)).1.gameState.phase.type =
        PhaseType.COUNTER_WINDOW ∧
      (executeAction env room id ActionType.assassinate (some tid)).1.gameState.counterData.map
          (fun c => (c.blockerRole, c.potentialBlockers)) = some (Role.contessa, [tid])) ∧
    (∃ res, res.blocked = true ∧
      handleCounter env2 (executeAction env room id ActionType.assassinate (some tid)).1 tid true =
        ((nextTurn env2.now env2.fuel
          (((executeAction env room id ActionType.assassinate (some tid)).1.modify id
            (fun p => { p with coins := p.coins + 3 })).setGS
              (fun gs => { gs with counterData := none }))).1,
         Outcome.ok (some res))) ∧
    ((handleCounter env2 (executeAction env room id ActionType.assassinate (some tid)).1
        tid true).1.get id).map (fun p => p.coins) = some player.coins ∧
    (handleCounter env2 (executeAction env room id ActionType.assassinate (some tid)).1
        tid true).1.get tid = some tp ∧
    (handleCounter env2 (executeAction env room id ActionType.assassinate (some tid)).1
        tid true).1.gameState.counterData = none := by
  have htid : tp.id = tid := getPlayer_id htget
  have hmem : tp ∈ modifyPlayer room.players id (fun p => { p with coins := p.coins - 3 }) :=
    mem_modify_other (getPlayer_mem htget) (by rw [htid]; exact hne)
  have hfilter : 0 < ((room.modify id
      (fun p => { p with coins := p.coins - 3 })).players.filter (fun p =>
        p.isAlive && some p.id == some tid && p.cards.contains (some Role.contessa))).length := by
    rw [List.length_pos_iff_exists_mem]
    refine ⟨tp, List.mem_filter.2 ⟨hmem, ?_⟩⟩
    simp only [Bool.and_eq_true, beq_iff_eq]
    exact ⟨⟨htalive, by rw [htid]⟩, hcont⟩
  have hexec : executeAction env room id ActionType.assassinate (some tid) =
      (setPhase env.now
        ((room.modify id (fun p => { p with coins := p.coins - 3 })).setGS (fun gs =>
          { gs with counterData := some (CounterData.mk
              { playerId := id, playerName := player.name, type := ActionType.assassinate,
                targetPlayerId := some tid, success := true,
                log := [player.name ++ " 声称拥有刺客，行刺 " ++ tp.name] }
              Role.contessa [tid]) }))
        { type := PhaseType.COUNTER_WINDOW, data := PhaseData.empty },
       Outcome.ok (some
        { playerId := id, playerName := player.name, type := ActionType.assassinate,
          targetPlayerId := some tid, success := true,
          log := [player.name ++ " 声称拥有刺客，行刺 " ++ tp.name] })) := by
    unfold executeAction
    have h3 : ¬ player.coins < 3 := not_lt.2 hcoins
    simp only [hget, halive, hphase, hcur, Bool.not_true, Bool.false_eq_true, if_false, ne_eq,
      not_true_eq_false, Option.bind, htget, htalive, h3, gt_iff_lt]
    rw [if_pos hfilter, htid]
  rw [hexec]
  simp only
  have hn0 : (((room.modify id (fun p => { p with coins := p.coins - 3 })).setGS (fun gs =>
      { gs with counterData := some (CounterData.mk
          { playerId := id, playerName := player.name, type := ActionType.assassinate,
            targetPlayerId := some tid, success := true,
            log := [player.name ++ " 声称拥有刺客，行刺 " ++ tp.name] }
          Role.contessa [tid]) })).players.map (fun q => q.id)).Nodup :=
    nodup_modify room id (fun p => { p with coins := p.coins - 3 }) (fun _ => rfl) hn
  have hget0 : ((room.modify id (fun p => { p with coins := p.coins - 3 })).setGS (fun gs =>
      { gs with counterData := some (CounterData.mk
          { playerId := id, playerName := player.name, type := ActionType.assassinate,
            targetPlayerId := some tid, success := true,
            log := [player.name ++ " 声称拥有刺客，行刺 " ++ tp.name] }
          Role.contessa [tid]) })).get tid = some tp :=
    (get_modify_other room id tid (fun p => { p with coins := p.coins - 3 }) (fun _ => rfl)
      hne).trans htget
  obtain ⟨r1, hr1⟩ : ∃ r1, r1 = setPhase env.now
      ((room.modify id (fun p => { p with coins := p.coins - 3 })).setGS (fun gs =>
        { gs with counterData := some (CounterData.mk
            { playerId := id, playerName := player.name, type := ActionType.assassinate,
              targetPlayerId := some tid, success := true,
              log := [player.name ++ " 声称拥有刺客，行刺 " ++ tp.name] }
            Role.contessa [tid]) }))
      { type := PhaseType.COUNTER_WINDOW, data := PhaseData.empty } := ⟨_, rfl⟩
  rw [← hr1]
  have hphase1 : r1.gameState.phase.type = PhaseType.COUNTER_WINDOW := by
    rw [hr1, setPhase_phase_unlocked _ _ _
      (show ((room.modify id (fun p => { p with coins := p.coins - 3 })).setGS _).lock = false
        from hlock)]
  have hcd1 : r1.gameState.counterData = some (CounterData.mk
      { playerId := id, playerName := player.name, type := ActionType.assassinate,
        targetPlayerId := some tid, success := true,
        log := [player.name ++ " 声称拥有刺客，行刺 " ++ tp.name] }
      Role.contessa [tid]) := by
    rw [hr1, (turnFrame_setPhase _ _ _).counterData]
    rfl
  have hcoins1 : (r1.get id).map (fun p => p.coins) = some (player.coins - 3) := by
    rw [hr1, coins_setPhase]
    show ((room.modify id (fun p => { p with coins := p.coins - 3 })).get id).map _ = _
    rw [get_modify_same room id (fun p => { p with coins := p.coins - 3 }) (fun _ => rfl), hget]
    rfl
  have hget1 : r1.get tid = some tp := by
    rw [hr1]
    exact get_setPhase_connected _ _ _ tid tp hn0 hget0 htconn
  have hn1 : (r1.players.map (fun q => q.id)).Nodup := by
    rw [hr1]
    exact nodup_setPhase _ _ _ hn0
  have hlen1 : r1.players.length = room.players.length := by
    rw [hr1, length_players_setPhase _ _ _ hn0]
    exact length_players_modify room id _
  have hsettle : settleCounter env2 r1 (CounterData.mk
      { playerId := id, playerName := player.name, type := ActionType.assassinate,
        targetPlayerId := some tid, success := true,
        log := [player.name ++ " 声称拥有刺客，行刺 " ++ tp.name] }
      Role.contessa [tid]) tid tp true =
      (r1.modify id (fun p => { p with coins := p.coins + 3 }),
        Outcome.ok (true, [tp.name ++ " 成功阻止了 " ++ player.name ++ " 的行动"])) := by
    unfold settleCounter
    simp only [if_true, hcont]
  have hget2 : ((r1.modify id (fun p => { p with coins := p.coins + 3 })).setGS
      (fun gs => { gs with counterData := none })).get tid = some tp :=
    (get_modify_other r1 id tid (fun p => { p with coins := p.coins + 3 }) (fun _ => rfl)
      hne).trans hget1
  have hn2 : (((r1.modify id (fun p => { p with coins := p.coins + 3 })).setGS
      (fun gs => { gs with counterData := none })).players.map (fun q => q.id)).Nodup :=
    nodup_modify r1 id (fun p => { p with coins := p.coins + 3 }) (fun _ => rfl) hn1
  have hnt := nextTurn_returns env2.now env2.fuel
    ((r1.modify id (fun p => { p with coins := p.coins + 3 })).setGS
      (fun gs => { gs with counterData := none }))
    (Or.inr ⟨tp, getPlayer_mem hget2, htalive, htconn⟩)
    (by
      show (r1.modify id _).players.length ≤ _
      rw [length_players_modify, hlen1]
      exact hfuel)
  have hhc := handleCounter_eq env2 r1 tid true _ tp _ _ true _ hphase1 hcd1 hget1 htalive
    hsettle hnt
  rw [hhc]
  refine ⟨⟨rfl, hcoins1, hphase1, ?_⟩, ⟨_, rfl, rfl⟩, ?_, ?_, ?_⟩
  · rw [hcd1]
    rfl
  · rw [coins_nextTurn]
    show ((r1.modify id (fun p => { p with coins := p.coins + 3 })).get id).map _ = _
    rw [get_modify_same r1 id (fun p => { p with coins := p.coins + 3 }) (fun _ => rfl)]
    cases hq : r1.get id with
    | none =>
      rw [hq] at hcoins1
      cases hcoins1
    | some q =>
      rw [hq] at hcoins1
      simp only [Option.map_some', Option.some.injEq] at hcoins1 ⊢
      omega
  · exact get_nextTurn_connected _ _ _ tid tp hn2 hget2 htconn
  · rw [(turnFrame_nextTurn _ _ _).counterData]
    rfl

theorem assassinate_blocked_by_contessa_witness :
    ((executeAction testEnv threeCoinRoom "player1" ActionType.assassinate
        (some "player2")).1.get "player1").map (fun p => p.coins) = some 0 ∧
      ((handleCounter testEnv (executeAction testEnv threeCoinRoom "player1"
        ActionType.assassinate (some "player2")).1 "player2" true).1.get "player1").map
          (fun p => p.coins) = some 3 ∧
      ((handleCounter testEnv (executeAction testEnv threeCoinRoom "player1"
        ActionType.assassinate (some "player2")).1 "player2" true).1.get "player2").map
          (fun p => p.cards) = some [some Role.captain, some Role.contessa] := by
  have h := assassinate_blocked_by_contessa testEnv testEnv threeCoinRoom "player1" "player2"
    { id := "player1", name := "Alice", coins := 3,
      cards := [some Role.duke, some Role.assassin], isAlive := true, connected := true,
      disconnectTime := none }
    { id := "player2", name := "Bob", coins := 2,
      cards := [some Role.captain, some Role.contessa], isAlive := true, connected := true,
      disconnectTime := none }
    (by decide) (by decide) (by decide) rfl (by decide) (by decide) (by decide) (by decide) rfl rfl
    (by decide) (by decide) (by decide)
  refine ⟨h.1.2.1, h.2.2.1, ?_⟩
  rw [h.2.2.2.1]
  rfl

/-! ## The two branches of a challenge -/

theorem addChallenger_fresh (cd : ChallengeData) (c : PlayerId) (h : cd.challengers = []) :
    addChallenger cd c = { cd with challengers := [c] } := by
  unfold addChallenger
  rw [h]
  rfl

theorem challengersDiscard_single (env : Env) (room : Room) (c : PlayerId) (challenger : Player)
    (log : List String) (hc : room.get c = some challenger) :
    (challengersDiscard env 0 [c] room log).1 =
      if challenger.isAlive && challenger.cards.length > 0 then
        (discardCard (env.key 0) room c (randomIndex (env.pick 0) challenger.cards.length)).1
      else room := by
  unfold challengersDiscard
  simp only [hc]
  split <;> rfl

theorem stealCoins_shape (r : Room) (a : PlayerId) (t : Option PlayerId) :
    stealCoins r a t = r ∨
      ∃ (x : PlayerId) (g1 g2 : Player → Int), stealCoins r a t =
        (r.modify x (fun p => { p with coins := g1 p })).modify a
          (fun p => { p with coins := g2 p }) := by
  unfold stealCoins
  cases t.bind r.get with
  | none => exact Or.inl rfl
  | some target =>
    by_cases h : target.coins > 0
    · refine Or.inr ⟨target.id, fun p => p.coins - min target.coins 2,
        fun p => p.coins + min target.coins 2, ?_⟩
      simp only [h, if_true]
    · refine Or.inl ?_
      simp only [h, if_false]

/-- What the effect of a proven action changes: coins only.  The room after the
branch of `settleChallenge` for an actor who holds the role is the room after
the challengers' discards, up to the coins of tax and steal. -/
theorem settleChallenge_proven_frame (env : Env) (room : Room) (cd : ChallengeData)
    (actor : Player) (P : PlayerId → Prop)
    (hrole : includesRole actor.cards (requiredRole cd.action.type) = true) :
    ∃ log,
      (Online P (challengersDiscard env 0 cd.challengers room log).1 →
        Online P (settleChallenge env room cd actor).1) ∧
      (settleChallenge env room cd actor).1.players.length =
        (challengersDiscard env 0 cd.challengers room log).1.players.length ∧
      (settleChallenge env room cd actor).1.gameState =
        (challengersDiscard env 0 cd.challengers room log).1.gameState ∧
      (∀ id p, (challengersDiscard env 0 cd.challengers room log).1.get id = some p →
        ∃ q, (settleChallenge env room cd actor).1.get id = some q ∧ q.cards = p.cards) ∧
      (settleChallenge env room cd actor).2.challengeWon = false := by
  refine ⟨[actor.name ++ " 确实拥有 " ++ roleName (requiredRole cd.action.type) ++ "，挑战失败！"],
    ?_⟩
  unfold settleChallenge
  simp only [hrole, if_true]
  split
  · refine ⟨fun h => online_coins P _ _ _ h, length_players_modify _ _ _, rfl, ?_, trivial⟩
    intro id p hp
    obtain ⟨q, hq, hqc, _⟩ := get_modify_coins_only _ cd.action.playerId id
      (fun x => x.coins + 3) p hp
    exact ⟨q, hq, hqc⟩
  · split
    · rcases stealCoins_shape
        (challengersDiscard env 0 cd.challengers room
          [actor.name ++ " 确实拥有 " ++ roleName (requiredRole cd.action.type) ++
            "，挑战失败！"]).1
        cd.action.playerId cd.action.targetPlayerId with h | ⟨x, g1, g2, h⟩
      · rw [h]
        exact ⟨fun h => h, rfl, rfl, fun id p hp => ⟨p, hp, rfl⟩, trivial⟩
      · rw [h]
        refine ⟨fun h => online_coins P _ _ _ (online_coins P _ _ _ h), ?_, rfl, ?_, trivial⟩
        · rw [length_players_modify, length_players_modify]
        · intro id p hp
          obtain ⟨q1, hq1, hqc1, _⟩ := get_modify_coins_only _ x id g1 p hp
          obtain ⟨q2, hq2, hqc2, _⟩ := get_modify_coins_only _ cd.action.playerId id g2 q1 hq1
          exact ⟨q2, hq2, hqc2.trans hqc1⟩
    · exact ⟨fun h => h, rfl, rfl, fun id p hp => ⟨p, hp, rfl⟩, trivial⟩

/-- Claim C18, as stated, fails: in the room of `testChallengeMechanism`, where
Alice has declared tax without a Duke, Bob's challenge is won, yet Alice's hand
still holds two cards: her Assassin went to the discard pile and the Contessa
drawn from the deck took its place. -/
theorem lost_bluff_keeps_the_hand_at_two :
    (handleChallenge testEnv taxDeclaredRoom "player2").2.accepted = true ∧
      (taxDeclaredRoom.get "player1").map (fun p => p.cards) =
        some [some Role.assassin, some Role.captain] ∧
      ((handleChallenge testEnv taxDeclaredRoom "player2").1.get "player1").map
        (fun p => p.cards) = some [some Role.captain, some Role.contessa] ∧
      (handleChallenge testEnv taxDeclaredRoom "player2").1.gameState.discardPile =
        [some Role.assassin] := by
  decide

/-- Claim C18, amended: in CHALLENGE_WINDOW with a challenge pending against an
alive actor who holds two cards, none of them the claimed role, and with cards
in the deck, `handleChallenge` by another alive player reports
`challengeWon = true` and ends in `nextTurn`.  The actor's card at a random
index goes to the discard pile and the last card of the deck is drawn in its
place, so the hand holds two cards again; the actor's coins are unchanged, and 3
higher for an assassination; the challenger's hand and coins are unchanged;
`challengeData` is cleared. -/
theorem lost_bluff_costs_a_card (env : Env) (room : Room) (c : PlayerId) (cd : ChallengeData)
    (challenger actor : Player)
    (hphase : room.gameState.phase.type = PhaseType.CHALLENGE_WINDOW)
    (hcd : room.gameState.challengeData = some cd)
    (hc : room.get c = some challenger) (halive : challenger.isAlive = true)
    (ha : room.get cd.action.playerId = some actor) (hactor : actor.isAlive = true)
    (hlen : actor.cards.length = 2) (hdeck : room.gameState.deck ≠ [])
    (hrole : includesRole actor.cards (requiredRole cd.action.type) = false)
    (hne : c ≠ cd.action.playerId)
    (hon : Online (fun _ => True) room) (hfuel : room.players.length ≤ env.fuel) :
    (∃ res, res.challengeWon = true ∧
      handleChallenge env room c =
        ((nextTurn env.now env.fuel
          ({ room with
            players := modifyPlayer room.players cd.action.playerId (fun q =>
              { q with
                cards := q.cards.eraseIdx (env.pick 0 % 2) ++ [room.gameState.deck.getLast?.join],
                coins := q.coins + (if cd.action.type = ActionType.assassinate then 3 else 0) }),
            gameState := { room.gameState with
              challengeData := some (addChallenger cd c),
              deck := room.gameState.deck.dropLast,
              discardPile := room.gameState.discardPile ++
                [(actor.cards[env.pick 0 % 2]?).join] } } : Room)).1.setGS
            (fun gs => { gs with challengeData := none }),
         Outcome.ok (some res))) ∧
    (∃ q, (handleChallenge env room c).1.get cd.action.playerId = some q ∧
      q.coins = actor.coins + (if cd.action.type = ActionType.assassinate then 3 else 0) ∧
      (q.cards = actor.cards.eraseIdx (env.pick 0 % 2) ++ [room.gameState.deck.getLast?.join] ∨
        (q.cards = [] ∧ q.isAlive = false))) ∧
    (handleChallenge env room c).1.gameState.discardPile =
      room.gameState.discardPile ++ [(actor.cards[env.pick 0 % 2]?).join] ∧
    (handleChallenge env room c).1.gameState.deck = room.gameState.deck.dropLast ∧
    (∃ q, (handleChallenge env room c).1.get c = some q ∧ q.coins = challenger.coins ∧
      (q.cards = challenger.cards ∨ (q.cards = [] ∧ q.isAlive = false))) ∧
    (handleChallenge env room c).1.gameState.challengeData = none := by
  have hidx2 : randomIndex (env.pick 0) 2 = ((env.pick 0 % 2 : Nat) : Int) := rfl
  have ha1 : (room.setGS (fun gs => { gs with challengeData := some (addChallenger cd c) })).get
      cd.action.playerId = some actor := ha
  have h2 := discardCard_two (env.key 0)
    (room.setGS (fun gs => { gs with challengeData := some (addChallenger cd c) }))
    cd.action.playerId actor (env.pick 0 % 2) ha1 hactor hlen (Nat.mod_lt _ (by decide)) hdeck
  have hS : (settleChallenge env
      (room.setGS (fun gs => { gs with challengeData := some (addChallenger cd c) }))
      (addChallenger cd c) actor).1 =
      ({ room with
        players := modifyPlayer room.players cd.action.playerId (fun q =>
          { q with
            cards := q.cards.eraseIdx (env.pick 0 % 2) ++ [room.gameState.deck.getLast?.join],
            coins := q.coins + (if cd.action.type = ActionType.assassinate then 3 else 0) }),
        gameState := { room.gameState with
          challengeData := some (addChallenger cd c),
          deck := room.gameState.deck.dropLast,
          discardPile := room.gameState.discardPile ++
            [(actor.cards[env.pick 0 % 2]?).join] } } : Room) := by
    unfold settleChallenge
    simp only [addChallenger_action, hrole, Bool.false_eq_true, if_false, hlen, hidx2,
      show (2 : Nat) > 0 by decide, if_true, h2]
    by_cases hty : cd.action.type = ActionType.assassinate
    · simp only [hty, if_true, Room.modify, Room.setGS]
      rw [modifyPlayer_twice]
      intro _
      rfl
    · simp only [hty, if_false, Room.setGS, add_zero]
  have hwon : (settleChallenge env
      (room.setGS (fun gs => { gs with challengeData := some (addChallenger cd c) }))
      (addChallenger cd c) actor).2.challengeWon = true := by
    rw [settleChallenge_won, addChallenger_action, hrole]
    rfl
  have hon2 : Online (fun _ => True)
      ({ room with
        players := modifyPlayer room.players cd.action.playerId (fun q =>
          { q with
            cards := q.cards.eraseIdx (env.pick 0 % 2) ++ [room.gameState.deck.getLast?.join],
            coins := q.coins + (if cd.action.type = ActionType.assassinate then 3 else 0) }),
        gameState := { room.gameState with
          challengeData := some (addChallenger cd c),
          deck := room.gameState.deck.dropLast,
          discardPile := room.gameState.discardPile ++
            [(actor.cards[env.pick 0 % 2]?).join] } } : Room) :=
    online_modify (fun _ => True) room cd.action.playerId (fun q =>
      { q with
        cards := q.cards.eraseIdx (env.pick 0 % 2) ++ [room.gameState.deck.getLast?.join],
        coins := q.coins + (if cd.action.type = ActionType.assassinate then 3 else 0) })
      (fun _ => ⟨rfl, rfl, rfl⟩) hon
  obtain ⟨p0, hp0, hp0a, hp0c, _⟩ := hon2
  have hnt := nextTurn_returns env.now env.fuel _ (Or.inr ⟨p0, hp0, hp0a, hp0c⟩)
    (show (modifyPlayer room.players cd.action.playerId _).length ≤ env.fuel by
      rw [length_modifyPlayer]
      exact hfuel)
  have hframe := turnFrame_nextTurn env.now env.fuel
    ({ room with
        players := modifyPlayer room.players cd.action.playerId (fun q =>
          { q with
            cards := q.cards.eraseIdx (env.pick 0 % 2) ++ [room.gameState.deck.getLast?.join],
            coins := q.coins + (if cd.action.type = ActionType.assassinate then 3 else 0) }),
        gameState := { room.gameState with
          challengeData := some (addChallenger cd c),
          deck := room.gameState.deck.dropLast,
          discardPile := room.gameState.discardPile ++
            [(actor.cards[env.pick 0 % 2]?).join] } } : Room)
  rw [← hS] at hnt hframe
  have heq := handleChallenge_eq env room c cd challenger actor hphase hcd hc halive ha _ hnt
  rw [heq]
  rw [hS] at hframe ⊢
  refine ⟨⟨_, hwon, rfl⟩, ?_, hframe.discardPile, hframe.deck, ?_, rfl⟩
  · have hq : getPlayer (modifyPlayer room.players cd.action.playerId (fun q =>
        { q with
          cards := q.cards.eraseIdx (env.pick 0 % 2) ++ [room.gameState.deck.getLast?.join],
          coins := q.coins + (if cd.action.type = ActionType.assassinate then 3 else 0) }))
        cd.action.playerId =
        some { actor with
          cards := actor.cards.eraseIdx (env.pick 0 % 2) ++ [room.gameState.deck.getLast?.join],
          coins := actor.coins + (if cd.action.type = ActionType.assassinate then 3 else 0) } := by
      have : getPlayer room.players cd.action.playerId = some actor := ha
      refine (getPlayer_modify_same _ cd.action.playerId _ ?_).trans ?_
      · intro _
        rfl
      · rw [this]
        rfl
    obtain ⟨q, hq2, hsw⟩ := (getPlayer_swept hframe.players cd.action.playerId).2 _ hq
    refine ⟨q, hq2, ?_, ?_⟩
    · rw [sweptPlayer_coins hsw]
    · rcases hsw with h | h
      · rw [h]
        exact Or.inl rfl
      · rw [h]
        exact Or.inr ⟨rfl, rfl⟩
  · have hq : getPlayer (modifyPlayer room.players cd.action.playerId (fun q =>
        { q with
          cards := q.cards.eraseIdx (env.pick 0 % 2) ++ [room.gameState.deck.getLast?.join],
          coins := q.coins + (if cd.action.type = ActionType.assassinate then 3 else 0) })) c =
        some challenger := by
      have : getPlayer room.players c = some challenger := hc
      refine (getPlayer_modify_other _ cd.action.playerId c _ ?_ hne).trans this
      intro _
      rfl
    obtain ⟨q, hq2, hsw⟩ := (getPlayer_swept hframe.players c).2 _ hq
    refine ⟨q, hq2, sweptPlayer_coins hsw, ?_⟩
    rcases hsw with h | h
    · rw [h]
      exact Or.inl rfl
    · rw [h]
      exact Or.inr ⟨rfl, rfl⟩

theorem lost_bluff_costs_a_card_witness :
    (∃ res : ChallengeResult, res.challengeWon = true ∧
        (handleChallenge testEnv taxDeclaredRoom "player2").2 = Outcome.ok (some res)) ∧
      (handleChallenge testEnv taxDeclaredRoom "player2").1.gameState.discardPile =
        [some Role.assassin] := by
  have h := lost_bluff_costs_a_card testEnv taxDeclaredRoom "player2"
    (ChallengeData.mk
      { playerId := "player1", playerName := "Alice", type := ActionType.tax,
        targetPlayerId := none, success := true, log := ["Alice 声称拥有公爵，征收税金"] } [])
    { id := "player2", name := "Bob", coins := 2,
      cards := [some Role.captain, some Role.contessa], isAlive := true, connected := true,
      disconnectTime := none }
    { id := "player1", name := "Alice", coins := 2,
      cards := [some Role.assassin, some Role.captain], isAlive := true, connected := true,
      disconnectTime := none }
    (by decide) (by decide) (by decide) rfl (by decide) rfl rfl (by decide) (by decide)
    (by decide) ⟨_, List.mem_cons_self _ _, rfl, rfl, trivial⟩ (by decide)
  obtain ⟨⟨res, hres, heq⟩, _, hd, _⟩ := h
  exact ⟨⟨res, hres, by rw [heq]⟩, hd⟩

/-- The room after the branch of `settleChallenge` for an actor who holds the
role, challenged by `c` alone: some connected alive player is left when one
other than `c` was there, the seats are those of the room, and every player
but `c` holds the hand held before. -/
theorem settleChallenge_proven_single (env : Env) (room : Room) (c : PlayerId)
    (cd : ChallengeData) (challenger actor : Player)
    (hch : cd.challengers = []) (hc : room.get c = some challenger)
    (hrole : includesRole actor.cards (requiredRole cd.action.type) = true)
    (hon : Online (fun x => x ≠ c) room) :
    Online (fun _ => True) (settleChallenge env
      (room.setGS (fun gs => { gs with challengeData := some (addChallenger cd c) }))
      (addChallenger cd c) actor).1 ∧
    (settleChallenge env
      (room.setGS (fun gs => { gs with challengeData := some (addChallenger cd c) }))
      (addChallenger cd c) actor).1.players.length = room.players.length ∧
    (∀ id p, id ≠ c → room.get id = some p →
      ∃ q, (settleChallenge env
        (room.setGS (fun gs => { gs with challengeData := some (addChallenger cd c) }))
        (addChallenger cd c) actor).1.get id = some q ∧ q.cards = p.cards) ∧
    (settleChallenge env
      (room.setGS (fun gs => { gs with challengeData := some (addChallenger cd c) }))
      (addChallenger cd c) actor).2.challengeWon = false := by
  have hrole2 : includesRole actor.cards (requiredRole (addChallenger cd c).action.type) = true := by
    rw [addChallenger_action]
    exact hrole
  obtain ⟨log, h1, h2, _, h4, h5⟩ := settleChallenge_proven_frame env
    (room.setGS (fun gs => { gs with challengeData := some (addChallenger cd c) }))
    (addChallenger cd c) actor (fun _ => True) hrole2
  have hchs : (addChallenger cd c).challengers = [c] := by
    rw [addChallenger_fresh cd c hch]
  have hc1 : (room.setGS (fun gs => { gs with challengeData := some (addChallenger cd c) })).get c =
      some challenger := hc
  rw [hchs, challengersDiscard_single env _ c challenger log hc1] at h1 h2 h4
  by_cases hd : (challenger.isAlive && decide (challenger.cards.length > 0)) = true
  · rw [if_pos hd] at h1 h2 h4
    refine ⟨h1 ?_, ?_, ?_, h5⟩
    · exact online_discardCard (fun _ => True) _ _ c _
        (online_setGS _ room _ (online_weaken hon (fun _ h => ⟨trivial, h⟩)))
    · rw [h2, length_players_discardCard]
      rfl
    · intro id p hid hp
      exact h4 id p ((discardCard_get_other _ _ c id _ hid).trans hp)
  · rw [if_neg hd] at h1 h2 h4
    exact ⟨h1 (online_setGS _ room _ (online_weaken hon (fun _ _ => trivial))), h2,
      fun id p _ hp => h4 id p hp, h5⟩

/-- Claim C19, as stated, fails: with Alice, who holds Duke and Assassin, on
record as having declared tax, Bob's challenge is lost, and Alice's hand is
what it was: the Duke has not left it and no card was drawn into it.  The one
card missing from the deck is the replacement Bob drew for his discarded
Captain. -/
theorem proven_claim_swaps_no_card :
    (∃ res : ChallengeResult, res.challengeWon = false ∧
        (handleChallenge testEnv provenTaxRoom "player2").2 = Outcome.ok (some res)) ∧
      (provenTaxRoom.get "player1").map (fun p => p.cards) =
        some [some Role.duke, some Role.assassin] ∧
      ((handleChallenge testEnv provenTaxRoom "player2").1.get "player1").map (fun p => p.cards) =
        some [some Role.duke, some Role.assassin] ∧
      provenTaxRoom.gameState.deck =
        [some Role.ambassador, some Role.duke, some Role.assassin, some Role.captain,
          some Role.contessa] ∧
      (handleChallenge testEnv provenTaxRoom "player2").1.gameState.deck =
        [some Role.ambassador, some Role.duke, some Role.assassin, some Role.captain] ∧
      ((handleChallenge testEnv provenTaxRoom "player2").1.get "player2").map (fun p => p.cards) =
        some [some Role.contessa, some Role.contessa] := by
  refine ⟨⟨(settleChallenge testEnv
      (provenTaxRoom.setGS (fun gs =>
        { gs with challengeData := some (addChallenger (ChallengeData.mk
          { playerId := "player1", playerName := "Alice", type := ActionType.tax,
            targetPlayerId := none, success := true, log := [] } []) "player2") }))
      (addChallenger (ChallengeData.mk
          { playerId := "player1", playerName := "Alice", type := ActionType.tax,
            targetPlayerId := none, success := true, log := [] } []) "player2")
      { id := "player1", name := "Alice", coins := 2,
        cards := [some Role.duke, some Role.assassin], isAlive := true, connected := true,
        disconnectTime := none }).2, by decide, by decide⟩, ?_⟩
  decide

/-- Claim C19, amended: in CHALLENGE_WINDOW with a challenge pending, not yet
challenged, against an actor who holds the claimed role, `handleChallenge` by
another alive player returns with `challengeWon = false` after `nextTurn`, and
the actor's hand is the hand held before: no card of it is returned to the deck
and none is drawn into it (a player swept for a long disconnect has no hand). -/
theorem proven_claim_keeps_the_hand (env : Env) (room : Room) (c : PlayerId)
    (cd : ChallengeData) (challenger actor : Player)
    (hphase : room.gameState.phase.type = PhaseType.CHALLENGE_WINDOW)
    (hcd : room.gameState.challengeData = some cd) (hch : cd.challengers = [])
    (hc : room.get c = some challenger) (halive : challenger.isAlive = true)
    (ha : room.get cd.action.playerId = some actor)
    (hrole : includesRole actor.cards (requiredRole cd.action.type) = true)
    (hne : c ≠ cd.action.playerId)
    (hon : Online (fun x => x ≠ c) room) (hfuel : room.players.length ≤ env.fuel) :
    (∃ res, res.challengeWon = false ∧
      handleChallenge env room c =
        ((nextTurn env.now env.fuel
          (settleChallenge env
            (room.setGS (fun gs => { gs with challengeData := some (addChallenger cd c) }))
            (addChallenger cd c) actor).1).1.setGS (fun gs => { gs with challengeData := none }),
         Outcome.ok (some res))) ∧
    ∃ q, (handleChallenge env room c).1.get cd.action.playerId = some q ∧
      (q.cards = actor.cards ∨ (q.cards = [] ∧ q.isAlive = false)) := by
  obtain ⟨h1, h2, h3, h4⟩ := settleChallenge_proven_single env room c cd challenger actor hch hc
    hrole hon
  obtain ⟨p0, hp0, hp0a, hp0c, _⟩ := h1
  have hnt := nextTurn_returns env.now env.fuel _ (Or.inr ⟨p0, hp0, hp0a, hp0c⟩)
    (by rw [h2]; exact hfuel)
  have heq := handleChallenge_eq env room c cd challenger actor hphase hcd hc halive ha _ hnt
  rw [heq]
  refine ⟨⟨_, h4, rfl⟩, ?_⟩
  obtain ⟨q, hq, hqc⟩ := h3 cd.action.playerId actor (fun h => hne h.symm) ha
  obtain ⟨q2, hq2, hq2c⟩ := hands_turnFrame (turnFrame_nextTurn env.now env.fuel _) _ q hq
  refine ⟨q2, hq2, ?_⟩
  rw [← hqc]
  exact hq2c

theorem proven_claim_keeps_the_hand_witness :
    ∃ q, (handleChallenge testEnv provenTaxRoom "player2").1.get "player1" = some q ∧
      (q.cards = [some Role.duke, some Role.assassin] ∨ (q.cards = [] ∧ q.isAlive = false)) :=
  (proven_claim_keeps_the_hand testEnv provenTaxRoom "player2"
    (ChallengeData.mk
      { playerId := "player1", playerName := "Alice", type := ActionType.tax,
        targetPlayerId := none, success := true, log := [] } [])
    { id := "player2", name := "Bob", coins := 2,
      cards := [some Role.captain, some Role.contessa], isAlive := true, connected := true,
      disconnectTime := none }
    { id := "player1", name := "Alice", coins := 2,
      cards := [some Role.duke, some Role.assassin], isAlive := true, connected := true,
      disconnectTime := none }
    (by decide) (by decide) rfl (by decide) rfl (by decide) (by decide) (by decide)
    ⟨_, List.mem_cons_self _ _, rfl, rfl, by decide⟩ (by decide)).2

theorem stealCoins_coins (r : Room) (a tid : PlayerId) (ap tq : Player)
    (hA : r.get a = some ap) (hT : r.get tid = some tq) (hne : tid ≠ a) :
    ((stealCoins r a (some tid)).get a).map (fun p => p.coins) =
        some (ap.coins + (if 0 < tq.coins then min tq.coins 2 else 0)) ∧
      ((stealCoins r a (some tid)).get tid).map (fun p => p.coins) =
        some (tq.coins - (if 0 < tq.coins then min tq.coins 2 else 0)) := by
  have htid : tq.id = tid := getPlayer_id hT
  unfold stealCoins
  simp only [Option.bind, hT, gt_iff_lt, htid]
  by_cases h0 : 0 < tq.coins
  · simp only [h0, if_true]
    constructor
    · rw [get_modify_same _ a (fun p => { p with coins := p.coins + min tq.coins 2 })
        (fun _ => rfl),
        get_modify_other r tid a (fun p => { p with coins := p.coins - min tq.coins 2 })
          (fun _ => rfl) (fun h => hne h.symm), hA]
      rfl
    · rw [get_modify_other _ a tid (fun p => { p with coins := p.coins + min tq.coins 2 })
        (fun _ => rfl) hne,
        get_modify_same r tid (fun p => { p with coins := p.coins - min tq.coins 2 })
          (fun _ => rfl), hT]
      rfl
  · simp only [h0, if_false, hA, hT, Option.map_some', add_zero, sub_zero, and_self]

/-- Claim C20, as stated, fails: with Alice, who holds Ambassador and Assassin, on
record as having declared an exchange, Bob's challenge is lost and nothing is
exchanged: Alice's hand is what it was, the one card missing from the deck is
the replacement Bob drew, and the discard pile holds Bob's Captain alone.  Bob,
for his part, holds two cards again. -/
theorem proven_exchange_is_not_carried_out :
    (handleChallenge testEnv provenExchangeRoom "player2").2.accepted = true ∧
      (provenExchangeRoom.get "player1").map (fun p => p.cards) =
        some [some Role.ambassador, some Role.assassin] ∧
      ((handleChallenge testEnv provenExchangeRoom "player2").1.get "player1").map
        (fun p => p.cards) = some [some Role.ambassador, some Role.assassin] ∧
      provenExchangeRoom.gameState.deck =
        [some Role.ambassador, some Role.duke, some Role.assassin, some Role.captain,
          some Role.contessa] ∧
      (handleChallenge testEnv provenExchangeRoom "player2").1.gameState.deck =
        [some Role.ambassador, some Role.duke, some Role.assassin, some Role.captain] ∧
      (handleChallenge testEnv provenExchangeRoom "player2").1.gameState.discardPile =
        [some Role.captain] ∧
      ((handleChallenge testEnv provenExchangeRoom "player2").1.get "player2").map
        (fun p => p.cards) = some [some Role.contessa, some Role.contessa] := by
  decide

/-- Claim C20, amended: in CHALLENGE_WINDOW with a challenge pending, not yet
challenged, against an actor who holds the claimed role, `handleChallenge` by
another alive player, who holds two cards while the deck has cards, returns
with `challengeWon = false` after `nextTurn`.  The challenger's card at a random
index goes to the discard pile and the last card of the deck is drawn in its
place; a tax gives the actor 3 coins; a steal from another seated target moves
`min (target coins) 2` coins from the target to the actor when the target has
coins, and none otherwise. -/
theorem lost_challenge_applies_tax_and_steal (env : Env) (room : Room) (c : PlayerId)
    (cd : ChallengeData) (challenger actor : Player)
    (hphase : room.gameState.phase.type = PhaseType.CHALLENGE_WINDOW)
    (hcd : room.gameState.challengeData = some cd) (hch : cd.challengers = [])
    (hc : room.get c = some challenger) (halive : challenger.isAlive = true)
    (hlen : challenger.cards.length = 2) (hdeck : room.gameState.deck ≠ [])
    (ha : room.get cd.action.playerId = some actor)
    (hrole : includesRole actor.cards (requiredRole cd.action.type) = true)
    (hne : c ≠ cd.action.playerId)
    (hon : Online (fun _ => True) room) (hfuel : room.players.length ≤ env.fuel) :
    (∃ res, res.challengeWon = false ∧
      handleChallenge env room c =
        ((nextTurn env.now env.fuel
          (settleChallenge env
            (room.setGS (fun gs => { gs with challengeData := some (addChallenger cd c) }))
            (addChallenger cd c) actor).1).1.setGS (fun gs => { gs with challengeData := none }),
         Outcome.ok (some res))) ∧
    (handleChallenge env room c).1.gameState.discardPile =
      room.gameState.discardPile ++ [(challenger.cards[env.pick 0 % 2]?).join] ∧
    (handleChallenge env room c).1.gameState.deck = room.gameState.deck.dropLast ∧
    (∃ q, (handleChallenge env room c).1.get c = some q ∧
      (q.cards = challenger.cards.eraseIdx (env.pick 0 % 2) ++
          [room.gameState.deck.getLast?.join] ∨
        (q.cards = [] ∧ q.isAlive = false))) ∧
    (cd.action.type = ActionType.tax →
      ((handleChallenge env room c).1.get cd.action.playerId).map (fun p => p.coins) =
        some (actor.coins + 3)) ∧
    (cd.action.type = ActionType.steal →
      ∀ tid tp, cd.action.targetPlayerId = some tid → room.get tid = some tp →
        tid ≠ cd.action.playerId →
        ((handleChallenge env room c).1.get cd.action.playerId).map (fun p => p.coins) =
            some (actor.coins + (if 0 < tp.coins then min tp.coins 2 else 0)) ∧
          ((handleChallenge env room c).1.get tid).map (fun p => p.coins) =
            some (tp.coins - (if 0 < tp.coins then min tp.coins 2 else 0))) := by
  have hidx2 : randomIndex (env.pick 0) 2 = ((env.pick 0 % 2 : Nat) : Int) := rfl
  have hrole2 : includesRole actor.cards (requiredRole (addChallenger cd c).action.type) = true := by
    rw [addChallenger_action]
    exact hrole
  have hchs : (addChallenger cd c).challengers = [c] := by
    rw [addChallenger_fresh cd c hch]
  have hc1 : (room.setGS (fun gs => { gs with challengeData := some (addChallenger cd c) })).get c =
      some challenger := hc
  have h2 := discardCard_two (env.key 0)
    (room.setGS (fun gs => { gs with challengeData := some (addChallenger cd c) }))
    c challenger (env.pick 0 % 2) hc1 halive hlen (Nat.mod_lt _ (by decide)) hdeck
  have hD : ∀ log, (challengersDiscard env 0 (addChallenger cd c).challengers
      (room.setGS (fun gs => { gs with challengeData := some (addChallenger cd c) })) log).1 =
      (discardCard (env.key 0)
        (room.setGS (fun gs => { gs with challengeData := some (addChallenger cd c) }))
        c ((env.pick 0 % 2 : Nat) : Int)).1 := by
    intro log
    rw [hchs, challengersDiscard_single env _ c challenger log hc1]
    simp only [halive, hlen, hidx2, show (2 : Nat) > 0 by decide, decide_True, Bool.and_self,
      if_true]
  obtain ⟨log, h1, hlen1, hgs, hhands, hwon⟩ := settleChallenge_proven_frame env
    (room.setGS (fun gs => { gs with challengeData := some (addChallenger cd c) }))
    (addChallenger cd c) actor (fun _ => True) hrole2
  rw [hD log] at h1 hlen1 hgs hhands
  have hgetD : ∀ id, id ≠ c → (discardCard (env.key 0)
      (room.setGS (fun gs => { gs with challengeData := some (addChallenger cd c) }))
      c ((env.pick 0 % 2 : Nat) : Int)).1.get id = room.get id :=
    fun id hid => discardCard_get_other _ _ c id _ hid
  have hcoinsD : ∀ id, ((discardCard (env.key 0)
      (room.setGS (fun gs => { gs with challengeData := some (addChallenger cd c) }))
      c ((env.pick 0 % 2 : Nat) : Int)).1.get id).map (fun p => p.coins) =
      (room.get id).map (fun p => p.coins) :=
    fun id => discardCard_coins _ _ c id _
  have honD : Online (fun _ => True) (discardCard (env.key 0)
      (room.setGS (fun gs => { gs with challengeData := some (addChallenger cd c) }))
      c ((env.pick 0 % 2 : Nat) : Int)).1 := by
    rw [h2]
    exact online_modify (fun _ => True) room c (fun q =>
      { q with cards := q.cards.eraseIdx (env.pick 0 % 2) ++ [room.gameState.deck.getLast?.join] })
      (fun _ => ⟨rfl, rfl, rfl⟩) hon
  obtain ⟨p0, hp0, hp0a, hp0c, _⟩ := h1 honD
  have hnt := nextTurn_returns env.now env.fuel _ (Or.inr ⟨p0, hp0, hp0a, hp0c⟩)
    (by
      rw [hlen1, length_players_discardCard]
      exact hfuel)
  have heq := handleChallenge_eq env room c cd challenger actor hphase hcd hc halive ha _ hnt
  have hframe := turnFrame_nextTurn env.now env.fuel
    (settleChallenge env
      (room.setGS (fun gs => { gs with challengeData := some (addChallenger cd c) }))
      (addChallenger cd c) actor).1
  rw [heq]
  refine ⟨⟨_, hwon, rfl⟩, ?_, ?_, ?_, ?_, ?_⟩
  · show (nextTurn _ _ _).1.gameState.discardPile = _
    rw [hframe.discardPile, hgs, h2]
    rfl
  · show (nextTurn _ _ _).1.gameState.deck = _
    rw [hframe.deck, hgs, h2]
    rfl
  · have hq : (discardCard (env.key 0)
        (room.setGS (fun gs => { gs with challengeData := some (addChallenger cd c) }))
        c ((env.pick 0 % 2 : Nat) : Int)).1.get c =
        some { challenger with cards := challenger.cards.eraseIdx (env.pick 0 % 2) ++
          [room.gameState.deck.getLast?.join] } := by
      rw [h2]
      have : getPlayer room.players c = some challenger := hc
      refine (getPlayer_modify_same _ c _ ?_).trans ?_
      · intro _
        rfl
      · erw [this]
        rfl
    obtain ⟨q, hq1, hqc⟩ := hhands c _ hq
    obtain ⟨q2, hq2, hq2c⟩ := hands_turnFrame hframe c q hq1
    refine ⟨q2, hq2, ?_⟩
    rcases hq2c with h | h
    · exact Or.inl (h.trans hqc)
    · exact Or.inr h
  · intro hty
    show ((nextTurn _ _ _).1.get _).map _ = _
    rw [coins_nextTurn]
    have hS : (settleChallenge env
        (room.setGS (fun gs => { gs with challengeData := some (addChallenger cd c) }))
        (addChallenger cd c) actor).1 =
        (discardCard (env.key 0)
          (room.setGS (fun gs => { gs with challengeData := some (addChallenger cd c) }))
          c ((env.pick 0 % 2 : Nat) : Int)).1.modify cd.action.playerId
            (fun p => { p with coins := p.coins + 3 }) := by
      have hrole3 : includesRole actor.cards (requiredRole ActionType.tax) = true := by
        rw [← hty]
        exact hrole
      have hD3 := hD [actor.name ++ " 确实拥有 " ++ roleName (requiredRole ActionType.tax) ++
        "，挑战失败！"]
      unfold settleChallenge
      simp only [addChallenger_action, hty, hrole3, if_true, hD3]
    rw [hS, get_modify_same _ cd.action.playerId (fun p => { p with coins := p.coins + 3 })
      (fun _ => rfl), hgetD _ (fun h => hne h.symm), ha]
    rfl
  · intro hty tid tp htarget htget htne
    show ((nextTurn _ _ _).1.get _).map _ = _ ∧ ((nextTurn _ _ _).1.get _).map _ = _
    rw [coins_nextTurn, coins_nextTurn]
    have hS : (settleChallenge env
        (room.setGS (fun gs => { gs with challengeData := some (addChallenger cd c) }))
        (addChallenger cd c) actor).1 =
        stealCoins (discardCard (env.key 0)
          (room.setGS (fun gs => { gs with challengeData := some (addChallenger cd c) }))
          c ((env.pick 0 % 2 : Nat) : Int)).1 cd.action.playerId (some tid) := by
      have hrole3 : includesRole actor.cards (requiredRole ActionType.steal) = true := by
        rw [← hty]
        exact hrole
      have hD3 := hD [actor.name ++ " 确实拥有 " ++ roleName (requiredRole ActionType.steal) ++
        "，挑战失败！"]
      unfold settleChallenge
      simp only [addChallenger_action, hty, hrole3, if_true, hD3, htarget, reduceCtorEq, if_false]
    have hcT := hcoinsD tid
    rw [htget] at hcT
    cases hT : (discardCard (env.key 0)
        (room.setGS (fun gs => { gs with challengeData := some (addChallenger cd c) }))
        c ((env.pick 0 % 2 : Nat) : Int)).1.get tid with
    | none =>
      rw [hT] at hcT
      cases hcT
    | some tq =>
      rw [hT] at hcT
      have htq : tq.coins = tp.coins := by
        simpa using hcT
      have hA : (discardCard (env.key 0)
          (room.setGS (fun gs => { gs with challengeData := some (addChallenger cd c) }))
          c ((env.pick 0 % 2 : Nat) : Int)).1.get cd.action.playerId = some actor :=
        (hgetD _ (fun h => hne h.symm)).trans ha
      have hsc := stealCoins_coins _ cd.action.playerId tid actor tq hA hT htne
      rw [htq] at hsc
      rw [hS]
      exact hsc

theorem lost_challenge_applies_tax_and_steal_witness :
    ((handleChallenge testEnv provenTaxRoom "player2").1.get "player1").map (fun p => p.coins) =
        some 5 ∧
      (handleChallenge testEnv provenTaxRoom "player2").1.gameState.discardPile =
        [some Role.captain] := by
  have h := lost_challenge_applies_tax_and_steal testEnv provenTaxRoom "player2"
    (ChallengeData.mk
      { playerId := "player1", playerName := "Alice", type := ActionType.tax,
        targetPlayerId := none, success := true, log := [] } [])
    { id := "player2", name := "Bob", coins := 2,
      cards := [some Role.captain, some Role.contessa], isAlive := true, connected := true,
      disconnectTime := none }
    { id := "player1", name := "Alice", coins := 2,
      cards := [some Role.duke, some Role.assassin], isAlive := true, connected := true,
      disconnectTime := none }
    (by decide) (by decide) rfl (by decide) rfl rfl (by decide) (by decide) (by decide)
    (by decide) ⟨_, List.mem_cons_self _ _, rfl, rfl, trivial⟩ (by decide)
  exact ⟨h.2.2.2.2.1 rfl, h.2.1⟩

/-! ## The forced discard of coup and assassination -/

theorem online_loseCardOrDie (P : PlayerId → Prop) (env : Env) (r : Room) (tid : PlayerId)
    (tp : Player) (m1 m2 : String) (h : Online (fun x => P x ∧ x ≠ tid) r) :
    Online P (loseCardOrDie env r tid tp m1 m2).1 := by
  unfold loseCardOrDie
  split
  · exact online_discardCard P _ r tid _ h
  · obtain ⟨p, hp, ha, hc, hP, hpn⟩ := h
    exact ⟨p, mem_modify_other hp hpn, ha, hc, hP⟩

theorem length_players_loseCardOrDie (env : Env) (r : Room) (tid : PlayerId) (tp : Player)
    (m1 m2 : String) : (loseCardOrDie env r tid tp m1 m2).1.players.length = r.players.length := by
  unfold loseCardOrDie
  split
  · exact length_players_discardCard _ _ _ _
  · exact length_players_modify _ _ _

theorem coins_loseCardOrDie (env : Env) (r : Room) (tid : PlayerId) (tp : Player)
    (m1 m2 : String) (id : PlayerId) :
    ((loseCardOrDie env r tid tp m1 m2).1.get id).map (fun p => p.coins) =
      (r.get id).map (fun p => p.coins) := by
  unfold loseCardOrDie
  split
  · exact discardCard_coins _ _ _ _ _
  · exact get_modify_coins r tid id (fun p => { p with isAlive := false }) (fun _ => rfl)
      (fun _ => rfl)

/-- The forced discard in the ordinary case: the target, alive with the two
cards of `tp`, gives up the card at the random index and takes the last card of
a deck that is not empty. -/
theorem loseCardOrDie_two (env : Env) (r : Room) (tid : PlayerId) (tp q : Player)
    (m1 m2 : String) (hget : r.get tid = some q) (hq : q.isAlive = true)
    (hc : q.cards = tp.cards) (hlen : tp.cards.length = 2) (hdeck : r.gameState.deck ≠ []) :
    (loseCardOrDie env r tid tp m1 m2).1 =
      { r with
        players := modifyPlayer r.players tid (fun x =>
          { x with cards := x.cards.eraseIdx (env.pick 0 % 2) ++ [r.gameState.deck.getLast?.join] }),
        gameState :=
          { r.gameState with
            deck := r.gameState.deck.dropLast,
            discardPile := r.gameState.discardPile ++ [(tp.cards[env.pick 0 % 2]?).join] } } := by
  have hidx2 : randomIndex (env.pick 0) 2 = ((env.pick 0 % 2 : Nat) : Int) := rfl
  have h2 := discardCard_two (env.key 0) r tid q (env.pick 0 % 2) hget hq (by rw [hc]; exact hlen)
    (Nat.mod_lt _ (by decide)) hdeck
  unfold loseCardOrDie
  simp only [hlen, hidx2, show (2 : Nat) > 0 by decide, if_true, h2, hc]

/-- The hand of the target after the forced discard in the ordinary case and a
change of turn. -/
theorem hand_after_forced_discard (env : Env) (r : Room) (tid : PlayerId) (tp q : Player)
    (m1 m2 : String) (hget : r.get tid = some q) (hq : q.isAlive = true)
    (hc : q.cards = tp.cards) (hlen : tp.cards.length = 2) (hdeck : r.gameState.deck ≠ []) :
    (nextTurn env.now env.fuel (loseCardOrDie env r tid tp m1 m2).1).1.gameState.discardPile =
        r.gameState.discardPile ++ [(tp.cards[env.pick 0 % 2]?).join] ∧
      (nextTurn env.now env.fuel (loseCardOrDie env r tid tp m1 m2).1).1.gameState.deck =
        r.gameState.deck.dropLast ∧
      ∃ x, (nextTurn env.now env.fuel (loseCardOrDie env r tid tp m1 m2).1).1.get tid = some x ∧
        (x.cards = tp.cards.eraseIdx (env.pick 0 % 2) ++ [r.gameState.deck.getLast?.join] ∨
          (x.cards = [] ∧ x.isAlive = false)) := by
  have hframe := turnFrame_nextTurn env.now env.fuel (loseCardOrDie env r tid tp m1 m2).1
  rw [loseCardOrDie_two env r tid tp q m1 m2 hget hq hc hlen hdeck] at hframe ⊢
  refine ⟨hframe.discardPile, hframe.deck, ?_⟩
  have hx : ({ r with
      players := modifyPlayer r.players tid (fun x =>
        { x with cards := x.cards.eraseIdx (env.pick 0 % 2) ++ [r.gameState.deck.getLast?.join] }),
      gameState :=
        { r.gameState with
          deck := r.gameState.deck.dropLast,
          discardPile := r.gameState.discardPile ++ [(tp.cards[env.pick 0 % 2]?).join] } } :
      Room).get tid =
      some { q with cards := q.cards.eraseIdx (env.pick 0 % 2) ++
        [r.gameState.deck.getLast?.join] } := by
    have : getPlayer r.players tid = some q := hget
    refine (getPlayer_modify_same _ tid _ ?_).trans ?_
    · intro _
      rfl
    · rw [this]
      rfl
  obtain ⟨x, hx1, hx2⟩ := hands_turnFrame hframe tid _ hx
  refine ⟨x, hx1, ?_⟩
  rcases hx2 with h | h
  · left
    rw [h, hc]
  · exact Or.inr h

/-! ## Declarations against the own seat -/

/-- A coup declared against the own id: the result is returned with
`success = true` after `nextTurn`, the actor has paid 7 coins and has taken the
forced discard. -/
theorem self_coup (env : Env) (room : Room) (id : PlayerId) (player : Player)
    (hget : room.get id = some player) (halive : player.isAlive = true)
    (hphase : room.gameState.phase.type = PhaseType.TURN_START)
    (hcur : room.gameState.currentPlayer = some id)
    (hcd : room.gameState.challengeData = none) (hct : room.gameState.counterData = none)
    (hon : Online (fun x => x ≠ id) room) (hfuel : room.players.length ≤ env.fuel)
    (hcoins : 7 ≤ player.coins) :
    (∃ ar, ar.success = true ∧ ar.targetPlayerId = some id ∧
      executeAction env room id ActionType.coup (some id) =
        ((nextTurn env.now env.fuel
          (loseCardOrDie env (room.modify id (fun p => { p with coins := p.coins - 7 })) id player
            " 被迫弃掉一张牌" " 没有卡牌，被淘汰！").1).1,
         Outcome.ok (some ar))) ∧
    ((executeAction env room id ActionType.coup (some id)).1.get id).map (fun p => p.coins) =
      some (player.coins - 7) ∧
    (player.cards.length = 2 → room.gameState.deck ≠ [] →
      (executeAction env room id ActionType.coup (some id)).1.gameState.discardPile =
        room.gameState.discardPile ++ [(player.cards[env.pick 0 % 2]?).join] ∧
      (executeAction env room id ActionType.coup (some id)).1.gameState.deck =
        room.gameState.deck.dropLast ∧
      ∃ q, (executeAction env room id ActionType.coup (some id)).1.get id = some q ∧
        (q.cards = player.cards.eraseIdx (env.pick 0 % 2) ++ [room.gameState.deck.getLast?.join] ∨
          (q.cards = [] ∧ q.isAlive = false))) := by
  have hc7 : ¬ player.coins < 7 := not_lt.2 hcoins
  have hid : player.id = id := getPlayer_id hget
  have hexec : executeAction env room id ActionType.coup (some id) =
      finishAction env
        (loseCardOrDie env (room.modify id (fun p => { p with coins := p.coins - 7 })) id player
          " 被迫弃掉一张牌" " 没有卡牌，被淘汰！").1
        { playerId := id, playerName := player.name, type := ActionType.coup,
          targetPlayerId := some id, success := true,
          log := [player.name ++ " 发动政变，花费7金币",
            (loseCardOrDie env (room.modify id (fun p => { p with coins := p.coins - 7 })) id
              player " 被迫弃掉一张牌" " 没有卡牌，被淘汰！").2] } := by
    unfold executeAction
    simp only [hget, halive, hphase, hcur, Bool.not_true, Bool.false_eq_true, if_false, ne_eq,
      not_true_eq_false, hc7, Option.bind, hid]
  have hget1 : (room.modify id (fun p => { p with coins := p.coins - 7 })).get id =
      some { player with coins := player.coins - 7 } := by
    rw [get_modify_same room id (fun p => { p with coins := p.coins - 7 }) (fun _ => rfl), hget]
    rfl
  have hpf := pilesFrame_loseCardOrDie env
    (room.modify id (fun p => { p with coins := p.coins - 7 })) id player
    " 被迫弃掉一张牌" " 没有卡牌，被淘汰！"
  have hon2 : Online (fun _ => True)
      (loseCardOrDie env (room.modify id (fun p => { p with coins := p.coins - 7 })) id player
        " 被迫弃掉一张牌" " 没有卡牌，被淘汰！").1 :=
    online_loseCardOrDie _ env _ id player _ _
      (online_coins _ room id _ (online_weaken hon (fun _ h => ⟨trivial, h⟩)))
  have hfin := finishAction_runs env _
    { playerId := id, playerName := player.name, type := ActionType.coup,
      targetPlayerId := some id, success := true,
      log := [player.name ++ " 发动政变，花费7金币",
        (loseCardOrDie env (room.modify id (fun p => { p with coins := p.coins - 7 })) id
          player " 被迫弃掉一张牌" " 没有卡牌，被淘汰！").2] }
    (fun _ => True) rfl (hpf.challengeData.trans hcd) (hpf.counterData.trans hct) hon2
    (by rw [length_players_loseCardOrDie, length_players_modify]; exact hfuel)
  rw [hexec, hfin]
  refine ⟨⟨_, rfl, rfl, rfl⟩, ?_, ?_⟩
  · rw [coins_nextTurn, coins_loseCardOrDie, hget1]
    rfl
  · intro hlen hdeck
    exact hand_after_forced_discard env
      (room.modify id (fun p => { p with coins := p.coins - 7 })) id player _ _ _ hget1 halive rfl
      hlen hdeck

/-- An assassination declared against the own id: the result is returned with
`success = true` and the actor has paid 3 coins.  An actor who holds a Contessa
is named the only potential blocker of the counter window that opens; an actor
without one takes the forced discard and the turn changes. -/
theorem self_assassinate (env : Env) (room : Room) (id : PlayerId) (player : Player)
    (hlock : room.lock = false) (hn : (room.players.map (fun q => q.id)).Nodup)
    (hget : room.get id = some player) (halive : player.isAlive = true)
    (hphase : room.gameState.phase.type = PhaseType.TURN_START)
    (hcur : room.gameState.currentPlayer = some id)
    (hcd : room.gameState.challengeData = none) (hct : room.gameState.counterData = none)
    (hon : Online (fun x => x ≠ id) room) (hfuel : room.players.length ≤ env.fuel)
    (hcoins : 3 ≤ player.coins) :
    (∃ ar, ar.success = true ∧ ar.targetPlayerId = some id ∧
      (executeAction env room id ActionType.assassinate (some id)).2 = Outcome.ok (some ar)) ∧
    ((executeAction env room id ActionType.assassinate (some id)).1.get id).map
      (fun p => p.coins) = some (player.coins - 3) ∧
    (player.cards.contains (some Role.contessa) = true →
      (executeAction env room id ActionType.assassinate (some id)).1.gameState.phase.type =
        PhaseType.COUNTER_WINDOW ∧
      (executeAction env room id ActionType.assassinate (some id)).1.gameState.counterData.map
        (fun c => (c.blockerRole, c.potentialBlockers)) = some (Role.contessa, [id])) ∧
    (player.cards.contains (some Role.contessa) = false →
      (executeAction env room id ActionType.assassinate (some id)).1 =
        (nextTurn env.now env.fuel
          (loseCardOrDie env (room.modify id (fun p => { p with coins := p.coins - 3 })) id player
            " 被行刺，被迫弃掉一张牌" " 没有卡牌，被淘汰！").1).1 ∧
      (executeAction env room id ActionType.assassinate (some id)).1.gameState.counterData =
        none ∧
      (player.cards.length = 2 → room.gameState.deck ≠ [] →
        (executeAction env room id ActionType.assassinate (some id)).1.gameState.discardPile =
          room.gameState.discardPile ++ [(player.cards[env.pick 0 % 2]?).join] ∧
        (executeAction env room id ActionType.assassinate (some id)).1.gameState.deck =
          room.gameState.deck.dropLast ∧
        ∃ q, (executeAction env room id ActionType.assassinate (some id)).1.get id = some q ∧
          (q.cards =
              player.cards.eraseIdx (env.pick 0 % 2) ++ [room.gameState.deck.getLast?.join] ∨
            (q.cards = [] ∧ q.isAlive = false)))) := by
  have h3 : ¬ player.coins < 3 := not_lt.2 hcoins
  have hid : player.id = id := getPlayer_id hget
  have hget1 : (room.modify id (fun p => { p with coins := p.coins - 3 })).get id =
      some { player with coins := player.coins - 3 } := by
    rw [get_modify_same room id (fun p => { p with coins := p.coins - 3 }) (fun _ => rfl), hget]
    rfl
  have hn1 : ((room.modify id (fun p => { p with coins := p.coins - 3 })).players.map
      (fun q => q.id)).Nodup :=
    nodup_modify room id (fun p => { p with coins := p.coins - 3 }) (fun _ => rfl) hn
  have hexec : executeAction env room id ActionType.assassinate (some id) =
      if ((room.modify id (fun p => { p with coins := p.coins - 3 })).players.filter (fun p =>
          p.isAlive && some p.id == some id && p.cards.contains (some Role.contessa))).length > 0
      then
        (setPhase env.now
          ((room.modify id (fun p => { p with coins := p.coins - 3 })).setGS (fun gs =>
            { gs with counterData := some (CounterData.mk
                { playerId := id, playerName := player.name, type := ActionType.assassinate,
                  targetPlayerId := some id, success := true,
                  log := [player.name ++ " 声称拥有刺客，行刺 " ++ player.name] }
                Role.contessa [id]) }))
          { type := PhaseType.COUNTER_WINDOW, data := PhaseData.empty },
         Outcome.ok (some
          { playerId := id, playerName := player.name, type := ActionType.assassinate,
            targetPlayerId := some id, success := true,
            log := [player.name ++ " 声称拥有刺客，行刺 " ++ player.name] }))
      else
        finishAction env
          (loseCardOrDie env (room.modify id (fun p => { p with coins := p.coins - 3 })) id player
            " 被行刺，被迫弃掉一张牌" " 没有卡牌，被淘汰！").1
          { playerId := id, playerName := player.name, type := ActionType.assassinate,
            targetPlayerId := some id, success := true,
            log := [player.name ++ " 声称拥有刺客，行刺 " ++ player.name] ++
              [(loseCardOrDie env (room.modify id (fun p => { p with coins := p.coins - 3 })) id
                player " 被行刺，被迫弃掉一张牌" " 没有卡牌，被淘汰！").2] } := by
    unfold executeAction
    simp only [hget, halive, hphase, hcur, Bool.not_true, Bool.false_eq_true, if_false, ne_eq,
      not_true_eq_false, Option.bind, h3, hid]
  by_cases hcont : player.cards.contains (some Role.contessa) = true
  · have hpos : ((room.modify id (fun p => { p with coins := p.coins - 3 })).players.filter
        (fun p => p.isAlive && some p.id == some id &&
          p.cards.contains (some Role.contessa))).length > 0 := by
      rw [gt_iff_lt, List.length_pos_iff_exists_mem]
      refine ⟨_, List.mem_filter.2 ⟨getPlayer_mem hget1, ?_⟩⟩
      simp only [Bool.and_eq_true, beq_iff_eq]
      exact ⟨⟨halive, by rw [hid]⟩, hcont⟩
    rw [hexec, if_pos hpos]
    refine ⟨⟨_, rfl, rfl, rfl⟩, ?_, ?_, ?_⟩
    · rw [coins_setPhase]
      show ((room.modify id (fun p => { p with coins := p.coins - 3 })).get id).map _ = _
      rw [hget1]
      rfl
    · intro _
      refine ⟨?_, ?_⟩
      · rw [setPhase_phase_unlocked _ _ _
          (show ((room.modify id (fun p => { p with coins := p.coins - 3 })).setGS _).lock = false
            from hlock)]
      · rw [(turnFrame_setPhase _ _ _).counterData]
        rfl
    · intro h
      rw [hcont] at h
      cases h
  · have hcf : player.cards.contains (some Role.contessa) = false := by
      simpa using hcont
    have hzero : ¬ ((room.modify id (fun p => { p with coins := p.coins - 3 })).players.filter
        (fun p => p.isAlive && some p.id == some id &&
          p.cards.contains (some Role.contessa))).length > 0 := by
      rw [gt_iff_lt, List.length_pos_iff_exists_mem]
      rintro ⟨p, hp⟩
      obtain ⟨hp1, hp2⟩ := List.mem_filter.1 hp
      simp only [Bool.and_eq_true, beq_iff_eq, Option.some.injEq] at hp2
      have hgp := getPlayer_of_mem hn1 hp1
      rw [hp2.1.2] at hgp
      have : p = { player with coins := player.coins - 3 } :=
        Option.some.inj (hgp.symm.trans hget1)
      rw [this] at hp2
      rw [hcf] at hp2
      exact absurd hp2.2 (by decide)
    have hpf := pilesFrame_loseCardOrDie env
      (room.modify id (fun p => { p with coins := p.coins - 3 })) id player
      " 被行刺，被迫弃掉一张牌" " 没有卡牌，被淘汰！"
    have hon2 : Online (fun _ => True)
        (loseCardOrDie env (room.modify id (fun p => { p with coins := p.coins - 3 })) id player
          " 被行刺，被迫弃掉一张牌" " 没有卡牌，被淘汰！").1 :=
      online_loseCardOrDie _ env _ id player _ _
        (online_coins _ room id _ (online_weaken hon (fun _ h => ⟨trivial, h⟩)))
    have hfin := finishAction_runs env _
      { playerId := id, playerName := player.name, type := ActionType.assassinate,
        targetPlayerId := some id, success := true,
        log := [player.name ++ " 声称拥有刺客，行刺 " ++ player.name] ++
          [(loseCardOrDie env (room.modify id (fun p => { p with coins := p.coins - 3 })) id
            player " 被行刺，被迫弃掉一张牌" " 没有卡牌，被淘汰！").2] }
      (fun _ => True) rfl (hpf.challengeData.trans hcd) (hpf.counterData.trans hct) hon2
      (by rw [length_players_loseCardOrDie, length_players_modify]; exact hfuel)
    rw [hexec, if_neg hzero, hfin]
    refine ⟨⟨_, rfl, rfl, rfl⟩, ?_, ?_, ?_⟩
    · rw [coins_nextTurn, coins_loseCardOrDie, hget1]
      rfl
    · intro h
      exact absurd h hcont
    · intro _
      refine ⟨rfl, ?_, ?_⟩
      · rw [(turnFrame_nextTurn _ _ _).counterData, hpf.counterData]
        exact hct
      · intro hlen hdeck
        exact hand_after_forced_discard env
          (room.modify id (fun p => { p with coins := p.coins - 3 })) id player _ _ _ hget1 halive
          rfl hlen hdeck

/-- A steal declared against the own id: the result is returned with
`success = true` and the actor's coins are what they were.  With coins and no
Captain a challenge window opens; otherwise the turn changes. -/
theorem self_steal (env : Env) (room : Room) (id : PlayerId) (player : Player)
    (hlock : room.lock = false)
    (hget : room.get id = some player) (halive : player.isAlive = true)
    (hphase : room.gameState.phase.type = PhaseType.TURN_START)
    (hcur : room.gameState.currentPlayer = some id)
    (hcd : room.gameState.challengeData = none) (hct : room.gameState.counterData = none)
    (hon : Online (fun x => x ≠ id) room) (hfuel : room.players.length ≤ env.fuel) :
    (∃ ar, ar.success = true ∧ ar.targetPlayerId = some id ∧
      (executeAction env room id ActionType.steal (some id)).2 = Outcome.ok (some ar)) ∧
    ((executeAction env room id ActionType.steal (some id)).1.get id).map (fun p => p.coins) =
      some player.coins ∧
    (player.coins ≠ 0 → player.cards.contains (some Role.captain) = false →
      (executeAction env room id ActionType.steal (some id)).1.gameState.phase.type =
        PhaseType.CHALLENGE_WINDOW ∧
      (executeAction env room id ActionType.steal (some id)).1.gameState.challengeData.isSome =
        true) ∧
    (player.coins = 0 ∨ player.cards.contains (some Role.captain) = true →
      (executeAction env room id ActionType.steal (some id)).1.gameState.challengeData = none ∧
      ∃ settled, (settled.get id).map (fun p => p.coins) = some player.coins ∧
        (executeAction env room id ActionType.steal (some id)).1 =
          (nextTurn env.now env.fuel settled).1) := by
  have hid : player.id = id := getPlayer_id hget
  have honT : Online (fun _ => True) room := online_weaken hon (fun _ _ => trivial)
  by_cases h0 : player.coins = 0
  · have hexec : executeAction env room id ActionType.steal (some id) =
        finishAction env room
          { playerId := id, playerName := player.name, type := ActionType.steal,
            targetPlayerId := some id, success := true,
            log := [player.name ++ " 声称拥有队长，试图窃取金币"] ++
              [player.name ++ " 没有金币可偷"] } := by
      unfold executeAction
      simp only [hget, halive, hphase, hcur, Bool.not_true, Bool.false_eq_true, if_false, ne_eq,
        not_true_eq_false, Option.bind, h0, if_true]
    rw [hexec, finishAction_runs env room _ (fun _ => True) rfl hcd hct honT hfuel]
    refine ⟨⟨_, rfl, rfl, rfl⟩, ?_, ?_, ?_⟩
    · rw [coins_nextTurn, hget]
      rfl
    · intro h
      exact absurd h0 h
    · intro _
      refine ⟨?_, room, ?_, rfl⟩
      · rw [(turnFrame_nextTurn _ _ _).challengeData]
        exact hcd
      · rw [hget]
        rfl
  · by_cases hcap : player.cards.contains (some Role.captain) = true
    · have hexec : executeAction env room id ActionType.steal (some id) =
          finishAction env
            ((room.modify id (fun p => { p with coins := p.coins - min player.coins 2 })).modify id
              (fun p => { p with coins := p.coins + min player.coins 2 }))
            { playerId := id, playerName := player.name, type := ActionType.steal,
              targetPlayerId := some id, success := true,
              log := [player.name ++ " 声称拥有队长，试图窃取金币"] ++
                [player.name ++ " 成功窃取 " ++ toString (min player.coins 2) ++ " 枚金币"] } := by
        unfold executeAction
        simp only [hget, halive, hphase, hcur, Bool.not_true, Bool.false_eq_true, if_false, ne_eq,
          not_true_eq_false, Option.bind, h0, hcap, hid]
      have hon2 : Online (fun _ => True)
          ((room.modify id (fun p => { p with coins := p.coins - min player.coins 2 })).modify id
            (fun p => { p with coins := p.coins + min player.coins 2 })) :=
        online_coins _ _ id _ (online_coins _ room id _ honT)
      have hcoins2 : (((room.modify id
          (fun p => { p with coins := p.coins - min player.coins 2 })).modify id
            (fun p => { p with coins := p.coins + min player.coins 2 })).get id).map
              (fun p => p.coins) = some player.coins := by
        rw [get_modify_same _ id (fun p => { p with coins := p.coins + min player.coins 2 })
          (fun _ => rfl),
          get_modify_same room id (fun p => { p with coins := p.coins - min player.coins 2 })
            (fun _ => rfl), hget]
        simp
      have hfin := finishAction_runs env
        ((room.modify id (fun p => { p with coins := p.coins - min player.coins 2 })).modify id
          (fun p => { p with coins := p.coins + min player.coins 2 }))
        { playerId := id, playerName := player.name, type := ActionType.steal,
          targetPlayerId := some id, success := true,
          log := [player.name ++ " 声称拥有队长，试图窃取金币"] ++
            [player.name ++ " 成功窃取 " ++ toString (min player.coins 2) ++ " 枚金币"] }
        (fun _ => True) rfl hcd hct hon2
        (by rw [length_players_modify, length_players_modify]; exact hfuel)
      rw [hexec, hfin]
      refine ⟨⟨_, rfl, rfl, rfl⟩, ?_, ?_, ?_⟩
      · rw [coins_nextTurn]
        exact hcoins2
      · intro _ h
        rw [hcap] at h
        cases h
      · intro _
        refine ⟨?_, _, hcoins2, rfl⟩
        rw [(turnFrame_nextTurn _ _ _).challengeData]
        exact hcd
    · have hcf : player.cards.contains (some Role.captain) = false := by
        simpa using hcap
      have hexec : executeAction env room id ActionType.steal (some id) =
          openChallenge env room
            { playerId := id, playerName := player.name, type := ActionType.steal,
              targetPlayerId := some id, success := true,
              log := [player.name ++ " 声称拥有队长，试图窃取金币"] } := by
        unfold executeAction
        simp only [hget, halive, hphase, hcur, Bool.not_true, Bool.false_eq_true, if_false, ne_eq,
          not_true_eq_false, Option.bind, h0, hcf, Bool.not_false, if_true]
      rw [hexec]
      unfold openChallenge
      refine ⟨⟨_, rfl, rfl, rfl⟩, ?_, ?_, ?_⟩
      · rw [coins_setPhase]
        show (room.get id).map _ = _
        rw [hget]
        rfl
      · intro _ _
        refine ⟨?_, ?_⟩
        · rw [setPhase_phase_unlocked _ _ _ (show (room.setGS _).lock = false from hlock)]
        · rw [(turnFrame_setPhase _ _ _).challengeData]
          rfl
      · rintro (h | h)
        · exact absurd h h0
        · exact absurd h hcap

/-- Claim C16, amended: the target of a coup, an assassination or a steal has to
be a seated alive player, and the actor's own id is such a target: the
declaration is not rejected.  For the current player (alive, TURN_START,
nothing pending, guard free) who names the own id, `executeAction` returns a
record with `success = true`.  A coup (7 coins or more) costs the 7 coins and
makes the actor take the forced discard, after which the turn changes; an
assassination (3 coins or more) costs the 3 coins and either opens the counter
window with the actor as the only potential blocker (Contessa in hand) or makes
the actor take the forced discard; a steal leaves the actor's coins as they
were and either opens a challenge window (coins, no Captain) or ends the
turn. -/
theorem self_target_is_carried_out (env : Env) (room : Room) (id : PlayerId) (player : Player)
    (hlock : room.lock = false) (hn : (room.players.map (fun q => q.id)).Nodup)
    (hget : room.get id = some player) (halive : player.isAlive = true)
    (hphase : room.gameState.phase.type = PhaseType.TURN_START)
    (hcur : room.gameState.currentPlayer = some id)
    (hcd : room.gameState.challengeData = none) (hct : room.gameState.counterData = none)
    (hon : Online (fun x => x ≠ id) room) (hfuel : room.players.length ≤ env.fuel) :
    (7 ≤ player.coins →
      (∃ ar, ar.success = true ∧ ar.targetPlayerId = some id ∧
        executeAction env room id ActionType.coup (some id) =
          ((nextTurn env.now env.fuel
            (loseCardOrDie env (room.modify id (fun p => { p with coins := p.coins - 7 })) id player
              " 被迫弃掉一张牌" " 没有卡牌，被淘汰！").1).1,
           Outcome.ok (some ar))) ∧
      ((executeAction env room id ActionType.coup (some id)).1.get id).map (fun p => p.coins) =
        some (player.coins - 7) ∧
      (player.cards.length = 2 → room.gameState.deck ≠ [] →
        (executeAction env room id ActionType.coup (some id)).1.gameState.discardPile =
          room.gameState.discardPile ++ [(player.cards[env.pick 0 % 2]?).join] ∧
        (executeAction env room id ActionType.coup (some id)).1.gameState.deck =
          room.gameState.deck.dropLast ∧
        ∃ q, (executeAction env room id ActionType.coup (some id)).1.get id = some q ∧
          (q.cards = player.cards.eraseIdx (env.pick 0 % 2) ++ [room.gameState.deck.getLast?.join] ∨
            (q.cards = [] ∧ q.isAlive = false)))) ∧
    (3 ≤ player.coins →
      (∃ ar, ar.success = true ∧ ar.targetPlayerId = some id ∧
        (executeAction env room id ActionType.assassinate (some id)).2 = Outcome.ok (some ar)) ∧
      ((executeAction env room id ActionType.assassinate (some id)).1.get id).map
        (fun p => p.coins) = some (player.coins - 3) ∧
      (player.cards.contains (some Role.contessa) = true →
        (executeAction env room id ActionType.assassinate (some id)).1.gameState.phase.type =
          PhaseType.COUNTER_WINDOW ∧
        (executeAction env room id ActionType.assassinate (some id)).1.gameState.counterData.map
          (fun c => (c.blockerRole, c.potentialBlockers)) = some (Role.contessa, [id])) ∧
      (player.cards.contains (some Role.contessa) = false →
        (executeAction env room id ActionType.assassinate (some id)).1 =
          (nextTurn env.now env.fuel
            (loseCardOrDie env (room.modify id (fun p => { p with coins := p.coins - 3 })) id player
              " 被行刺，被迫弃掉一张牌" " 没有卡牌，被淘汰！").1).1 ∧
        (executeAction env room id ActionType.assassinate (some id)).1.gameState.counterData =
          none ∧
        (player.cards.length = 2 → room.gameState.deck ≠ [] →
          (executeAction env room id ActionType.assassinate (some id)).1.gameState.discardPile =
            room.gameState.discardPile ++ [(player.cards[env.pick 0 % 2]?).join] ∧
          (executeAction env room id ActionType.assassinate (some id)).1.gameState.deck =
            room.gameState.deck.dropLast ∧
          ∃ q, (executeAction env room id ActionType.assassinate (some id)).1.get id = some q ∧
            (q.cards =
                player.cards.eraseIdx (env.pick 0 % 2) ++ [room.gameState.deck.getLast?.join] ∨
              (q.cards = [] ∧ q.isAlive = false))))) ∧
    (∃ ar, ar.success = true ∧ ar.targetPlayerId = some id ∧
      (executeAction env room id ActionType.steal (some id)).2 = Outcome.ok (some ar)) ∧
    ((executeAction env room id ActionType.steal (some id)).1.get id).map (fun p => p.coins) =
      some player.coins ∧
    (player.coins ≠ 0 → player.cards.contains (some Role.captain) = false →
      (executeAction env room id ActionType.steal (some id)).1.gameState.phase.type =
        PhaseType.CHALLENGE_WINDOW ∧
      (executeAction env room id ActionType.steal (some id)).1.gameState.challengeData.isSome =
        true) ∧
    (player.coins = 0 ∨ player.cards.contains (some Role.captain) = true →
      (executeAction env room id ActionType.steal (some id)).1.gameState.challengeData = none ∧
      ∃ settled, (settled.get id).map (fun p => p.coins) = some player.coins ∧
        (executeAction env room id ActionType.steal (some id)).1 =
          (nextTurn env.now env.fuel settled).1) :=
  ⟨fun h7 => self_coup env room id player hget halive hphase hcur hcd hct hon hfuel h7,
    fun h3 => self_assassinate env room id player hlock hn hget halive hphase hcur hcd hct hon
      hfuel h3,
    self_steal env room id player hlock hget halive hphase hcur hcd hct hon hfuel⟩

theorem self_target_is_carried_out_witness :
    ((executeAction testEnv richRoom "player1" ActionType.coup (some "player1")).1.get
        "player1").map (fun p => p.coins) = some 0 ∧
      (executeAction testEnv richRoom "player1" ActionType.coup
        (some "player1")).1.gameState.discardPile = [some Role.duke] ∧
      ((executeAction testEnv richRoom "player1" ActionType.assassinate (some "player1")).1.get
        "player1").map (fun p => p.coins) = some 4 ∧
      (executeAction testEnv richRoom "player1" ActionType.steal
        (some "player1")).1.gameState.phase.type = PhaseType.CHALLENGE_WINDOW := by
  have h := self_target_is_carried_out testEnv richRoom "player1"
    { id := "player1", name := "Alice", coins := 7,
      cards := [some Role.duke, some Role.assassin], isAlive := true, connected := true,
      disconnectTime := none }
    (by decide) (by decide) (by decide) rfl (by decide) (by decide) (by decide) (by decide)
    ⟨_, List.mem_cons_of_mem _ (List.mem_cons_self _ _), rfl, rfl, by decide⟩ (by decide)
  exact ⟨(h.1 (by decide)).2.1, ((h.1 (by decide)).2.2 rfl (by decide)).1,
    (h.2.1 (by decide)).2.1, (h.2.2.2.2.1 (by decide) (by decide)).1⟩

/-! ## A challenge that ends in a throw -/

theorem nextTurnBody_thrown_keeps (now : Nat) (recurse : Room → Room × Outcome Unit) (room : Room)
    (hrec : ∀ r, (recurse r).2 = Outcome.thrown →
      (recurse r).1.gameState.phase = r.gameState.phase ∧ (recurse r).1.players = r.players)
    (h : (nextTurnBody now recurse room).2 = Outcome.thrown) :
    (nextTurnBody now recurse room).1.gameState.phase = room.gameState.phase ∧
      (nextTurnBody now recurse room).1.players = room.players := by
  unfold nextTurnBody at h ⊢
  simp only at h ⊢
  split
  · rename_i h1
    rw [if_pos h1] at h
    cases h
  · rename_i h1
    rw [if_neg h1] at h
    split
    · exact ⟨rfl, rfl⟩
    · rename_i j hj
      rw [hj] at h
      simp only at h
      split
      · exact ⟨rfl, rfl⟩
      · rename_i cur hcur
        rw [hcur] at h
        simp only at h
        split
        · rename_i hc
          rw [if_pos hc] at h
          exact hrec _ h
        · rename_i hc
          rw [if_neg hc] at h
          cases h

/-- A `nextTurn` that throws has made no phase transition: phase and players
are those it was called with. -/
theorem nextTurn_thrown_keeps (now fuel : Nat) (room : Room)
    (h : (nextTurn now fuel room).2 = Outcome.thrown) :
    (nextTurn now fuel room).1.gameState.phase = room.gameState.phase ∧
      (nextTurn now fuel room).1.players = room.players := by
  induction fuel generalizing room with
  | zero => exact nextTurnBody_thrown_keeps now _ room (fun _ _ => ⟨rfl, rfl⟩) h
  | succ n ih => exact nextTurnBody_thrown_keeps now _ room (fun r hr => ih r hr) h

theorem nextTurn_thrown_all_offline (now fuel : Nat) (room : Room) (h2 : 2 ≤ aliveCount room)
    (hoff : ∀ p ∈ room.players, p.isAlive = true → p.connected = false) :
    (nextTurn now fuel room).2 = Outcome.thrown := by
  induction fuel generalizing room with
  | zero => exact nextTurnBody_all_offline now _ room (fun _ _ => rfl) h2 hoff
  | succ n ih =>
    refine nextTurnBody_all_offline now _ room (fun r hr => ?_) h2 hoff
    apply ih
    · unfold aliveCount at h2 ⊢
      rw [hr]
      exact h2
    · rw [hr]
      exact hoff

/-- The throw of `nextTurn` passes through `resolveChallenge` and
`handleChallenge`: the statement `challengeData = null` after the resolution is
not reached. -/
theorem handleChallenge_thrown (env : Env) (r : Room) (c : PlayerId) (cd : ChallengeData)
    (challenger actor : Player)
    (hphase : r.gameState.phase.type = PhaseType.CHALLENGE_WINDOW)
    (hcd : r.gameState.challengeData = some cd)
    (hc : r.get c = some challenger) (halive : challenger.isAlive = true)
    (ha : r.get cd.action.playerId = some actor)
    (hnt : (nextTurn env.now env.fuel
        (settleChallenge env
          (r.setGS (fun gs => { gs with challengeData := some (addChallenger cd c) }))
          (addChallenger cd c) actor).1).2 = Outcome.thrown) :
    handleChallenge env r c =
      ((nextTurn env.now env.fuel
        (settleChallenge env
          (r.setGS (fun gs => { gs with challengeData := some (addChallenger cd c) }))
          (addChallenger cd c) actor).1).1, Outcome.thrown) := by
  have ha2 : (r.setGS (fun gs => { gs with challengeData := some (addChallenger cd c) })).get
      (addChallenger cd c).action.playerId = some actor := by
    rw [addChallenger_action]
    exact ha
  cases hx : nextTurn env.now env.fuel
      (settleChallenge env
        (r.setGS (fun gs => { gs with challengeData := some (addChallenger cd c) }))
        (addChallenger cd c) actor).1 with
  | mk r3 o =>
    rw [hx] at hnt
    simp only at hnt
    subst hnt
    unfold handleChallenge
    simp only [hphase, ne_eq, not_true_eq_false, if_false, hcd, hc, ha, halive, Bool.not_true]
    unfold resolveChallenge
    simp only [ha2, hx, Bool.false_eq_true, if_false]

/-- Claim C40, where the code parts from it.  Alice, without a Duke, declares
tax; the window opens; both players go offline.  Bob's challenge makes Alice
discard her Assassin and draw the Duke that was next in the deck, and then
`nextTurn` throws, as it does at every depth of stack when all alive players
are offline: the statement that clears `challengeData` is not reached, and the
room is left in CHALLENGE_WINDOW with the challenge pending and the guard free
while Alice now holds a Duke.  Once both are back online Bob's next challenge
is accepted and resolves with `challengeWon = false`. -/
theorem window_survives_a_throw :
    (dukeNextRoom.get "player1").map (fun p => p.cards) =
        some [some Role.assassin, some Role.captain] ∧
      offlineWindowRoom.lock = false ∧
      offlineWindowRoom.gameState.phase.type = PhaseType.CHALLENGE_WINDOW ∧
      (∀ fuel,
        (handleChallenge { testEnv with fuel := fuel } offlineWindowRoom "player2").2 =
            Outcome.thrown ∧
          (handleChallenge { testEnv with fuel := fuel } offlineWindowRoom
            "player2").1.gameState.phase.type = PhaseType.CHALLENGE_WINDOW ∧
          (handleChallenge { testEnv with fuel := fuel } offlineWindowRoom
            "player2").1.gameState.challengeData.isSome = true ∧
          ((handleChallenge { testEnv with fuel := fuel } offlineWindowRoom "player2").1.get
            "player1").map (fun p => p.cards) = some [some Role.captain, some Role.duke]) ∧
      reopenedWindowRoom.lock = false ∧
      reopenedWindowRoom.gameState.phase.type = PhaseType.CHALLENGE_WINDOW ∧
      (reopenedWindowRoom.get "player1").map (fun p => p.cards) =
        some [some Role.captain, some Role.duke] ∧
      (∃ res : ChallengeResult, res.challengeWon = false ∧
        (handleChallenge testEnv reopenedWindowRoom "player2").2 = Outcome.ok (some res)) := by
  refine ⟨by decide, by decide, by decide, ?_, by decide, by decide, by decide, ?_⟩
  · intro fuel
    have hS : settleChallenge { testEnv with fuel := fuel }
        (offlineWindowRoom.setGS (fun gs =>
          { gs with challengeData := some (addChallenger (ChallengeData.mk
            { playerId := "player1", playerName := "Alice", type := ActionType.tax,
              targetPlayerId := none, success := true, log := ["Alice 声称拥有公爵，征收税金"] } [])
            "player2") }))
        (addChallenger (ChallengeData.mk
            { playerId := "player1", playerName := "Alice", type := ActionType.tax,
              targetPlayerId := none, success := true, log := ["Alice 声称拥有公爵，征收税金"] } [])
            "player2")
        { id := "player1", name := "Alice", coins := 2,
          cards := [some Role.assassin, some Role.captain], isAlive := true, connected := false,
          disconnectTime := some 90000 } =
        settleChallenge testEnv
        (offlineWindowRoom.setGS (fun gs =>
          { gs with challengeData := some (addChallenger (ChallengeData.mk
            { playerId := "player1", playerName := "Alice", type := ActionType.tax,
              targetPlayerId := none, success := true, log := ["Alice 声称拥有公爵，征收税金"] } [])
            "player2") }))
        (addChallenger (ChallengeData.mk
            { playerId := "player1", playerName := "Alice", type := ActionType.tax,
              targetPlayerId := none, success := true, log := ["Alice 声称拥有公爵，征收税金"] } [])
            "player2")
        { id := "player1", name := "Alice", coins := 2,
          cards := [some Role.assassin, some Role.captain], isAlive := true, connected := false,
          disconnectTime := some 90000 } := rfl
    have hthrow := nextTurn_thrown_all_offline testEnv.now fuel
      (settleChallenge testEnv
        (offlineWindowRoom.setGS (fun gs =>
          { gs with challengeData := some (addChallenger (ChallengeData.mk
            { playerId := "player1", playerName := "Alice", type := ActionType.tax,
              targetPlayerId := none, success := true, log := ["Alice 声称拥有公爵，征收税金"] } [])
            "player2") }))
        (addChallenger (ChallengeData.mk
            { playerId := "player1", playerName := "Alice", type := ActionType.tax,
              targetPlayerId := none, success := true, log := ["Alice 声称拥有公爵，征收税金"] } [])
            "player2")
        { id := "player1", name := "Alice", coins := 2,
          cards := [some Role.assassin, some Role.captain], isAlive := true, connected := false,
          disconnectTime := some 90000 }).1 (by decide) (by decide)
    have hkeep := nextTurn_thrown_keeps _ _ _ hthrow
    have hframe := turnFrame_nextTurn testEnv.now fuel
      (settleChallenge testEnv
        (offlineWindowRoom.setGS (fun gs =>
          { gs with challengeData := some (addChallenger (ChallengeData.mk
            { playerId := "player1", playerName := "Alice", type := ActionType.tax,
              targetPlayerId := none, success := true, log := ["Alice 声称拥有公爵，征收税金"] } [])
            "player2") }))
        (addChallenger (ChallengeData.mk
            { playerId := "player1", playerName := "Alice", type := ActionType.tax,
              targetPlayerId := none, success := true, log := ["Alice 声称拥有公爵，征收税金"] } [])
            "player2")
        { id := "player1", name := "Alice", coins := 2,
          cards := [some Role.assassin, some Role.captain], isAlive := true, connected := false,
          disconnectTime := some 90000 }).1
    have heq := handleChallenge_thrown { testEnv with fuel := fuel } offlineWindowRoom "player2"
      (ChallengeData.mk
        { playerId := "player1", playerName := "Alice", type := ActionType.tax,
          targetPlayerId := none, success := true, log := ["Alice 声称拥有公爵，征收税金"] } [])
      { id := "player2", name := "Bob", coins := 2,
        cards := [some Role.captain, some Role.contessa], isAlive := true, connected := false,
        disconnectTime := some 90000 }
      { id := "player1", name := "Alice", coins := 2,
        cards := [some Role.assassin, some Role.captain], isAlive := true, connected := false,
        disconnectTime := some 90000 }
      (by decide) (by decide) (by decide) rfl (by decide)
      (by rw [hS]; exact hthrow)
    rw [heq, hS]
    refine ⟨rfl, ?_, ?_, ?_⟩
    · show (nextTurn testEnv.now fuel _).1.gameState.phase.type = _
      rw [hkeep.1]
      decide
    · show (nextTurn testEnv.now fuel _).1.gameState.challengeData.isSome = _
      rw [hframe.challengeData]
      decide
    · show (getPlayer (nextTurn testEnv.now fuel _).1.players "player1").map _ = _
      rw [hkeep.2]
      decide
  · exact ⟨(settleChallenge testEnv
      (reopenedWindowRoom.setGS (fun gs =>
        { gs with challengeData := some (ChallengeData.mk
          { playerId := "player1", playerName := "Alice", type := ActionType.tax,
            targetPlayerId := none, success := true, log := ["Alice 声称拥有公爵，征收税金"] }
          ["player2"]) }))
      (ChallengeData.mk
        { playerId := "player1", playerName := "Alice", type := ActionType.tax,
          targetPlayerId := none, success := true, log := ["Alice 声称拥有公爵，征收税金"] }
        ["player2"])
      { id := "player1", name := "Alice", coins := 2,
        cards := [some Role.captain, some Role.duke], isAlive := true, connected := true,
        disconnectTime := none }).2, by decide, by decide⟩

/-! ## The guard between calls -/

theorem lock_discardCard (key : List Nat) (r : Room) (id : PlayerId) (i : Int) :
    (discardCard key r id i).1.lock = r.lock :=
  (pilesFrame_discardCard key r id i).lock

theorem lock_challengersDiscard (env : Env) (k : Nat) (ids : List PlayerId) (r : Room)
    (log : List String) : (challengersDiscard env k ids r log).1.lock = r.lock := by
  induction ids generalizing k r log with
  | nil => rfl
  | cons c rest ih =>
    unfold challengersDiscard
    split
    · exact ih _ _ _
    · split
      · exact (ih _ _ _).trans (lock_discardCard _ _ _ _)
      · exact ih _ _ _

theorem lock_stealCoins (r : Room) (a : PlayerId) (t : Option PlayerId) :
    (stealCoins r a t).lock = r.lock := by
  rcases stealCoins_shape r a t with h | ⟨x, g1, g2, h⟩
  · rw [h]
  · rw [h]
    rfl

theorem lock_settleChallenge (env : Env) (r : Room) (cd : ChallengeData) (actor : Player) :
    (settleChallenge env r cd actor).1.lock = r.lock := by
  unfold settleChallenge
  simp only
  split
  · simp only
    split
    · exact lock_challengersDiscard _ _ _ _ _
    · split
      · exact (lock_stealCoins _ _ _).trans (lock_challengersDiscard _ _ _ _ _)
      · exact lock_challengersDiscard _ _ _ _ _
  · simp only
    split
    · split
      · exact lock_discardCard _ _ _ _
      · rfl
    · split
      · exact lock_discardCard _ _ _ _
      · rfl

theorem lock_applyUnblocked (env : Env) (k : Nat) (r : Room) (action : ActionResult)
    (log : List String) : (applyUnblocked env k r action log).1.lock = r.lock := by
  unfold applyUnblocked
  split
  · split <;> rfl
  · split
    · split
      · rfl
      · split
        · exact lock_discardCard _ _ _ _
        · rfl
    · rfl

theorem lock_settleCounter (env : Env) (r : Room) (cd : CounterData) (b : PlayerId)
    (blocker : Player) (block : Bool) :
    (settleCounter env r cd b blocker block).1.lock = r.lock := by
  unfold settleCounter
  simp only
  split
  · split
    · split <;> rfl
    · have h1 := lock_applyUnblocked env 1
        (if blocker.cards.length > 0 then
          (discardCard (env.key 0) r b (randomIndex (env.pick 0) blocker.cards.length)).1
        else r) cd.action [blocker.name ++ " 试图阻止但失败，被迫弃牌"]
      have h2 : (if blocker.cards.length > 0 then
          (discardCard (env.key 0) r b (randomIndex (env.pick 0) blocker.cards.length)).1
        else r).lock = r.lock := by
        split
        · exact lock_discardCard _ _ _ _
        · rfl
      split
      · rename_i heq
        rw [heq] at h1
        exact h1.trans h2
      · rename_i heq
        rw [heq] at h1
        exact h1.trans h2
  · have h1 := lock_applyUnblocked env 0 r cd.action [blocker.name ++ " 选择不阻止"]
    split
    · rename_i heq
      rw [heq] at h1
      exact h1
    · rename_i heq
      rw [heq] at h1
      exact h1

theorem lock_nextTurn (now fuel : Nat) (r : Room) : (nextTurn now fuel r).1.lock = r.lock :=
  (turnFrame_nextTurn now fuel r).lock

theorem lock_setPhase (now : Nat) (r : Room) (p : PhaseVal) : (setPhase now r p).lock = r.lock :=
  (turnFrame_setPhase now r p).lock

theorem lock_finishAction (env : Env) (r : Room) (ar : ActionResult) :
    (finishAction env r ar).1.lock = r.lock :=
  (turnFrame_finishAction env r ar).lock

theorem lock_executeAction (env : Env) (r : Room) (id : PlayerId) (a : ActionType)
    (t : Option PlayerId) : (executeAction env r id a t).1.lock = r.lock := by
  rcases executeAction_cases env r id a t with ⟨o, h1⟩ | ⟨s, ar, hs, h1⟩ | ⟨s, cd, ar, hs, h1⟩ |
      ⟨player, ar, _, _, _, _, h1⟩
  · rw [h1]
  · rw [h1]
    exact (lock_finishAction env s ar).trans hs.lock
  · rw [h1]
    exact (lock_setPhase _ _ _).trans hs.lock
  · rw [h1]
    exact lock_setPhase _ _ _

theorem lock_resolveChallenge (env : Env) (r : Room) (cd : ChallengeData) :
    (resolveChallenge env r cd).1.lock = r.lock := by
  unfold resolveChallenge
  split
  · rfl
  · rename_i actor _
    have h1 := (lock_nextTurn env.now env.fuel (settleChallenge env r cd actor).1).trans
      (lock_settleChallenge env r cd actor)
    split
    · rename_i heq
      rw [heq] at h1
      exact h1
    · rename_i heq
      rw [heq] at h1
      exact h1

theorem lock_handleChallenge (env : Env) (r : Room) (c : PlayerId) :
    (handleChallenge env r c).1.lock = r.lock := by
  unfold handleChallenge
  split
  · rfl
  split
  · rfl
  split
  · split
    · rfl
    · rename_i cd _ _ _ _ _ _ _ _
      have := lock_resolveChallenge env
        (r.setGS (fun gs => { gs with challengeData := some (addChallenger cd c) }))
        (addChallenger cd c)
      simp only
      split
      · rename_i heq
        rw [heq] at this
        exact this
      · rename_i heq
        rw [heq] at this
        exact this
  · rfl

theorem lock_handleCounter (env : Env) (r : Room) (b : PlayerId) (block : Bool) :
    (handleCounter env r b block).1.lock = r.lock := by
  unfold handleCounter
  split
  · rfl
  split
  · rfl
  split
  · rfl
  split
  · rfl
  rename_i cd _ _ blocker _ _
  have h1 := lock_settleCounter env r cd b blocker block
  split
  · rename_i heq
    rw [heq] at h1
    exact h1
  · rename_i r2 blocked log heq
    rw [heq] at h1
    have h2 := lock_nextTurn env.now env.fuel (r2.setGS (fun gs => { gs with counterData := none }))
    split
    · rename_i heq2
      rw [heq2] at h2
      exact h2.trans h1
    · rename_i heq2
      rw [heq2] at h2
      exact h2.trans h1

theorem lock_handleDiscard (env : Env) (r : Room) (id : PlayerId) (i : Int) :
    (handleDiscard env r id i).1.lock = r.lock := by
  unfold handleDiscard
  split
  · rfl
  have h1 := lock_discardCard (env.key 0) r id i
  simp only
  split
  · have h2 := lock_nextTurn env.now env.fuel (discardCard (env.key 0) r id i).1
    split
    · rename_i heq
      rw [heq] at h2
      exact h2.trans h1
    · rename_i heq
      rw [heq] at h2
      exact h2.trans h1
  · exact h1

theorem lock_advancePhase (env : Env) (r : Room) : (advancePhase env r).1.lock = r.lock := by
  unfold advancePhase
  split
  · split
    · exact lock_nextTurn _ _ _
    · rfl
  · rfl

theorem unlocked_checkDisconnectedPlayerInGame (env : Env) (r : Room) (id : PlayerId)
    (h : r.lock = false) : (SocketManager.checkDisconnectedPlayerInGame env r id).lock = false := by
  unfold SocketManager.checkDisconnectedPlayerInGame
  split
  · exact withLock_lock_clear r _ h
  · exact h

theorem unlocked_applyOp (env : Env) (op : Op) (r : Room) (h : r.lock = false) :
    (applyOp env op r).lock = false := by
  cases op with
  | executeAction id a t => exact (lock_executeAction env r id a t).trans h
  | handleChallenge c => exact (lock_handleChallenge env r c).trans h
  | handleCounter b block => exact (lock_handleCounter env r b block).trans h
  | handleDiscard id i => exact (lock_handleDiscard env r id i).trans h
  | nextTurn => exact (lock_nextTurn _ _ r).trans h
  | setPhase p => exact (lock_setPhase _ r p).trans h
  | advancePhase => exact (lock_advancePhase env r).trans h
  | onExecuteAction id a t =>
    show (SocketManager.handleExecuteAction env r id a t).lock = false
    unfold SocketManager.handleExecuteAction
    split
    · exact h
    · split
      · exact h
      · exact withLock_lock_clear r _ h
  | onChallenge id =>
    show (SocketManager.handleChallenge env r id).lock = false
    unfold SocketManager.handleChallenge
    split
    · exact h
    · exact withLock_lock_clear r _ h
  | onCounter id block =>
    show (SocketManager.handleCounter env r id block).lock = false
    unfold SocketManager.handleCounter
    split
    · exact h
    · split
      · exact h
      · split
        · exact h
        · exact withLock_lock_clear r _ h
  | onDiscard id i =>
    show (SocketManager.handleDiscard env r id i).lock = false
    unfold SocketManager.handleDiscard
    split
    · exact h
    · exact withLock_lock_clear r _ h
  | resolveChallengeTimeout =>
    show (SocketManager.resolveChallengeTimeout env r).lock = false
    unfold SocketManager.resolveChallengeTimeout
    split
    · exact h
    · exact withLock_lock_clear r _ h
  | resolveCounterTimeout =>
    show (SocketManager.resolveCounterTimeout env r).lock = false
    unfold SocketManager.resolveCounterTimeout
    split
    · exact h
    · exact withLock_lock_clear r _ h
  | fireTimer =>
    show (SocketManager.fireTimer env r).lock = false
    unfold SocketManager.fireTimer
    split
    · exact h
    · unfold timerBody
      exact withLock_lock_clear _ _ h
  | runImmediate =>
    show (runImmediate env r).lock = false
    unfold runImmediate
    split
    · exact h
    · exact (lock_advancePhase env _).trans h
  | disconnect id =>
    show (SocketManager.handleDisconnect env r id).lock = false
    unfold SocketManager.handleDisconnect
    split
    · exact h
    · simp only
      split
      · exact unlocked_checkDisconnectedPlayerInGame env _ id h
      · exact h
  | reconnect id => exact h

theorem unlocked_initializeGame (env : Env) (room : Room) (h : FreshRoom room) :
    (initializeGame env room).lock = false := by
  unfold initializeGame
  simp only
  rw [lock_setPhase, dealPlayers_room]
  simp only [Room.setGS]
  rw [h.1]
  rfl

/-- Between calls the guard is free: every room a game reaches has its lock
flag clear. -/
theorem unlocked_of_reachable {r : Room} (h : Reachable r) : r.lock = false := by
  induction h with
  | init env room hf => exact unlocked_initializeGame env room hf
  | step env op room _ ih => exact unlocked_applyOp env op room ih

theorem nextTurnBody_locked (now : Nat) (recurse : Room → Room × Outcome Unit) (room : Room)
    (hlock : room.lock = true)
    (hrec : ∀ r, r.lock = true →
      (recurse r).1.gameState.phase = r.gameState.phase ∧ (recurse r).1.players = r.players ∧
        (recurse r).1.lock = true ∧
        ∃ extra, (recurse r).1.gameState.log = r.gameState.log ++ extra) :
    (nextTurnBody now recurse room).1.gameState.phase = room.gameState.phase ∧
      (nextTurnBody now recurse room).1.players = room.players ∧
      (nextTurnBody now recurse room).1.lock = true ∧
      ∃ extra, (nextTurnBody now recurse room).1.gameState.log = room.gameState.log ++ extra := by
  unfold nextTurnBody
  simp only
  split
  · rw [setPhase_locked _ _ _ (show (room.setGS _).lock = true from hlock)]
    exact ⟨rfl, rfl, hlock, [], (List.append_nil _).symm⟩
  · split
    · exact ⟨rfl, rfl, hlock, [], (List.append_nil _).symm⟩
    · split
      · exact ⟨rfl, rfl, hlock, [], (List.append_nil _).symm⟩
      · rename_i cur _
        split
        · obtain ⟨h1, h2, h3, extra, h4⟩ := hrec
            ((room.setGS (fun gs =>
              { gs with turnIndex := _, currentPlayer := some cur.id })).pushLog
                (cur.name ++ " 已断线，自动跳过回合")) hlock
          refine ⟨h1, h2, h3, [cur.name ++ " 已断线，自动跳过回合"] ++ extra, ?_⟩
          rw [h4]
          show (room.gameState.log ++ [_]) ++ extra = _
          rw [List.append_assoc]
        · rw [setPhase_locked _ _ _ (show (room.setGS _).lock = true from hlock)]
          exact ⟨rfl, rfl, hlock, [], (List.append_nil _).symm⟩

/-- On a room whose lock flag is set `nextTurn` makes no phase transition: the
phase, the players and the flag stay, and the log only grows. -/
theorem nextTurn_locked (now fuel : Nat) (room : Room) (hlock : room.lock = true) :
    (nextTurn now fuel room).1.gameState.phase = room.gameState.phase ∧
      (nextTurn now fuel room).1.players = room.players ∧
      (nextTurn now fuel room).1.lock = true ∧
      ∃ extra, (nextTurn now fuel room).1.gameState.log = room.gameState.log ++ extra := by
  induction fuel generalizing room with
  | zero =>
    exact nextTurnBody_locked now _ room hlock
      (fun r hr => ⟨rfl, rfl, hr, [], (List.append_nil _).symm⟩)
  | succ n ih => exact nextTurnBody_locked now _ room hlock (fun r hr => ih r hr)

/-- Claim C12, amended: `advancePhase` takes no guard of its own, and between
calls there is none to take: every room a game reaches has its lock flag
clear.  With no current player, or a connected one, `advancePhase` changes
nothing.  With a disconnected current player it appends the skip entry to the
log and runs `nextTurn`; were the lock flag set, the entry would be written all
the same, and only the phase transition that closes `nextTurn`, which does go
through the guard, would be dropped, so that phase, players and flag stay. -/
theorem advancePhase_takes_no_guard (env : Env) (room : Room) :
    (Reachable room → room.lock = false) ∧
      ((getCurrentPlayer room = none ∨
          ∃ cur, getCurrentPlayer room = some cur ∧ cur.connected = true) →
        advancePhase env room = (room, Outcome.ok ())) ∧
      (∀ cur, getCurrentPlayer room = some cur → cur.connected = false →
        advancePhase env room =
            nextTurn env.now env.fuel (room.pushLog (cur.name ++ " 已断线，自动跳过回合")) ∧
          (room.lock = true →
            (advancePhase env room).1.gameState.phase = room.gameState.phase ∧
            (advancePhase env room).1.players = room.players ∧
            (advancePhase env room).1.lock = true ∧
            ∃ extra, (advancePhase env room).1.gameState.log =
              room.gameState.log ++ [cur.name ++ " 已断线，自动跳过回合"] ++ extra)) := by
  refine ⟨unlocked_of_reachable, ?_, ?_⟩
  · rintro (h | ⟨cur, h, hc⟩)
    · unfold advancePhase
      rw [h]
    · unfold advancePhase
      rw [h]
      simp only [hc, Bool.not_true, Bool.false_eq_true, if_false]
  · intro cur h hc
    have heq : advancePhase env room =
        nextTurn env.now env.fuel (room.pushLog (cur.name ++ " 已断线，自动跳过回合")) := by
      unfold advancePhase
      rw [h]
      simp only [hc, Bool.not_false, if_true]
    refine ⟨heq, ?_⟩
    intro hlock
    rw [heq]
    obtain ⟨h1, h2, h3, extra, h4⟩ := nextTurn_locked env.now env.fuel
      (room.pushLog (cur.name ++ " 已断线，自动跳过回合")) hlock
    exact ⟨h1, h2, h3, extra, h4⟩

theorem advancePhase_takes_no_guard_witness :
    startedRoom.lock = false ∧
      advancePhase testEnv testRoom = (testRoom, Outcome.ok ()) ∧
      ((advancePhase testEnv lockedOfflineRoom).1.gameState.phase =
          lockedOfflineRoom.gameState.phase ∧
        (advancePhase testEnv lockedOfflineRoom).1.players = lockedOfflineRoom.players ∧
        (advancePhase testEnv lockedOfflineRoom).1.lock = true ∧
        ∃ extra, (advancePhase testEnv lockedOfflineRoom).1.gameState.log =
          lockedOfflineRoom.gameState.log ++ ["Alice" ++ " 已断线，自动跳过回合"] ++ extra) :=
  ⟨(advancePhase_takes_no_guard lobbyEnv startedRoom).1
      (Reachable.init lobbyEnv lobbyRoom freshRoom_lobbyRoom),
    (advancePhase_takes_no_guard testEnv testRoom).2.1
      (Or.inr ⟨_, rfl, rfl⟩),
    ((advancePhase_takes_no_guard testEnv lockedOfflineRoom).2.2
      { id := "player1", name := "Alice", coins := 2,
        cards := [some Role.duke, some Role.assassin], isAlive := true, connected := false,
        disconnectTime := some 90000 } (by decide) rfl).2 (by decide)⟩

end Coup
